import Mathlib

/-!
# Sparkle: link layer, peer records and RSA key serialisation

A shallow embedding of the Sparkle overlay-network sources
(`SparkleNode.cpp`, `libsparkle/RSAKeyPair.cpp`, `libsparkle/LinkLayer.cpp`)
together with theorems about the embedded functions.

Conventions of the embedding:

* a `QByteArray` is a list of bytes, a byte is a `Fin 256`;
* machine integers are natural numbers reduced modulo `2 ^ w` where the
  source stores them in a `w`-bit field;
* the doubles of the role decision are non-negative values `m / 2 ^ k`, a
  quotient being rounded to 53 significant bits, to nearest, ties to even;
* pointers to peer records are indices into a heap of records;
* a method of `LinkLayer` is a function from the state before to the state
  after; the state also records what the object did to its environment
  (datagrams handed to the transport, signals emitted, data delivered);
* everything outside the sources (hash, session cipher, random numbers,
  byte order of the host) is a field of `Host`;
* what the sources use but do not contain (Qt streams, the big-number
  library, `Router`, the accessors of the peer record, the sizes of the wire
  structs) is modelled from the specification and marked so.
-/

namespace Sparkle

/-! ## Bytes and machine words -/

abbrev Byte := Fin 256

abbrev QByteArray := List Byte

/-- The low eight bits of a number, as a byte. -/
def byte (n : Nat) : Byte := ⟨n % 256, Nat.mod_lt n (Nat.succ_pos _)⟩

/-- Byte order of the machine the program runs on. -/
inductive Endian where
  | little
  | big
deriving DecidableEq, Repr

/-- Value of a byte string read most significant byte first. -/
def beValue (bs : List Byte) : Nat := bs.foldl (fun acc b => acc * 256 + b.val) 0

/-- The `n` low-order bytes of `v`, most significant byte first. -/
def beBytes (v : Nat) : Nat → List Byte
  | 0 => []
  | n + 1 => beBytes (v / 256) n ++ [byte v]

/-- Value of a byte string as the host reads it from memory (`*(quintN *) p`). -/
def hostValue (e : Endian) (bs : List Byte) : Nat :=
  match e with
  | Endian.big => beValue bs
  | Endian.little => beValue bs.reverse

/-- Memory image of the `n`-byte unsigned integer `v mod 2 ^ (8 n)` on the host. -/
def hostBytes (e : Endian) (v : Nat) (n : Nat) : List Byte :=
  match e with
  | Endian.big => beBytes v n
  | Endian.little => (beBytes v n).reverse

/-- An IPv4 `QHostAddress`: the address as a 32-bit number in host order,
which is what `QHostAddress(quint32)` takes and `toIPv4Address()` returns. -/
abbrev QHostAddress := Nat

/-- The four octets of the dotted form `a.b.c.d` of an IPv4 address
(`a` is the most significant byte of the 32-bit number). -/
def QHostAddress.octets (a : QHostAddress) : List Nat :=
  [a / 16777216 % 256, a / 65536 % 256, a / 256 % 256, a % 256]

/-! ## QDataStream (default big-endian format) -/

/-- Modelled from the spec: `QIODevice::read` of Qt on an in-memory buffer
(`QDataStream::readRawData`); Qt is not among the sources. Reading `n` bytes
from the remaining input succeeds when that many are left and otherwise
consumes what is left and fails. -/
def readRawData (n : Nat) (s : QByteArray) : Option QByteArray × QByteArray :=
  if n ≤ s.length then (some (s.take n), s.drop n) else (none, [])

/-- Modelled from the spec: `QDataStream::operator>>(quint32 &)` of Qt, four
bytes most significant first; a short read yields `0`. -/
def readUInt32 (s : QByteArray) : Nat × QByteArray :=
  match readRawData 4 s with
  | (some bs, rest) => (beValue bs, rest)
  | (none, rest) => (0, rest)

/-- Modelled from the spec: `QDataStream::operator<<(quint32)` of Qt. -/
def writeUInt32 (v : Nat) : QByteArray := beBytes v 4

/-- Modelled from the spec: `QDataStream::operator>>(QByteArray &)` of Qt: a
32-bit length, `0xFFFFFFFF` standing for the null array, then that many
bytes; when fewer bytes are left the array is cleared. -/
def readByteArray (s : QByteArray) : QByteArray × QByteArray :=
  let (len, rest) := readUInt32 s
  if len = 4294967295 then ([], rest)
  else
    match readRawData len rest with
    | (some bs, rest2) => (bs, rest2)
    | (none, rest2) => ([], rest2)

/-- Modelled from the spec: `QDataStream::operator<<(const QByteArray &)` of
Qt. `none` is the null array, written as the length `0xFFFFFFFF`. -/
def writeByteArray (raw : Option QByteArray) : QByteArray :=
  match raw with
  | none => writeUInt32 4294967295
  | some bs => writeUInt32 bs.length ++ bs

/-! ## Big integers of the RSA context -/

/-- Modelled from the spec: the `mpi` of the bundled big-number library
(`crypto/bignum.h` is not among the sources). `p = none` is a NULL limb
pointer, `p = some v` an allocated number of magnitude `v`. -/
structure mpi where
  p : Option Nat
deriving DecidableEq, Repr

/-- Number of significant bits of `v`, counted with at most `fuel` halvings. -/
def msbAux : Nat → Nat → Nat
  | 0, _ => 0
  | fuel + 1, v => if v = 0 then 0 else msbAux fuel (v / 2) + 1

/-- Modelled from the spec: `mpi_msb`, the number of significant bits. -/
def mpi_msb (v : Nat) : Nat := msbAux v v

/-- Modelled from the spec: `mpi_size`, the number of significant bytes,
`(mpi_msb(X) + 7) >> 3`. -/
def mpi_size (v : Nat) : Nat := (mpi_msb v + 7) / 8

/-- Modelled from the spec: `mpi_write_binary(X, buf, buflen)`, the magnitude
as `buflen` bytes, most significant first. -/
def mpi_write_binary (v : Nat) (buflen : Nat) : QByteArray := beBytes v buflen

/-- Modelled from the spec: `mpi_read_binary(X, buf, buflen)`. -/
def mpi_read_binary (buf : QByteArray) : mpi := ⟨some (beValue buf)⟩

/-- Modelled from the spec: `mpi_free`. -/
def mpi_free : mpi := ⟨none⟩

/-- The byte array `raw` that `operator<<(QDataStream &, const mpi &)` builds
before it streams it: null when the number is not allocated. -/
def mpiRaw (x : mpi) : Option QByteArray :=
  match x.p with
  | none => none
  | some v => some (mpi_write_binary v (mpi_size v))

/-- Sparkle `operator<<(QDataStream &, const mpi &)`. -/
def writeMpi (x : mpi) : QByteArray := writeByteArray (mpiRaw x)

/-- Sparkle `operator>>(QDataStream &, mpi &)`. -/
def readMpi (s : QByteArray) : mpi × QByteArray :=
  let (raw, rest) := readByteArray s
  if raw.length = 0 then (mpi_free, rest) else (mpi_read_binary raw, rest)

/-! ## RSAKeyPair -/

/-- The `rsa_context` behind an `RSAKeyPair`. The two `int` fields are kept
as their 32-bit patterns. -/
structure RSAKeyPair where
  ver : Fin 4294967296
  len : Fin 4294967296
  N : mpi
  E : mpi
  D : mpi
  P : mpi
  Q : mpi
  DP : mpi
  DQ : mpi
  QP : mpi
  RN : mpi
  RP : mpi
  RQ : mpi
deriving DecidableEq, Repr

/-- The constant `RSAKeyPairPrivate::KeyMagic`, the letters BMPI. -/
def KeyMagic : Nat := 0x424D5049

/-- The 32-bit pattern of a number. -/
def word32 (n : Nat) : Fin 4294967296 := ⟨n % 4294967296, Nat.mod_lt n (Nat.succ_pos _)⟩

/-- Sparkle `RSAKeyPair::publicKey`. -/
def RSAKeyPair.publicKey (k : RSAKeyPair) : QByteArray :=
  writeUInt32 KeyMagic ++ writeUInt32 k.ver.val ++ writeUInt32 k.len.val ++
    writeMpi k.N ++ writeMpi k.E ++ writeMpi k.RN

/-- Sparkle `RSAKeyPair::setPublicKey`: the result flag and the key pair
afterwards. -/
def RSAKeyPair.setPublicKey (k : RSAKeyPair) (data : QByteArray) : Bool × RSAKeyPair :=
  let (magic, s1) := readUInt32 data
  if magic ≠ KeyMagic then (false, k)
  else
    let (ver, s2) := readUInt32 s1
    let (len, s3) := readUInt32 s2
    let (n, s4) := readMpi s3
    let (e, s5) := readMpi s4
    let (rn, _) := readMpi s5
    (true, { k with ver := word32 ver, len := word32 len, N := n, E := e, RN := rn })

/-- A public big integer that the stream format can carry: when allocated it
is not zero (a zero would be written as an empty array and read back as a
freed number) and its byte count fits the signed 32-bit size of a
`QByteArray`. -/
def mpi.Storable (x : mpi) : Prop :=
  x.p ≠ some 0 ∧ ∀ v, x.p = some v → mpi_size v < 2147483648

instance (x : mpi) : Decidable x.Storable := by
  unfold mpi.Storable
  cases h : x.p with
  | none => exact isTrue ⟨by simp, by simp⟩
  | some v =>
    by_cases h0 : v = 0
    · exact isFalse (by simp [h0])
    · by_cases h1 : mpi_size v < 2147483648
      · exact isTrue ⟨by simpa using h0, by intro w hw; cases hw; exact h1⟩
      · exact isFalse (by intro hh; exact h1 (hh.2 v rfl))

/-- The context `rsa_init` leaves behind: every field zero. -/
def RSAKeyPair.init : RSAKeyPair :=
  ⟨0, 0, ⟨none⟩, ⟨none⟩, ⟨none⟩, ⟨none⟩, ⟨none⟩, ⟨none⟩, ⟨none⟩, ⟨none⟩, ⟨none⟩, ⟨none⟩, ⟨none⟩⟩

/-! ## The host: what the sources take from outside -/

/-- Everything the embedded code takes from its environment. The hash, the
session cipher, the random numbers and the router's selection functions are
not among the sources; they are left uninterpreted. -/
structure Host where
  /-- Byte order of the machine. -/
  endian : Endian
  /-- The digest `SHA1Digest::calculateSHA1`. -/
  calculateSHA1 : QByteArray → QByteArray
  /-- The session cipher, `key->encrypt(data)` with the key given by its bytes. -/
  encrypt : QByteArray → QByteArray → QByteArray
  /-- The session cipher, `key->decrypt(data)`. -/
  decrypt : QByteArray → QByteArray → QByteArray
  /-- The session key a freshly constructed record generates for itself,
  by the position of the record in the heap. -/
  generateKey : Nat → QByteArray
  /-- The value of the `n`-th call of `qrand()`. -/
  qrand : Nat → Nat
  /-- The compile-time constant `ProtocolVersion`. -/
  ProtocolVersion : Nat
  /-- The choice `Router::selectMaster` makes among the given masters. -/
  selectMaster : List Nat → Option Nat → Option Nat
  /-- The choice `Router::selectWhiteSlave` makes among the given records. -/
  selectWhiteSlave : List Nat → Option Nat → Option Nat
  /-- Whether `transport.beginReceiving()` succeeds. -/
  beginReceiving : Bool
  /-- The port `transport.getPort()` reports. -/
  getPort : Nat
  /-- The indeterminate value of a field the code sends without setting it. -/
  indeterminate : Nat

/-! ## SparkleNode -/

/-- A peer record. The first eight fields are the members `SparkleNode.cpp`
uses; the rest are the members behind the accessors `LinkLayer.cpp` calls. -/
structure SparkleNode where
  host : QHostAddress
  port : Nat
  keyPair : RSAKeyPair
  fingerprint : QByteArray
  sparkleIP : QHostAddress
  mac : QByteArray
  queue : List QByteArray
  keyNegotiationDone : Bool
  master : Bool
  behindNAT : Bool
  mySessionKey : QByteArray
  hisSessionKey : QByteArray
  negotiationTimer : Bool
deriving DecidableEq, Repr

/-- Sparkle `SparkleNode::SparkleNode(host, port)`; `sessionKey` is the key the
record generates for itself. -/
def SparkleNode.new (host : QHostAddress) (port : Nat) (sessionKey : QByteArray) : SparkleNode :=
  { host := host, port := port, keyPair := RSAKeyPair.init, fingerprint := [], sparkleIP := 0,
    mac := [], queue := [], keyNegotiationDone := false, master := false, behindNAT := false,
    mySessionKey := sessionKey, hisSessionKey := [], negotiationTimer := false }

instance : Inhabited SparkleNode := ⟨SparkleNode.new 0 0 []⟩

/-- Sparkle `SparkleNode::appendQueue`. -/
def SparkleNode.appendQueue (n : SparkleNode) (data : QByteArray) : SparkleNode :=
  { n with queue := n.queue ++ [data] }

/-- Sparkle `SparkleNode::isQueueEmpty`. -/
def SparkleNode.isQueueEmpty (n : SparkleNode) : Bool := n.queue.isEmpty

/-- Sparkle `SparkleNode::getFromQueue` (`QList::takeFirst`): the first entry
and the record without it. -/
def SparkleNode.getFromQueue (n : SparkleNode) : QByteArray × SparkleNode :=
  (n.queue.headD [], { n with queue := n.queue.tail })

/-- Lines 58 to 72 of `SparkleNode::setPublicKey`: the fingerprint of the key
bytes and the overlay address and MAC made from it. -/
def SparkleNode.configure (H : Host) (n : SparkleNode) (key : QByteArray) : SparkleNode :=
  let fingerprint := H.calculateSHA1 key
  let ip : QByteArray := [fingerprint.getD 0 0, fingerprint.getD 1 0, fingerprint.getD 2 0, 14]
  let num := hostValue H.endian ip
  { n with fingerprint := fingerprint, sparkleIP := num, mac := [2] ++ fingerprint.take 5 }

/-- Sparkle `SparkleNode::setPublicKey`: the result flag and the record
afterwards. -/
def SparkleNode.setPublicKey (H : Host) (n : SparkleNode) (key : QByteArray) : Bool × SparkleNode :=
  let r := n.keyPair.setPublicKey key
  if r.1 = false then (false, { n with keyPair := r.2 })
  else (true, SparkleNode.configure H { n with keyPair := r.2 } key)

/-- Sparkle `SparkleNode::getMAC`. -/
def SparkleNode.getMAC (n : SparkleNode) : QByteArray := n.mac

/-- Sparkle `SparkleNode::getIP`. -/
def SparkleNode.getIP (n : SparkleNode) : QHostAddress := n.sparkleIP

/-! ### Accessors of the record that `LinkLayer.cpp` calls

`SparkleNode.h` of the revision `LinkLayer.cpp` was written against is not
among the sources; the accessors below are modelled from the specification
of the peer record. -/

/-- Modelled from the spec: `SparkleNode::areKeysNegotiated`, the flag
`keys_negotiated` of the peer record. -/
def SparkleNode.areKeysNegotiated (n : SparkleNode) : Bool := n.keyNegotiationDone

/-- Modelled from the spec: `SparkleNode::setHisSessionKey`; the record's own
key exists from construction, so both keys are set afterwards and
`keys_negotiated` becomes true. -/
def SparkleNode.setHisSessionKey (n : SparkleNode) (key : QByteArray) : SparkleNode :=
  { n with hisSessionKey := key, keyNegotiationDone := true }

/-- Modelled from the spec: `SparkleNode::negotiationStart` arms the
negotiation timer of the record. -/
def SparkleNode.negotiationStart (n : SparkleNode) : SparkleNode :=
  { n with negotiationTimer := true }

/-- Modelled from the spec: `SparkleNode::negotiationFinished` stops the
negotiation timer of the record. -/
def SparkleNode.negotiationFinished (n : SparkleNode) : SparkleNode :=
  { n with negotiationTimer := false }

/-- Modelled from the spec: `SparkleNode::pushQueue`, the send queue is an
ordered list and a new payload goes to its end (`appendQueue` of
`SparkleNode.cpp`). -/
def SparkleNode.pushQueue (n : SparkleNode) (data : QByteArray) : SparkleNode :=
  n.appendQueue data

/-- Modelled from the spec: `SparkleNode::popQueue` takes the oldest payload
(`getFromQueue` of `SparkleNode.cpp`). -/
def SparkleNode.popQueue (n : SparkleNode) : QByteArray × SparkleNode := n.getFromQueue

/-- Modelled from the spec: `SparkleNode::flushQueue` drops every queued
payload. -/
def SparkleNode.flushQueue (n : SparkleNode) : SparkleNode := { n with queue := [] }

/-- Modelled from the spec: `SparkleNode::setAuthKey(QByteArray)` installs the
public key bytes in the record's key pair and reports whether they were
accepted. -/
def SparkleNode.setAuthKey (n : SparkleNode) (key : QByteArray) : Bool × SparkleNode :=
  let r := n.keyPair.setPublicKey key
  (r.1, { n with keyPair := r.2 })

/-- Modelled from the spec: `SparkleNode::configureByKey` derives the overlay
address and MAC from the hash of the record's public key. -/
def SparkleNode.configureByKey (H : Host) (n : SparkleNode) : SparkleNode :=
  n.configure H n.keyPair.publicKey

/-! ## Wire format -/

/-- The opcodes `packet_type_t`. -/
inductive packet_type_t where
  | ProtocolVersionRequest
  | ProtocolVersionReply
  | PublicKeyExchange
  | SessionKeyExchange
  | Ping
  | EncryptedPacket
  | IntroducePacket
  | MasterNodeRequest
  | MasterNodeReply
  | PingRequest
  | PingInitiate
  | RegisterRequest
  | RegisterReply
  | Route
  | RouteRequest
  | RouteMissing
  | RouteInvalidate
  | RoleUpdate
  | ExitNotification
  | DataPacket
deriving DecidableEq, Repr

/-- Every opcode, in the order of the enumeration. -/
def packet_type_t.all : List packet_type_t :=
  [ProtocolVersionRequest, ProtocolVersionReply, PublicKeyExchange, SessionKeyExchange, Ping,
   EncryptedPacket, IntroducePacket, MasterNodeRequest, MasterNodeReply, PingRequest,
   PingInitiate, RegisterRequest, RegisterReply, Route, RouteRequest, RouteMissing,
   RouteInvalidate, RoleUpdate, ExitNotification, DataPacket]

/-- Modelled from the spec: the numeric value of an opcode. `LinkLayer.h` is
not among the sources; the values are those of a compact enumeration in the
order the specification lists the opcodes. -/
def packet_type_t.code (t : packet_type_t) : Nat := packet_type_t.all.indexOf t

/-- The opcode with a given numeric value, if there is one: the cast
`(packet_type_t) hdr->type` followed by the `switch`. -/
def packet_type_t.ofCode (n : Nat) : Option packet_type_t := packet_type_t.all.get? n

/-- Modelled from the spec: `sizeof(packet_header_t)`, two 16-bit fields. -/
def sizeof_packet_header_t : Nat := 4

/-- Modelled from the spec: `sizeof(protocol_version_reply_t)`. -/
def sizeof_protocol_version_reply_t : Nat := 4

/-- Modelled from the spec: `sizeof(key_exchange_t)`, packed. -/
def sizeof_key_exchange_t : Nat := 5

/-- Modelled from the spec: `sizeof(introduce_packet_t)`. -/
def sizeof_introduce_packet_t : Nat := 10

/-- Modelled from the spec: `sizeof(master_node_reply_t)`. -/
def sizeof_master_node_reply_t : Nat := 6

/-- Modelled from the spec: `sizeof(ping_request_t)`. -/
def sizeof_ping_request_t : Nat := 7

/-- Modelled from the spec: `sizeof(ping_t)`. -/
def sizeof_ping_t : Nat := 6

/-- Modelled from the spec: `sizeof(register_request_t)`. -/
def sizeof_register_request_t : Nat := 1

/-- Modelled from the spec: `sizeof(register_reply_t)`. -/
def sizeof_register_reply_t : Nat := 18

/-- Modelled from the spec: `sizeof(route_t)`. -/
def sizeof_route_t : Nat := 18

/-- Modelled from the spec: `sizeof(route_request_t)`, also of
`route_missing_t`. -/
def sizeof_route_request_t : Nat := 4

/-- Modelled from the spec: `sizeof(route_invalidate_t)`. -/
def sizeof_route_invalidate_t : Nat := 6

/-- Modelled from the spec: `sizeof(role_update_t)`. -/
def sizeof_role_update_t : Nat := 1

/-- The integer stored in `n` bytes of `bs` from offset `off`, as the host
reads it. -/
def fieldAt (H : Host) (bs : QByteArray) (off n : Nat) : Nat :=
  hostValue H.endian ((bs.drop off).take n)

/-- The header `packet_header_t` in memory: `length` then `type`, each a
16-bit field in host byte order. -/
def headerBytes (H : Host) (length type : Nat) : QByteArray :=
  hostBytes H.endian length 2 ++ hostBytes H.endian type 2

/-- The field `hdr->length` of a datagram. -/
def hdrLength (H : Host) (data : QByteArray) : Nat := fieldAt H data 0 2

/-- The field `hdr->type` of a datagram. -/
def hdrType (H : Host) (data : QByteArray) : Nat := fieldAt H data 2 2

/-- The datagram `sendPacket` and `sendEncryptedPacket` build: the header
with `length = sizeof(packet_header_t) + data.size()` stored in 16 bits,
followed by the payload. -/
def frame (H : Host) (type : packet_type_t) (data : QByteArray) : QByteArray :=
  headerBytes H (sizeof_packet_header_t + data.length) type.code ++ data

/-- The size classes `packet_size_class_t`. -/
inductive packet_size_class_t where
  | PacketSizeEqual
  | PacketSizeGreater
deriving DecidableEq, Repr

/-- Sparkle `LinkLayer::checkPacketSize` (the log line apart). -/
def checkPacketSize (payload : QByteArray) (requiredSize : Nat)
    (sizeClass : packet_size_class_t) : Bool :=
  if (payload.length ≠ requiredSize ∧ sizeClass = packet_size_class_t.PacketSizeEqual) ∨
      (payload.length ≤ requiredSize ∧ sizeClass = packet_size_class_t.PacketSizeGreater)
  then false else true

/-! ## Router -/

/-- Modelled from the spec: the `Router` (`Router.h` and `Router.cpp` are not
among the sources): the set of known peer records, self included once it is
set, plus the distinguished self node. Records are named by their position
in the heap. -/
structure Router where
  selfNode : Option Nat
  nodes : List Nat
deriving DecidableEq, Repr

/-- Modelled from the spec: `Router::updateNode` persists a record in the
router; a record already there is kept once. -/
def Router.updateNode (r : Router) (n : Nat) : Router :=
  if n ∈ r.nodes then r else { r with nodes := r.nodes ++ [n] }

/-- Modelled from the spec: `Router::setSelfNode`. -/
def Router.setSelfNode (r : Router) (n : Nat) : Router :=
  Router.updateNode { r with selfNode := some n } n

/-- Modelled from the spec: `Router::removeNode`. -/
def Router.removeNode (r : Router) (n : Nat) : Router :=
  { r with nodes := r.nodes.filter (fun m => m ≠ n) }

/-- Modelled from the spec: `Router::clear`. -/
def Router.clear : Router := { selfNode := none, nodes := [] }

/-! ## LinkLayer: state -/

/-- The steps `join_step_t` of a join. -/
inductive join_step_t where
  | JoinVersionRequest
  | JoinMasterNodeRequest
  | JoinAwaitingPings
  | JoinRegistration
  | JoinFinished
deriving DecidableEq, Repr

/-- The signals the link layer emits. -/
inductive Signal where
  | joined (self : Nat)
  | joinFailed
  | readyForShutdown
deriving DecidableEq, Repr

/-- One call of `transport.sendPacket(data, host, port)`. The last two fields
are not transmitted: the record the call was made for and the router's self
node at the time of the call. -/
structure Datagram where
  data : QByteArray
  host : QHostAddress
  port : Nat
  node : Nat
  selfNode : Option Nat
deriving DecidableEq, Repr

/-- The wire struct `ping_t`. -/
structure ping_t where
  addr : Nat
  port : Nat
deriving DecidableEq, Repr

/-- The state of a `LinkLayer` object together with what it has done to its
environment. `heap` holds every record ever constructed, a pointer to a
record is its position there; `freed` lists the records that were deleted;
`sent`, `emitted` and `delivered` record the calls of the transport, the
emitted signals and the data handed to the application, oldest first;
`fault` is set when the code dereferences a null or unset pointer. -/
structure LinkLayer where
  heap : List SparkleNode
  freed : List Nat
  nodeSpool : List Nat
  awaitingNegotiation : List Nat
  cookies : List (Nat × Nat)
  router : Router
  hostKeyPair : RSAKeyPair
  networkDivisor : Nat
  joinStep : join_step_t
  joinMaster : Option Nat
  forceBehindNAT : Bool
  joinPing : ping_t
  joinPingsEmitted : Nat
  joinPingsArrived : Nat
  preparingForShutdown : Bool
  transportInitiated : Bool
  pingTimer : Bool
  joinTimer : Bool
  randCalls : Nat
  sent : List Datagram
  emitted : List Signal
  delivered : List (QByteArray × Nat)
  fault : Bool
deriving DecidableEq, Repr

/-- The link layer right after its constructor ran. -/
def LinkLayer.init (hostKeyPair : RSAKeyPair) : LinkLayer :=
  { heap := [], freed := [], nodeSpool := [], awaitingNegotiation := [], cookies := [],
    router := Router.clear, hostKeyPair := hostKeyPair, networkDivisor := 0,
    joinStep := join_step_t.JoinVersionRequest, joinMaster := none, forceBehindNAT := false,
    joinPing := ⟨0, 0⟩, joinPingsEmitted := 0, joinPingsArrived := 0,
    preparingForShutdown := false, transportInitiated := false, pingTimer := false,
    joinTimer := false, randCalls := 0, sent := [], emitted := [], delivered := [],
    fault := false }

/-- The record a pointer refers to. -/
def LinkLayer.node (s : LinkLayer) (n : Nat) : SparkleNode := s.heap.getD n default

/-- Store through a pointer. -/
def LinkLayer.setNode (s : LinkLayer) (n : Nat) (v : SparkleNode) : LinkLayer :=
  { s with heap := s.heap.set n v }

/-- Update a record through a pointer. -/
def LinkLayer.modifyNode (s : LinkLayer) (n : Nat) (f : SparkleNode → SparkleNode) : LinkLayer :=
  s.setNode n (f (s.node n))

/-- A signal is emitted. -/
def LinkLayer.emit (s : LinkLayer) (sig : Signal) : LinkLayer :=
  { s with emitted := s.emitted ++ [sig] }

/-- The code went through a null or unset pointer. -/
def LinkLayer.crash (s : LinkLayer) : LinkLayer := { s with fault := true }

/-! Assignments to the members of the link layer. -/

/-- Assignment to `router`. -/
def LinkLayer.setRouter (s : LinkLayer) (r : Router) : LinkLayer := { s with router := r }

/-- Assignment to `nodeSpool`. -/
def LinkLayer.setNodeSpool (s : LinkLayer) (l : List Nat) : LinkLayer := { s with nodeSpool := l }

/-- A record is deleted. -/
def LinkLayer.delete (s : LinkLayer) (l : List Nat) : LinkLayer :=
  { s with freed := s.freed ++ l }

/-- A record is constructed. -/
def LinkLayer.alloc (s : LinkLayer) (v : SparkleNode) : LinkLayer :=
  { s with heap := s.heap ++ [v] }

/-- Assignment to `awaitingNegotiation`. -/
def LinkLayer.setAwaitingNegotiation (s : LinkLayer) (l : List Nat) : LinkLayer :=
  { s with awaitingNegotiation := l }

/-- Assignment to `cookies`. -/
def LinkLayer.setCookies (s : LinkLayer) (c : List (Nat × Nat)) : LinkLayer :=
  { s with cookies := c }

/-- Assignment to `joinStep`. -/
def LinkLayer.setJoinStep (s : LinkLayer) (j : join_step_t) : LinkLayer := { s with joinStep := j }

/-- Assignment to `joinMaster`. -/
def LinkLayer.setJoinMaster (s : LinkLayer) (m : Nat) : LinkLayer :=
  { s with joinMaster := some m }

/-- Assignment to `forceBehindNAT`. -/
def LinkLayer.setForceBehindNAT (s : LinkLayer) (b : Bool) : LinkLayer :=
  { s with forceBehindNAT := b }

/-- Assignment to `joinPing`. -/
def LinkLayer.setJoinPing (s : LinkLayer) (p : ping_t) : LinkLayer := { s with joinPing := p }

/-- Assignment to `joinPingsEmitted`. -/
def LinkLayer.setJoinPingsEmitted (s : LinkLayer) (n : Nat) : LinkLayer :=
  { s with joinPingsEmitted := n }

/-- Assignment to `joinPingsArrived`. -/
def LinkLayer.setJoinPingsArrived (s : LinkLayer) (n : Nat) : LinkLayer :=
  { s with joinPingsArrived := n }

/-- Assignment to `preparingForShutdown`. -/
def LinkLayer.setPreparingForShutdown (s : LinkLayer) (b : Bool) : LinkLayer :=
  { s with preparingForShutdown := b }

/-- Assignment to `transportInitiated`. -/
def LinkLayer.setTransportInitiated (s : LinkLayer) (b : Bool) : LinkLayer :=
  { s with transportInitiated := b }

/-- The ping timer is started (`true`) or stopped. -/
def LinkLayer.setPingTimer (s : LinkLayer) (b : Bool) : LinkLayer := { s with pingTimer := b }

/-- The join timer is started (`true`) or stopped. -/
def LinkLayer.setJoinTimer (s : LinkLayer) (b : Bool) : LinkLayer := { s with joinTimer := b }

/-- Assignment to `networkDivisor`. -/
def LinkLayer.setNetworkDivisor (s : LinkLayer) (n : Nat) : LinkLayer :=
  { s with networkDivisor := n }

/-- One more call of `qrand()` has been made. -/
def LinkLayer.stepRand (s : LinkLayer) : LinkLayer := { s with randCalls := s.randCalls + 1 }

/-- The call `transport.sendPacket(...)`. -/
def LinkLayer.transportSend (s : LinkLayer) (d : Datagram) : LinkLayer :=
  { s with sent := s.sent ++ [d] }

/-- The call `app->handleDataPacket(payload, node)`. -/
def LinkLayer.deliver (s : LinkLayer) (payload : QByteArray) (node : Nat) : LinkLayer :=
  { s with delivered := s.delivered ++ [(payload, node)] }

/-- Modelled from the spec: `Router::getNodes`, every record of the router. -/
def LinkLayer.getNodes (s : LinkLayer) : List Nat := s.router.nodes

/-- Modelled from the spec: `Router::getMasters`. -/
def LinkLayer.getMasters (s : LinkLayer) : List Nat :=
  s.router.nodes.filter (fun n => (s.node n).master)

/-- Modelled from the spec: `Router::getOtherNodes`, all records except self. -/
def LinkLayer.getOtherNodes (s : LinkLayer) : List Nat :=
  s.router.nodes.filter (fun n => s.router.selfNode ≠ some n)

/-- Modelled from the spec: `Router::getOtherMasters`. -/
def LinkLayer.getOtherMasters (s : LinkLayer) : List Nat :=
  s.getOtherNodes.filter (fun n => (s.node n).master)

/-- Modelled from the spec: `Router::searchSparkleNode`, lookup by overlay
address. -/
def LinkLayer.searchSparkleNode (s : LinkLayer) (ip : QHostAddress) : Option Nat :=
  s.router.nodes.find? (fun n => (s.node n).sparkleIP = ip)

/-- Modelled from the spec: `Router::selectMaster`; which master is picked is
left to the host. -/
def LinkLayer.selectMaster (H : Host) (s : LinkLayer) : Option Nat :=
  H.selectMaster s.getMasters s.router.selfNode

/-- Modelled from the spec: `Router::selectWhiteSlave` picks a record that is
neither a master nor behind NAT; which one is left to the host. -/
def LinkLayer.selectWhiteSlave (H : Host) (s : LinkLayer) : Option Nat :=
  H.selectWhiteSlave
    (s.getOtherNodes.filter (fun n => !(s.node n).master && !(s.node n).behindNAT))
    s.router.selfNode

/-- Entries of the cookie table `QHash<quint32, SparkleNode*>`: insertion. -/
def cookiesInsert (c : List (Nat × Nat)) (k v : Nat) : List (Nat × Nat) :=
  (k, v) :: c.filter (fun e => e.1 ≠ k)

/-- Cookie table: `remove`. -/
def cookiesRemove (c : List (Nat × Nat)) (k : Nat) : List (Nat × Nat) :=
  c.filter (fun e => e.1 ≠ k)

/-- Cookie table: lookup. -/
def cookiesLookup (c : List (Nat × Nat)) (k : Nat) : Option Nat :=
  (c.find? (fun e => e.1 = k)).map (fun e => e.2)

/-! ## LinkLayer: sending -/

/-- Sparkle `LinkLayer::wrapNode`: the record of the spool with this real
endpoint, or a new record appended to the spool. -/
def LinkLayer.wrapNode (H : Host) (s : LinkLayer) (host : QHostAddress) (port : Nat) :
    Nat × LinkLayer :=
  match s.nodeSpool.find? (fun n => (s.node n).host = host ∧ (s.node n).port = port) with
  | some n => (n, s)
  | none =>
    (s.heap.length,
      (s.alloc (SparkleNode.new host port (H.generateKey s.heap.length))).setNodeSpool
        (s.nodeSpool ++ [s.heap.length]))

/-- Sparkle `LinkLayer::sendPacket`. -/
def LinkLayer.sendPacket (H : Host) (s : LinkLayer) (type : packet_type_t) (data : QByteArray)
    (node : Nat) : LinkLayer :=
  let data := frame H type data
  if s.router.selfNode = some node then s
  else s.transportSend ⟨data, (s.node node).host, (s.node node).port, node, s.router.selfNode⟩

/-- The wire struct `key_exchange_t` in memory. -/
def keyExchangeBytes (H : Host) (needOthersKey : Bool) (cookie : Nat) : QByteArray :=
  [if needOthersKey then 1 else 0] ++ hostBytes H.endian cookie 4

/-- Sparkle `LinkLayer::sendPublicKeyExchange`; `key = none` is the NULL
argument. -/
def LinkLayer.sendPublicKeyExchange (H : Host) (s : LinkLayer) (node : Nat)
    (key : Option RSAKeyPair) (needHisKey : Bool) (cookie : Nat) : LinkLayer :=
  let c := if needHisKey then H.qrand s.randCalls % 4294967296 else cookie
  let s1 := if needHisKey then s.stepRand.setCookies (cookiesInsert s.cookies c node) else s
  match key with
  | some k => s1.sendPacket H packet_type_t.PublicKeyExchange
      (keyExchangeBytes H needHisKey c ++ k.publicKey) node
  | none =>
    match s1.router.selfNode with
    | some self => s1.sendPacket H packet_type_t.PublicKeyExchange
        (keyExchangeBytes H needHisKey c ++ (s1.node self).keyPair.publicKey) node
    | none => s1.crash

/-- Sparkle `LinkLayer::encryptAndSend`. -/
def LinkLayer.encryptAndSend (H : Host) (s : LinkLayer) (data : QByteArray) (node : Nat) :
    LinkLayer :=
  s.sendPacket H packet_type_t.EncryptedPacket (H.encrypt (s.node node).mySessionKey data) node

/-- Sparkle `LinkLayer::sendEncryptedPacket`. -/
def LinkLayer.sendEncryptedPacket (H : Host) (s : LinkLayer) (type : packet_type_t)
    (data : QByteArray) (node : Nat) : LinkLayer :=
  let data := frame H type data
  if (s.node node).areKeysNegotiated = false then
    let s1 := s.modifyNode node (fun n => n.pushQueue data)
    if node ∈ s1.awaitingNegotiation then s1
    else
      let s2 := s1.modifyNode node SparkleNode.negotiationStart
      let s3 := s2.setAwaitingNegotiation (s2.awaitingNegotiation ++ [node])
      s3.sendPublicKeyExchange H node (some s3.hostKeyPair) true 0
  else s.encryptAndSend H data node

/-- Sparkle `LinkLayer::negotiationTimeout`. -/
def LinkLayer.negotiationTimeout (s : LinkLayer) (node : Nat) : LinkLayer :=
  let s1 := s.modifyNode node SparkleNode.flushQueue
  let s2 := s1.setAwaitingNegotiation (s1.awaitingNegotiation.erase node)
  if s2.awaitingNegotiation.length = 0 ∧ s2.preparingForShutdown = true then
    s2.emit Signal.readyForShutdown
  else s2

/-- Sparkle `LinkLayer::revertJoin`. -/
def LinkLayer.revertJoin (s : LinkLayer) : LinkLayer :=
  ((((s.delete s.nodeSpool).setRouter Router.clear).setNodeSpool []).setAwaitingNegotiation
    []).setCookies []

/-- Sparkle `LinkLayer::initTransport`: the result flag and the state
afterwards. -/
def LinkLayer.initTransport (H : Host) (s : LinkLayer) : Bool × LinkLayer :=
  if s.transportInitiated then (true, s)
  else if H.beginReceiving = false then (false, s)
  else (true, s.setTransportInitiated true)

/-! ## LinkLayer: packet handlers -/

/-- Sparkle `LinkLayer::checkPacketExpection` (the log line apart). -/
def LinkLayer.checkPacketExpection (s : LinkLayer) (neededStep : join_step_t) : Bool :=
  if s.joinStep ≠ neededStep then false else true

/-- Sparkle `LinkLayer::sendProtocolVersionRequest`. -/
def LinkLayer.sendProtocolVersionRequest (H : Host) (s : LinkLayer) (node : Nat) : LinkLayer :=
  s.sendPacket H packet_type_t.ProtocolVersionRequest [] node

/-- Sparkle `LinkLayer::sendProtocolVersionReply`. -/
def LinkLayer.sendProtocolVersionReply (H : Host) (s : LinkLayer) (node : Nat) : LinkLayer :=
  s.sendPacket H packet_type_t.ProtocolVersionReply (hostBytes H.endian H.ProtocolVersion 4) node

/-- Sparkle `LinkLayer::handleProtocolVersionRequest`. -/
def LinkLayer.handleProtocolVersionRequest (H : Host) (s : LinkLayer) (payload : QByteArray)
    (node : Nat) : LinkLayer :=
  if checkPacketSize payload 0 packet_size_class_t.PacketSizeEqual = false then s
  else s.sendProtocolVersionReply H node

/-- Sparkle `LinkLayer::sendMasterNodeRequest`. -/
def LinkLayer.sendMasterNodeRequest (H : Host) (s : LinkLayer) (node : Nat) : LinkLayer :=
  s.sendEncryptedPacket H packet_type_t.MasterNodeRequest [] node

/-- Sparkle `LinkLayer::handleProtocolVersionReply`. -/
def LinkLayer.handleProtocolVersionReply (H : Host) (s : LinkLayer) (payload : QByteArray)
    (node : Nat) : LinkLayer :=
  if checkPacketSize payload sizeof_protocol_version_reply_t
      packet_size_class_t.PacketSizeEqual = false then s
  else if s.checkPacketExpection join_step_t.JoinVersionRequest = false then s
  else
    let version := fieldAt H payload 0 4
    let s1 := if version ≠ H.ProtocolVersion then s.revertJoin.emit Signal.joinFailed else s
    let s2 := s1.setJoinStep join_step_t.JoinMasterNodeRequest
    let s3 := s2.sendMasterNodeRequest H node
    s3.setJoinTimer true

/-- Sparkle `LinkLayer::sendSessionKeyExchange`; the cookie field of the
struct is sent as the stack left it. -/
def LinkLayer.sendSessionKeyExchange (H : Host) (s : LinkLayer) (node : Nat)
    (needHisKey : Bool) : LinkLayer :=
  s.sendPacket H packet_type_t.SessionKeyExchange
    (keyExchangeBytes H needHisKey H.indeterminate ++ (s.node node).mySessionKey) node

/-- The wire struct `introduce_packet_t` in memory. -/
def introduceBytes (H : Host) (sparkleIP : Nat) (mac : QByteArray) : QByteArray :=
  hostBytes H.endian sparkleIP 4 ++ (mac ++ List.replicate 6 0).take 6

/-- Sparkle `LinkLayer::sendIntroducePacket`. -/
def LinkLayer.sendIntroducePacket (H : Host) (s : LinkLayer) (node : Nat) : LinkLayer :=
  match s.router.selfNode with
  | none => s.crash
  | some self =>
    s.sendEncryptedPacket H packet_type_t.IntroducePacket
      (introduceBytes H (s.node self).sparkleIP (s.node self).mac) node

/-- Modelled from the spec: `SparkleNode::operator!=`, two records differ
when their real endpoints differ. -/
def SparkleNode.differs (a b : SparkleNode) : Bool :=
  decide (a.host ≠ b.host ∨ a.port ≠ b.port)

/-- Sparkle `LinkLayer::handlePublicKeyExchange`. -/
def LinkLayer.handlePublicKeyExchange (H : Host) (s : LinkLayer) (payload : QByteArray)
    (node : Nat) : LinkLayer :=
  if checkPacketSize payload sizeof_key_exchange_t
      packet_size_class_t.PacketSizeGreater = false then s
  else
    let needOthersKey : Bool := decide (payload.getD 0 0 ≠ 0)
    let cookie := fieldAt H payload 1 4
    let key := payload.drop sizeof_key_exchange_t
    if needOthersKey = false ∧ (cookiesLookup s.cookies cookie).isNone then
      s.setCookies (cookiesRemove s.cookies cookie)
    else
      let r := (s.node node).setAuthKey key
      if r.1 = false then
        (s.setNode node r.2).setAwaitingNegotiation (s.awaitingNegotiation.erase node)
      else
        let s1 := s.setNode node r.2
        if needOthersKey then s1.sendPublicKeyExchange H node none false cookie
        else
          match cookiesLookup s1.cookies cookie with
          | none => s1.crash
          | some origNode =>
            let s2 := s1.setCookies (cookiesRemove s1.cookies cookie)
            let rewrite := (s2.node origNode).differs (s2.node node)
            let s3 := if rewrite then
                s2.modifyNode origNode (fun o =>
                  ({ o with host := (s2.node node).host, port := (s2.node node).port }.setAuthKey
                    key).2)
              else s2
            let node := if rewrite then origNode else node
            let s4 := match s3.router.selfNode with
              | none => s3
              | some self => if (s3.node self).master = false then s3.sendIntroducePacket H node
                  else s3
            s4.sendSessionKeyExchange H node true

/-- The loop `while(!node->isQueueEmpty()) encryptAndSend(node->popQueue(), node)`,
by recursion on the entries still queued. -/
def LinkLayer.drainQueue (H : Host) (node : Nat) : List QByteArray → LinkLayer → LinkLayer
  | [], s => s
  | _ :: rest, s =>
    let r := (s.node node).popQueue
    LinkLayer.drainQueue H node rest ((s.setNode node r.2).encryptAndSend H r.1 node)

/-- Sparkle `LinkLayer::handleSessionKeyExchange`. -/
def LinkLayer.handleSessionKeyExchange (H : Host) (s : LinkLayer) (payload : QByteArray)
    (node : Nat) : LinkLayer :=
  if checkPacketSize payload sizeof_key_exchange_t
      packet_size_class_t.PacketSizeGreater = false then s
  else
    let needOthersKey : Bool := decide (payload.getD 0 0 ≠ 0)
    let key := payload.drop sizeof_key_exchange_t
    let s1 := s.modifyNode node (fun n => n.setHisSessionKey key)
    if needOthersKey then s1.sendSessionKeyExchange H node false
    else
      let s2 := s1.modifyNode node SparkleNode.negotiationFinished
      let s3 := s2.setAwaitingNegotiation (s2.awaitingNegotiation.erase node)
      let s4 := LinkLayer.drainQueue H node (s3.node node).queue s3
      if s4.awaitingNegotiation.length = 0 ∧ s4.preparingForShutdown = true then
        s4.emit Signal.readyForShutdown
      else s4

/-- Sparkle `LinkLayer::handleIntroducePacket`. -/
def LinkLayer.handleIntroducePacket (H : Host) (s : LinkLayer) (payload : QByteArray)
    (node : Nat) : LinkLayer :=
  if checkPacketSize payload sizeof_introduce_packet_t
      packet_size_class_t.PacketSizeEqual = false then s
  else if (s.node node).mac.length > 0 ∨ node ∈ s.getNodes then s
  else
    let s1 := s.modifyNode node (fun n =>
      { n with sparkleIP := fieldAt H payload 0 4, mac := (payload.drop 4).take 6,
               master := false })
    s1.setRouter (s1.router.updateNode node)

/-- The wire struct `master_node_reply_t`, also `ping_t` and
`route_invalidate_t`, in memory: an address and a port. -/
def endpointBytes (H : Host) (addr port : Nat) : QByteArray :=
  hostBytes H.endian addr 4 ++ hostBytes H.endian port 2

/-- Sparkle `LinkLayer::sendMasterNodeReply`. -/
def LinkLayer.sendMasterNodeReply (H : Host) (s : LinkLayer) (node masterNode : Nat) :
    LinkLayer :=
  s.sendEncryptedPacket H packet_type_t.MasterNodeReply
    (endpointBytes H (s.node masterNode).host (s.node masterNode).port) node

/-- Sparkle `LinkLayer::handleMasterNodeRequest`. -/
def LinkLayer.handleMasterNodeRequest (H : Host) (s : LinkLayer) (payload : QByteArray)
    (node : Nat) : LinkLayer :=
  if checkPacketSize payload 0 packet_size_class_t.PacketSizeEqual = false then s
  else
    match s.selectMaster H with
    | none => s.crash
    | some master => s.sendMasterNodeReply H node master

/-- The wire struct `ping_request_t` in memory. -/
def pingRequestBytes (H : Host) (addr port count : Nat) : QByteArray :=
  hostBytes H.endian addr 4 ++ hostBytes H.endian port 2 ++ [byte count]

/-- Sparkle `LinkLayer::sendPingRequest`. -/
def LinkLayer.sendPingRequest (H : Host) (s : LinkLayer) (node target : Nat) (count : Nat) :
    LinkLayer :=
  s.sendEncryptedPacket H packet_type_t.PingRequest
    (pingRequestBytes H (s.node target).host (s.node target).port count) node

/-- Sparkle `LinkLayer::sendPingInitiate`. -/
def LinkLayer.sendPingInitiate (H : Host) (s : LinkLayer) (node target : Nat) (count : Nat) :
    LinkLayer :=
  s.sendEncryptedPacket H packet_type_t.PingInitiate
    (pingRequestBytes H (s.node target).host (s.node target).port count) node

/-- Sparkle `LinkLayer::sendRegisterRequest`. -/
def LinkLayer.sendRegisterRequest (H : Host) (s : LinkLayer) (node : Nat) (isBehindNAT : Bool) :
    LinkLayer :=
  s.sendEncryptedPacket H packet_type_t.RegisterRequest [if isBehindNAT then 1 else 0] node

/-- Sparkle `LinkLayer::handleMasterNodeReply`. -/
def LinkLayer.handleMasterNodeReply (H : Host) (s : LinkLayer) (payload : QByteArray)
    (node : Nat) : LinkLayer :=
  if checkPacketSize payload sizeof_master_node_reply_t
      packet_size_class_t.PacketSizeEqual = false then s
  else if s.checkPacketExpection join_step_t.JoinMasterNodeRequest = false then s
  else
    let w := s.wrapNode H (fieldAt H payload 0 4) (fieldAt H payload 4 2)
    let master := w.1
    let s1 := w.2.setJoinMaster master
    let s2 := if s1.forceBehindNAT = false then
        LinkLayer.sendPingRequest H
          (((((s1.setJoinStep join_step_t.JoinAwaitingPings).setJoinPing
            ⟨0, s1.joinPing.port⟩).setJoinPingsEmitted 4).setJoinPingsArrived 0).setPingTimer true)
          node master 4
      else
        LinkLayer.sendRegisterRequest H (s1.setJoinStep join_step_t.JoinRegistration) master true
    s2.setJoinTimer true

/-- Sparkle `LinkLayer::sendPing`. -/
def LinkLayer.sendPing (H : Host) (s : LinkLayer) (node : Nat) : LinkLayer :=
  s.sendPacket H packet_type_t.Ping (endpointBytes H (s.node node).host (s.node node).port) node

/-- Sparkle `LinkLayer::doPing`; `count` is an unsigned 8-bit value. -/
def LinkLayer.doPing (H : Host) (s : LinkLayer) (node : Nat) (count : Nat) : LinkLayer :=
  if count > 16 then s
  else (List.range count).foldl (fun st _ => st.sendPing H node) s

/-- Sparkle `LinkLayer::handlePingRequest`. -/
def LinkLayer.handlePingRequest (H : Host) (s : LinkLayer) (payload : QByteArray)
    (node : Nat) : LinkLayer :=
  if checkPacketSize payload sizeof_ping_request_t
      packet_size_class_t.PacketSizeEqual = false then s
  else
    let w := s.wrapNode H (fieldAt H payload 0 4) (fieldAt H payload 4 2)
    let target := w.1
    let s1 := w.2
    let count := fieldAt H payload 6 1
    match s1.router.selfNode with
    | none => s1.crash
    | some self =>
      if (s1.node self).differs (s1.node target) = false then s1.doPing H node count
      else s1.sendPingInitiate H target node count

/-- Sparkle `LinkLayer::handlePingInitiate`. -/
def LinkLayer.handlePingInitiate (H : Host) (s : LinkLayer) (payload : QByteArray)
    (_node : Nat) : LinkLayer :=
  if checkPacketSize payload sizeof_ping_request_t
      packet_size_class_t.PacketSizeEqual = false then s
  else
    let w := s.wrapNode H (fieldAt H payload 0 4) (fieldAt H payload 4 2)
    w.2.doPing H w.1 (fieldAt H payload 6 1)

/-- Sparkle `LinkLayer::joinGotPinged`. -/
def LinkLayer.joinGotPinged (H : Host) (s : LinkLayer) : LinkLayer :=
  let s1 := (s.setPingTimer false).setJoinStep join_step_t.JoinRegistration
  match s1.joinMaster with
  | none => s1.crash
  | some m => (s1.sendRegisterRequest H m false).setJoinTimer true

/-- Sparkle `LinkLayer::handlePing`. -/
def LinkLayer.handlePing (H : Host) (s : LinkLayer) (payload : QByteArray) (node : Nat) :
    LinkLayer :=
  if checkPacketSize payload sizeof_ping_t packet_size_class_t.PacketSizeEqual = false then s
  else if s.checkPacketExpection join_step_t.JoinAwaitingPings = false then s
  else if s.joinMaster ≠ some node then s
  else
    let ping : ping_t := ⟨fieldAt H payload 0 4, fieldAt H payload 4 2⟩
    let s1 := s.setJoinPingsArrived (s.joinPingsArrived + 1)
    let s2 := if s1.joinPing.addr = 0 then s1.setJoinPing ping
      else if s1.joinPing.addr ≠ ping.addr ∨ s1.joinPing.port ≠ ping.port then
        s1.revertJoin.emit Signal.joinFailed
      else s1
    if s2.joinPingsArrived = s2.joinPingsEmitted then s2.joinGotPinged H else s2

/-- Sparkle `LinkLayer::pingTimeout`. -/
def LinkLayer.pingTimeout (H : Host) (s : LinkLayer) : LinkLayer :=
  if s.joinPingsArrived = 0 then
    let s1 := s.setJoinStep join_step_t.JoinRegistration
    match s1.joinMaster with
    | none => s1.crash
    | some m => s1.sendRegisterRequest H m true
  else s.joinGotPinged H

/-- A value of type `double` as the role decision meets it: not a number,
plus infinity, or the finite non-negative number `m / 2 ^ k`. -/
inductive double where
  | nan
  | inf
  | finite (m : Nat) (k : Nat)
deriving DecidableEq, Repr

/-- The binary scale of the quotient `a / b`: the least `k` from the given one
on, among the next `fuel` candidates, for which `a * 2 ^ k / b` has 53 bits. -/
def doubleScale (a b : Nat) : Nat → Nat → Nat
  | 0, k => k
  | fuel + 1, k => if 2 ^ 52 ≤ a * 2 ^ k / b then k else doubleScale a b fuel (k + 1)

/-- The quotient of `x` by `b` rounded to the nearest integer, a tie going to
the even one. -/
def doubleRound (x b : Nat) : Nat :=
  if b < 2 * (x % b) ∨ (2 * (x % b) = b ∧ x / b % 2 = 1) then x / b + 1 else x / b

/-- The division `(double) a / b` of two integers below `2 ^ 53`, which
convert to `double` exactly: the quotient rounded to 53 significant bits, to
nearest, ties to even; a zero divisor gives an infinite or undefined
quotient. -/
def doubleDiv (a b : Nat) : double :=
  if b = 0 then (if a = 0 then double.nan else double.inf)
  else if a = 0 then double.finite 0 0
  else double.finite (doubleRound (a * 2 ^ doubleScale a b 128 0) b) (doubleScale a b 128 0)

/-- The comparison `x < y` of two doubles. -/
def doubleLess : double → double → Bool
  | double.finite m k, double.finite n l => decide (m * 2 ^ l < n * 2 ^ k)
  | double.finite _ _, double.inf => true
  | _, _ => false

/-- The comparison `rk < ik` of the role decision as the specification reads
it, `a / b < 1 / d` in exact arithmetic (integer cross-multiplication), with
the conventions of the doubles for a zero divisor. -/
def ratioLess (a b d : Nat) : Bool :=
  if b = 0 then false
  else if d = 0 then true
  else decide (a * d < b)

/-- The wire struct `route_t` in memory. -/
def routeBytes (H : Host) (t : SparkleNode) : QByteArray :=
  hostBytes H.endian t.host 4 ++ hostBytes H.endian t.port 2 ++ hostBytes H.endian t.sparkleIP 4 ++
    (t.mac ++ List.replicate 6 0).take 6 ++ [if t.master then 1 else 0] ++
    [if t.behindNAT then 1 else 0]

/-- Sparkle `LinkLayer::sendRoute`. -/
def LinkLayer.sendRoute (H : Host) (s : LinkLayer) (node target : Nat) : LinkLayer :=
  s.sendEncryptedPacket H packet_type_t.Route (routeBytes H (s.node target)) node

/-- The wire struct `register_reply_t` in memory. -/
def registerReplyBytes (H : Host) (n : SparkleNode) (networkDivisor : Nat) : QByteArray :=
  hostBytes H.endian n.sparkleIP 4 ++ (n.mac ++ List.replicate 6 0).take 6 ++
    hostBytes H.endian (if n.behindNAT then n.host else 0) 4 ++
    hostBytes H.endian (if n.behindNAT then n.port else 0) 2 ++
    [if n.master then 1 else 0] ++ [byte networkDivisor]

/-- Sparkle `LinkLayer::sendRegisterReply`. -/
def LinkLayer.sendRegisterReply (H : Host) (s : LinkLayer) (node : Nat) : LinkLayer :=
  s.sendEncryptedPacket H packet_type_t.RegisterReply
    (registerReplyBytes H (s.node node) s.networkDivisor) node

/-- The role `handleRegisterRequest` gives a registering peer. -/
def LinkLayer.registerRole (s : LinkLayer) (isBehindNAT : Bool) : Bool :=
  if isBehindNAT = false then
    if s.getMasters.length = 1 then true
    else
      let ik := doubleDiv 1 s.networkDivisor
      let rk := doubleDiv s.getMasters.length (s.getNodes.length + 1)
      doubleLess rk ik
  else false

/-- Sparkle `LinkLayer::handleRegisterRequest`. -/
def LinkLayer.handleRegisterRequest (H : Host) (s : LinkLayer) (payload : QByteArray)
    (node : Nat) : LinkLayer :=
  if checkPacketSize payload sizeof_register_request_t
      packet_size_class_t.PacketSizeEqual = false then s
  else
    match s.router.selfNode with
    | none => s.crash
    | some self =>
      if (s.node self).master = false then s
      else
        let isBehindNAT : Bool := decide (payload.getD 0 0 ≠ 0)
        let role := s.registerRole isBehindNAT
        let s1 := s.modifyNode node (fun n =>
          { n.configureByKey H with behindNAT := isBehindNAT, master := role })
        let updates := if (s1.node node).master then s1.getOtherNodes else s1.getOtherMasters
        let s2 := updates.foldl (fun st update => (st.sendRoute H node update).sendRoute H update node)
          s1
        let s3 := s2.sendRoute H node self
        let s4 := s3.setRouter (s3.router.updateNode node)
        s4.sendRegisterReply H node

/-- Sparkle `LinkLayer::handleRegisterReply`. -/
def LinkLayer.handleRegisterReply (H : Host) (s : LinkLayer) (payload : QByteArray)
    (_node : Nat) : LinkLayer :=
  if checkPacketSize payload sizeof_register_reply_t
      packet_size_class_t.PacketSizeEqual = false then s
  else if s.checkPacketExpection join_step_t.JoinRegistration = false then s
  else
    let sparkleIP := fieldAt H payload 0 4
    let sparkleMAC := (payload.drop 4).take 6
    let realIP := fieldAt H payload 10 4
    let realPort := fieldAt H payload 14 2
    let isMaster : Bool := decide (payload.getD 16 0 ≠ 0)
    let networkDivisor := fieldAt H payload 17 1
    let w := if realIP ≠ 0 then s.wrapNode H realIP realPort
      else s.wrapNode H s.joinPing.addr s.joinPing.port
    let self := w.1
    let s1 := w.2.modifyNode self (fun n =>
      { n with behindNAT := decide (realIP ≠ 0), sparkleIP := sparkleIP, mac := sparkleMAC,
               keyPair := s.hostKeyPair, master := isMaster })
    let s2 := (((s1.setRouter (s1.router.setSelfNode self)).setNetworkDivisor
      networkDivisor).setJoinTimer false).setJoinStep join_step_t.JoinFinished
    s2.emit (Signal.joined self)

/-- Sparkle `LinkLayer::handleRoute`. -/
def LinkLayer.handleRoute (H : Host) (s : LinkLayer) (payload : QByteArray) (node : Nat) :
    LinkLayer :=
  if checkPacketSize payload sizeof_route_t packet_size_class_t.PacketSizeEqual = false then s
  else if (s.node node).master = false ∧ s.router.selfNode ≠ none then s
  else
    let w := s.wrapNode H (fieldAt H payload 0 4) (fieldAt H payload 4 2)
    let target := w.1
    let s1 := w.2
    if s1.router.selfNode = some target then s1
    else
      let s2 := s1.modifyNode target (fun n =>
        { n with sparkleIP := fieldAt H payload 6 4, mac := (payload.drop 10).take 6,
                 master := decide (payload.getD 16 0 ≠ 0),
                 behindNAT := decide (payload.getD 17 0 ≠ 0) })
      s2.setRouter (s2.router.updateNode target)

/-- Sparkle `LinkLayer::sendRouteMissing`. -/
def LinkLayer.sendRouteMissing (H : Host) (s : LinkLayer) (node : Nat) (host : QHostAddress) :
    LinkLayer :=
  s.sendEncryptedPacket H packet_type_t.RouteMissing (hostBytes H.endian host 4) node

/-- Sparkle `LinkLayer::sendRouteRequest`. -/
def LinkLayer.sendRouteRequest (H : Host) (s : LinkLayer) (host : QHostAddress) : LinkLayer :=
  match s.selectMaster H with
  | none => s.crash
  | some m => s.sendEncryptedPacket H packet_type_t.RouteRequest (hostBytes H.endian host 4) m

/-- Sparkle `LinkLayer::handleRouteRequest`. -/
def LinkLayer.handleRouteRequest (H : Host) (s : LinkLayer) (payload : QByteArray)
    (node : Nat) : LinkLayer :=
  if checkPacketSize payload sizeof_route_request_t
      packet_size_class_t.PacketSizeEqual = false then s
  else
    match s.router.selfNode with
    | none => s.crash
    | some self =>
      if (s.node self).master = false then s
      else
        match s.searchSparkleNode (fieldAt H payload 0 4) with
        | some target => s.sendRoute H node target
        | none => s.sendRouteMissing H node (fieldAt H payload 0 4)

/-- Sparkle `LinkLayer::handleRouteMissing`: only a log line. -/
def LinkLayer.handleRouteMissing (s : LinkLayer) (payload : QByteArray) (_node : Nat) :
    LinkLayer :=
  if checkPacketSize payload sizeof_route_request_t
      packet_size_class_t.PacketSizeEqual = false then s
  else s

/-- Sparkle `LinkLayer::sendRouteInvalidate`. -/
def LinkLayer.sendRouteInvalidate (H : Host) (s : LinkLayer) (node target : Nat) : LinkLayer :=
  s.sendEncryptedPacket H packet_type_t.RouteInvalidate
    (endpointBytes H (s.node target).host (s.node target).port) node

/-- Sparkle `LinkLayer::handleRouteInvalidate`. -/
def LinkLayer.handleRouteInvalidate (H : Host) (s : LinkLayer) (payload : QByteArray)
    (_node : Nat) : LinkLayer :=
  if checkPacketSize payload sizeof_route_invalidate_t
      packet_size_class_t.PacketSizeEqual = false then s
  else
    let w := s.wrapNode H (fieldAt H payload 0 4) (fieldAt H payload 4 2)
    let target := w.1
    let s1 := w.2
    ((s1.setRouter (s1.router.removeNode target)).setNodeSpool
      (s1.nodeSpool.erase target)).delete [target]

/-- Sparkle `LinkLayer::sendRoleUpdate`. -/
def LinkLayer.sendRoleUpdate (H : Host) (s : LinkLayer) (node : Nat) (isMasterNow : Bool) :
    LinkLayer :=
  s.sendEncryptedPacket H packet_type_t.RoleUpdate [if isMasterNow then 1 else 0] node

/-- Sparkle `LinkLayer::handleRoleUpdate`. -/
def LinkLayer.handleRoleUpdate (s : LinkLayer) (payload : QByteArray) (node : Nat) : LinkLayer :=
  if checkPacketSize payload sizeof_role_update_t
      packet_size_class_t.PacketSizeEqual = false then s
  else if (s.node node).master = false then s
  else
    match s.router.selfNode with
    | none => s.crash
    | some self =>
      s.modifyNode self (fun n => { n with master := decide (payload.getD 0 0 ≠ 0) })

/-- Sparkle `LinkLayer::sendExitNotification`. -/
def LinkLayer.sendExitNotification (H : Host) (s : LinkLayer) (node : Nat) : LinkLayer :=
  s.sendEncryptedPacket H packet_type_t.ExitNotification [] node

/-- Sparkle `LinkLayer::reincarnateSomeone`. -/
def LinkLayer.reincarnateSomeone (H : Host) (s : LinkLayer) : LinkLayer :=
  if s.getNodes.length = 1 then s
  else
    match s.selectWhiteSlave H with
    | none => s.crash
    | some target =>
      let s1 := s.modifyNode target (fun n => { n with master := true })
      let s2 := s1.setRouter (s1.router.updateNode target)
      let s3 := s2.getOtherNodes.foldl (fun st node =>
          if (st.node node).master = false ∧ node ≠ target then
            (st.sendRoute H node target).sendRoute H target node
          else st) s2
      s3.sendRoleUpdate H target true

/-- Sparkle `LinkLayer::handleExitNotification`. -/
def LinkLayer.handleExitNotification (H : Host) (s : LinkLayer) (payload : QByteArray)
    (node : Nat) : LinkLayer :=
  if checkPacketSize payload 0 packet_size_class_t.PacketSizeEqual = false then s
  else
    match s.router.selfNode with
    | none => s.crash
    | some self =>
      if (s.node self).master = false then s
      else
        let s1 := s.setRouter (s.router.removeNode node)
        let s2 : LinkLayer :=
          s1.getOtherNodes.foldl (fun st target => st.sendRouteInvalidate H target node) s1
        let s3 : LinkLayer := (s2.setNodeSpool (s2.nodeSpool.erase node)).delete [node]
        let ik := doubleDiv 1 s3.networkDivisor
        let rk := doubleDiv s3.getMasters.length s3.getNodes.length
        if doubleLess rk ik = true ∨ s3.getMasters.length = 1 then
          s3.reincarnateSomeone H
        else s3

/-- Sparkle `LinkLayer::sendDataToNode`. -/
def LinkLayer.sendDataToNode (H : Host) (s : LinkLayer) (packet : QByteArray) (node : Nat) :
    LinkLayer :=
  s.sendEncryptedPacket H packet_type_t.DataPacket packet node

/-! ## LinkLayer: dispatch -/

/-- The second half of `LinkLayer::handlePacket`, from the decrypted bytes to
the call of a handler: what the inner header check lets through, after the
cipher padding is cut off. The result is the inner type and the payload the
handler is called with, or nothing when the packet is dropped. -/
def innerFrame (H : Host) (decData : QByteArray) : Option (Nat × QByteArray) :=
  if decData.length < sizeof_packet_header_t ∨ hdrLength H decData < sizeof_packet_header_t ∨
      hdrLength H decData > decData.length then none
  else
    let decData2 :=
      if decData.length > hdrLength H decData ∧ decData.length < hdrLength H decData + 8 then
        decData.take (hdrLength H decData)
      else decData
    some (hdrType H decData, decData2.drop sizeof_packet_header_t)

/-- The inner `switch` of `LinkLayer::handlePacket`. -/
def LinkLayer.handleInner (H : Host) (s : LinkLayer) (type : Nat) (decPayload : QByteArray)
    (node : Nat) : LinkLayer :=
  match packet_type_t.ofCode type with
  | some packet_type_t.IntroducePacket => s.handleIntroducePacket H decPayload node
  | some packet_type_t.MasterNodeRequest => s.handleMasterNodeRequest H decPayload node
  | some packet_type_t.MasterNodeReply => s.handleMasterNodeReply H decPayload node
  | some packet_type_t.PingRequest => s.handlePingRequest H decPayload node
  | some packet_type_t.PingInitiate => s.handlePingInitiate H decPayload node
  | some packet_type_t.RegisterRequest => s.handleRegisterRequest H decPayload node
  | some packet_type_t.RegisterReply => s.handleRegisterReply H decPayload node
  | some packet_type_t.Route => s.handleRoute H decPayload node
  | some packet_type_t.RouteRequest => s.handleRouteRequest H decPayload node
  | some packet_type_t.RouteMissing => s.handleRouteMissing decPayload node
  | some packet_type_t.RouteInvalidate => s.handleRouteInvalidate H decPayload node
  | some packet_type_t.RoleUpdate => s.handleRoleUpdate decPayload node
  | some packet_type_t.ExitNotification => s.handleExitNotification H decPayload node
  | some packet_type_t.DataPacket => s.deliver decPayload node
  | _ => s

/-- The part of `LinkLayer::handlePacket` after the outer `switch`: an
encrypted packet from `node`. -/
def LinkLayer.handleEncrypted (H : Host) (s : LinkLayer) (payload : QByteArray) (node : Nat) :
    LinkLayer :=
  if (s.node node).areKeysNegotiated = false then s
  else
    match innerFrame H (H.decrypt (s.node node).hisSessionKey payload) with
    | none => s
    | some (type, decPayload) => s.handleInner H type decPayload node

/-- The outer `switch` of `LinkLayer::handlePacket` with what follows it. -/
def LinkLayer.handleOuter (H : Host) (s : LinkLayer) (type : Nat) (payload : QByteArray)
    (node : Nat) : LinkLayer :=
  match packet_type_t.ofCode type with
  | some packet_type_t.ProtocolVersionRequest => s.handleProtocolVersionRequest H payload node
  | some packet_type_t.ProtocolVersionReply => s.handleProtocolVersionReply H payload node
  | some packet_type_t.PublicKeyExchange => s.handlePublicKeyExchange H payload node
  | some packet_type_t.SessionKeyExchange => s.handleSessionKeyExchange H payload node
  | some packet_type_t.Ping => s.handlePing H payload node
  | some packet_type_t.EncryptedPacket => s.handleEncrypted H payload node
  | _ => s

/-- Sparkle `LinkLayer::handlePacket`. -/
def LinkLayer.handlePacket (H : Host) (s : LinkLayer) (data : QByteArray) (host : QHostAddress)
    (port : Nat) : LinkLayer :=
  if data.length < sizeof_packet_header_t ∨ hdrLength H data ≠ data.length then s
  else
    let payload := data.drop sizeof_packet_header_t
    let w := s.wrapNode H host port
    w.2.handleOuter H (hdrType H data) payload w.1

/-- The size check a handler starts with: the required size and the size
class it passes to `checkPacketSize`. `EncryptedPacket` and `DataPacket` have
no such check. -/
def sizeRequirement : packet_type_t → Option (Nat × packet_size_class_t)
  | packet_type_t.ProtocolVersionRequest => some (0, packet_size_class_t.PacketSizeEqual)
  | packet_type_t.ProtocolVersionReply =>
    some (sizeof_protocol_version_reply_t, packet_size_class_t.PacketSizeEqual)
  | packet_type_t.PublicKeyExchange =>
    some (sizeof_key_exchange_t, packet_size_class_t.PacketSizeGreater)
  | packet_type_t.SessionKeyExchange =>
    some (sizeof_key_exchange_t, packet_size_class_t.PacketSizeGreater)
  | packet_type_t.Ping => some (sizeof_ping_t, packet_size_class_t.PacketSizeEqual)
  | packet_type_t.EncryptedPacket => none
  | packet_type_t.IntroducePacket =>
    some (sizeof_introduce_packet_t, packet_size_class_t.PacketSizeEqual)
  | packet_type_t.MasterNodeRequest => some (0, packet_size_class_t.PacketSizeEqual)
  | packet_type_t.MasterNodeReply =>
    some (sizeof_master_node_reply_t, packet_size_class_t.PacketSizeEqual)
  | packet_type_t.PingRequest => some (sizeof_ping_request_t, packet_size_class_t.PacketSizeEqual)
  | packet_type_t.PingInitiate => some (sizeof_ping_request_t, packet_size_class_t.PacketSizeEqual)
  | packet_type_t.RegisterRequest =>
    some (sizeof_register_request_t, packet_size_class_t.PacketSizeEqual)
  | packet_type_t.RegisterReply =>
    some (sizeof_register_reply_t, packet_size_class_t.PacketSizeEqual)
  | packet_type_t.Route => some (sizeof_route_t, packet_size_class_t.PacketSizeEqual)
  | packet_type_t.RouteRequest =>
    some (sizeof_route_request_t, packet_size_class_t.PacketSizeEqual)
  | packet_type_t.RouteMissing =>
    some (sizeof_route_request_t, packet_size_class_t.PacketSizeEqual)
  | packet_type_t.RouteInvalidate =>
    some (sizeof_route_invalidate_t, packet_size_class_t.PacketSizeEqual)
  | packet_type_t.RoleUpdate => some (sizeof_role_update_t, packet_size_class_t.PacketSizeEqual)
  | packet_type_t.ExitNotification => some (0, packet_size_class_t.PacketSizeEqual)
  | packet_type_t.DataPacket => none

/-- The payload violates the size class of the opcode: the `checkPacketSize`
call of the opcode's handler fails. -/
def sizeViolated (t : packet_type_t) (payload : QByteArray) : Bool :=
  match sizeRequirement t with
  | some (n, c) => checkPacketSize payload n c = false
  | none => false

/-- The opcodes the outer `switch` has a case for. -/
def packet_type_t.isOuter : packet_type_t → Bool
  | packet_type_t.ProtocolVersionRequest => true
  | packet_type_t.ProtocolVersionReply => true
  | packet_type_t.PublicKeyExchange => true
  | packet_type_t.SessionKeyExchange => true
  | packet_type_t.Ping => true
  | packet_type_t.EncryptedPacket => true
  | _ => false

/-- A well-framed datagram that is malformed for its opcode: the outer type
is none the outer `switch` knows, or the payload violates the size class of
the opcode. -/
def outerMalformed (H : Host) (data : QByteArray) : Bool :=
  match packet_type_t.ofCode (hdrType H data) with
  | none => true
  | some t => !t.isOuter || sizeViolated t (data.drop sizeof_packet_header_t)

/-- Decrypted bytes that are malformed: the inner header check fails, the
inner type is none the inner `switch` knows, or the inner payload violates
the size class of the inner opcode. -/
def innerMalformed (H : Host) (decData : QByteArray) : Bool :=
  match innerFrame H decData with
  | none => true
  | some (type, decPayload) =>
    match packet_type_t.ofCode type with
    | none => true
    | some t => t.isOuter || sizeViolated t decPayload

/-- Some record of the node spool has this real endpoint. -/
def LinkLayer.knows (s : LinkLayer) (host : QHostAddress) (port : Nat) : Bool :=
  s.nodeSpool.any (fun n => (s.node n).host = host ∧ (s.node n).port = port)

/-! ## LinkLayer: entry points -/

/-- Sparkle `LinkLayer::joinNetwork`: the result flag and the state
afterwards. -/
def LinkLayer.joinNetwork (H : Host) (s : LinkLayer) (remoteIP : QHostAddress)
    (remotePort : Nat) (forceBehindNAT : Bool) : Bool × LinkLayer :=
  let t := s.initTransport H
  if t.1 = false then (false, t.2)
  else
    let s1 := (t.2.setForceBehindNAT forceBehindNAT).setJoinStep join_step_t.JoinVersionRequest
    let w := s1.wrapNode H remoteIP remotePort
    let s2 := w.2.sendProtocolVersionRequest H w.1
    (true, s2.setJoinTimer true)

/-- Sparkle `LinkLayer::joinTimeout`. -/
def LinkLayer.joinTimeout (s : LinkLayer) : LinkLayer :=
  s.revertJoin.emit Signal.joinFailed

/-- Sparkle `LinkLayer::createNetwork`: the result flag and the state
afterwards. The self record is constructed outside the node spool. -/
def LinkLayer.createNetwork (H : Host) (s : LinkLayer) (localIP : QHostAddress)
    (networkDivisor : Nat) : Bool × LinkLayer :=
  let self := s.heap.length
  let rec0 := SparkleNode.new localIP H.getPort (H.generateKey self)
  let rec1 := SparkleNode.configureByKey H { rec0 with master := true, keyPair := s.hostKeyPair }
  let s1 := (s.alloc rec1).setRouter (s.router.setSelfNode self)
  let t := s1.initTransport H
  if t.1 = false then (false, t.2)
  else
    let s2 := (t.2.setNetworkDivisor networkDivisor).setJoinStep join_step_t.JoinFinished
    (true, s2.emit (Signal.joined self))

/-- The exit message of `LinkLayer::exitNetwork` on a node with the self
record `self`: the traffic of `reincarnateSomeone` for the only master,
otherwise an ExitNotification for the master that `selectMaster` returns.
When `selectMaster` returns NULL, `sendExitNotification` hands NULL to
`sendEncryptedPacket`, which dereferences it. -/
def LinkLayer.exitMessage (H : Host) (s : LinkLayer) (self : Nat) : LinkLayer :=
  if (s.node self).master = true ∧ s.getMasters.length = 1 then s.reincarnateSomeone H
  else
    match s.selectMaster H with
    | none => s.crash
    | some m => s.sendExitNotification H m

/-- Sparkle `LinkLayer::exitNetwork`. A null pointer ends the run where it is
dereferenced: when the exit message has gone through one, the lines after it,
which test `awaitingNegotiation`, are not reached. -/
def LinkLayer.exitNetwork (H : Host) (s : LinkLayer) : LinkLayer :=
  if s.joinStep ≠ join_step_t.JoinFinished then s.emit Signal.readyForShutdown
  else
    match s.router.selfNode with
    | none => s.crash
    | some self =>
      let s1 := s.exitMessage H self
      if s1.fault = true then s1
      else if s1.awaitingNegotiation.length > 0 then s1.setPreparingForShutdown true
      else s1.emit Signal.readyForShutdown

/-- A well-framed datagram that is malformed for its opcode, seen from the
receiving link layer: malformed for its outer opcode, or an `EncryptedPacket`
whose decrypted bytes (under the sender's session key) are malformed. -/
def LinkLayer.malformedForOpcode (H : Host) (s : LinkLayer) (data : QByteArray)
    (host : QHostAddress) (port : Nat) : Bool :=
  outerMalformed H data ||
    (decide (packet_type_t.ofCode (hdrType H data) = some packet_type_t.EncryptedPacket) &&
      innerMalformed H
        (H.decrypt ((s.wrapNode H host port).2.node (s.wrapNode H host port).1).hisSessionKey
          (data.drop sizeof_packet_header_t)))

/-! ## Auxiliary states and example data -/

/-- The datagrams a state has sent beyond those of an earlier state. -/
def LinkLayer.sentSince (s' s : LinkLayer) : List Datagram := s'.sent.drop s.sent.length

/-- The state `sendEncryptedPacket` reaches for a peer without negotiated keys
before it looks at `awaitingNegotiation`: the framed bytes are queued. -/
def LinkLayer.queued (H : Host) (s : LinkLayer) (type : packet_type_t) (data : QByteArray)
    (node : Nat) : LinkLayer :=
  s.modifyNode node (fun n => n.pushQueue (frame H type data))

/-- The state in which `sendEncryptedPacket` calls `sendPacket` for the
PublicKeyExchange it starts: the framed bytes are queued, the negotiation
timer of the peer runs, the peer awaits negotiation and a fresh cookie points
to it. -/
def LinkLayer.negotiating (H : Host) (s : LinkLayer) (type : packet_type_t) (data : QByteArray)
    (node : Nat) : LinkLayer :=
  ((((s.queued H type data node).modifyNode node
    SparkleNode.negotiationStart).setAwaitingNegotiation
      (s.awaitingNegotiation ++ [node])).stepRand).setCookies
        (cookiesInsert s.cookies (H.qrand s.randCalls % 4294967296) node)


/-- The state in which `handleSessionKeyExchange` starts to drain the queue of
a peer: the peer's key is stored, its negotiation timer is stopped and it no
longer awaits negotiation. -/
def LinkLayer.keysInstalled (s : LinkLayer) (key : QByteArray) (node : Nat) : LinkLayer :=
  ((s.modifyNode node (fun n => n.setHisSessionKey key)).modifyNode node
    SparkleNode.negotiationFinished).setAwaitingNegotiation
      (s.awaitingNegotiation.erase node)

/-- A peer record without what the handshake gate keeps in it: the send queue
and the negotiation timer. -/
def SparkleNode.core (n : SparkleNode) : SparkleNode :=
  { n with queue := [], negotiationTimer := false }

/-- The link layer without what sending a packet can change: the queues and
negotiation timers of the records, the peers awaiting negotiation, the cookie
table, the count of random numbers drawn, the trace of the transport and the
fault flag. -/
def LinkLayer.core (s : LinkLayer) : LinkLayer :=
  { s with heap := s.heap.map SparkleNode.core, awaitingNegotiation := [], cookies := [],
           randCalls := 0, sent := [], fault := false }

/-- The state in which `handleRegisterRequest` starts to gossip routes: the
record of the registering peer has its overlay identity, the NAT flag of the
request and the role decided for it. -/
def LinkLayer.enrolled (H : Host) (s : LinkLayer) (isBehindNAT : Bool) (node : Nat) : LinkLayer :=
  s.modifyNode node (fun n =>
    { n.configureByKey H with behindNAT := isBehindNAT, master := s.registerRole isBehindNAT })

/-- The role invariant of the specification: no peer record is behind NAT and
a master at once. -/
def LinkLayer.RoleInvariant (s : LinkLayer) : Prop :=
  ∀ r ∈ s.heap, r.behindNAT = true → r.master = false

instance (s : LinkLayer) : Decidable s.RoleInvariant :=
  inferInstanceAs (Decidable (∀ r ∈ s.heap, r.behindNAT = true → r.master = false))

/-- The master ratio of the specification, `masters / total ≥ 1 / networkDivisor`,
in exact arithmetic. -/
def LinkLayer.RatioKept (s : LinkLayer) : Prop :=
  s.getNodes.length ≤ s.getMasters.length * s.networkDivisor

instance (s : LinkLayer) : Decidable s.RatioKept :=
  inferInstanceAs (Decidable (s.getNodes.length ≤ s.getMasters.length * s.networkDivisor))

/-- The master ratio of the specification with its two edge cases: the ratio
is kept, or there is one master, or the router holds one record. -/
def LinkLayer.MasterRatio (s : LinkLayer) : Prop :=
  s.RatioKept ∨ s.getMasters.length = 1 ∨ s.getNodes.length = 1

instance (s : LinkLayer) : Decidable s.MasterRatio :=
  inferInstanceAs (Decidable (s.RatioKept ∨ s.getMasters.length = 1 ∨ s.getNodes.length = 1))

/-- The state in which `handleExitNotification` looks at the master ratio: the
departing node is out of the router, the other nodes have been told, and the
record of the node is out of the spool and deleted. -/
def LinkLayer.departed (H : Host) (s : LinkLayer) (node : Nat) : LinkLayer :=
  (((s.setRouter (s.router.removeNode node)).getOtherNodes.foldl
    (fun st target => st.sendRouteInvalidate H target node)
    (s.setRouter (s.router.removeNode node))).setNodeSpool
      (((s.setRouter (s.router.removeNode node)).getOtherNodes.foldl
        (fun st target => st.sendRouteInvalidate H target node)
        (s.setRouter (s.router.removeNode node))).nodeSpool.erase node)).delete [node]

/-- The state in which `reincarnateSomeone` starts to gossip routes: the
selected record is a master and in the router. -/
def LinkLayer.promoted (s : LinkLayer) (target : Nat) : LinkLayer :=
  (s.modifyNode target (fun n => { n with master := true })).setRouter
    (s.router.updateNode target)

/-- The record a Route packet names: what `wrapNode` returns for the real
endpoint in the packet. -/
def LinkLayer.routeTarget (H : Host) (s : LinkLayer) (payload : QByteArray) : Nat :=
  (s.wrapNode H (fieldAt H payload 0 4) (fieldAt H payload 4 2)).1

/-- The state `handlePublicKeyExchange` reaches for a reply from another
endpoint than the one the cookie was stored for, before it sends anything:
the replying record holds the key, the cookie is consumed, and the record
stored under the cookie has the endpoint of the replying record and the
key. -/
def LinkLayer.merged (s : LinkLayer) (key : QByteArray) (cookie node orig : Nat) : LinkLayer :=
  ((s.setNode node ((s.node node).setAuthKey key).2).setCookies
    (cookiesRemove s.cookies cookie)).modifyNode orig (fun o =>
      ({ o with
          host := (((s.setNode node ((s.node node).setAuthKey key).2).setCookies
            (cookiesRemove s.cookies cookie)).node node).host,
          port := (((s.setNode node ((s.node node).setAuthKey key).2).setCookies
            (cookiesRemove s.cookies cookie)).node node).port }.setAuthKey key).2)

/-- The real endpoint of the record behind a pointer. -/
def LinkLayer.endpoint (s : LinkLayer) (n : Nat) : QHostAddress × Nat :=
  ((s.node n).host, (s.node n).port)

/-- Endpoint uniqueness of the specification: no two records of the node
spool have the same real endpoint. -/
def LinkLayer.EndpointsUnique (s : LinkLayer) : Prop := (s.nodeSpool.map s.endpoint).Nodup

instance (s : LinkLayer) : Decidable s.EndpointsUnique :=
  inferInstanceAs (Decidable (s.nodeSpool.map s.endpoint).Nodup)

/-- Endpoint uniqueness for a node spool of constructed records. -/
structure LinkLayer.SpoolUnique (s : LinkLayer) : Prop where
  valid : ∀ n ∈ s.nodeSpool, n < s.heap.length
  unique : s.EndpointsUnique

/-- Whether `handlePublicKeyExchange` rewrites the endpoint of the record
stored under the cookie: the payload is a well-sized reply, its cookie is in
the table, the replying record accepts the key, and the record under the
cookie differs from the replying record. -/
def LinkLayer.rewrites (H : Host) (s : LinkLayer) (payload : QByteArray) (node : Nat) : Bool :=
  if checkPacketSize payload sizeof_key_exchange_t packet_size_class_t.PacketSizeGreater =
      false then false
  else if payload.getD 0 0 ≠ 0 then false
  else
    match cookiesLookup s.cookies (fieldAt H payload 1 4) with
    | none => false
    | some origNode =>
      let r := (s.node node).setAuthKey (payload.drop sizeof_key_exchange_t)
      r.1 && ((s.setNode node r.2).node origNode).differs ((s.setNode node r.2).node node)

/-- No datagram of the trace was handed to the transport for the record that
was the router's self node at the time. -/
structure LinkLayer.NeverSentToSelf (s : LinkLayer) : Prop where
  notSelf : ∀ d ∈ s.sent, d.selfNode ≠ some d.node

/-- The states a link layer can be in: what its constructor leaves, followed
by any sequence of received datagrams, expired timers and calls of its public
methods. -/
inductive Reachable (H : Host) : LinkLayer → Prop where
  | init (k : RSAKeyPair) : Reachable H (LinkLayer.init k)
  | handlePacket (s : LinkLayer) (data : QByteArray) (host : QHostAddress) (port : Nat) :
      Reachable H s → Reachable H (s.handlePacket H data host port)
  | joinNetwork (s : LinkLayer) (remoteIP : QHostAddress) (remotePort : Nat) (nat : Bool) :
      Reachable H s → Reachable H (s.joinNetwork H remoteIP remotePort nat).2
  | createNetwork (s : LinkLayer) (localIP : QHostAddress) (divisor : Nat) :
      Reachable H s → Reachable H (s.createNetwork H localIP divisor).2
  | exitNetwork (s : LinkLayer) : Reachable H s → Reachable H (s.exitNetwork H)
  | joinTimeout (s : LinkLayer) : Reachable H s → Reachable H s.joinTimeout
  | pingTimeout (s : LinkLayer) : Reachable H s → Reachable H (s.pingTimeout H)
  | negotiationTimeout (s : LinkLayer) (node : Nat) :
      Reachable H s → Reachable H (s.negotiationTimeout node)
  | sendDataToNode (s : LinkLayer) (packet : QByteArray) (node : Nat) :
      Reachable H s → Reachable H (s.sendDataToNode H packet node)
  | sendRouteRequest (s : LinkLayer) (host : QHostAddress) :
      Reachable H s → Reachable H (s.sendRouteRequest H host)

/-- A host for the examples: a stand-in digest and the identity as cipher. -/
def exampleHost (e : Endian) : Host :=
  { endian := e
    calculateSHA1 := fun _ =>
      [1, 2, 3, 4, 5, 6, 7, 8, 9, 10, 11, 12, 13, 14, 15, 16, 17, 18, 19, 20]
    encrypt := fun _ d => d
    decrypt := fun _ d => d
    generateKey := fun _ => [1]
    qrand := fun n => n
    ProtocolVersion := 1
    selectMaster := fun l _ => l.head?
    selectWhiteSlave := fun l _ => l.head?
    beginReceiving := true
    getPort := 1801
    indeterminate := 0 }

/-- A small key pair for the examples: N = 61 * 53, E = 17. -/
def exampleKey : RSAKeyPair :=
  { RSAKeyPair.init with len := 2, N := ⟨some 3233⟩, E := ⟨some 17⟩, D := ⟨some 2753⟩ }

/-- A link layer that has just been constructed. -/
def exampleLink : LinkLayer := LinkLayer.init exampleKey

/-- The four magic bytes alone, which `setPublicKey` accepts. -/
def exampleKeyBytes : QByteArray := [0x42, 0x4D, 0x50, 0x49]

/-- A peer record with negotiated keys. -/
def exampleNegotiatedPeer : SparkleNode :=
  { SparkleNode.new 167772161 1801 [7] with keyNegotiationDone := true, hisSessionKey := [7] }

/-- A peer record without negotiated keys and with two queued payloads. -/
def exampleWaitingPeer : SparkleNode :=
  { SparkleNode.new 167772161 1801 [7] with queue := [[5, 0, 19, 0, 1], [6, 0, 19, 0, 2, 3]] }

/-- A link layer that knows exactly one peer. -/
def exampleLinkWith (n : SparkleNode) : LinkLayer :=
  { exampleLink with heap := [n], nodeSpool := [0] }

/-- A link layer that has just started to join through the peer at
10.0.0.1, port 1801. -/
def exampleJoining : LinkLayer :=
  (exampleLink.joinNetwork (exampleHost Endian.little) 167772161 1801 false).2

/-- A peer record of the example network: record `i` sits at 10.0.0.(1 + i),
port 1801, with negotiated keys. -/
def exampleRecord (i : Nat) (master behindNAT : Bool) : SparkleNode :=
  { SparkleNode.new (167772161 + i) 1801 [7] with
    master := master, behindNAT := behindNAT, keyNegotiationDone := true, hisSessionKey := [7] }

/-- The link layer of a master (record 0, the self node) in a network of
`masters` masters and `slaves` slaves, none behind NAT, with one more peer
known to the node spool that has not registered yet (the last record). -/
def exampleNetwork (masters slaves divisor : Nat) : LinkLayer :=
  { exampleLink with
    heap := (List.range (masters + slaves + 1)).map
      (fun i => exampleRecord i (decide (i < masters)) false)
    nodeSpool := List.range (masters + slaves + 1)
    router := { selfNode := some 0, nodes := List.range (masters + slaves) }
    networkDivisor := divisor
    joinStep := join_step_t.JoinFinished
    transportInitiated := true }

/-- The payload of a Route packet on a little-endian host that names the peer
at 10.0.0.9, port 1801, with overlay address 1.2.3.14, as a master behind
NAT. -/
def exampleRoutePayload : QByteArray :=
  [9, 0, 0, 10, 9, 7, 14, 3, 2, 1, 2, 1, 2, 3, 4, 5, 1, 1]

/-- A link layer that has received, from the peer at 10.0.0.1, a
SessionKeyExchange and then, encrypted, the Route packet of the example. -/
def exampleRouted : LinkLayer :=
  (exampleLink.handlePacket (exampleHost Endian.little)
    (frame (exampleHost Endian.little) packet_type_t.SessionKeyExchange [0, 0, 0, 0, 0, 7])
    167772161 1801).handlePacket (exampleHost Endian.little)
    (frame (exampleHost Endian.little) packet_type_t.EncryptedPacket
      (frame (exampleHost Endian.little) packet_type_t.Route exampleRoutePayload))
    167772161 1801

/-- The payload of a Route packet on a little-endian host that names the
endpoint 10.0.0.1, port 1801, with overlay address 1.2.3.14, as a master not
behind NAT. -/
def exampleSelfRoutePayload : QByteArray :=
  [1, 0, 0, 10, 9, 7, 14, 3, 2, 1, 2, 1, 2, 3, 4, 5, 1, 0]

/-- The link layer of the node that created a network at 10.0.0.1, port 1801,
with divisor 2. -/
def exampleCreated : LinkLayer :=
  (exampleLink.createNetwork (exampleHost Endian.little) 167772161 2).2

/-- The creator of the network after the peer at 10.0.0.2 has sent it a
SessionKeyExchange and then, encrypted, a RegisterRequest as a peer that is
not behind NAT. -/
def exampleCreatedWithPeer : LinkLayer :=
  (exampleCreated.handlePacket (exampleHost Endian.little)
    (frame (exampleHost Endian.little) packet_type_t.SessionKeyExchange [0, 0, 0, 0, 0, 7])
    167772162 1801).handlePacket (exampleHost Endian.little)
    (frame (exampleHost Endian.little) packet_type_t.EncryptedPacket
      (frame (exampleHost Endian.little) packet_type_t.RegisterRequest [0]))
    167772162 1801

/-- A joining link layer whose bootstrap peer at 10.0.0.1 has answered with
the right protocol version: the MasterNodeRequest is queued for the peer and
a PublicKeyExchange with cookie 0 has been sent to it. -/
def exampleNegotiating : LinkLayer :=
  exampleJoining.handlePacket (exampleHost Endian.little)
    (frame (exampleHost Endian.little) packet_type_t.ProtocolVersionReply [1, 0, 0, 0])
    167772161 1801

/-- The payload of a PublicKeyExchange reply on a little-endian host:
`needOthersKey = 0`, cookie 0 and a key of the four magic bytes. -/
def exampleKeyReply : QByteArray := [0, 0, 0, 0, 0] ++ exampleKeyBytes

/-- The same link layer when a datagram from the unknown endpoint 10.0.0.5,
port 1801, has just been given a record (record 1) by `wrapNode`. -/
def exampleNegotiatingNAT : LinkLayer :=
  (exampleNegotiating.wrapNode (exampleHost Endian.little) 167772165 1801).2

/-- The joining link layer after the reply to its PublicKeyExchange has come
from 10.0.0.5 instead of 10.0.0.1. -/
def exampleMerged : LinkLayer :=
  exampleNegotiating.handlePacket (exampleHost Endian.little)
    (frame (exampleHost Endian.little) packet_type_t.PublicKeyExchange exampleKeyReply)
    167772165 1801

/-- A joining link layer that waits for the last of four pings: its bootstrap
peer at 10.0.0.1 has completed the key exchange, has named itself as the
master to register at, and has sent three pings that carried the endpoint
10.0.0.2, port 4000. -/
def exampleAwaitingPings : LinkLayer :=
  ((((((exampleNegotiating.handlePacket (exampleHost Endian.little)
    (frame (exampleHost Endian.little) packet_type_t.PublicKeyExchange exampleKeyReply)
    167772161 1801).handlePacket (exampleHost Endian.little)
    (frame (exampleHost Endian.little) packet_type_t.SessionKeyExchange [0, 0, 0, 0, 0, 7])
    167772161 1801).handlePacket (exampleHost Endian.little)
    (frame (exampleHost Endian.little) packet_type_t.EncryptedPacket
      (frame (exampleHost Endian.little) packet_type_t.MasterNodeReply [1, 0, 0, 10, 9, 7]))
    167772161 1801).handlePacket (exampleHost Endian.little)
    (frame (exampleHost Endian.little) packet_type_t.Ping [2, 0, 0, 10, 160, 15])
    167772161 1801).handlePacket (exampleHost Endian.little)
    (frame (exampleHost Endian.little) packet_type_t.Ping [2, 0, 0, 10, 160, 15])
    167772161 1801).handlePacket (exampleHost Endian.little)
    (frame (exampleHost Endian.little) packet_type_t.Ping [2, 0, 0, 10, 160, 15])
    167772161 1801)

/-- A joining link layer that waits for the first of four pings: its bootstrap
peer at 10.0.0.1 has completed the key exchange and has named itself as the
master to register at. -/
def exampleAwaitingFirstPing : LinkLayer :=
  ((exampleNegotiating.handlePacket (exampleHost Endian.little)
    (frame (exampleHost Endian.little) packet_type_t.PublicKeyExchange exampleKeyReply)
    167772161 1801).handlePacket (exampleHost Endian.little)
    (frame (exampleHost Endian.little) packet_type_t.SessionKeyExchange [0, 0, 0, 0, 0, 7])
    167772161 1801).handlePacket (exampleHost Endian.little)
    (frame (exampleHost Endian.little) packet_type_t.EncryptedPacket
      (frame (exampleHost Endian.little) packet_type_t.MasterNodeReply [1, 0, 0, 10, 9, 7]))
    167772161 1801

/-- The creator of the network after the peer at 10.0.0.2 has sent it a
SessionKeyExchange and then, encrypted, a RegisterRequest as a peer that is
behind NAT. -/
def exampleCreatedWithNatPeer : LinkLayer :=
  (exampleCreated.handlePacket (exampleHost Endian.little)
    (frame (exampleHost Endian.little) packet_type_t.SessionKeyExchange [0, 0, 0, 0, 0, 7])
    167772162 1801).handlePacket (exampleHost Endian.little)
    (frame (exampleHost Endian.little) packet_type_t.EncryptedPacket
      (frame (exampleHost Endian.little) packet_type_t.RegisterRequest [1]))
    167772162 1801

/-- One call of `sendEncryptedPacket`: the type and the payload of the packet
and the record it is for. -/
structure GateCall where
  type : packet_type_t
  data : QByteArray
  node : Nat
deriving DecidableEq, Repr

/-- A sequence of calls of `sendEncryptedPacket`, one after the other. -/
def LinkLayer.sendAll (H : Host) (s : LinkLayer) (calls : List GateCall) : LinkLayer :=
  calls.foldl (fun st c => st.sendEncryptedPacket H c.type c.data c.node) s

/-- The datagram `encryptAndSend` hands to the transport for a call of
`sendEncryptedPacket` whose record has negotiated keys. -/
def LinkLayer.encryptedDatagram (H : Host) (s : LinkLayer) (c : GateCall) : Datagram :=
  ⟨frame H packet_type_t.EncryptedPacket
      (H.encrypt (s.node c.node).mySessionKey (frame H c.type c.data)),
    (s.node c.node).host, (s.node c.node).port, c.node, s.router.selfNode⟩

/-- The Route packets of a registration, in the order `handleRegisterRequest`
sends them: for each record of `updates` a Route that describes it, for the
registering peer, and a Route that describes the registering peer, for it;
then a Route that describes the self node, for the registering peer. -/
def LinkLayer.registrationGossip (H : Host) (s : LinkLayer) (updates : List Nat)
    (node self : Nat) : List GateCall :=
  (updates.flatMap fun u =>
    [⟨packet_type_t.Route, routeBytes H (s.node u), node⟩,
     ⟨packet_type_t.Route, routeBytes H (s.node node), u⟩]) ++
  [⟨packet_type_t.Route, routeBytes H (s.node self), node⟩]

/-- The number of `readyForShutdown` signals a link layer has emitted. -/
def LinkLayer.shutdownSignals (s : LinkLayer) : Nat :=
  s.emitted.count Signal.readyForShutdown

/-- The link layer has emitted `readyForShutdown` exactly `k` times. -/
structure LinkLayer.ShutdownCount (s : LinkLayer) (k : Nat) : Prop where
  count : s.shutdownSignals = k

/-- A type value that the outer `switch` of `handlePacket` sends to its
`default` branch: one of the fourteen opcodes that travel encrypted only, or
no opcode at all. -/
def outerUnknown (type : Nat) : Bool :=
  match packet_type_t.ofCode type with
  | none => true
  | some t => !t.isOuter

/-- A type value that the inner `switch` of `handlePacket` sends to its
`default` branch: one of the six opcodes that travel unencrypted
(EncryptedPacket among them), or no opcode at all. -/
def innerUnknown (type : Nat) : Bool :=
  match packet_type_t.ofCode type with
  | none => true
  | some t => t.isOuter

/-- The place of a join step in the order
`VersionRequest < MasterNodeRequest < AwaitingPings < Registration < Finished`. -/
def join_step_t.rank : join_step_t → Nat
  | join_step_t.JoinVersionRequest => 0
  | join_step_t.JoinMasterNodeRequest => 1
  | join_step_t.JoinAwaitingPings => 2
  | join_step_t.JoinRegistration => 3
  | join_step_t.JoinFinished => 4

/-- The join step of the link layer is `j`. -/
structure LinkLayer.StepIs (s : LinkLayer) (j : join_step_t) : Prop where
  eq : s.joinStep = j

/-! ## RSAKeyPair: encryption in blocks -/

/-- The PKCS#1 primitives of the bundled RSA library (`crypto/rsa.h` is not
among the sources) and the memory `new unsigned char[]` hands out. -/
structure Pkcs1 where
  /-- The bytes `rsa_pkcs1_encrypt` writes to the start of its output buffer
  when it is called in public mode with the given key, at the given state of
  the random number source, on the given input bytes; nothing on an error. -/
  rsa_pkcs1_encrypt : RSAKeyPair → Nat → QByteArray → QByteArray
  /-- The bytes `QByteArray(chunk, dec)` holds after `rsa_pkcs1_decrypt` has
  been called in private mode with the given key on the given input bytes and
  output limit; on an error of the primitive `dec` is not set and the value
  stands for whatever the array then holds. -/
  rsa_pkcs1_decrypt : RSAKeyPair → QByteArray → Int → QByteArray
  /-- The value of a byte of memory that has not been written. -/
  indeterminate : Byte

/-- The value of the `int rsize = d->key.len` of `encrypt` and `decrypt`: the
32-bit pattern of the field, read as a signed number. -/
def RSAKeyPair.rsize (k : RSAKeyPair) : Int :=
  if k.len.val < 2147483648 then (k.len.val : Int) else (k.len.val : Int) - 4294967296

/-- `QByteArray::right` of Qt: the last `len` bytes, the whole array when
`len` is not below its size, and nothing when `len` is negative. -/
def QByteArray.right (a : QByteArray) (len : Int) : QByteArray :=
  if len ≥ a.length then a
  else if len < 0 then []
  else a.drop (a.length - len.toNat)

/-- A buffer after `w` has been written to its start. -/
def overwrite (buf w : QByteArray) : QByteArray := (w ++ buf.drop w.length).take buf.length

/-- The variables of the loop of `RSAKeyPair::encrypt`: what is left of the
plaintext, the output, the buffer `chunk`, and the state of the random number
source, counted in calls of the primitive. -/
structure EncryptState where
  plaintext : QByteArray
  output : QByteArray
  chunk : QByteArray
  calls : Nat
deriving DecidableEq, Repr

/-- One run of the body of the loop of `RSAKeyPair::encrypt`. -/
def RSAKeyPair.encryptStep (P : Pkcs1) (k : RSAKeyPair) (st : EncryptState) : EncryptState :=
  let rsize := k.rsize
  let flen := rsize - 11
  let dlen : Int := min flen st.plaintext.length
  let chunk := overwrite st.chunk (P.rsa_pkcs1_encrypt k st.calls (st.plaintext.take dlen.toNat))
  { plaintext := st.plaintext.right (st.plaintext.length - dlen),
    output := st.output ++ chunk.take rsize.toNat,
    chunk := chunk,
    calls := st.calls + 1 }

/-- The loop of `RSAKeyPair::encrypt`, run for at most `fuel` tests of its
condition: `none` when the loop has not ended by then. -/
def RSAKeyPair.encryptLoop (P : Pkcs1) (k : RSAKeyPair) : Nat → EncryptState → Option QByteArray
  | 0, _ => none
  | fuel + 1, st =>
    if st.plaintext.length > 0 then RSAKeyPair.encryptLoop P k fuel (k.encryptStep P st)
    else some st.output

/-- Sparkle `RSAKeyPair::encrypt`, with the loop run for at most `fuel` tests
of its condition and the random number source at the state `rng`. There is
no result either when `rsize` is negative: the allocation of `chunk` fails. -/
def RSAKeyPair.encrypt (P : Pkcs1) (k : RSAKeyPair) (fuel rng : Nat) (plaintext : QByteArray) :
    Option QByteArray :=
  if k.rsize < 0 then none
  else RSAKeyPair.encryptLoop P k fuel
    { plaintext := plaintext, output := [],
      chunk := List.replicate k.rsize.toNat P.indeterminate, calls := rng }

/-- The variables of the loop of `RSAKeyPair::decrypt`: what is left of the
cryptotext, and the output. -/
structure DecryptState where
  cryptotext : QByteArray
  output : QByteArray
deriving DecidableEq, Repr

/-- One run of the body of the loop of `RSAKeyPair::decrypt`; the primitive
reads its input block from the start of the cryptotext. -/
def RSAKeyPair.decryptStep (P : Pkcs1) (k : RSAKeyPair) (st : DecryptState) : DecryptState :=
  let rsize := k.rsize
  let dlen : Int := min rsize st.cryptotext.length
  { cryptotext := st.cryptotext.right (st.cryptotext.length - rsize),
    output := st.output ++ P.rsa_pkcs1_decrypt k (st.cryptotext.take rsize.toNat) dlen }

/-- The loop of `RSAKeyPair::decrypt`, run for at most `fuel` tests of its
condition: `none` when the loop has not ended by then. -/
def RSAKeyPair.decryptLoop (P : Pkcs1) (k : RSAKeyPair) : Nat → DecryptState → Option QByteArray
  | 0, _ => none
  | fuel + 1, st =>
    if st.cryptotext.length > 0 then RSAKeyPair.decryptLoop P k fuel (k.decryptStep P st)
    else some st.output

/-- Sparkle `RSAKeyPair::decrypt`, with the loop run for at most `fuel` tests
of its condition. There is no result either when `rsize` is negative: the
allocation of `chunk` fails. -/
def RSAKeyPair.decrypt (P : Pkcs1) (k : RSAKeyPair) (fuel : Nat) (cryptotext : QByteArray) :
    Option QByteArray :=
  if k.rsize < 0 then none
  else RSAKeyPair.decryptLoop P k fuel { cryptotext := cryptotext, output := [] }

/-- The consecutive chunks of `n` bytes of `p`, the last possibly shorter, cut
in at most `fuel` pieces. -/
def chunksAux (n : Nat) : Nat → QByteArray → List QByteArray
  | 0, _ => []
  | fuel + 1, p => if p = [] then [] else p.take n :: chunksAux n fuel (p.drop n)

/-- In the words of the specification: `p` split into consecutive chunks of
`n` bytes, the last possibly shorter. -/
def chunks (n : Nat) (p : QByteArray) : List QByteArray := chunksAux n p.length p

/-- In the words of the specification: one block per chunk, in order; each
block is what the buffer holds once the primitive has encrypted the chunk. -/
def blocksOf (P : Pkcs1) (k : RSAKeyPair) : List QByteArray → QByteArray → Nat → List QByteArray
  | [], _, _ => []
  | c :: cs, buf, rng =>
    (overwrite buf (P.rsa_pkcs1_encrypt k rng c)).take k.rsize.toNat ::
      blocksOf P k cs (overwrite buf (P.rsa_pkcs1_encrypt k rng c)) (rng + 1)

/-- The number of chunks, `ceil(n / m)`. -/
def ceilDiv (n m : Nat) : Nat := (n + m - 1) / m

/-- A key whose modulus has sixteen bytes. -/
def exampleBlockKey : RSAKeyPair := { exampleKey with len := 16 }

/-- A stand-in for the PKCS#1 primitives: a block is the length of its chunk,
the chunk, and the state of the random number source to fill the block; it is
decrypted by reading the chunk back. -/
def examplePkcs1 : Pkcs1 :=
  { rsa_pkcs1_encrypt := fun k rng c =>
      (byte c.length :: c) ++ List.replicate (k.rsize.toNat - 1 - c.length) (byte rng),
    rsa_pkcs1_decrypt := fun _ b _ => (b.drop 1).take (b.getD 0 0).val,
    indeterminate := 0 }

/-- A host whose session cipher fills its input with zero bytes up to a
multiple of eight bytes and decrypts by returning what it is given. -/
def examplePaddingHost : Host :=
  { exampleHost Endian.little with
    encrypt := fun _ d => d ++ List.replicate ((8 - d.length % 8) % 8) 0 }

theorem beBytes_length (v n : Nat) : (beBytes v n).length = n := by
  induction n generalizing v with
  | zero => rfl
  | succ n ih => simp [beBytes, ih]

theorem beValue_snoc (a : List Byte) (x : Byte) :
    beValue (a ++ [x]) = beValue a * 256 + x.val := by
  simp [beValue, List.foldl_append]

theorem beValue_beBytes (v n : Nat) : beValue (beBytes v n) = v % 256 ^ n := by
  induction n generalizing v with
  | zero => simp [beBytes, beValue, Nat.mod_one]
  | succ n ih =>
    simp only [beBytes]
    rw [beValue_snoc, ih]
    simp only [byte]
    rw [pow_succ, mul_comm (256 ^ n) 256, Nat.mod_mul]
    ring

theorem hostBytes_length (e : Endian) (v n : Nat) : (hostBytes e v n).length = n := by
  cases e <;> simp [hostBytes, beBytes_length]

theorem hostValue_hostBytes (e : Endian) (v n : Nat) :
    hostValue e (hostBytes e v n) = v % 256 ^ n := by
  cases e <;> simp [hostValue, hostBytes, beValue_beBytes]

/-! ## Key serialisation -/

theorem lt_two_pow_msbAux (fuel v : Nat) (h : v ≤ fuel) : v < 2 ^ msbAux fuel v := by
  induction fuel generalizing v with
  | zero =>
    have : v = 0 := by omega
    subst this
    simp [msbAux]
  | succ f ih =>
    simp only [msbAux]
    split
    · rename_i h0
      subst h0
      simp
    · have := ih (v / 2) (by omega)
      rw [pow_succ]
      omega

theorem lt_pow_mpi_size (v : Nat) : v < 256 ^ mpi_size v := by
  have h1 := lt_two_pow_msbAux v v (le_refl v)
  have h2 : (256 : Nat) ^ mpi_size v = 2 ^ (8 * mpi_size v) := by
    rw [pow_mul]; norm_num
  rw [h2]
  refine lt_of_lt_of_le h1 (Nat.pow_le_pow_right (by decide) ?_)
  unfold mpi_size mpi_msb
  omega

theorem mpi_size_pos (v : Nat) (h : v ≠ 0) : 0 < mpi_size v := by
  have := lt_pow_mpi_size v
  by_contra hc
  have h0 : mpi_size v = 0 := by omega
  rw [h0] at this
  simp at this
  exact h this

theorem readRawData_append (a rest : QByteArray) :
    readRawData a.length (a ++ rest) = (some a, rest) := by
  simp [readRawData]

theorem readUInt32_write (v : Nat) (rest : QByteArray) :
    readUInt32 (writeUInt32 v ++ rest) = (v % 4294967296, rest) := by
  have hl : (writeUInt32 v).length = 4 := beBytes_length v 4
  have := readRawData_append (writeUInt32 v) rest
  rw [hl] at this
  simp only [readUInt32, this]
  simp [writeUInt32, beValue_beBytes]

theorem readByteArray_write_some (bs rest : QByteArray) (h : bs.length < 4294967295) :
    readByteArray (writeByteArray (some bs) ++ rest) = (bs, rest) := by
  simp only [readByteArray, writeByteArray, List.append_assoc, readUInt32_write]
  have : bs.length % 4294967296 = bs.length := Nat.mod_eq_of_lt (by omega)
  rw [this]
  simp only [readRawData_append]
  rw [if_neg (by omega)]

theorem readByteArray_write_none (rest : QByteArray) :
    readByteArray (writeByteArray none ++ rest) = ([], rest) := by
  simp [readByteArray, writeByteArray, readUInt32_write]

/-- What `operator<<` writes for a storable number, `operator>>` reads back,
leaving the rest of the stream. -/
theorem readMpi_writeMpi (x : mpi) (rest : QByteArray) (h : x.Storable) :
    readMpi (writeMpi x ++ rest) = (x, rest) := by
  obtain ⟨p⟩ := x
  cases p with
  | none => simp [readMpi, writeMpi, mpiRaw, readByteArray_write_none, mpi_free]
  | some v =>
    obtain ⟨h0, h1⟩ := h
    have hv : v ≠ 0 := by simpa using h0
    have hs := h1 v rfl
    have hl : (mpi_write_binary v (mpi_size v)).length = mpi_size v := beBytes_length _ _
    simp only [readMpi, writeMpi, mpiRaw]
    rw [readByteArray_write_some _ _ (by rw [hl]; omega)]
    have hp := mpi_size_pos v hv
    simp only [hl]
    rw [if_neg (by omega)]
    simp only [mpi_read_binary, mpi_write_binary, beValue_beBytes]
    rw [Nat.mod_eq_of_lt (lt_pow_mpi_size v)]

theorem setPublicKey_publicKey_eq (k t : RSAKeyPair)
    (hN : k.N.Storable) (hE : k.E.Storable) (hRN : k.RN.Storable) :
    t.setPublicKey k.publicKey =
      (true, { t with ver := k.ver, len := k.len, N := k.N, E := k.E, RN := k.RN }) := by
  have hm : KeyMagic % 4294967296 = KeyMagic := by decide
  have hver : word32 (k.ver.val % 4294967296) = k.ver := by
    apply Fin.ext; simp [word32]
  have hlen : word32 (k.len.val % 4294967296) = k.len := by
    apply Fin.ext; simp [word32]
  have hRN2 := readMpi_writeMpi k.RN [] hRN
  simp only [List.append_nil] at hRN2
  unfold RSAKeyPair.setPublicKey RSAKeyPair.publicKey
  rw [List.append_assoc, List.append_assoc, List.append_assoc, List.append_assoc]
  rw [readUInt32_write]
  rw [hm]
  dsimp only
  rw [if_neg (not_not.mpr rfl)]
  rw [readUInt32_write]
  simp only []
  rw [readUInt32_write]
  simp only []
  rw [readMpi_writeMpi _ _ hN]
  simp only []
  rw [readMpi_writeMpi _ _ hE]
  simp only [hRN2, hver, hlen]

/-! ## Overlay identity (C1, C2) and the public-key round trip (C3) -/

/-- C1, as stated, fails: on a little-endian host a key that
`SparkleNode::setPublicKey` accepts, with fingerprint bytes 1, 2, 3, ..., gives
the overlay address 14.3.2.1 and not 1.2.3.14. -/
theorem overlayIP_not_fingerprint_order :
    ((SparkleNode.new 0 0 []).setPublicKey (exampleHost Endian.little) exampleKeyBytes).1 = true ∧
    ((exampleHost Endian.little).calculateSHA1 exampleKeyBytes).take 3 = [1, 2, 3] ∧
    QHostAddress.octets
      ((SparkleNode.new 0 0 []).setPublicKey (exampleHost Endian.little) exampleKeyBytes).2.getIP
      = [14, 3, 2, 1] ∧
    QHostAddress.octets
      ((SparkleNode.new 0 0 []).setPublicKey (exampleHost Endian.little) exampleKeyBytes).2.getIP
      ≠ [1, 2, 3, 14] := by
  decide

/-- C1 (amended): for every public key `SparkleNode::setPublicKey` accepts,
with fingerprint `fp = SHA1(key)` starting `b0, b1, b2`, the overlay address
afterwards is `QHostAddress(n)` where `n` is the bytes `{b0, b1, b2, 14}` read
as a 32-bit integer of the host; its dotted form is `b0.b1.b2.14` on a
big-endian host and `14.b2.b1.b0` on a little-endian host. -/
theorem overlayIP_of_setPublicKey (H : Host) (n : SparkleNode) (key : QByteArray)
    (b0 b1 b2 : Byte) (rest : QByteArray)
    (hacc : (n.setPublicKey H key).1 = true)
    (hfp : H.calculateSHA1 key = b0 :: b1 :: b2 :: rest) :
    (n.setPublicKey H key).2.getIP = hostValue H.endian [b0, b1, b2, 14] ∧
    (H.endian = Endian.big →
      QHostAddress.octets (n.setPublicKey H key).2.getIP = [b0.val, b1.val, b2.val, 14]) ∧
    (H.endian = Endian.little →
      QHostAddress.octets (n.setPublicKey H key).2.getIP = [14, b2.val, b1.val, b0.val]) := by
  have hne : ¬ ((n.keyPair.setPublicKey key).1 = false) := by
    intro hf
    simp [SparkleNode.setPublicKey, hf] at hacc
  have hip : (n.setPublicKey H key).2.getIP = hostValue H.endian [b0, b1, b2, 14] := by
    simp [SparkleNode.setPublicKey, hne, SparkleNode.configure, SparkleNode.getIP, hfp]
  refine ⟨hip, ?_, ?_⟩
  · intro he
    rw [hip, he]
    simp only [hostValue, beValue, List.foldl, QHostAddress.octets]
    have h0 := b0.isLt
    have h1 := b1.isLt
    have h2 := b2.isLt
    simp only [List.cons.injEq, and_true]
    refine ⟨?_, ?_, ?_, ?_⟩ <;> omega
  · intro he
    rw [hip, he]
    simp only [hostValue, beValue, List.reverse_cons, List.reverse_nil, List.nil_append,
      List.cons_append, List.foldl, QHostAddress.octets]
    have h0 := b0.isLt
    have h1 := b1.isLt
    have h2 := b2.isLt
    simp only [List.cons.injEq, and_true]
    refine ⟨?_, ?_, ?_, ?_⟩ <;> omega

/-- Witness of `overlayIP_of_setPublicKey`: the magic bytes as key on a
big-endian host, fingerprint 1, 2, 3, ... -/
theorem overlayIP_of_setPublicKey_witness :
    ((SparkleNode.new 0 0 []).setPublicKey (exampleHost Endian.big) exampleKeyBytes).1 = true ∧
    (exampleHost Endian.big).calculateSHA1 exampleKeyBytes =
      1 :: 2 :: 3 :: [4, 5, 6, 7, 8, 9, 10, 11, 12, 13, 14, 15, 16, 17, 18, 19, 20] ∧
    QHostAddress.octets
      ((SparkleNode.new 0 0 []).setPublicKey (exampleHost Endian.big) exampleKeyBytes).2.getIP
      = [1, 2, 3, 14] :=
  ⟨by decide, rfl,
    (overlayIP_of_setPublicKey (exampleHost Endian.big) (SparkleNode.new 0 0 []) exampleKeyBytes
      1 2 3 [4, 5, 6, 7, 8, 9, 10, 11, 12, 13, 14, 15, 16, 17, 18, 19, 20]
      (by decide) rfl).2.1 rfl⟩

/-- C2: for every public key `SparkleNode::setPublicKey` accepts, with the
20-byte fingerprint `fp = SHA1(key)`, the overlay MAC afterwards is exactly
six bytes long: `0x02` followed by `fp[0], fp[1], fp[2], fp[3], fp[4]`. -/
theorem overlayMAC_of_setPublicKey (H : Host) (n : SparkleNode) (key : QByteArray)
    (b0 b1 b2 b3 b4 : Byte) (rest : QByteArray)
    (hacc : (n.setPublicKey H key).1 = true)
    (hfp : H.calculateSHA1 key = b0 :: b1 :: b2 :: b3 :: b4 :: rest)
    (hlen : (H.calculateSHA1 key).length = 20) :
    (n.setPublicKey H key).2.getMAC = [2, b0, b1, b2, b3, b4] ∧
    (n.setPublicKey H key).2.getMAC.length = 6 ∧
    (n.setPublicKey H key).2.getMAC = 2 :: (H.calculateSHA1 key).take 5 := by
  have hne : ¬ ((n.keyPair.setPublicKey key).1 = false) := by
    intro hf
    simp [SparkleNode.setPublicKey, hf] at hacc
  have hm : (n.setPublicKey H key).2.getMAC = 2 :: (H.calculateSHA1 key).take 5 := by
    simp [SparkleNode.setPublicKey, hne, SparkleNode.configure, SparkleNode.getMAC]
  refine ⟨?_, ?_, hm⟩
  · rw [hm, hfp]; rfl
  · rw [hm]; simp [hlen]

/-- Witness of `overlayMAC_of_setPublicKey`. -/
theorem overlayMAC_of_setPublicKey_witness :
    ((SparkleNode.new 0 0 []).setPublicKey (exampleHost Endian.little) exampleKeyBytes).1 = true ∧
    ((exampleHost Endian.little).calculateSHA1 exampleKeyBytes).length = 20 ∧
    ((SparkleNode.new 0 0 []).setPublicKey (exampleHost Endian.little) exampleKeyBytes).2.getMAC
      = [2, 1, 2, 3, 4, 5] :=
  ⟨by decide, rfl,
    (overlayMAC_of_setPublicKey (exampleHost Endian.little) (SparkleNode.new 0 0 [])
      exampleKeyBytes 1 2 3 4 5 [6, 7, 8, 9, 10, 11, 12, 13, 14, 15, 16, 17, 18, 19, 20]
      (by decide) rfl rfl).1⟩

/-- C3: public-key round trip. For every key pair `k` whose public numbers
N, E and RN are values the binary write/read pair carries (not allocated, or
non-zero and of a size a `QByteArray` holds), `setPublicKey(publicKey(k))`
applied to any key pair `t` returns true and leaves the public fields ver,
len, N, E, RN of the result equal to those of `k` (the other fields stay
those of `t`); so `publicKey` of the result equals `publicKey(k)` byte for
byte. -/
theorem setPublicKey_publicKey_roundtrip (k t : RSAKeyPair)
    (hN : k.N.Storable) (hE : k.E.Storable) (hRN : k.RN.Storable) :
    (t.setPublicKey k.publicKey).1 = true ∧
    (t.setPublicKey k.publicKey).2.ver = k.ver ∧
    (t.setPublicKey k.publicKey).2.len = k.len ∧
    (t.setPublicKey k.publicKey).2.N = k.N ∧
    (t.setPublicKey k.publicKey).2.E = k.E ∧
    (t.setPublicKey k.publicKey).2.RN = k.RN ∧
    (t.setPublicKey k.publicKey).2 =
      { t with ver := k.ver, len := k.len, N := k.N, E := k.E, RN := k.RN } ∧
    (t.setPublicKey k.publicKey).2.publicKey = k.publicKey := by
  rw [setPublicKey_publicKey_eq k t hN hE hRN]
  refine ⟨rfl, rfl, rfl, rfl, rfl, rfl, rfl, ?_⟩
  simp only [RSAKeyPair.publicKey]

/-- Witness of `setPublicKey_publicKey_roundtrip`: the example key read into
a fresh key pair. -/
theorem setPublicKey_publicKey_roundtrip_witness :
    exampleKey.N.Storable ∧ exampleKey.E.Storable ∧ exampleKey.RN.Storable ∧
    (RSAKeyPair.init.setPublicKey exampleKey.publicKey).1 = true ∧
    (RSAKeyPair.init.setPublicKey exampleKey.publicKey).2.publicKey = exampleKey.publicKey :=
  ⟨by decide, by decide, by decide,
    (setPublicKey_publicKey_roundtrip exampleKey RSAKeyPair.init
      (by decide) (by decide) (by decide)).1,
    (setPublicKey_publicKey_roundtrip exampleKey RSAKeyPair.init
      (by decide) (by decide) (by decide)).2.2.2.2.2.2.2⟩

/-! ## Framing (C4, C5, C6) -/

theorem headerBytes_length (H : Host) (l t : Nat) : (headerBytes H l t).length = 4 := by
  simp [headerBytes, hostBytes_length]

theorem frame_length (H : Host) (t : packet_type_t) (p : QByteArray) :
    (frame H t p).length = 4 + p.length := by
  simp [frame, headerBytes_length]

theorem hdrLength_frame (H : Host) (t : packet_type_t) (p : QByteArray) :
    hdrLength H (frame H t p) = (4 + p.length) % 65536 := by
  have h : (hostBytes H.endian (sizeof_packet_header_t + p.length) 2).length = 2 :=
    hostBytes_length _ _ _
  simp only [hdrLength, fieldAt, frame, headerBytes, List.drop_zero, List.append_assoc]
  rw [List.take_append_of_le_length (by omega), List.take_of_length_le (by omega),
    hostValue_hostBytes]
  rfl

theorem hdrType_frame (H : Host) (t : packet_type_t) (p : QByteArray) :
    hdrType H (frame H t p) = t.code % 65536 := by
  have h : (hostBytes H.endian (sizeof_packet_header_t + p.length) 2).length = 2 :=
    hostBytes_length _ _ _
  have h2 : (hostBytes H.endian t.code 2).length = 2 := hostBytes_length _ _ _
  simp only [hdrType, fieldAt, frame, headerBytes, List.append_assoc]
  rw [List.drop_append_of_le_length (by omega), List.drop_of_length_le (by omega),
    List.nil_append, List.take_append_of_le_length (by omega), List.take_of_length_le (by omega),
    hostValue_hostBytes]
  rfl

theorem code_lt (t : packet_type_t) : t.code < 20 := by
  cases t <;> decide

theorem ofCode_code (t : packet_type_t) : packet_type_t.ofCode t.code = some t := by
  cases t <;> rfl

theorem drop_frame (H : Host) (t : packet_type_t) (p : QByteArray) :
    (frame H t p).drop sizeof_packet_header_t = p := by
  have := headerBytes_length H (sizeof_packet_header_t + p.length) t.code
  simp only [frame, sizeof_packet_header_t] at *
  rw [List.drop_append_of_le_length (by omega), List.drop_of_length_le (by omega)]
  rfl

theorem wrapNode_router (H : Host) (s : LinkLayer) (host : QHostAddress) (port : Nat) :
    (s.wrapNode H host port).2.router = s.router := by
  unfold LinkLayer.wrapNode
  split <;> rfl

theorem wrapNode_of_knows (H : Host) (s : LinkLayer) (host : QHostAddress) (port : Nat)
    (h : s.knows host port = true) : (s.wrapNode H host port).2 = s := by
  unfold LinkLayer.wrapNode
  split
  · rfl
  · rename_i hnone
    simp only [LinkLayer.knows, List.any_eq_true] at h
    obtain ⟨n, hn, hp⟩ := h
    have := List.find?_eq_none.mp hnone n hn
    exact absurd hp this

theorem wrapNode_of_not_knows (H : Host) (s : LinkLayer) (host : QHostAddress) (port : Nat)
    (h : s.knows host port = false) :
    s.wrapNode H host port =
      (s.heap.length,
        { s with
          heap := s.heap ++ [SparkleNode.new host port (H.generateKey s.heap.length)]
          nodeSpool := s.nodeSpool ++ [s.heap.length] }) := by
  unfold LinkLayer.wrapNode
  split
  · rename_i n hsome
    have hmem := List.mem_of_find?_eq_some hsome
    have hp := List.find?_some hsome
    have : s.knows host port = true := by
      simp only [LinkLayer.knows, List.any_eq_true]
      exact ⟨n, hmem, hp⟩
    rw [h] at this
    exact absurd this (by simp)
  · rfl

theorem handleOuter_malformed (H : Host) (s : LinkLayer) (type : Nat) (payload : QByteArray)
    (node : Nat)
    (h : (match packet_type_t.ofCode type with
          | none => true
          | some t => !t.isOuter || sizeViolated t payload) = true) :
    s.handleOuter H type payload node = s := by
  unfold LinkLayer.handleOuter
  cases hc : packet_type_t.ofCode type with
  | none => rfl
  | some t =>
    rw [hc] at h
    cases t <;>
      simp [packet_type_t.isOuter, sizeViolated, sizeRequirement] at h <;>
      simp [LinkLayer.handleProtocolVersionRequest, LinkLayer.handleProtocolVersionReply,
        LinkLayer.handlePublicKeyExchange, LinkLayer.handleSessionKeyExchange,
        LinkLayer.handlePing, h]

theorem handleInner_malformed (H : Host) (s : LinkLayer) (type : Nat) (payload : QByteArray)
    (node : Nat)
    (h : (match packet_type_t.ofCode type with
          | none => true
          | some t => t.isOuter || sizeViolated t payload) = true) :
    s.handleInner H type payload node = s := by
  unfold LinkLayer.handleInner
  cases hc : packet_type_t.ofCode type with
  | none => rfl
  | some t =>
    rw [hc] at h
    cases t <;>
      simp [packet_type_t.isOuter, sizeViolated, sizeRequirement] at h <;>
      simp [LinkLayer.handleIntroducePacket, LinkLayer.handleMasterNodeRequest,
        LinkLayer.handleMasterNodeReply, LinkLayer.handlePingRequest,
        LinkLayer.handlePingInitiate, LinkLayer.handleRegisterRequest,
        LinkLayer.handleRegisterReply, LinkLayer.handleRoute, LinkLayer.handleRouteRequest,
        LinkLayer.handleRouteMissing, LinkLayer.handleRouteInvalidate,
        LinkLayer.handleRoleUpdate, LinkLayer.handleExitNotification, h]

theorem handleEncrypted_malformed (H : Host) (s : LinkLayer) (payload : QByteArray) (node : Nat)
    (h : innerMalformed H (H.decrypt (s.node node).hisSessionKey payload) = true) :
    s.handleEncrypted H payload node = s := by
  unfold LinkLayer.handleEncrypted
  split
  · rfl
  · unfold innerMalformed at h
    split
    · rfl
    · rename_i ty pl hf
      rw [hf] at h
      exact handleInner_malformed H s ty pl node h

theorem handlePacket_of_malformedForOpcode (H : Host) (s : LinkLayer) (data : QByteArray)
    (host : QHostAddress) (port : Nat)
    (hframed : ¬ (data.length < sizeof_packet_header_t ∨ hdrLength H data ≠ data.length))
    (hmal : s.malformedForOpcode H data host port = true) :
    s.handlePacket H data host port = (s.wrapNode H host port).2 := by
  unfold LinkLayer.handlePacket
  rw [if_neg hframed]
  simp only [LinkLayer.malformedForOpcode, Bool.or_eq_true, Bool.and_eq_true,
    decide_eq_true_eq] at hmal
  rcases hmal with hout | ⟨henc, hin⟩
  · exact handleOuter_malformed H _ _ _ _ hout
  · have : (s.wrapNode H host port).2.handleOuter H (hdrType H data)
        (data.drop sizeof_packet_header_t) (s.wrapNode H host port).1 =
        (s.wrapNode H host port).2.handleEncrypted H (data.drop sizeof_packet_header_t)
          (s.wrapNode H host port).1 := by
      unfold LinkLayer.handleOuter
      rw [henc]
    simp only [this]
    exact handleEncrypted_malformed H _ _ _ hin

/-- C4: a datagram shorter than the four-byte header, or whose header length
field differs from its size, leaves the whole state of the link layer as it
was (node spool, router, cookie table, awaitingNegotiation, peer queues, join
state) and nothing is sent. -/
theorem handlePacket_bad_header (H : Host) (s : LinkLayer) (data : QByteArray)
    (host : QHostAddress) (port : Nat)
    (h : data.length < sizeof_packet_header_t ∨ hdrLength H data ≠ data.length) :
    s.handlePacket H data host port = s ∧
    (s.handlePacket H data host port).sent = s.sent := by
  have : s.handlePacket H data host port = s := by
    unfold LinkLayer.handlePacket
    rw [if_pos h]
  rw [this]
  exact ⟨rfl, rfl⟩

/-- Witness of `handlePacket_bad_header`: a three-byte datagram. -/
theorem handlePacket_bad_header_witness :
    (([3, 0, 0] : QByteArray).length < sizeof_packet_header_t ∨
      hdrLength (exampleHost Endian.little) [3, 0, 0] ≠ ([3, 0, 0] : QByteArray).length) ∧
    exampleLink.handlePacket (exampleHost Endian.little) [3, 0, 0] 167772161 1801 = exampleLink :=
  ⟨Or.inl (by decide),
    (handlePacket_bad_header (exampleHost Endian.little) exampleLink [3, 0, 0] 167772161 1801
      (Or.inl (by decide))).1⟩

/-- C5, as stated, fails: a well-framed datagram of unknown outer type from
an endpoint the receiver does not know yet adds a record to the node spool. -/
theorem nodeSpool_grows_on_malformed :
    ¬ (([4, 0, 99, 0] : QByteArray).length < sizeof_packet_header_t ∨
      hdrLength (exampleHost Endian.little) [4, 0, 99, 0] ≠ ([4, 0, 99, 0] : QByteArray).length) ∧
    packet_type_t.ofCode (hdrType (exampleHost Endian.little) [4, 0, 99, 0]) = none ∧
    exampleLink.nodeSpool = [] ∧
    (exampleLink.handlePacket (exampleHost Endian.little) [4, 0, 99, 0] 167772161 1801).nodeSpool
      = [0] ∧
    (exampleLink.handlePacket (exampleHost Endian.little) [4, 0, 99, 0] 167772161 1801).heap
      = [SparkleNode.new 167772161 1801 [1]] := by
  decide

/-- C5 (amended): for every well-framed datagram that is malformed for its
opcode (unknown outer type, or a payload that fails the opcode's
`checkPacketSize`, outer or decrypted) the router is what it was before,
nothing is sent, and the only change of state is the one `wrapNode` makes:
none when a record of the spool already has the sender's endpoint, otherwise
one new record for that endpoint appended to the spool. -/
theorem handlePacket_malformed_opcode (H : Host) (s : LinkLayer) (data : QByteArray)
    (host : QHostAddress) (port : Nat)
    (hframed : ¬ (data.length < sizeof_packet_header_t ∨ hdrLength H data ≠ data.length))
    (hmal : s.malformedForOpcode H data host port = true) :
    (s.handlePacket H data host port).router = s.router ∧
    (s.handlePacket H data host port).sent = s.sent ∧
    (s.knows host port = true → s.handlePacket H data host port = s) ∧
    (s.knows host port = false →
      s.handlePacket H data host port =
        { s with
          heap := s.heap ++ [SparkleNode.new host port (H.generateKey s.heap.length)]
          nodeSpool := s.nodeSpool ++ [s.heap.length] }) := by
  rw [handlePacket_of_malformedForOpcode H s data host port hframed hmal]
  refine ⟨wrapNode_router H s host port, ?_, wrapNode_of_knows H s host port, ?_⟩
  · unfold LinkLayer.wrapNode
    split <;> rfl
  · intro hk
    rw [wrapNode_of_not_knows H s host port hk]

/-- Witness of `handlePacket_malformed_opcode`: a Ping with a two-byte
payload from an unknown endpoint. -/
theorem handlePacket_malformed_opcode_witness :
    ¬ (([6, 0, 4, 0, 1, 2] : QByteArray).length < sizeof_packet_header_t ∨
      hdrLength (exampleHost Endian.little) [6, 0, 4, 0, 1, 2] ≠
        ([6, 0, 4, 0, 1, 2] : QByteArray).length) ∧
    exampleLink.malformedForOpcode (exampleHost Endian.little) [6, 0, 4, 0, 1, 2] 167772161 1801
      = true ∧
    (exampleLink.handlePacket (exampleHost Endian.little) [6, 0, 4, 0, 1, 2] 167772161
      1801).router = exampleLink.router :=
  ⟨by decide, by decide,
    (handlePacket_malformed_opcode (exampleHost Endian.little) exampleLink [6, 0, 4, 0, 1, 2]
      167772161 1801 (by decide) (by decide)).1⟩

/-- C6: frame round trip. For every opcode `t` and payload `p` of at most
65531 bytes, the datagram `sendPacket` hands to the transport is the four-byte
header with `length = 4 + |p|` and `type = t` followed by `p`; it passes the
header check of `handlePacket`, and the type and payload `handlePacket`
extracts from it and passes to its `switch` are `t` and `p`. -/
theorem frame_roundtrip (H : Host) (s r : LinkLayer) (t : packet_type_t) (p : QByteArray)
    (node : Nat) (host : QHostAddress) (port : Nat) (hp : p.length ≤ 65531) :
    (s.router.selfNode ≠ some node →
      (s.sendPacket H t p node).sent =
        s.sent ++ [⟨frame H t p, (s.node node).host, (s.node node).port, node,
          s.router.selfNode⟩]) ∧
    frame H t p = headerBytes H (4 + p.length) t.code ++ p ∧
    (frame H t p).length = 4 + p.length ∧
    hdrLength H (frame H t p) = 4 + p.length ∧
    hdrType H (frame H t p) = t.code ∧
    ¬ ((frame H t p).length < sizeof_packet_header_t ∨
      hdrLength H (frame H t p) ≠ (frame H t p).length) ∧
    packet_type_t.ofCode (hdrType H (frame H t p)) = some t ∧
    (frame H t p).drop sizeof_packet_header_t = p ∧
    r.handlePacket H (frame H t p) host port =
      (r.wrapNode H host port).2.handleOuter H t.code p (r.wrapNode H host port).1 := by
  have hl : hdrLength H (frame H t p) = 4 + p.length := by
    rw [hdrLength_frame]; omega
  have ht : hdrType H (frame H t p) = t.code := by
    rw [hdrType_frame]
    have := code_lt t
    omega
  have hlen := frame_length H t p
  have hok : ¬ ((frame H t p).length < sizeof_packet_header_t ∨
      hdrLength H (frame H t p) ≠ (frame H t p).length) := by
    rw [hl, hlen]
    simp [sizeof_packet_header_t]
  refine ⟨?_, rfl, hlen, hl, ht, hok, ?_, drop_frame H t p, ?_⟩
  · intro hself
    simp [LinkLayer.sendPacket, LinkLayer.transportSend, hself]
  · rw [ht]; exact ofCode_code t
  · unfold LinkLayer.handlePacket
    rw [if_neg hok]
    simp only [ht, drop_frame]

/-- Witness of `frame_roundtrip`: a Ping frame with a six-byte payload. -/
theorem frame_roundtrip_witness :
    ([10, 0, 0, 1, 9, 7] : QByteArray).length ≤ 65531 ∧
    frame (exampleHost Endian.little) packet_type_t.Ping [10, 0, 0, 1, 9, 7] =
      [10, 0, 4, 0, 10, 0, 0, 1, 9, 7] ∧
    hdrLength (exampleHost Endian.little)
      (frame (exampleHost Endian.little) packet_type_t.Ping [10, 0, 0, 1, 9, 7]) = 4 + 6 ∧
    (frame (exampleHost Endian.little) packet_type_t.Ping [10, 0, 0, 1, 9, 7]).drop
      sizeof_packet_header_t = [10, 0, 0, 1, 9, 7] :=
  ⟨by decide, by decide,
    (frame_roundtrip (exampleHost Endian.little) exampleLink exampleLink packet_type_t.Ping
      [10, 0, 0, 1, 9, 7] 0 0 0 (by decide)).2.2.2.1,
    (frame_roundtrip (exampleHost Endian.little) exampleLink exampleLink packet_type_t.Ping
      [10, 0, 0, 1, 9, 7] 0 0 0 (by decide)).2.2.2.2.2.2.2.1⟩

/-! ## Records behind pointers -/

theorem node_setNode_same (s : LinkLayer) (n : Nat) (v : SparkleNode) (h : n < s.heap.length) :
    (s.setNode n v).node n = v := by
  simp [LinkLayer.node, LinkLayer.setNode, List.getD_eq_getElem?_getD, h]

theorem node_setNode_other (s : LinkLayer) (n m : Nat) (v : SparkleNode) (h : n ≠ m) :
    (s.setNode n v).node m = s.node m := by
  simp [LinkLayer.node, LinkLayer.setNode, List.getD_eq_getElem?_getD, List.getElem?_set_ne h]

theorem node_modifyNode_same (s : LinkLayer) (n : Nat) (f : SparkleNode → SparkleNode)
    (h : n < s.heap.length) : (s.modifyNode n f).node n = f (s.node n) :=
  node_setNode_same s n _ h

theorem heap_length_setNode (s : LinkLayer) (n : Nat) (v : SparkleNode) :
    (s.setNode n v).heap.length = s.heap.length := by
  simp [LinkLayer.setNode]

theorem node_sendPacket (H : Host) (s : LinkLayer) (t : packet_type_t) (d : QByteArray)
    (n m : Nat) : (s.sendPacket H t d n).node m = s.node m := by
  unfold LinkLayer.sendPacket
  split <;> rfl

theorem sendPacket_of_ne_self (H : Host) (s : LinkLayer) (t : packet_type_t) (d : QByteArray)
    (n : Nat) (h : s.router.selfNode ≠ some n) :
    s.sendPacket H t d n =
      s.transportSend ⟨frame H t d, (s.node n).host, (s.node n).port, n, s.router.selfNode⟩ := by
  simp [LinkLayer.sendPacket, h]

theorem sent_transportSend (s : LinkLayer) (d : Datagram) :
    (s.transportSend d).sent = s.sent ++ [d] := rfl

theorem sendPacket_of_self (H : Host) (s : LinkLayer) (t : packet_type_t) (d : QByteArray)
    (n : Nat) (h : s.router.selfNode = some n) : s.sendPacket H t d n = s := by
  simp [LinkLayer.sendPacket, h]

/-! ## The encrypted channel (C7) -/

theorem innerFrame_of_padded (H : Host) (dec : QByteArray)
    (hL : sizeof_packet_header_t ≤ hdrLength H dec) (hS : hdrLength H dec ≤ dec.length)
    (hS2 : dec.length ≤ hdrLength H dec + 7) :
    innerFrame H dec =
      some (hdrType H dec, (dec.take (hdrLength H dec)).drop sizeof_packet_header_t) := by
  unfold innerFrame
  have h4 : sizeof_packet_header_t = 4 := rfl
  rw [if_neg (by omega)]
  by_cases hgt : dec.length > hdrLength H dec
  · rw [if_pos ⟨hgt, by omega⟩]
  · rw [if_neg (by omega)]
    rw [List.take_of_length_le (by omega)]

theorem hdrLength_append (H : Host) (a b : QByteArray) (h : 4 ≤ a.length) :
    hdrLength H (a ++ b) = hdrLength H a := by
  simp only [hdrLength, fieldAt, List.drop_zero]
  rw [List.take_append_of_le_length (by omega)]

theorem hdrType_append (H : Host) (a b : QByteArray) (h : 4 ≤ a.length) :
    hdrType H (a ++ b) = hdrType H a := by
  simp only [hdrType, fieldAt]
  rw [List.drop_append_of_le_length (by omega), List.take_append_of_le_length (by simp; omega)]

theorem handleEncrypted_of_padded (H : Host) (s : LinkLayer) (payload : QByteArray) (n : Nat)
    (hkeys : (s.node n).areKeysNegotiated = true)
    (hL : sizeof_packet_header_t ≤ hdrLength H (H.decrypt (s.node n).hisSessionKey payload))
    (hS : hdrLength H (H.decrypt (s.node n).hisSessionKey payload) ≤
      (H.decrypt (s.node n).hisSessionKey payload).length)
    (hS2 : (H.decrypt (s.node n).hisSessionKey payload).length ≤
      hdrLength H (H.decrypt (s.node n).hisSessionKey payload) + 7) :
    s.handleEncrypted H payload n =
      s.handleInner H (hdrType H (H.decrypt (s.node n).hisSessionKey payload))
        (((H.decrypt (s.node n).hisSessionKey payload).take
          (hdrLength H (H.decrypt (s.node n).hisSessionKey payload))).drop
            sizeof_packet_header_t) n := by
  unfold LinkLayer.handleEncrypted
  rw [if_neg (by simp [hkeys])]
  rw [innerFrame_of_padded H _ hL hS hS2]

/-- C7: for an `EncryptedPacket` from a peer with negotiated keys whose
decrypted bytes have inner length field `L ≥ 4` and size `S` with
`L ≤ S ≤ L + 7`, the inner handler is called with exactly the bytes `[4, L)`
of the decrypted data. Hence, when the sender `A` passes `(t, body)` to
`sendEncryptedPacket` for a peer with negotiated keys, it transmits
`encrypt(header ∥ body)` as an `EncryptedPacket`, and a receiver `B` whose
cipher returns `header ∥ body` followed by at most seven padding bytes
dispatches the inner opcode `t` with the payload `body`. -/
theorem encrypted_payload_roundtrip (H : Host) (A B : LinkLayer) (peer n : Nat)
    (t : packet_type_t) (body pad : QByteArray)
    (hA : (A.node peer).areKeysNegotiated = true) (hAself : A.router.selfNode ≠ some peer)
    (hB : (B.node n).areKeysNegotiated = true) :
    (∀ payload : QByteArray,
      sizeof_packet_header_t ≤ hdrLength H (H.decrypt (B.node n).hisSessionKey payload) →
      hdrLength H (H.decrypt (B.node n).hisSessionKey payload) ≤
        (H.decrypt (B.node n).hisSessionKey payload).length →
      (H.decrypt (B.node n).hisSessionKey payload).length ≤
        hdrLength H (H.decrypt (B.node n).hisSessionKey payload) + 7 →
      B.handleEncrypted H payload n =
        B.handleInner H (hdrType H (H.decrypt (B.node n).hisSessionKey payload))
          (((H.decrypt (B.node n).hisSessionKey payload).take
            (hdrLength H (H.decrypt (B.node n).hisSessionKey payload))).drop
              sizeof_packet_header_t) n) ∧
    (A.sendEncryptedPacket H t body peer).sent =
      A.sent ++ [⟨frame H packet_type_t.EncryptedPacket
        (H.encrypt (A.node peer).mySessionKey (frame H t body)),
        (A.node peer).host, (A.node peer).port, peer, A.router.selfNode⟩] ∧
    (pad.length ≤ 7 → body.length ≤ 65531 →
      H.decrypt (B.node n).hisSessionKey (H.encrypt (A.node peer).mySessionKey (frame H t body))
        = frame H t body ++ pad →
      B.handleEncrypted H (H.encrypt (A.node peer).mySessionKey (frame H t body)) n =
        B.handleInner H t.code body n) := by
  refine ⟨fun payload hL hS hS2 => handleEncrypted_of_padded H B payload n hB hL hS hS2, ?_, ?_⟩
  · unfold LinkLayer.sendEncryptedPacket
    rw [if_neg (by simp [hA])]
    unfold LinkLayer.encryptAndSend
    rw [sendPacket_of_ne_self H A _ _ peer hAself]
    rfl
  · intro hpad hbody hdec
    have hfl := frame_length H t body
    have hlen : hdrLength H (frame H t body ++ pad) = 4 + body.length := by
      rw [hdrLength_append H _ _ (by omega), hdrLength_frame]
      omega
    have hty : hdrType H (frame H t body ++ pad) = t.code := by
      rw [hdrType_append H _ _ (by omega), hdrType_frame]
      have := code_lt t
      omega
    have h4 : sizeof_packet_header_t = 4 := rfl
    rw [handleEncrypted_of_padded H B _ n hB (by rw [hdec, hlen]; omega)
      (by rw [hdec, hlen]; simp; omega) (by rw [hdec, hlen]; simp; omega)]
    rw [hdec, hlen, hty]
    have : (frame H t body ++ pad).take (4 + body.length) = frame H t body := by
      rw [← hfl, List.take_left]
    rw [this, drop_frame]

/-! ## The handshake gate (C8) and the drain of the queue (C9) -/

theorem hdrType_PublicKeyExchange_ne (H : Host) (d : QByteArray) :
    hdrType H (frame H packet_type_t.PublicKeyExchange d) ≠ packet_type_t.EncryptedPacket.code := by
  rw [hdrType_frame]
  decide

/-- C8: the handshake gate. For a peer whose keys are not negotiated,
`sendEncryptedPacket(type, body, peer)` hands no `EncryptedPacket` to the
transport; it appends the framed bytes (header ∥ body) at the tail of the
peer's send queue and leaves the earlier entries as they were; and it starts
a PublicKeyExchange with `needOthersKey = true` (a cookie for the peer is
stored and, the peer not being the self node, one PublicKeyExchange datagram
goes to the peer's endpoint) and adds the peer to `awaitingNegotiation`
exactly when the peer was not in `awaitingNegotiation` already; otherwise
nothing but the queue changes. -/
theorem sendEncryptedPacket_gate (H : Host) (s : LinkLayer) (type : packet_type_t)
    (body : QByteArray) (peer : Nat)
    (hvalid : peer < s.heap.length)
    (hkeys : (s.node peer).areKeysNegotiated = false) :
    (∀ d ∈ (s.sendEncryptedPacket H type body peer).sentSince s,
      hdrType H d.data ≠ packet_type_t.EncryptedPacket.code) ∧
    ((s.sendEncryptedPacket H type body peer).node peer).queue =
      (s.node peer).queue ++ [frame H type body] ∧
    (peer ∈ s.awaitingNegotiation →
      s.sendEncryptedPacket H type body peer = s.queued H type body peer ∧
      (s.sendEncryptedPacket H type body peer).sent = s.sent ∧
      (s.sendEncryptedPacket H type body peer).cookies = s.cookies ∧
      (s.sendEncryptedPacket H type body peer).awaitingNegotiation = s.awaitingNegotiation) ∧
    (peer ∉ s.awaitingNegotiation →
      (s.sendEncryptedPacket H type body peer).awaitingNegotiation =
        s.awaitingNegotiation ++ [peer] ∧
      (s.sendEncryptedPacket H type body peer).cookies =
        cookiesInsert s.cookies (H.qrand s.randCalls % 4294967296) peer ∧
      ((s.sendEncryptedPacket H type body peer).node peer).negotiationTimer = true ∧
      (s.router.selfNode ≠ some peer →
        (s.sendEncryptedPacket H type body peer).sent = s.sent ++
          [⟨frame H packet_type_t.PublicKeyExchange
              (keyExchangeBytes H true (H.qrand s.randCalls % 4294967296) ++
                s.hostKeyPair.publicKey),
            (s.node peer).host, (s.node peer).port, peer, s.router.selfNode⟩])) := by
  have hq : ((s.queued H type body peer).node peer).queue =
      (s.node peer).queue ++ [frame H type body] := by
    unfold LinkLayer.queued
    rw [node_modifyNode_same s peer _ hvalid]
    rfl
  by_cases hmem : peer ∈ s.awaitingNegotiation
  · have hres : s.sendEncryptedPacket H type body peer = s.queued H type body peer := by
      unfold LinkLayer.sendEncryptedPacket
      rw [if_pos hkeys]
      have : peer ∈ (s.modifyNode peer (fun n => n.pushQueue (frame H type body))).awaitingNegotiation :=
        hmem
      simp only [this, if_true]
      rfl
    rw [hres]
    refine ⟨?_, hq, fun _ => ⟨rfl, rfl, rfl, rfl⟩, fun h => absurd hmem h⟩
    intro d hd
    have : (s.queued H type body peer).sentSince s = [] := by
      simp [LinkLayer.sentSince, LinkLayer.queued, LinkLayer.modifyNode, LinkLayer.setNode]
    rw [this] at hd
    cases hd
  · have hres : s.sendEncryptedPacket H type body peer =
        (s.negotiating H type body peer).sendPacket H packet_type_t.PublicKeyExchange
          (keyExchangeBytes H true (H.qrand s.randCalls % 4294967296) ++ s.hostKeyPair.publicKey)
          peer := by
      unfold LinkLayer.sendEncryptedPacket
      rw [if_pos hkeys]
      have : ¬ peer ∈ (s.modifyNode peer
          (fun n => n.pushQueue (frame H type body))).awaitingNegotiation := hmem
      simp only [this, if_false]
      simp only [LinkLayer.sendPublicKeyExchange, if_true]
      rfl
    have hlen : (s.queued H type body peer).heap.length = s.heap.length :=
      heap_length_setNode _ _ _
    have hnode : (s.negotiating H type body peer).node peer =
        ((s.queued H type body peer).node peer).negotiationStart :=
      node_modifyNode_same _ peer _ (by rw [hlen]; exact hvalid)
    have hhost : ((s.negotiating H type body peer).node peer).host = (s.node peer).host := by
      rw [hnode]
      unfold LinkLayer.queued
      rw [node_modifyNode_same s peer _ hvalid]
      rfl
    have hport : ((s.negotiating H type body peer).node peer).port = (s.node peer).port := by
      rw [hnode]
      unfold LinkLayer.queued
      rw [node_modifyNode_same s peer _ hvalid]
      rfl
    have hq2 : ((s.negotiating H type body peer).node peer).queue =
        (s.node peer).queue ++ [frame H type body] := by
      rw [hnode]
      exact hq
    have ht2 : ((s.negotiating H type body peer).node peer).negotiationTimer = true := by
      rw [hnode]
      rfl
    have hsent0 : (s.negotiating H type body peer).sent = s.sent := rfl
    by_cases hself : s.router.selfNode = some peer
    · have hself2 : (s.negotiating H type body peer).router.selfNode = some peer := hself
      rw [hres, sendPacket_of_self _ _ _ _ _ hself2]
      refine ⟨?_, hq2, fun h => absurd h hmem, fun _ => ⟨rfl, rfl, ht2, fun h => absurd hself h⟩⟩
      intro d hd
      have hnil : (s.negotiating H type body peer).sentSince s = [] := by
        simp [LinkLayer.sentSince, hsent0]
      rw [hnil] at hd
      cases hd
    · have hself2 : (s.negotiating H type body peer).router.selfNode ≠ some peer := hself
      rw [hres, sendPacket_of_ne_self _ _ _ _ _ hself2]
      refine ⟨?_, hq2, fun h => absurd h hmem, fun _ => ⟨rfl, rfl, ht2, fun _ => ?_⟩⟩
      · intro d hd
        simp only [LinkLayer.sentSince, sent_transportSend, hsent0, List.drop_left,
          List.mem_singleton] at hd
        rw [hd]
        exact hdrType_PublicKeyExchange_ne H _
      · show s.sent ++ [_] = s.sent ++ [_]
        rw [hhost, hport]
        rfl

theorem sent_setNode (s : LinkLayer) (n : Nat) (v : SparkleNode) :
    (s.setNode n v).sent = s.sent := rfl

theorem router_setNode (s : LinkLayer) (n : Nat) (v : SparkleNode) :
    (s.setNode n v).router = s.router := rfl

theorem heap_sendPacket (H : Host) (s : LinkLayer) (t : packet_type_t) (d : QByteArray)
    (n : Nat) : (s.sendPacket H t d n).heap = s.heap := by
  unfold LinkLayer.sendPacket
  split <;> rfl

theorem router_sendPacket (H : Host) (s : LinkLayer) (t : packet_type_t) (d : QByteArray)
    (n : Nat) : (s.sendPacket H t d n).router = s.router := by
  unfold LinkLayer.sendPacket
  split <;> rfl

theorem awaiting_sendPacket (H : Host) (s : LinkLayer) (t : packet_type_t) (d : QByteArray)
    (n : Nat) : (s.sendPacket H t d n).awaitingNegotiation = s.awaitingNegotiation := by
  unfold LinkLayer.sendPacket
  split <;> rfl

theorem preparing_sendPacket (H : Host) (s : LinkLayer) (t : packet_type_t) (d : QByteArray)
    (n : Nat) : (s.sendPacket H t d n).preparingForShutdown = s.preparingForShutdown := by
  unfold LinkLayer.sendPacket
  split <;> rfl

theorem sent_sendPacket_of_ne_self (H : Host) (s : LinkLayer) (t : packet_type_t)
    (d : QByteArray) (n : Nat) (h : s.router.selfNode ≠ some n) :
    (s.sendPacket H t d n).sent =
      s.sent ++ [⟨frame H t d, (s.node n).host, (s.node n).port, n, s.router.selfNode⟩] := by
  rw [sendPacket_of_ne_self H s t d n h]
  rfl

theorem drainQueue_spec (H : Host) (node : Nat) (k : QByteArray) (h : QHostAddress) (p : Nat)
    (self : Option Nat) (hself : self ≠ some node) :
    ∀ (q : List QByteArray) (s : LinkLayer), (s.node node).queue = q → node < s.heap.length →
      s.router.selfNode = self → (s.node node).mySessionKey = k → (s.node node).host = h →
      (s.node node).port = p →
      (LinkLayer.drainQueue H node q s).sent = s.sent ++ q.map (fun x =>
        ⟨frame H packet_type_t.EncryptedPacket (H.encrypt k x), h, p, node, self⟩) ∧
      ((LinkLayer.drainQueue H node q s).node node).queue = [] ∧
      ((LinkLayer.drainQueue H node q s).node node).keyNegotiationDone =
        (s.node node).keyNegotiationDone ∧
      (LinkLayer.drainQueue H node q s).awaitingNegotiation = s.awaitingNegotiation ∧
      (LinkLayer.drainQueue H node q s).preparingForShutdown = s.preparingForShutdown := by
  intro q
  induction q with
  | nil =>
    intro s hq _ _ _ _ _
    simp only [LinkLayer.drainQueue, List.map_nil, List.append_nil, true_and]
    exact ⟨hq, trivial⟩
  | cons d rest ih =>
    intro s hq hv hs hk hh hp
    simp only [LinkLayer.drainQueue]
    have hpop1 : (s.node node).popQueue.1 = d := by
      simp [SparkleNode.popQueue, SparkleNode.getFromQueue, hq]
    have hpop2 : (s.node node).popQueue.2 = { s.node node with queue := rest } := by
      simp [SparkleNode.popQueue, SparkleNode.getFromQueue, hq]
    rw [hpop1, hpop2]
    have hn1 : (s.setNode node { s.node node with queue := rest }).node node =
        { s.node node with queue := rest } := node_setNode_same s node _ hv
    have hselfne : (s.setNode node { s.node node with queue := rest }).router.selfNode ≠
        some node := by
      rw [router_setNode, hs]; exact hself
    obtain ⟨h1, h2, h3, h4, h5⟩ := ih
      ((s.setNode node { s.node node with queue := rest }).encryptAndSend H d node)
      (by unfold LinkLayer.encryptAndSend; rw [node_sendPacket, hn1])
      (by unfold LinkLayer.encryptAndSend; rw [heap_sendPacket, heap_length_setNode]; exact hv)
      (by unfold LinkLayer.encryptAndSend; rw [router_sendPacket, router_setNode]; exact hs)
      (by unfold LinkLayer.encryptAndSend; rw [node_sendPacket, hn1]; exact hk)
      (by unfold LinkLayer.encryptAndSend; rw [node_sendPacket, hn1]; exact hh)
      (by unfold LinkLayer.encryptAndSend; rw [node_sendPacket, hn1]; exact hp)
    refine ⟨?_, h2, ?_, ?_, ?_⟩
    · rw [h1]
      unfold LinkLayer.encryptAndSend
      rw [sent_sendPacket_of_ne_self _ _ _ _ _ hselfne, hn1, router_setNode, sent_setNode, hs]
      simp only [List.map_cons, List.append_assoc, List.singleton_append]
      rw [← hk, ← hh, ← hp]
    · rw [h3]
      unfold LinkLayer.encryptAndSend
      rw [node_sendPacket, hn1]
    · rw [h4]
      unfold LinkLayer.encryptAndSend
      rw [awaiting_sendPacket]
      rfl
    · rw [h5]
      unfold LinkLayer.encryptAndSend
      rw [preparing_sendPacket]
      rfl

theorem node_keysInstalled (s : LinkLayer) (key : QByteArray) (peer : Nat)
    (hvalid : peer < s.heap.length) :
    (s.keysInstalled key peer).node peer =
      ((s.node peer).setHisSessionKey key).negotiationFinished := by
  have hv1 : peer < (s.modifyNode peer (fun n => n.setHisSessionKey key)).heap.length := by
    unfold LinkLayer.modifyNode; rw [heap_length_setNode]; exact hvalid
  show ((s.modifyNode peer (fun n => n.setHisSessionKey key)).modifyNode peer
    SparkleNode.negotiationFinished).node peer = _
  rw [node_modifyNode_same _ peer _ hv1, node_modifyNode_same s peer _ hvalid]

theorem handleSessionKeyExchange_of_reply (H : Host) (s : LinkLayer) (payload : QByteArray)
    (peer : Nat) (hsize : payload.length > sizeof_key_exchange_t)
    (hneed : payload.getD 0 0 = 0) :
    s.handleSessionKeyExchange H payload peer =
      (if (LinkLayer.drainQueue H peer
            ((s.keysInstalled (payload.drop sizeof_key_exchange_t) peer).node peer).queue
            (s.keysInstalled (payload.drop sizeof_key_exchange_t) peer)).awaitingNegotiation.length
            = 0 ∧
          (LinkLayer.drainQueue H peer
            ((s.keysInstalled (payload.drop sizeof_key_exchange_t) peer).node peer).queue
            (s.keysInstalled (payload.drop sizeof_key_exchange_t) peer)).preparingForShutdown
            = true then
        (LinkLayer.drainQueue H peer
          ((s.keysInstalled (payload.drop sizeof_key_exchange_t) peer).node peer).queue
          (s.keysInstalled (payload.drop sizeof_key_exchange_t) peer)).emit Signal.readyForShutdown
      else
        LinkLayer.drainQueue H peer
          ((s.keysInstalled (payload.drop sizeof_key_exchange_t) peer).node peer).queue
          (s.keysInstalled (payload.drop sizeof_key_exchange_t) peer)) := by
  have hcheck : checkPacketSize payload sizeof_key_exchange_t
      packet_size_class_t.PacketSizeGreater = true := by
    unfold checkPacketSize
    rw [if_neg]
    simp only [reduceCtorEq, and_false, and_true, false_or, not_le]
    exact hsize
  unfold LinkLayer.handleSessionKeyExchange
  rw [if_neg (by simp [hcheck])]
  simp only [hneed, ne_eq, not_true_eq_false, decide_False, Bool.false_eq_true, if_false]
  rfl

/-- C9: FIFO drain. When a SessionKeyExchange with `needOthersKey = false`
is handled for a peer whose send queue holds `q1, ..., qn` in the order they
were queued, exactly `n` datagrams are handed to the transport, the `i`-th
being the `EncryptedPacket` that carries `encrypt(qi)` under my session key
for the peer, addressed to the peer, in the order `i = 1..n`; the peer's
queue is empty afterwards. -/
theorem sessionKeyExchange_drains_queue (H : Host) (s : LinkLayer) (payload : QByteArray)
    (peer : Nat)
    (hvalid : peer < s.heap.length)
    (hself : s.router.selfNode ≠ some peer)
    (hsize : payload.length > sizeof_key_exchange_t)
    (hneed : payload.getD 0 0 = 0) :
    (s.handleSessionKeyExchange H payload peer).sent =
      s.sent ++ (s.node peer).queue.map (fun q =>
        ⟨frame H packet_type_t.EncryptedPacket (H.encrypt (s.node peer).mySessionKey q),
          (s.node peer).host, (s.node peer).port, peer, s.router.selfNode⟩) ∧
    ((s.handleSessionKeyExchange H payload peer).sentSince s).length =
      (s.node peer).queue.length ∧
    ((s.handleSessionKeyExchange H payload peer).node peer).queue = [] ∧
    ((s.handleSessionKeyExchange H payload peer).node peer).areKeysNegotiated = true := by
  have hn := node_keysInstalled s (payload.drop sizeof_key_exchange_t) peer hvalid
  have hq : ((s.keysInstalled (payload.drop sizeof_key_exchange_t) peer).node peer).queue =
      (s.node peer).queue := by rw [hn]; rfl
  obtain ⟨d1, d2, d3, _, _⟩ := drainQueue_spec H peer (s.node peer).mySessionKey (s.node peer).host
    (s.node peer).port s.router.selfNode hself (s.node peer).queue
    (s.keysInstalled (payload.drop sizeof_key_exchange_t) peer)
    hq
    (by
      show peer < ((s.modifyNode peer _).modifyNode peer _).heap.length
      unfold LinkLayer.modifyNode
      rw [heap_length_setNode, heap_length_setNode]
      exact hvalid)
    rfl (by rw [hn]; rfl) (by rw [hn]; rfl) (by rw [hn]; rfl)
  have hsent0 : (s.keysInstalled (payload.drop sizeof_key_exchange_t) peer).sent = s.sent := rfl
  rw [hsent0] at d1
  have hkd : ((s.keysInstalled (payload.drop sizeof_key_exchange_t) peer).node peer).keyNegotiationDone
      = true := by rw [hn]; rfl
  rw [handleSessionKeyExchange_of_reply H s payload peer hsize hneed, hq]
  have hsent : ∀ st : LinkLayer, (st.emit Signal.readyForShutdown).sent = st.sent := fun _ => rfl
  have hnode : ∀ st : LinkLayer, (st.emit Signal.readyForShutdown).node peer = st.node peer :=
    fun _ => rfl
  split
  · rw [hsent, hnode]
    refine ⟨d1, ?_, d2, ?_⟩
    · show (List.drop _ (LinkLayer.emit _ _).sent).length = _
      rw [hsent, d1]
      simp
    · show (LinkLayer.node _ peer).keyNegotiationDone = true
      rw [d3]; exact hkd
  · refine ⟨d1, ?_, d2, ?_⟩
    · show (List.drop _ _).length = _
      rw [d1]
      simp
    · show (LinkLayer.node _ peer).keyNegotiationDone = true
      rw [d3]; exact hkd


set_option maxRecDepth 100000 in
/-- Witness of `encrypted_payload_roundtrip`: a DataPacket of five bytes
between two link layers that know each other, on a host whose cipher fills
up to a multiple of eight bytes. The inner frame has nine bytes, the cipher
text and the decrypted bytes have sixteen: the receiver cuts the seven padding
bytes off by the inner length field and hands the five bytes to the
application. -/
theorem encrypted_payload_roundtrip_witness :
    ((exampleLinkWith exampleNegotiatedPeer).node 0).areKeysNegotiated = true ∧
    (exampleLinkWith exampleNegotiatedPeer).router.selfNode ≠ some 0 ∧
    (frame examplePaddingHost packet_type_t.DataPacket [1, 2, 3, 4, 5]).length = 9 ∧
    examplePaddingHost.decrypt ((exampleLinkWith exampleNegotiatedPeer).node 0).hisSessionKey
        (examplePaddingHost.encrypt ((exampleLinkWith exampleNegotiatedPeer).node 0).mySessionKey
          (frame examplePaddingHost packet_type_t.DataPacket [1, 2, 3, 4, 5])) =
      frame examplePaddingHost packet_type_t.DataPacket [1, 2, 3, 4, 5] ++
        [0, 0, 0, 0, 0, 0, 0] ∧
    (exampleLinkWith exampleNegotiatedPeer).handleEncrypted examplePaddingHost
        (frame examplePaddingHost packet_type_t.DataPacket [1, 2, 3, 4, 5] ++
          [0, 0, 0, 0, 0, 0, 0]) 0 =
      (exampleLinkWith exampleNegotiatedPeer).handleInner examplePaddingHost
        (hdrType examplePaddingHost
          (examplePaddingHost.decrypt
            ((exampleLinkWith exampleNegotiatedPeer).node 0).hisSessionKey
            (frame examplePaddingHost packet_type_t.DataPacket [1, 2, 3, 4, 5] ++
              [0, 0, 0, 0, 0, 0, 0])))
        (((examplePaddingHost.decrypt
            ((exampleLinkWith exampleNegotiatedPeer).node 0).hisSessionKey
            (frame examplePaddingHost packet_type_t.DataPacket [1, 2, 3, 4, 5] ++
              [0, 0, 0, 0, 0, 0, 0])).take
          (hdrLength examplePaddingHost
            (examplePaddingHost.decrypt
              ((exampleLinkWith exampleNegotiatedPeer).node 0).hisSessionKey
              (frame examplePaddingHost packet_type_t.DataPacket [1, 2, 3, 4, 5] ++
                [0, 0, 0, 0, 0, 0, 0])))).drop sizeof_packet_header_t) 0 ∧
    ((frame examplePaddingHost packet_type_t.DataPacket [1, 2, 3, 4, 5] ++
        [0, 0, 0, 0, 0, 0, 0] : QByteArray).take 9).drop sizeof_packet_header_t =
      [1, 2, 3, 4, 5] ∧
    (exampleLinkWith exampleNegotiatedPeer).handleEncrypted examplePaddingHost
        (examplePaddingHost.encrypt ((exampleLinkWith exampleNegotiatedPeer).node 0).mySessionKey
          (frame examplePaddingHost packet_type_t.DataPacket [1, 2, 3, 4, 5])) 0 =
      (exampleLinkWith exampleNegotiatedPeer).handleInner examplePaddingHost
        packet_type_t.DataPacket.code [1, 2, 3, 4, 5] 0 ∧
    ((exampleLinkWith exampleNegotiatedPeer).handleEncrypted examplePaddingHost
        (examplePaddingHost.encrypt ((exampleLinkWith exampleNegotiatedPeer).node 0).mySessionKey
          (frame examplePaddingHost packet_type_t.DataPacket [1, 2, 3, 4, 5])) 0).delivered =
      (exampleLinkWith exampleNegotiatedPeer).delivered ++ [([1, 2, 3, 4, 5], 0)] :=
  ⟨by decide, by decide, by decide, by decide,
    (encrypted_payload_roundtrip examplePaddingHost
      (exampleLinkWith exampleNegotiatedPeer) (exampleLinkWith exampleNegotiatedPeer) 0 0
      packet_type_t.DataPacket [1, 2, 3, 4, 5] [0, 0, 0, 0, 0, 0, 0] (by decide) (by decide)
      (by decide)).1
      (frame examplePaddingHost packet_type_t.DataPacket [1, 2, 3, 4, 5] ++
        [0, 0, 0, 0, 0, 0, 0]) (by decide) (by decide) (by decide),
    by decide,
    (encrypted_payload_roundtrip examplePaddingHost
      (exampleLinkWith exampleNegotiatedPeer) (exampleLinkWith exampleNegotiatedPeer) 0 0
      packet_type_t.DataPacket [1, 2, 3, 4, 5] [0, 0, 0, 0, 0, 0, 0] (by decide) (by decide)
      (by decide)).2.2
      (by decide) (by decide) (by decide),
    by decide⟩

/-- Witness of `sendEncryptedPacket_gate`: a DataPacket for a peer that is
not awaiting negotiation yet. -/
theorem sendEncryptedPacket_gate_witness :
    0 < (exampleLinkWith exampleWaitingPeer).heap.length ∧
    ((exampleLinkWith exampleWaitingPeer).node 0).areKeysNegotiated = false ∧
    (((exampleLinkWith exampleWaitingPeer).sendEncryptedPacket (exampleHost Endian.little)
      packet_type_t.DataPacket [9] 0).node 0).queue =
      ((exampleLinkWith exampleWaitingPeer).node 0).queue ++
        [frame (exampleHost Endian.little) packet_type_t.DataPacket [9]] :=
  ⟨by decide, by decide,
    (sendEncryptedPacket_gate (exampleHost Endian.little) (exampleLinkWith exampleWaitingPeer)
      packet_type_t.DataPacket [9] 0 (by decide) (by decide)).2.1⟩

/-- Witness of `sessionKeyExchange_drains_queue`: the reply `needOthersKey = 0`
with key byte 7 for a peer with two queued payloads. -/
theorem sessionKeyExchange_drains_queue_witness :
    0 < (exampleLinkWith exampleWaitingPeer).heap.length ∧
    (exampleLinkWith exampleWaitingPeer).router.selfNode ≠ some 0 ∧
    ([0, 0, 0, 0, 0, 7] : QByteArray).length > sizeof_key_exchange_t ∧
    ([0, 0, 0, 0, 0, 7] : QByteArray).getD 0 0 = 0 ∧
    (((exampleLinkWith exampleWaitingPeer).handleSessionKeyExchange (exampleHost Endian.little)
      [0, 0, 0, 0, 0, 7] 0).sentSince (exampleLinkWith exampleWaitingPeer)).length = 2 ∧
    (((exampleLinkWith exampleWaitingPeer).handleSessionKeyExchange (exampleHost Endian.little)
      [0, 0, 0, 0, 0, 7] 0).node 0).queue = [] :=
  ⟨by decide, by decide, by decide, by decide,
    (sessionKeyExchange_drains_queue (exampleHost Endian.little)
      (exampleLinkWith exampleWaitingPeer) [0, 0, 0, 0, 0, 7] 0 (by decide) (by decide)
      (by decide) (by decide)).2.1,
    (sessionKeyExchange_drains_queue (exampleHost Endian.little)
      (exampleLinkWith exampleWaitingPeer) [0, 0, 0, 0, 0, 7] 0 (by decide) (by decide)
      (by decide) (by decide)).2.2.1⟩

/-! ## Nothing is sent to the self node (C10) -/

theorem inv_foldl {α : Type} (f : LinkLayer → α → LinkLayer)
    (hf : ∀ st x, st.NeverSentToSelf → (f st x).NeverSentToSelf) :
    ∀ (l : List α) (s : LinkLayer), s.NeverSentToSelf → (l.foldl f s).NeverSentToSelf := by
  intro l
  induction l with
  | nil => intro s h; exact h
  | cons a l ih => intro s h; exact ih _ (hf s a h)

theorem inv_setNode (s : LinkLayer) (n : Nat) (v : SparkleNode) (h : s.NeverSentToSelf) :
    (s.setNode n v).NeverSentToSelf := ⟨h.notSelf⟩

theorem inv_modifyNode (s : LinkLayer) (n : Nat) (f : SparkleNode → SparkleNode) (h : s.NeverSentToSelf) :
    (s.modifyNode n f).NeverSentToSelf := ⟨h.notSelf⟩

theorem inv_emit (s : LinkLayer) (x : Signal) (h : s.NeverSentToSelf) :
    (s.emit x).NeverSentToSelf := ⟨h.notSelf⟩

theorem inv_crash (s : LinkLayer) (h : s.NeverSentToSelf) :
    s.crash.NeverSentToSelf := ⟨h.notSelf⟩

theorem inv_setRouter (s : LinkLayer) (r : Router) (h : s.NeverSentToSelf) :
    (s.setRouter r).NeverSentToSelf := ⟨h.notSelf⟩

theorem inv_setNodeSpool (s : LinkLayer) (l : List Nat) (h : s.NeverSentToSelf) :
    (s.setNodeSpool l).NeverSentToSelf := ⟨h.notSelf⟩

theorem inv_delete (s : LinkLayer) (l : List Nat) (h : s.NeverSentToSelf) :
    (s.delete l).NeverSentToSelf := ⟨h.notSelf⟩

theorem inv_alloc (s : LinkLayer) (v : SparkleNode) (h : s.NeverSentToSelf) :
    (s.alloc v).NeverSentToSelf := ⟨h.notSelf⟩

theorem inv_setAwaitingNegotiation (s : LinkLayer) (l : List Nat) (h : s.NeverSentToSelf) :
    (s.setAwaitingNegotiation l).NeverSentToSelf := ⟨h.notSelf⟩

theorem inv_setCookies (s : LinkLayer) (c : List (Nat × Nat)) (h : s.NeverSentToSelf) :
    (s.setCookies c).NeverSentToSelf := ⟨h.notSelf⟩

theorem inv_setJoinStep (s : LinkLayer) (j : join_step_t) (h : s.NeverSentToSelf) :
    (s.setJoinStep j).NeverSentToSelf := ⟨h.notSelf⟩

theorem inv_setJoinMaster (s : LinkLayer) (m : Nat) (h : s.NeverSentToSelf) :
    (s.setJoinMaster m).NeverSentToSelf := ⟨h.notSelf⟩

theorem inv_setForceBehindNAT (s : LinkLayer) (b : Bool) (h : s.NeverSentToSelf) :
    (s.setForceBehindNAT b).NeverSentToSelf := ⟨h.notSelf⟩

theorem inv_setJoinPing (s : LinkLayer) (p : ping_t) (h : s.NeverSentToSelf) :
    (s.setJoinPing p).NeverSentToSelf := ⟨h.notSelf⟩

theorem inv_setJoinPingsEmitted (s : LinkLayer) (n : Nat) (h : s.NeverSentToSelf) :
    (s.setJoinPingsEmitted n).NeverSentToSelf := ⟨h.notSelf⟩

theorem inv_setJoinPingsArrived (s : LinkLayer) (n : Nat) (h : s.NeverSentToSelf) :
    (s.setJoinPingsArrived n).NeverSentToSelf := ⟨h.notSelf⟩

theorem inv_setPreparingForShutdown (s : LinkLayer) (b : Bool) (h : s.NeverSentToSelf) :
    (s.setPreparingForShutdown b).NeverSentToSelf := ⟨h.notSelf⟩

theorem inv_setTransportInitiated (s : LinkLayer) (b : Bool) (h : s.NeverSentToSelf) :
    (s.setTransportInitiated b).NeverSentToSelf := ⟨h.notSelf⟩

theorem inv_setPingTimer (s : LinkLayer) (b : Bool) (h : s.NeverSentToSelf) :
    (s.setPingTimer b).NeverSentToSelf := ⟨h.notSelf⟩

theorem inv_setJoinTimer (s : LinkLayer) (b : Bool) (h : s.NeverSentToSelf) :
    (s.setJoinTimer b).NeverSentToSelf := ⟨h.notSelf⟩

theorem inv_setNetworkDivisor (s : LinkLayer) (n : Nat) (h : s.NeverSentToSelf) :
    (s.setNetworkDivisor n).NeverSentToSelf := ⟨h.notSelf⟩

theorem inv_stepRand (s : LinkLayer) (h : s.NeverSentToSelf) :
    s.stepRand.NeverSentToSelf := ⟨h.notSelf⟩

theorem inv_deliver (s : LinkLayer) (p : QByteArray) (n : Nat) (h : s.NeverSentToSelf) :
    (s.deliver p n).NeverSentToSelf := ⟨h.notSelf⟩

theorem inv_revertJoin (s : LinkLayer) (h : s.NeverSentToSelf) :
    s.revertJoin.NeverSentToSelf := ⟨h.notSelf⟩

theorem inv_transportSend (s : LinkLayer) (d : Datagram) (hd : d.selfNode ≠ some d.node)
    (h : s.NeverSentToSelf) : (s.transportSend d).NeverSentToSelf := by
  constructor
  intro x hx
  rw [sent_transportSend, List.mem_append, List.mem_singleton] at hx
  rcases hx with hx | hx
  · exact h.notSelf x hx
  · rw [hx]; exact hd

theorem inv_sendPacket (H : Host) (s : LinkLayer) (t : packet_type_t) (d : QByteArray) (n : Nat)
    (h : s.NeverSentToSelf) : (s.sendPacket H t d n).NeverSentToSelf := by
  unfold LinkLayer.sendPacket
  split
  · exact h
  · exact inv_transportSend s _ ‹_› h

theorem inv_wrapNode (H : Host) (s : LinkLayer) (host : QHostAddress) (port : Nat)
    (h : s.NeverSentToSelf) : (s.wrapNode H host port).2.NeverSentToSelf := by
  unfold LinkLayer.wrapNode
  split
  · exact h
  · exact ⟨h.notSelf⟩

theorem inv_initTransport (H : Host) (s : LinkLayer) (h : s.NeverSentToSelf) :
    (s.initTransport H).2.NeverSentToSelf := by
  unfold LinkLayer.initTransport
  split
  · exact h
  · split
    · exact h
    · exact ⟨h.notSelf⟩

section NeverSentToSelf

attribute [local irreducible] LinkLayer.setNode LinkLayer.modifyNode LinkLayer.emit
  LinkLayer.crash LinkLayer.setRouter LinkLayer.setNodeSpool LinkLayer.delete LinkLayer.alloc
  LinkLayer.setAwaitingNegotiation LinkLayer.setCookies LinkLayer.setJoinStep
  LinkLayer.setJoinMaster LinkLayer.setForceBehindNAT LinkLayer.setJoinPing
  LinkLayer.setJoinPingsEmitted LinkLayer.setJoinPingsArrived LinkLayer.setPreparingForShutdown
  LinkLayer.setTransportInitiated LinkLayer.setPingTimer LinkLayer.setJoinTimer
  LinkLayer.setNetworkDivisor LinkLayer.stepRand LinkLayer.deliver LinkLayer.revertJoin
  LinkLayer.sendPacket LinkLayer.wrapNode LinkLayer.initTransport LinkLayer.transportSend
  LinkLayer.sendPublicKeyExchange LinkLayer.encryptAndSend LinkLayer.sendEncryptedPacket
  LinkLayer.negotiationTimeout LinkLayer.sendProtocolVersionRequest
  LinkLayer.sendProtocolVersionReply LinkLayer.handleProtocolVersionRequest
  LinkLayer.sendMasterNodeRequest LinkLayer.handleProtocolVersionReply
  LinkLayer.sendSessionKeyExchange LinkLayer.sendIntroducePacket LinkLayer.handlePublicKeyExchange
  LinkLayer.drainQueue LinkLayer.handleSessionKeyExchange LinkLayer.handleIntroducePacket
  LinkLayer.sendMasterNodeReply LinkLayer.handleMasterNodeRequest LinkLayer.sendPingRequest
  LinkLayer.sendPingInitiate LinkLayer.sendRegisterRequest LinkLayer.handleMasterNodeReply
  LinkLayer.sendPing LinkLayer.doPing LinkLayer.handlePingRequest LinkLayer.handlePingInitiate
  LinkLayer.joinGotPinged LinkLayer.handlePing LinkLayer.pingTimeout LinkLayer.sendRoute
  LinkLayer.sendRegisterReply LinkLayer.handleRegisterRequest LinkLayer.handleRegisterReply
  LinkLayer.handleRoute LinkLayer.sendRouteMissing LinkLayer.sendRouteRequest
  LinkLayer.handleRouteRequest LinkLayer.handleRouteMissing LinkLayer.sendRouteInvalidate
  LinkLayer.handleRouteInvalidate LinkLayer.sendRoleUpdate LinkLayer.handleRoleUpdate
  LinkLayer.sendExitNotification LinkLayer.reincarnateSomeone LinkLayer.handleExitNotification
  LinkLayer.sendDataToNode LinkLayer.handleInner LinkLayer.handleEncrypted LinkLayer.handleOuter
  LinkLayer.handlePacket LinkLayer.joinNetwork LinkLayer.joinTimeout LinkLayer.createNetwork
  LinkLayer.exitMessage LinkLayer.exitNetwork

theorem inv_sendPublicKeyExchange (H : Host) (s : LinkLayer) (n : Nat) (k : Option RSAKeyPair) (need : Bool) (c : Nat) (h : s.NeverSentToSelf) :
    (s.sendPublicKeyExchange H n k need c).NeverSentToSelf := by
  unfold LinkLayer.sendPublicKeyExchange
  repeat
    first
    | apply inv_crash
    | apply inv_setCookies
    | apply inv_stepRand
    | apply inv_sendPacket
    | split
    | dsimp only
    | exact h

theorem inv_encryptAndSend (H : Host) (s : LinkLayer) (d : QByteArray) (n : Nat) (h : s.NeverSentToSelf) :
    (s.encryptAndSend H d n).NeverSentToSelf := by
  unfold LinkLayer.encryptAndSend
  repeat
    first
    | apply inv_sendPacket
    | exact h

theorem inv_sendEncryptedPacket (H : Host) (s : LinkLayer) (t : packet_type_t) (d : QByteArray) (n : Nat) (h : s.NeverSentToSelf) :
    (s.sendEncryptedPacket H t d n).NeverSentToSelf := by
  unfold LinkLayer.sendEncryptedPacket
  repeat
    first
    | apply inv_modifyNode
    | apply inv_setAwaitingNegotiation
    | apply inv_sendPublicKeyExchange
    | apply inv_encryptAndSend
    | split
    | dsimp only
    | exact h

theorem inv_negotiationTimeout (s : LinkLayer) (n : Nat) (h : s.NeverSentToSelf) :
    (s.negotiationTimeout n).NeverSentToSelf := by
  unfold LinkLayer.negotiationTimeout
  repeat
    first
    | apply inv_modifyNode
    | apply inv_emit
    | apply inv_setAwaitingNegotiation
    | split
    | dsimp only
    | exact h

theorem inv_sendProtocolVersionRequest (H : Host) (s : LinkLayer) (n : Nat) (h : s.NeverSentToSelf) :
    (s.sendProtocolVersionRequest H n).NeverSentToSelf := by
  unfold LinkLayer.sendProtocolVersionRequest
  repeat
    first
    | apply inv_sendPacket
    | exact h

theorem inv_sendProtocolVersionReply (H : Host) (s : LinkLayer) (n : Nat) (h : s.NeverSentToSelf) :
    (s.sendProtocolVersionReply H n).NeverSentToSelf := by
  unfold LinkLayer.sendProtocolVersionReply
  repeat
    first
    | apply inv_sendPacket
    | exact h

theorem inv_handleProtocolVersionRequest (H : Host) (s : LinkLayer) (p : QByteArray) (n : Nat) (h : s.NeverSentToSelf) :
    (s.handleProtocolVersionRequest H p n).NeverSentToSelf := by
  unfold LinkLayer.handleProtocolVersionRequest
  repeat
    first
    | apply inv_sendProtocolVersionReply
    | split
    | exact h

theorem inv_sendMasterNodeRequest (H : Host) (s : LinkLayer) (n : Nat) (h : s.NeverSentToSelf) :
    (s.sendMasterNodeRequest H n).NeverSentToSelf := by
  unfold LinkLayer.sendMasterNodeRequest
  repeat
    first
    | apply inv_sendEncryptedPacket
    | exact h

theorem inv_handleProtocolVersionReply (H : Host) (s : LinkLayer) (p : QByteArray) (n : Nat) (h : s.NeverSentToSelf) :
    (s.handleProtocolVersionReply H p n).NeverSentToSelf := by
  unfold LinkLayer.handleProtocolVersionReply
  repeat
    first
    | apply inv_emit
    | apply inv_setJoinStep
    | apply inv_setJoinTimer
    | apply inv_revertJoin
    | apply inv_sendMasterNodeRequest
    | split
    | dsimp only
    | exact h

theorem inv_sendSessionKeyExchange (H : Host) (s : LinkLayer) (n : Nat) (need : Bool) (h : s.NeverSentToSelf) :
    (s.sendSessionKeyExchange H n need).NeverSentToSelf := by
  unfold LinkLayer.sendSessionKeyExchange
  repeat
    first
    | apply inv_sendPacket
    | exact h

theorem inv_sendIntroducePacket (H : Host) (s : LinkLayer) (n : Nat) (h : s.NeverSentToSelf) :
    (s.sendIntroducePacket H n).NeverSentToSelf := by
  unfold LinkLayer.sendIntroducePacket
  repeat
    first
    | apply inv_crash
    | apply inv_sendEncryptedPacket
    | split
    | exact h

theorem inv_handlePublicKeyExchange (H : Host) (s : LinkLayer) (p : QByteArray) (n : Nat) (h : s.NeverSentToSelf) :
    (s.handlePublicKeyExchange H p n).NeverSentToSelf := by
  unfold LinkLayer.handlePublicKeyExchange
  repeat
    first
    | apply inv_setNode
    | apply inv_modifyNode
    | apply inv_crash
    | apply inv_setAwaitingNegotiation
    | apply inv_setCookies
    | apply inv_sendPublicKeyExchange
    | apply inv_sendSessionKeyExchange
    | apply inv_sendIntroducePacket
    | split
    | dsimp only
    | exact h

theorem inv_drainQueue (H : Host) (n : Nat) :
    ∀ (q : List QByteArray) (s : LinkLayer), s.NeverSentToSelf →
      (LinkLayer.drainQueue H n q s).NeverSentToSelf := by
  intro q
  induction q with
  | nil => intro s h; unfold LinkLayer.drainQueue; exact h
  | cons d rest ih =>
    intro s h
    unfold LinkLayer.drainQueue
    exact ih _ (inv_encryptAndSend H _ _ n (inv_setNode s n _ h))

theorem inv_handleSessionKeyExchange (H : Host) (s : LinkLayer) (p : QByteArray) (n : Nat) (h : s.NeverSentToSelf) :
    (s.handleSessionKeyExchange H p n).NeverSentToSelf := by
  unfold LinkLayer.handleSessionKeyExchange
  repeat
    first
    | apply inv_modifyNode
    | apply inv_emit
    | apply inv_setAwaitingNegotiation
    | apply inv_sendSessionKeyExchange
    | apply inv_drainQueue
    | split
    | dsimp only
    | exact h

theorem inv_handleIntroducePacket (H : Host) (s : LinkLayer) (p : QByteArray) (n : Nat) (h : s.NeverSentToSelf) :
    (s.handleIntroducePacket H p n).NeverSentToSelf := by
  unfold LinkLayer.handleIntroducePacket
  repeat
    first
    | apply inv_modifyNode
    | apply inv_setRouter
    | split
    | dsimp only
    | exact h

theorem inv_sendMasterNodeReply (H : Host) (s : LinkLayer) (n m : Nat) (h : s.NeverSentToSelf) :
    (s.sendMasterNodeReply H n m).NeverSentToSelf := by
  unfold LinkLayer.sendMasterNodeReply
  repeat
    first
    | apply inv_sendEncryptedPacket
    | exact h

theorem inv_handleMasterNodeRequest (H : Host) (s : LinkLayer) (p : QByteArray) (n : Nat) (h : s.NeverSentToSelf) :
    (s.handleMasterNodeRequest H p n).NeverSentToSelf := by
  unfold LinkLayer.handleMasterNodeRequest
  repeat
    first
    | apply inv_crash
    | apply inv_sendMasterNodeReply
    | split
    | exact h

theorem inv_sendPingRequest (H : Host) (s : LinkLayer) (n t c : Nat) (h : s.NeverSentToSelf) :
    (s.sendPingRequest H n t c).NeverSentToSelf := by
  unfold LinkLayer.sendPingRequest
  repeat
    first
    | apply inv_sendEncryptedPacket
    | exact h

theorem inv_sendPingInitiate (H : Host) (s : LinkLayer) (n t c : Nat) (h : s.NeverSentToSelf) :
    (s.sendPingInitiate H n t c).NeverSentToSelf := by
  unfold LinkLayer.sendPingInitiate
  repeat
    first
    | apply inv_sendEncryptedPacket
    | exact h

theorem inv_sendRegisterRequest (H : Host) (s : LinkLayer) (n : Nat) (b : Bool) (h : s.NeverSentToSelf) :
    (s.sendRegisterRequest H n b).NeverSentToSelf := by
  unfold LinkLayer.sendRegisterRequest
  repeat
    first
    | apply inv_sendEncryptedPacket
    | split
    | exact h

theorem inv_handleMasterNodeReply (H : Host) (s : LinkLayer) (p : QByteArray) (n : Nat) (h : s.NeverSentToSelf) :
    (s.handleMasterNodeReply H p n).NeverSentToSelf := by
  unfold LinkLayer.handleMasterNodeReply
  repeat
    first
    | apply inv_setJoinStep
    | apply inv_setJoinMaster
    | apply inv_setJoinPing
    | apply inv_setJoinPingsEmitted
    | apply inv_setJoinPingsArrived
    | apply inv_setPingTimer
    | apply inv_setJoinTimer
    | apply inv_wrapNode
    | apply inv_sendPingRequest
    | apply inv_sendRegisterRequest
    | split
    | dsimp only
    | exact h

theorem inv_sendPing (H : Host) (s : LinkLayer) (n : Nat) (h : s.NeverSentToSelf) :
    (s.sendPing H n).NeverSentToSelf := by
  unfold LinkLayer.sendPing
  repeat
    first
    | apply inv_sendPacket
    | exact h

theorem inv_doPing (H : Host) (s : LinkLayer) (n c : Nat)
    (h : s.NeverSentToSelf) : (s.doPing H n c).NeverSentToSelf := by
  unfold LinkLayer.doPing
  split
  · exact h
  · exact inv_foldl _ (fun st _ hst => inv_sendPing H st n hst) _ _ h

theorem inv_handlePingRequest (H : Host) (s : LinkLayer) (p : QByteArray) (n : Nat) (h : s.NeverSentToSelf) :
    (s.handlePingRequest H p n).NeverSentToSelf := by
  unfold LinkLayer.handlePingRequest
  repeat
    first
    | apply inv_crash
    | apply inv_wrapNode
    | apply inv_sendPingInitiate
    | apply inv_doPing
    | split
    | dsimp only
    | exact h

theorem inv_handlePingInitiate (H : Host) (s : LinkLayer) (p : QByteArray) (n : Nat) (h : s.NeverSentToSelf) :
    (s.handlePingInitiate H p n).NeverSentToSelf := by
  unfold LinkLayer.handlePingInitiate
  repeat
    first
    | apply inv_wrapNode
    | apply inv_doPing
    | split
    | dsimp only
    | exact h

theorem inv_joinGotPinged (H : Host) (s : LinkLayer) (h : s.NeverSentToSelf) :
    (s.joinGotPinged H).NeverSentToSelf := by
  unfold LinkLayer.joinGotPinged
  repeat
    first
    | apply inv_crash
    | apply inv_setJoinStep
    | apply inv_setPingTimer
    | apply inv_setJoinTimer
    | apply inv_sendRegisterRequest
    | split
    | dsimp only
    | exact h

theorem inv_handlePing (H : Host) (s : LinkLayer) (p : QByteArray) (n : Nat) (h : s.NeverSentToSelf) :
    (s.handlePing H p n).NeverSentToSelf := by
  unfold LinkLayer.handlePing
  repeat
    first
    | apply inv_emit
    | apply inv_setJoinPing
    | apply inv_setJoinPingsArrived
    | apply inv_revertJoin
    | apply inv_joinGotPinged
    | split
    | dsimp only
    | exact h

theorem inv_pingTimeout (H : Host) (s : LinkLayer) (h : s.NeverSentToSelf) :
    (s.pingTimeout H).NeverSentToSelf := by
  unfold LinkLayer.pingTimeout
  repeat
    first
    | apply inv_crash
    | apply inv_setJoinStep
    | apply inv_sendRegisterRequest
    | apply inv_joinGotPinged
    | split
    | dsimp only
    | exact h

theorem inv_sendRoute (H : Host) (s : LinkLayer) (n t : Nat) (h : s.NeverSentToSelf) :
    (s.sendRoute H n t).NeverSentToSelf := by
  unfold LinkLayer.sendRoute
  repeat
    first
    | apply inv_sendEncryptedPacket
    | exact h

theorem inv_sendRegisterReply (H : Host) (s : LinkLayer) (n : Nat) (h : s.NeverSentToSelf) :
    (s.sendRegisterReply H n).NeverSentToSelf := by
  unfold LinkLayer.sendRegisterReply
  repeat
    first
    | apply inv_sendEncryptedPacket
    | exact h

theorem inv_handleRegisterRequest (H : Host) (s : LinkLayer) (p : QByteArray) (n : Nat) (h : s.NeverSentToSelf) :
    (s.handleRegisterRequest H p n).NeverSentToSelf := by
  unfold LinkLayer.handleRegisterRequest
  have hf : ∀ (l : List Nat) (st : LinkLayer), st.NeverSentToSelf →
      (l.foldl (fun st update => (st.sendRoute H n update).sendRoute H update n)
        st).NeverSentToSelf :=
    inv_foldl _ (fun st x hst => inv_sendRoute H _ x n (inv_sendRoute H st n x hst))
  repeat
    first
    | apply hf
    | apply inv_modifyNode
    | apply inv_crash
    | apply inv_setRouter
    | apply inv_sendRoute
    | apply inv_sendRegisterReply
    | split
    | dsimp only
    | exact h

theorem inv_handleRegisterReply (H : Host) (s : LinkLayer) (p : QByteArray) (n : Nat) (h : s.NeverSentToSelf) :
    (s.handleRegisterReply H p n).NeverSentToSelf := by
  unfold LinkLayer.handleRegisterReply
  repeat
    first
    | apply inv_modifyNode
    | apply inv_emit
    | apply inv_setRouter
    | apply inv_setJoinStep
    | apply inv_setJoinTimer
    | apply inv_setNetworkDivisor
    | apply inv_wrapNode
    | split
    | dsimp only
    | exact h

theorem inv_handleRoute (H : Host) (s : LinkLayer) (p : QByteArray) (n : Nat) (h : s.NeverSentToSelf) :
    (s.handleRoute H p n).NeverSentToSelf := by
  unfold LinkLayer.handleRoute
  repeat
    first
    | apply inv_modifyNode
    | apply inv_setRouter
    | apply inv_wrapNode
    | split
    | dsimp only
    | exact h

theorem inv_sendRouteMissing (H : Host) (s : LinkLayer) (n : Nat) (a : QHostAddress) (h : s.NeverSentToSelf) :
    (s.sendRouteMissing H n a).NeverSentToSelf := by
  unfold LinkLayer.sendRouteMissing
  repeat
    first
    | apply inv_sendEncryptedPacket
    | exact h

theorem inv_sendRouteRequest (H : Host) (s : LinkLayer) (a : QHostAddress) (h : s.NeverSentToSelf) :
    (s.sendRouteRequest H a).NeverSentToSelf := by
  unfold LinkLayer.sendRouteRequest
  repeat
    first
    | apply inv_crash
    | apply inv_sendEncryptedPacket
    | split
    | exact h

theorem inv_handleRouteRequest (H : Host) (s : LinkLayer) (p : QByteArray) (n : Nat) (h : s.NeverSentToSelf) :
    (s.handleRouteRequest H p n).NeverSentToSelf := by
  unfold LinkLayer.handleRouteRequest
  repeat
    first
    | apply inv_crash
    | apply inv_sendRoute
    | apply inv_sendRouteMissing
    | split
    | exact h

theorem inv_handleRouteMissing (s : LinkLayer) (p : QByteArray) (n : Nat) (h : s.NeverSentToSelf) :
    (s.handleRouteMissing p n).NeverSentToSelf := by
  unfold LinkLayer.handleRouteMissing
  repeat
    first
    | split
    | exact h

theorem inv_sendRouteInvalidate (H : Host) (s : LinkLayer) (n t : Nat) (h : s.NeverSentToSelf) :
    (s.sendRouteInvalidate H n t).NeverSentToSelf := by
  unfold LinkLayer.sendRouteInvalidate
  repeat
    first
    | apply inv_sendEncryptedPacket
    | exact h

theorem inv_handleRouteInvalidate (H : Host) (s : LinkLayer) (p : QByteArray) (n : Nat) (h : s.NeverSentToSelf) :
    (s.handleRouteInvalidate H p n).NeverSentToSelf := by
  unfold LinkLayer.handleRouteInvalidate
  repeat
    first
    | apply inv_setRouter
    | apply inv_setNodeSpool
    | apply inv_delete
    | apply inv_wrapNode
    | split
    | dsimp only
    | exact h

theorem inv_sendRoleUpdate (H : Host) (s : LinkLayer) (n : Nat) (b : Bool) (h : s.NeverSentToSelf) :
    (s.sendRoleUpdate H n b).NeverSentToSelf := by
  unfold LinkLayer.sendRoleUpdate
  repeat
    first
    | apply inv_sendEncryptedPacket
    | split
    | exact h

theorem inv_handleRoleUpdate (s : LinkLayer) (p : QByteArray) (n : Nat) (h : s.NeverSentToSelf) :
    (s.handleRoleUpdate p n).NeverSentToSelf := by
  unfold LinkLayer.handleRoleUpdate
  repeat
    first
    | apply inv_modifyNode
    | apply inv_crash
    | split
    | exact h

theorem inv_sendExitNotification (H : Host) (s : LinkLayer) (n : Nat) (h : s.NeverSentToSelf) :
    (s.sendExitNotification H n).NeverSentToSelf := by
  unfold LinkLayer.sendExitNotification
  repeat
    first
    | apply inv_sendEncryptedPacket
    | exact h

theorem inv_reincarnateSomeone (H : Host) (s : LinkLayer) (h : s.NeverSentToSelf) :
    (s.reincarnateSomeone H).NeverSentToSelf := by
  unfold LinkLayer.reincarnateSomeone
  have hf : ∀ (t : Nat) (l : List Nat) (st : LinkLayer), st.NeverSentToSelf →
      (l.foldl (fun st node =>
          if (st.node node).master = false ∧ node ≠ t then
            (st.sendRoute H node t).sendRoute H t node
          else st) st).NeverSentToSelf :=
    fun t => inv_foldl _ (fun st x hst => by
      split
      · exact inv_sendRoute H _ t x (inv_sendRoute H st x t hst)
      · exact hst)
  repeat
    first
    | apply hf
    | apply inv_modifyNode
    | apply inv_crash
    | apply inv_setRouter
    | apply inv_sendRoute
    | apply inv_sendRoleUpdate
    | split
    | dsimp only
    | exact h

theorem inv_handleExitNotification (H : Host) (s : LinkLayer) (p : QByteArray) (n : Nat) (h : s.NeverSentToSelf) :
    (s.handleExitNotification H p n).NeverSentToSelf := by
  unfold LinkLayer.handleExitNotification
  have hf : ∀ (l : List Nat) (st : LinkLayer), st.NeverSentToSelf →
      (l.foldl (fun st target => st.sendRouteInvalidate H target n) st).NeverSentToSelf :=
    inv_foldl _ (fun st x hst => inv_sendRouteInvalidate H st x n hst)
  repeat
    first
    | apply hf
    | apply inv_crash
    | apply inv_setRouter
    | apply inv_setNodeSpool
    | apply inv_delete
    | apply inv_sendRouteInvalidate
    | apply inv_reincarnateSomeone
    | split
    | dsimp only
    | exact h

theorem inv_sendDataToNode (H : Host) (s : LinkLayer) (d : QByteArray) (n : Nat) (h : s.NeverSentToSelf) :
    (s.sendDataToNode H d n).NeverSentToSelf := by
  unfold LinkLayer.sendDataToNode
  repeat
    first
    | apply inv_sendEncryptedPacket
    | exact h

theorem inv_handleInner (H : Host) (s : LinkLayer) (t : Nat) (p : QByteArray) (n : Nat) (h : s.NeverSentToSelf) :
    (s.handleInner H t p n).NeverSentToSelf := by
  unfold LinkLayer.handleInner
  repeat
    first
    | apply inv_deliver
    | apply inv_handleIntroducePacket
    | apply inv_handleMasterNodeRequest
    | apply inv_handleMasterNodeReply
    | apply inv_handlePingRequest
    | apply inv_handlePingInitiate
    | apply inv_handleRegisterRequest
    | apply inv_handleRegisterReply
    | apply inv_handleRoute
    | apply inv_handleRouteRequest
    | apply inv_handleRouteMissing
    | apply inv_handleRouteInvalidate
    | apply inv_handleRoleUpdate
    | apply inv_handleExitNotification
    | split
    | exact h

theorem inv_handleEncrypted (H : Host) (s : LinkLayer) (p : QByteArray) (n : Nat) (h : s.NeverSentToSelf) :
    (s.handleEncrypted H p n).NeverSentToSelf := by
  unfold LinkLayer.handleEncrypted
  repeat
    first
    | apply inv_handleInner
    | split
    | exact h

theorem inv_handleOuter (H : Host) (s : LinkLayer) (t : Nat) (p : QByteArray) (n : Nat) (h : s.NeverSentToSelf) :
    (s.handleOuter H t p n).NeverSentToSelf := by
  unfold LinkLayer.handleOuter
  repeat
    first
    | apply inv_handleProtocolVersionRequest
    | apply inv_handleProtocolVersionReply
    | apply inv_handlePublicKeyExchange
    | apply inv_handleSessionKeyExchange
    | apply inv_handlePing
    | apply inv_handleEncrypted
    | split
    | exact h

theorem inv_handlePacket (H : Host) (s : LinkLayer) (d : QByteArray) (a : QHostAddress) (p : Nat) (h : s.NeverSentToSelf) :
    (s.handlePacket H d a p).NeverSentToSelf := by
  unfold LinkLayer.handlePacket
  repeat
    first
    | apply inv_wrapNode
    | apply inv_handleOuter
    | split
    | dsimp only
    | exact h

theorem inv_joinNetwork (H : Host) (s : LinkLayer) (a : QHostAddress) (p : Nat) (b : Bool) (h : s.NeverSentToSelf) :
    ((s.joinNetwork H a p b).2).NeverSentToSelf := by
  unfold LinkLayer.joinNetwork
  repeat
    first
    | apply inv_setJoinStep
    | apply inv_setForceBehindNAT
    | apply inv_setJoinTimer
    | apply inv_wrapNode
    | apply inv_initTransport
    | apply inv_sendProtocolVersionRequest
    | split
    | dsimp only
    | exact h

theorem inv_joinTimeout (s : LinkLayer) (h : s.NeverSentToSelf) :
    (s.joinTimeout).NeverSentToSelf := by
  unfold LinkLayer.joinTimeout
  repeat
    first
    | apply inv_emit
    | apply inv_revertJoin
    | exact h

theorem inv_createNetwork (H : Host) (s : LinkLayer) (a : QHostAddress) (d : Nat) (h : s.NeverSentToSelf) :
    ((s.createNetwork H a d).2).NeverSentToSelf := by
  unfold LinkLayer.createNetwork
  repeat
    first
    | apply inv_emit
    | apply inv_setRouter
    | apply inv_alloc
    | apply inv_setJoinStep
    | apply inv_setNetworkDivisor
    | apply inv_initTransport
    | split
    | dsimp only
    | exact h

theorem inv_exitMessage (H : Host) (s : LinkLayer) (self : Nat) (h : s.NeverSentToSelf) :
    (s.exitMessage H self).NeverSentToSelf := by
  unfold LinkLayer.exitMessage
  repeat
    first
    | apply inv_crash
    | apply inv_sendExitNotification
    | apply inv_reincarnateSomeone
    | split
    | dsimp only
    | exact h

theorem inv_exitNetwork (H : Host) (s : LinkLayer) (h : s.NeverSentToSelf) :
    (s.exitNetwork H).NeverSentToSelf := by
  unfold LinkLayer.exitNetwork
  repeat
    first
    | apply inv_emit
    | apply inv_crash
    | apply inv_setPreparingForShutdown
    | apply inv_exitMessage
    | split
    | dsimp only
    | exact h

end NeverSentToSelf

theorem inv_of_reachable (H : Host) (s : LinkLayer) (hr : Reachable H s) : s.NeverSentToSelf := by
  induction hr with
  | init k => exact ⟨fun d hd => by cases hd⟩
  | handlePacket s data host port _ ih => exact inv_handlePacket H s data host port ih
  | joinNetwork s a p b _ ih => exact inv_joinNetwork H s a p b ih
  | createNetwork s a d _ ih => exact inv_createNetwork H s a d ih
  | exitNetwork s _ ih => exact inv_exitNetwork H s ih
  | joinTimeout s _ ih => exact inv_joinTimeout s ih
  | pingTimeout s _ ih => exact inv_pingTimeout H s ih
  | negotiationTimeout s n _ ih => exact inv_negotiationTimeout s n ih
  | sendDataToNode s d n _ ih => exact inv_sendDataToNode H s d n ih
  | sendRouteRequest s a _ ih => exact inv_sendRouteRequest H s a ih

theorem sent_sendPublicKeyExchange_self (H : Host) (s : LinkLayer) (node : Nat)
    (key : Option RSAKeyPair) (need : Bool) (c : Nat) (h : s.router.selfNode = some node) :
    (s.sendPublicKeyExchange H node key need c).sent = s.sent := by
  unfold LinkLayer.sendPublicKeyExchange
  cases need <;> cases key <;> simp [h, sendPacket_of_self, LinkLayer.setCookies,
    LinkLayer.stepRand]

theorem sent_sendEncryptedPacket_self (H : Host) (s : LinkLayer) (t : packet_type_t)
    (d : QByteArray) (node : Nat) (h : s.router.selfNode = some node) :
    (s.sendEncryptedPacket H t d node).sent = s.sent := by
  unfold LinkLayer.sendEncryptedPacket
  split
  · dsimp only
    split
    · rfl
    · exact sent_sendPublicKeyExchange_self H _ node _ _ _ h
  · unfold LinkLayer.encryptAndSend
    rw [sendPacket_of_self _ _ _ _ _ h]

/-- C10: never send to self. For every packet type and payload,
`sendPacket` called with the router's self node does not invoke the
transport: the state, the trace of transport calls included, stays as it
was; the same holds for the trace when `sendEncryptedPacket`,
`encryptAndSend`, a key exchange or a ping is directed at the self node. And
since every outbound path goes through `sendPacket`, in every state the link
layer can reach no datagram of the trace was handed to the transport for the
record that was the router's self node at the time. -/
theorem never_send_to_self (H : Host) (s : LinkLayer) (hr : Reachable H s) :
    (∀ (type : packet_type_t) (data : QByteArray) (node : Nat),
      s.router.selfNode = some node →
        s.sendPacket H type data node = s ∧
        (s.sendEncryptedPacket H type data node).sent = s.sent ∧
        (s.encryptAndSend H data node).sent = s.sent ∧
        (s.sendPublicKeyExchange H node (some s.hostKeyPair) true 0).sent = s.sent ∧
        (s.sendSessionKeyExchange H node true).sent = s.sent ∧
        (s.sendPing H node).sent = s.sent) ∧
    (∀ d ∈ s.sent, d.selfNode ≠ some d.node) := by
  refine ⟨fun type data node h => ⟨sendPacket_of_self H s type data node h,
    sent_sendEncryptedPacket_self H s type data node h, ?_,
    sent_sendPublicKeyExchange_self H s node _ _ _ h, ?_, ?_⟩, (inv_of_reachable H s hr).notSelf⟩
  · unfold LinkLayer.encryptAndSend
    rw [sendPacket_of_self _ _ _ _ _ h]
  · unfold LinkLayer.sendSessionKeyExchange
    rw [sendPacket_of_self _ _ _ _ _ h]
  · unfold LinkLayer.sendPing
    rw [sendPacket_of_self _ _ _ _ _ h]

set_option maxRecDepth 100000 in
/-- Witness of `never_send_to_self`: the node that created the example network
(self node: record 0) has answered the ProtocolVersionRequest of the peer at
10.0.0.2 (record 1), so its trace holds one datagram, sent to record 1 while
record 0 was the self node. A packet, an encrypted packet and a ping directed
at record 0 in this state leave the trace as it is. -/
theorem never_send_to_self_witness :
    Reachable (exampleHost Endian.little)
      (exampleCreated.handlePacket (exampleHost Endian.little)
        (frame (exampleHost Endian.little) packet_type_t.ProtocolVersionRequest [])
        167772162 1801) ∧
    (exampleCreated.handlePacket (exampleHost Endian.little)
      (frame (exampleHost Endian.little) packet_type_t.ProtocolVersionRequest [])
      167772162 1801).router.selfNode = some 0 ∧
    (exampleCreated.handlePacket (exampleHost Endian.little)
      (frame (exampleHost Endian.little) packet_type_t.ProtocolVersionRequest [])
      167772162 1801).sent.map (fun d => (d.node, d.selfNode)) = [(1, some 0)] ∧
    (exampleCreated.handlePacket (exampleHost Endian.little)
      (frame (exampleHost Endian.little) packet_type_t.ProtocolVersionRequest [])
      167772162 1801).sendPacket (exampleHost Endian.little) packet_type_t.Ping
        [1, 0, 0, 10, 9, 7] 0 =
      exampleCreated.handlePacket (exampleHost Endian.little)
        (frame (exampleHost Endian.little) packet_type_t.ProtocolVersionRequest [])
        167772162 1801 ∧
    ((exampleCreated.handlePacket (exampleHost Endian.little)
      (frame (exampleHost Endian.little) packet_type_t.ProtocolVersionRequest [])
      167772162 1801).sendEncryptedPacket (exampleHost Endian.little) packet_type_t.DataPacket
        [1, 2, 3] 0).sent =
      (exampleCreated.handlePacket (exampleHost Endian.little)
        (frame (exampleHost Endian.little) packet_type_t.ProtocolVersionRequest [])
        167772162 1801).sent ∧
    ((exampleCreated.handlePacket (exampleHost Endian.little)
      (frame (exampleHost Endian.little) packet_type_t.ProtocolVersionRequest [])
      167772162 1801).sendPing (exampleHost Endian.little) 0).sent =
      (exampleCreated.handlePacket (exampleHost Endian.little)
        (frame (exampleHost Endian.little) packet_type_t.ProtocolVersionRequest [])
        167772162 1801).sent ∧
    (∀ d ∈ (exampleCreated.handlePacket (exampleHost Endian.little)
      (frame (exampleHost Endian.little) packet_type_t.ProtocolVersionRequest [])
      167772162 1801).sent, d.selfNode ≠ some d.node) :=
  ⟨Reachable.handlePacket _ _ _ _ (Reachable.createNetwork _ _ _ (Reachable.init exampleKey)),
    by decide, by decide,
    ((never_send_to_self (exampleHost Endian.little) _
      (Reachable.handlePacket _ _ _ _
        (Reachable.createNetwork _ _ _ (Reachable.init exampleKey)))).1
      packet_type_t.Ping [1, 0, 0, 10, 9, 7] 0 (by decide)).1,
    ((never_send_to_self (exampleHost Endian.little) _
      (Reachable.handlePacket _ _ _ _
        (Reachable.createNetwork _ _ _ (Reachable.init exampleKey)))).1
      packet_type_t.DataPacket [1, 2, 3] 0 (by decide)).2.1,
    ((never_send_to_self (exampleHost Endian.little) _
      (Reachable.handlePacket _ _ _ _
        (Reachable.createNetwork _ _ _ (Reachable.init exampleKey)))).1
      packet_type_t.Ping [] 0 (by decide)).2.2.2.2.2,
    (never_send_to_self (exampleHost Endian.little) _
      (Reachable.handlePacket _ _ _ _
        (Reachable.createNetwork _ _ _ (Reachable.init exampleKey)))).2⟩

/-! ## Double precision -/

theorem doubleScale_spec (a b : Nat) (hb : 0 < b) :
    ∀ fuel k, 2 ^ 52 * b ≤ a * 2 ^ (k + fuel) → 2 ^ 52 * b ≤ a * 2 ^ doubleScale a b fuel k := by
  intro fuel
  induction fuel with
  | zero => intro k h; simpa [doubleScale] using h
  | succ f ih =>
    intro k h
    unfold doubleScale
    split
    · rename_i hc
      exact (Nat.le_div_iff_mul_le hb).1 hc
    · apply ih
      rw [show k + 1 + f = k + (f + 1) by omega]
      exact h

theorem doubleRound_bounds (X b : Nat) (hb : 0 < b) :
    2 * (doubleRound X b * b) ≤ 2 * X + b ∧ 2 * X ≤ 2 * (doubleRound X b * b) + b := by
  unfold doubleRound
  have h1 : b * (X / b) + X % b = X := Nat.div_add_mod X b
  have h2 : X % b < b := Nat.mod_lt X hb
  rw [Nat.mul_comm b] at h1
  split
  · rename_i hc
    rw [Nat.add_mul]
    constructor <;> rcases hc with hc | ⟨hc, _⟩ <;> omega
  · rename_i hc
    have : 2 * (X % b) ≤ b := by
      by_contra hlt
      exact hc (Or.inl (by omega))
    constructor <;> omega



/-- Two scaled quotients whose rounding errors would have to bridge a gap of
one unit in the cross product cannot exist below `2 ^ 52`. -/
theorem gap_absurd (P a b d A B : Nat) (hP : 0 < P) (hA : 0 < A) (hB : 0 < B)
    (h1 : P * b ≤ a * A) (h2 : P * d ≤ B) (hb : b ≤ P) (had : a * d < P)
    (h : 2 * (A * B) ≤ b * d * A + b * d * B) : False := by
  have hAB : 0 < A * B := Nat.mul_pos hA hB
  -- b d A ≤ A B
  have e1 : P * (b * d * A) ≤ P * (A * B) := by
    calc P * (b * d * A) = b * A * (P * d) := by ring
      _ ≤ b * A * B := Nat.mul_le_mul_left _ h2
      _ = b * (A * B) := by ring
      _ ≤ P * (A * B) := Nat.mul_le_mul_right _ hb
  have e1' : b * d * A ≤ A * B := Nat.le_of_mul_le_mul_left e1 hP
  have e2 : P * (b * d * B) < P * (A * B) := by
    calc P * (b * d * B) = P * b * (d * B) := by ring
      _ ≤ a * A * (d * B) := Nat.mul_le_mul_right _ h1
      _ = a * d * (A * B) := by ring
      _ < P * (A * B) := Nat.mul_lt_mul_of_pos_right had hAB
  have e2' : b * d * B < A * B := Nat.lt_of_mul_lt_mul_left e2
  omega

theorem less_of_gap (P a b d A B m n : Nat) (hP : 0 < P) (hA : 0 < A) (hB : 0 < B)
    (h1 : P * b ≤ a * A) (h2 : P * d ≤ B) (hb : b ≤ P) (hlt : a * d < b)
    (h5 : 2 * (m * b) ≤ 2 * (a * A) + b) (h6 : 2 * B ≤ 2 * (n * d) + d) :
    m * B < n * A := by
  by_contra h7
  have h7 : n * A ≤ m * B := Nat.le_of_not_lt h7
  apply gap_absurd P a b d A B hP hA hB h1 h2 hb (lt_of_lt_of_le hlt hb)
  have s1 : 2 * (A * B) * b ≤ 2 * (a * d) * (A * B) + (b * d * B + b * d * A) := by
    calc 2 * (A * B) * b = (2 * B) * (A * b) := by ring
      _ ≤ (2 * (n * d) + d) * (A * b) := Nat.mul_le_mul_right _ h6
      _ = 2 * (n * A) * (d * b) + A * b * d := by ring
      _ ≤ 2 * (m * B) * (d * b) + A * b * d := by
          apply Nat.add_le_add_right
          exact Nat.mul_le_mul_right _ (Nat.mul_le_mul_left _ h7)
      _ = (2 * (m * b)) * (B * d) + A * b * d := by ring
      _ ≤ (2 * (a * A) + b) * (B * d) + A * b * d := by
          apply Nat.add_le_add_right
          exact Nat.mul_le_mul_right _ h5
      _ = 2 * (a * d) * (A * B) + (b * d * B + b * d * A) := by ring
  have s2 : 2 * (A * B) * (a * d + 1) ≤ 2 * (A * B) * b := Nat.mul_le_mul_left _ hlt
  have s3 : 2 * (A * B) * (a * d + 1) = 2 * (a * d) * (A * B) + 2 * (A * B) := by ring
  omega

theorem not_less_of_gap (P a b d A B m n : Nat) (hP : 0 < P) (hA : 0 < A) (hB : 0 < B)
    (h1 : P * b ≤ a * A) (h2 : P * d ≤ B) (hb : b ≤ P) (had : a * d < P) (hlt : b < a * d)
    (h5 : 2 * (a * A) ≤ 2 * (m * b) + b) (h6 : 2 * (n * d) ≤ 2 * B + d) :
    ¬ m * B < n * A := by
  intro h7
  have h7 : m * B ≤ n * A := Nat.le_of_lt h7
  apply gap_absurd P a b d A B hP hA hB h1 h2 hb had
  have s1 : 2 * (a * d) * (A * B) ≤ 2 * (A * B) * b + (b * d * B + b * d * A) := by
    calc 2 * (a * d) * (A * B) = (2 * (a * A)) * (B * d) := by ring
      _ ≤ (2 * (m * b) + b) * (B * d) := Nat.mul_le_mul_right _ h5
      _ = 2 * (m * B) * (b * d) + b * d * B := by ring
      _ ≤ 2 * (n * A) * (b * d) + b * d * B := by
          apply Nat.add_le_add_right
          exact Nat.mul_le_mul_right _ (Nat.mul_le_mul_left _ h7)
      _ = (2 * (n * d)) * (A * b) + b * d * B := by ring
      _ ≤ (2 * B + d) * (A * b) + b * d * B := by
          apply Nat.add_le_add_right
          exact Nat.mul_le_mul_right _ h6
      _ = 2 * (A * B) * b + (b * d * B + b * d * A) := by ring
  have s2 : 2 * (A * B) * (b + 1) ≤ 2 * (A * B) * (a * d) := Nat.mul_le_mul_left _ hlt
  have s3 : 2 * (A * B) * (b + 1) = 2 * (A * B) * b + 2 * (A * B) := by ring
  have s4 : 2 * (A * B) * (a * d) = 2 * (a * d) * (A * B) := by ring
  omega


theorem doubleScale_mul (c a b : Nat) (hc : 0 < c) :
    ∀ fuel k, doubleScale (c * a) (c * b) fuel k = doubleScale a b fuel k := by
  intro fuel
  induction fuel with
  | zero => intro k; rfl
  | succ f ih =>
    intro k
    unfold doubleScale
    rw [Nat.mul_assoc, Nat.mul_div_mul_left _ _ hc, ih]

theorem doubleDiv_mul (c a b : Nat) (hc : 0 < c) (ha : 0 < a) (hb : 0 < b) :
    doubleDiv (c * a) (c * b) = doubleDiv a b := by
  have hca : c * a ≠ 0 := Nat.pos_iff_ne_zero.1 (Nat.mul_pos hc ha)
  have hcb : c * b ≠ 0 := Nat.pos_iff_ne_zero.1 (Nat.mul_pos hc hb)
  unfold doubleDiv
  rw [if_neg hcb, if_neg hca, if_neg (Nat.pos_iff_ne_zero.1 hb), if_neg (Nat.pos_iff_ne_zero.1 ha)]
  unfold doubleRound
  rw [doubleScale_mul c a b hc, Nat.mul_assoc, Nat.mul_div_mul_left _ _ hc,
    Nat.mul_mod_mul_left]
  have e1 : (c * b < 2 * (c * (a * 2 ^ doubleScale a b 128 0 % b))) ↔
      (b < 2 * (a * 2 ^ doubleScale a b 128 0 % b)) := by
    rw [Nat.mul_left_comm 2 c]
    exact Nat.mul_lt_mul_left hc
  have e2 : (2 * (c * (a * 2 ^ doubleScale a b 128 0 % b)) = c * b) ↔
      (2 * (a * 2 ^ doubleScale a b 128 0 % b) = b) := by
    rw [Nat.mul_left_comm 2 c]
    exact Nat.mul_right_inj (Nat.pos_iff_ne_zero.1 hc)
  simp only [e1, e2]

theorem doubleDiv_finite (a b : Nat) (ha : 0 < a) (hb : 0 < b) (hb2 : b ≤ 2 ^ 52) :
    ∃ m k, doubleDiv a b = double.finite m k ∧ 2 ^ 52 * b ≤ a * 2 ^ k ∧
      2 * (m * b) ≤ 2 * (a * 2 ^ k) + b ∧ 2 * (a * 2 ^ k) ≤ 2 * (m * b) + b := by
  refine ⟨doubleRound (a * 2 ^ doubleScale a b 128 0) b, doubleScale a b 128 0, ?_, ?_, ?_⟩
  · unfold doubleDiv
    rw [if_neg (Nat.pos_iff_ne_zero.1 hb), if_neg (Nat.pos_iff_ne_zero.1 ha)]
  · apply doubleScale_spec a b hb
    calc 2 ^ 52 * b ≤ 2 ^ 52 * 2 ^ 52 := Nat.mul_le_mul_left _ hb2
      _ ≤ 1 * 2 ^ (0 + 128) := by norm_num
      _ ≤ a * 2 ^ (0 + 128) := Nat.mul_le_mul_right _ ha
  · exact doubleRound_bounds _ b hb

theorem doubleLess_irrefl (x : double) : doubleLess x x = false := by
  cases x <;> simp [doubleLess]

/-- The comparison of the two quotients in doubles agrees with the comparison
in exact arithmetic for operands below `2 ^ 52`. -/
theorem doubleLess_doubleDiv (a b d : Nat) (hb : b ≤ 2 ^ 52) (hd : d ≤ 2 ^ 52)
    (had : a * d < 2 ^ 52) :
    doubleLess (doubleDiv a b) (doubleDiv 1 d) = ratioLess a b d := by
  unfold ratioLess
  by_cases hb0 : b = 0
  · rw [if_pos hb0]
    unfold doubleDiv
    rw [if_pos hb0]
    split <;> rfl
  rw [if_neg hb0]
  have hbpos : 0 < b := Nat.pos_of_ne_zero hb0
  by_cases hd0 : d = 0
  · rw [if_pos hd0, hd0]
    have : doubleDiv 1 0 = double.inf := by decide
    rw [this]
    unfold doubleDiv
    rw [if_neg hb0]
    split <;> rfl
  rw [if_neg hd0]
  have hdpos : 0 < d := Nat.pos_of_ne_zero hd0
  obtain ⟨n, l, e2, h2, h6', h6⟩ := doubleDiv_finite 1 d Nat.one_pos hdpos hd
  rw [Nat.one_mul] at h2 h6 h6'
  have hB : 0 < 2 ^ l := Nat.pow_pos (by decide)
  by_cases ha0 : a = 0
  · have e1 : doubleDiv 0 b = double.finite 0 0 := by
      unfold doubleDiv
      rw [if_neg hb0, if_pos rfl]
    have hn : 0 < n := by
      rcases Nat.eq_zero_or_pos n with h0 | h0
      · rw [h0] at h6
        have : d ≤ 2 ^ 52 * d := Nat.le_mul_of_pos_left d (by norm_num)
        omega
      · exact h0
    rw [ha0, e1, e2]
    simp [doubleLess, hn, hbpos]
  have hapos : 0 < a := Nat.pos_of_ne_zero ha0
  obtain ⟨m, k, e1, h1, h5, h5'⟩ := doubleDiv_finite a b hapos hbpos hb
  have hA : 0 < 2 ^ k := Nat.pow_pos (by decide)
  rcases Nat.lt_trichotomy (a * d) b with hlt | heq | hgt
  · rw [e1, e2]
    simp only [doubleLess, hlt, decide_True, decide_eq_true_eq]
    exact less_of_gap (2 ^ 52) a b d (2 ^ k) (2 ^ l) m n (by norm_num) hA hB h1 h2 hb hlt h5 h6
  · have : doubleDiv a b = doubleDiv 1 d := by
      rw [← heq]
      have := doubleDiv_mul a 1 d hapos Nat.one_pos hdpos
      rw [Nat.mul_one] at this
      exact this
    rw [this, doubleLess_irrefl, ← heq]
    simp
  · rw [e1, e2]
    have hnl : ¬ a * d < b := Nat.not_lt.2 (Nat.le_of_lt hgt)
    simp only [doubleLess, hnl, decide_False, decide_eq_false_iff_not]
    exact not_less_of_gap (2 ^ 52) a b d (2 ^ k) (2 ^ l) m n (by norm_num) hA hB h1 h2 hb had hgt
      h5' h6'

/-! ## What sending leaves alone -/

theorem core_setNode (s : LinkLayer) (n : Nat) (v : SparkleNode)
    (h : v.core = (s.node n).core) : (s.setNode n v).core = s.core := by
  have : (s.heap.set n v).map SparkleNode.core = s.heap.map SparkleNode.core := by
    apply List.ext_getElem
    · simp
    · intro i h1 h2
      simp only [List.getElem_map, List.getElem_set]
      split
      · rename_i hi
        subst hi
        rw [h]
        simp only [List.length_map, List.length_set] at h1
        simp [LinkLayer.node, List.getElem?_eq_getElem h1]
      · rfl
  unfold LinkLayer.core LinkLayer.setNode
  simp only [this]

theorem core_modifyNode (s : LinkLayer) (n : Nat) (f : SparkleNode → SparkleNode)
    (h : ∀ r, (f r).core = r.core) : (s.modifyNode n f).core = s.core :=
  core_setNode s n _ (h _)

theorem core_transportSend (s : LinkLayer) (d : Datagram) : (s.transportSend d).core = s.core :=
  rfl

theorem core_setCookies (s : LinkLayer) (c : List (Nat × Nat)) : (s.setCookies c).core = s.core :=
  rfl

theorem core_setAwaitingNegotiation (s : LinkLayer) (l : List Nat) :
    (s.setAwaitingNegotiation l).core = s.core := rfl

theorem core_stepRand (s : LinkLayer) : s.stepRand.core = s.core := rfl

theorem core_crash (s : LinkLayer) : s.crash.core = s.core := rfl

theorem core_sendPacket (H : Host) (s : LinkLayer) (t : packet_type_t) (d : QByteArray) (n : Nat) :
    (s.sendPacket H t d n).core = s.core := by
  unfold LinkLayer.sendPacket
  split <;> rfl

theorem core_sendPublicKeyExchange (H : Host) (s : LinkLayer) (n : Nat) (k : Option RSAKeyPair)
    (need : Bool) (c : Nat) : (s.sendPublicKeyExchange H n k need c).core = s.core := by
  unfold LinkLayer.sendPublicKeyExchange
  have h1 : (if need = true then
      s.stepRand.setCookies (cookiesInsert s.cookies
        (if need = true then H.qrand s.randCalls % 4294967296 else c) n) else s).core = s.core := by
    split <;> rfl
  dsimp only
  split
  · rw [core_sendPacket, h1]
  · split
    · rw [core_sendPacket, h1]
    · rw [core_crash, h1]

theorem core_encryptAndSend (H : Host) (s : LinkLayer) (d : QByteArray) (n : Nat) :
    (s.encryptAndSend H d n).core = s.core := core_sendPacket H s _ _ n

theorem core_sendEncryptedPacket (H : Host) (s : LinkLayer) (t : packet_type_t) (d : QByteArray)
    (n : Nat) : (s.sendEncryptedPacket H t d n).core = s.core := by
  unfold LinkLayer.sendEncryptedPacket
  dsimp only
  have h1 : (s.modifyNode n (fun r => r.pushQueue (frame H t d))).core = s.core :=
    core_modifyNode s n _ (fun _ => rfl)
  split
  · split
    · exact h1
    · exact (core_sendPublicKeyExchange H _ n _ _ _).trans
        ((core_setAwaitingNegotiation _ _).trans
          ((core_modifyNode _ n SparkleNode.negotiationStart (fun _ => rfl)).trans h1))
  · exact core_encryptAndSend H s _ n

theorem core_foldl {α : Type} (f : LinkLayer → α → LinkLayer)
    (hf : ∀ st x, (f st x).core = st.core) :
    ∀ (l : List α) (s : LinkLayer), (l.foldl f s).core = s.core := by
  intro l
  induction l with
  | nil => intro s; rfl
  | cons a l ih => intro s; rw [List.foldl_cons, ih, hf]

theorem core_sendRoute (H : Host) (s : LinkLayer) (n t : Nat) :
    (s.sendRoute H n t).core = s.core := core_sendEncryptedPacket H s _ _ n

theorem core_sendRegisterReply (H : Host) (s : LinkLayer) (n : Nat) :
    (s.sendRegisterReply H n).core = s.core := core_sendEncryptedPacket H s _ _ n

theorem core_sendRouteInvalidate (H : Host) (s : LinkLayer) (n t : Nat) :
    (s.sendRouteInvalidate H n t).core = s.core := core_sendEncryptedPacket H s _ _ n

theorem core_sendRoleUpdate (H : Host) (s : LinkLayer) (n : Nat) (b : Bool) :
    (s.sendRoleUpdate H n b).core = s.core := core_sendEncryptedPacket H s _ _ n

theorem core_sendMasterNodeRequest (H : Host) (s : LinkLayer) (n : Nat) :
    (s.sendMasterNodeRequest H n).core = s.core := core_sendEncryptedPacket H s _ _ n

theorem core_sendRegisterRequest (H : Host) (s : LinkLayer) (n : Nat) (b : Bool) :
    (s.sendRegisterRequest H n b).core = s.core := core_sendEncryptedPacket H s _ _ n

theorem core_sendSessionKeyExchange (H : Host) (s : LinkLayer) (n : Nat) (b : Bool) :
    (s.sendSessionKeyExchange H n b).core = s.core := core_sendPacket H s _ _ n

theorem core_sendIntroducePacket (H : Host) (s : LinkLayer) (n : Nat) :
    (s.sendIntroducePacket H n).core = s.core := by
  unfold LinkLayer.sendIntroducePacket
  split
  · rfl
  · exact core_sendEncryptedPacket H s _ _ n

/-- Records of states with the same core agree up to queue and timer. -/
theorem node_core (s : LinkLayer) (n : Nat) : (s.node n).core = s.core.node n := by
  unfold LinkLayer.node LinkLayer.core
  simp only [List.getD_eq_getElem?_getD, List.getElem?_map]
  cases s.heap[n]? <;> rfl

theorem node_core_eq {s t : LinkLayer} (h : t.core = s.core) (n : Nat) :
    (t.node n).core = (s.node n).core := by
  rw [node_core, node_core, h]

theorem router_of_core {s t : LinkLayer} (h : t.core = s.core) : t.router = s.router :=
  by
  have := congrArg LinkLayer.router h
  exact this

theorem nodeSpool_of_core {s t : LinkLayer} (h : t.core = s.core) : t.nodeSpool = s.nodeSpool :=
  by
  have := congrArg LinkLayer.nodeSpool h
  exact this

theorem networkDivisor_of_core {s t : LinkLayer} (h : t.core = s.core) :
    t.networkDivisor = s.networkDivisor := by
  have := congrArg LinkLayer.networkDivisor h
  exact this

theorem joinStep_of_core {s t : LinkLayer} (h : t.core = s.core) : t.joinStep = s.joinStep :=
  by
  have := congrArg LinkLayer.joinStep h
  exact this

theorem emitted_of_core {s t : LinkLayer} (h : t.core = s.core) : t.emitted = s.emitted :=
  by
  have := congrArg LinkLayer.emitted h
  exact this

theorem heap_length_of_core {s t : LinkLayer} (h : t.core = s.core) :
    t.heap.length = s.heap.length := by
  have := congrArg (fun x => x.heap.length) h
  simpa [LinkLayer.core] using this

theorem master_of_core {s t : LinkLayer} (h : t.core = s.core) (n : Nat) :
    (t.node n).master = (s.node n).master := by
  have := congrArg SparkleNode.master (node_core_eq h n)
  exact this

theorem behindNAT_of_core {s t : LinkLayer} (h : t.core = s.core) (n : Nat) :
    (t.node n).behindNAT = (s.node n).behindNAT := by
  have := congrArg SparkleNode.behindNAT (node_core_eq h n)
  exact this

theorem host_of_core {s t : LinkLayer} (h : t.core = s.core) (n : Nat) :
    (t.node n).host = (s.node n).host := by
  have := congrArg SparkleNode.host (node_core_eq h n)
  exact this

theorem port_of_core {s t : LinkLayer} (h : t.core = s.core) (n : Nat) :
    (t.node n).port = (s.node n).port := by
  have := congrArg SparkleNode.port (node_core_eq h n)
  exact this

theorem getMasters_of_core {s t : LinkLayer} (h : t.core = s.core) :
    t.getMasters = s.getMasters := by
  unfold LinkLayer.getMasters
  rw [router_of_core h]
  apply List.filter_congr
  intro n _
  rw [master_of_core h]

theorem getNodes_of_core {s t : LinkLayer} (h : t.core = s.core) : t.getNodes = s.getNodes := by
  unfold LinkLayer.getNodes
  rw [router_of_core h]

/-! ## Failed joins that go on (C11, C12) -/

theorem heap_sendPublicKeyExchange (H : Host) (s : LinkLayer) (n : Nat) (k : Option RSAKeyPair)
    (need : Bool) (c : Nat) : (s.sendPublicKeyExchange H n k need c).heap = s.heap := by
  unfold LinkLayer.sendPublicKeyExchange
  have h1 : (if need = true then
      s.stepRand.setCookies (cookiesInsert s.cookies
        (if need = true then H.qrand s.randCalls % 4294967296 else c) n) else s).heap = s.heap := by
    split <;> rfl
  dsimp only
  split
  · rw [heap_sendPacket, h1]
  · split
    · rw [heap_sendPacket, h1]
    · exact h1

theorem sendEncryptedPacket_of_negotiated (H : Host) (s : LinkLayer) (t : packet_type_t)
    (d : QByteArray) (n : Nat) (hk : (s.node n).areKeysNegotiated = true) :
    s.sendEncryptedPacket H t d n = s.encryptAndSend H (frame H t d) n := by
  unfold LinkLayer.sendEncryptedPacket
  rw [if_neg (by rw [hk]; decide)]

/-- The framed bytes go to the end of the queue of a peer without negotiated keys. -/
theorem queue_sendEncryptedPacket (H : Host) (s : LinkLayer) (t : packet_type_t) (d : QByteArray)
    (n : Nat) (hv : n < s.heap.length) (hk : (s.node n).areKeysNegotiated = false) :
    ((s.sendEncryptedPacket H t d n).node n).queue = (s.node n).queue ++ [frame H t d] := by
  have hq : ((s.modifyNode n (fun r => r.pushQueue (frame H t d))).node n).queue =
      (s.node n).queue ++ [frame H t d] := by
    rw [node_modifyNode_same s n _ hv]
    rfl
  unfold LinkLayer.sendEncryptedPacket
  rw [if_pos hk]
  dsimp only
  split
  · exact hq
  · unfold LinkLayer.node
    rw [heap_sendPublicKeyExchange]
    show (LinkLayer.node (LinkLayer.modifyNode _ n SparkleNode.negotiationStart) n).queue = _
    rw [node_modifyNode_same _ n _ (by unfold LinkLayer.modifyNode; rw [heap_length_setNode]; exact hv)]
    exact hq

theorem freed_of_core {s t : LinkLayer} (h : t.core = s.core) : t.freed = s.freed := by
  have := congrArg LinkLayer.freed h
  exact this

/-- C11, what the code does: a well-sized ProtocolVersionReply whose version
differs from `ProtocolVersion`, handled in join step VersionRequest, emits
`joinFailed` and then goes on as for a matching version, there being no
`return` after the signal: the join step becomes MasterNodeRequest and the
MasterNodeRequest is handed to the encrypted-send gate for the replying peer,
which queues it when the keys of the peer are not negotiated and sends it
encrypted when they are. -/
theorem versionMismatch_goes_on (H : Host) (s : LinkLayer) (payload : QByteArray) (node : Nat)
    (hsize : payload.length = sizeof_protocol_version_reply_t)
    (hstep : s.joinStep = join_step_t.JoinVersionRequest)
    (hver : fieldAt H payload 0 4 ≠ H.ProtocolVersion)
    (hvalid : node < s.heap.length) :
    (s.handleProtocolVersionReply H payload node).emitted = s.emitted ++ [Signal.joinFailed] ∧
    (s.handleProtocolVersionReply H payload node).freed = s.freed ++ s.nodeSpool ∧
    (s.handleProtocolVersionReply H payload node).joinStep =
      join_step_t.JoinMasterNodeRequest ∧
    ((s.node node).areKeysNegotiated = false →
      ((s.handleProtocolVersionReply H payload node).node node).queue =
        (s.node node).queue ++ [frame H packet_type_t.MasterNodeRequest []]) ∧
    ((s.node node).areKeysNegotiated = true →
      (s.handleProtocolVersionReply H payload node).sent = s.sent ++
        [⟨frame H packet_type_t.EncryptedPacket
            (H.encrypt (s.node node).mySessionKey (frame H packet_type_t.MasterNodeRequest [])),
          (s.node node).host, (s.node node).port, node, none⟩]) := by
  have hcheck : checkPacketSize payload sizeof_protocol_version_reply_t
      packet_size_class_t.PacketSizeEqual = true := by
    unfold checkPacketSize
    rw [if_neg]
    simp [hsize]
  have hexp : s.checkPacketExpection join_step_t.JoinVersionRequest = true := by
    unfold LinkLayer.checkPacketExpection
    rw [if_neg (by rw [hstep]; simp)]
  have hres : s.handleProtocolVersionReply H payload node =
      (((s.revertJoin.emit Signal.joinFailed).setJoinStep
        join_step_t.JoinMasterNodeRequest).sendMasterNodeRequest H node).setJoinTimer true := by
    unfold LinkLayer.handleProtocolVersionReply
    rw [if_neg (by rw [hcheck]; decide), if_neg (by rw [hexp]; decide)]
    dsimp only
    rw [if_pos hver]
  rw [hres]
  have hc := core_sendMasterNodeRequest H
    ((s.revertJoin.emit Signal.joinFailed).setJoinStep join_step_t.JoinMasterNodeRequest) node
  refine ⟨?_, ?_, ?_, ?_, ?_⟩
  · show (LinkLayer.sendMasterNodeRequest H _ node).emitted = _
    rw [emitted_of_core hc]
    rfl
  · show (LinkLayer.sendMasterNodeRequest H _ node).freed = _
    rw [freed_of_core hc]
    rfl
  · show (LinkLayer.sendMasterNodeRequest H _ node).joinStep = _
    rw [joinStep_of_core hc]
    rfl
  · intro hk
    exact queue_sendEncryptedPacket H
      ((s.revertJoin.emit Signal.joinFailed).setJoinStep join_step_t.JoinMasterNodeRequest)
      packet_type_t.MasterNodeRequest [] node hvalid hk
  · intro hk
    show (LinkLayer.sendEncryptedPacket H _ packet_type_t.MasterNodeRequest [] node).sent = _
    rw [sendEncryptedPacket_of_negotiated H
      ((s.revertJoin.emit Signal.joinFailed).setJoinStep join_step_t.JoinMasterNodeRequest)
      _ _ node hk]
    unfold LinkLayer.encryptAndSend
    rw [sendPacket_of_ne_self _ _ _ _ _ (by
      show (none : Option Nat) ≠ some node
      simp)]
    rfl

/-- Witness of `versionMismatch_goes_on`: the peer a join has just been started
through replies with version 2 where `ProtocolVersion` is 1. -/
theorem versionMismatch_goes_on_witness :
    Reachable (exampleHost Endian.little) exampleJoining ∧
    ([2, 0, 0, 0] : QByteArray).length = sizeof_protocol_version_reply_t ∧
    exampleJoining.joinStep = join_step_t.JoinVersionRequest ∧
    fieldAt (exampleHost Endian.little) [2, 0, 0, 0] 0 4 ≠
      (exampleHost Endian.little).ProtocolVersion ∧
    0 < exampleJoining.heap.length ∧
    (exampleJoining.handleProtocolVersionReply (exampleHost Endian.little) [2, 0, 0, 0]
      0).emitted = exampleJoining.emitted ++ [Signal.joinFailed] ∧
    (exampleJoining.handleProtocolVersionReply (exampleHost Endian.little) [2, 0, 0, 0]
      0).joinStep = join_step_t.JoinMasterNodeRequest :=
  ⟨Reachable.joinNetwork _ _ _ _ (Reachable.init exampleKey),
    by decide, by decide, by decide, by decide,
    (versionMismatch_goes_on (exampleHost Endian.little) exampleJoining [2, 0, 0, 0] 0
      (by decide) (by decide) (by decide) (by decide)).1,
    (versionMismatch_goes_on (exampleHost Endian.little) exampleJoining [2, 0, 0, 0] 0
      (by decide) (by decide) (by decide) (by decide)).2.2.1⟩

/-- C12, what the code does: during AwaitingPings a Ping from the join master
whose endpoint differs from the recorded one emits `joinFailed` after
`revertJoin`, and the handler then goes on to the count of the pings, there
being no `return` after the signal. When the ping is not the last one
expected nothing more happens. When it is the one that makes
`joinPingsArrived` equal to `joinPingsEmitted`, `joinGotPinged` runs: the join
step becomes Registration and the RegisterRequest is handed to the
encrypted-send gate for the join master, whose record `revertJoin` has
deleted; the gate queues it when the keys are not negotiated and sends it
encrypted when they are. -/
theorem pingMismatch_goes_on (H : Host) (s : LinkLayer) (payload : QByteArray) (node : Nat)
    (hsize : payload.length = sizeof_ping_t)
    (hstep : s.joinStep = join_step_t.JoinAwaitingPings)
    (hmaster : s.joinMaster = some node)
    (hfirst : s.joinPing.addr ≠ 0)
    (hdiff : s.joinPing.addr ≠ fieldAt H payload 0 4 ∨ s.joinPing.port ≠ fieldAt H payload 4 2)
    (hvalid : node < s.heap.length) :
    (s.handlePing H payload node).emitted = s.emitted ++ [Signal.joinFailed] ∧
    (s.handlePing H payload node).freed = s.freed ++ s.nodeSpool ∧
    (s.joinPingsArrived + 1 ≠ s.joinPingsEmitted →
      (s.handlePing H payload node).joinStep = join_step_t.JoinAwaitingPings ∧
      (s.handlePing H payload node).sent = s.sent ∧
      (s.handlePing H payload node).heap = s.heap) ∧
    (s.joinPingsArrived + 1 = s.joinPingsEmitted →
      (s.handlePing H payload node).joinStep = join_step_t.JoinRegistration ∧
      ((s.node node).areKeysNegotiated = false →
        ((s.handlePing H payload node).node node).queue =
          (s.node node).queue ++ [frame H packet_type_t.RegisterRequest [0]]) ∧
      ((s.node node).areKeysNegotiated = true →
        (s.handlePing H payload node).sent = s.sent ++
          [⟨frame H packet_type_t.EncryptedPacket
              (H.encrypt (s.node node).mySessionKey (frame H packet_type_t.RegisterRequest [0])),
            (s.node node).host, (s.node node).port, node, none⟩])) := by
  have hcheck : checkPacketSize payload sizeof_ping_t
      packet_size_class_t.PacketSizeEqual = true := by
    unfold checkPacketSize
    rw [if_neg]
    simp [hsize]
  have hexp : s.checkPacketExpection join_step_t.JoinAwaitingPings = true := by
    unfold LinkLayer.checkPacketExpection
    rw [if_neg (by rw [hstep]; simp)]
  have hres : s.handlePing H payload node =
      if s.joinPingsArrived + 1 = s.joinPingsEmitted then
        LinkLayer.joinGotPinged H
          ((s.setJoinPingsArrived (s.joinPingsArrived + 1)).revertJoin.emit Signal.joinFailed)
      else (s.setJoinPingsArrived (s.joinPingsArrived + 1)).revertJoin.emit Signal.joinFailed := by
    unfold LinkLayer.handlePing
    rw [if_neg (by rw [hcheck]; decide), if_neg (by rw [hexp]; decide),
      if_neg (by rw [hmaster]; simp)]
    dsimp only
    have h1 : (s.setJoinPingsArrived (s.joinPingsArrived + 1)).joinPing = s.joinPing := rfl
    rw [h1, if_neg hfirst, if_pos hdiff]
    rfl
  have hgot : LinkLayer.joinGotPinged H
        ((s.setJoinPingsArrived (s.joinPingsArrived + 1)).revertJoin.emit Signal.joinFailed) =
      (((((s.setJoinPingsArrived (s.joinPingsArrived + 1)).revertJoin.emit
        Signal.joinFailed).setPingTimer false).setJoinStep
          join_step_t.JoinRegistration).sendRegisterRequest H node false).setJoinTimer true := by
    unfold LinkLayer.joinGotPinged
    dsimp only
    have h2 : (((((s.setJoinPingsArrived (s.joinPingsArrived + 1)).revertJoin.emit
        Signal.joinFailed).setPingTimer false).setJoinStep
          join_step_t.JoinRegistration)).joinMaster = some node := hmaster
    rw [h2]
  have hc := core_sendRegisterRequest H
    ((((s.setJoinPingsArrived (s.joinPingsArrived + 1)).revertJoin.emit
        Signal.joinFailed).setPingTimer false).setJoinStep join_step_t.JoinRegistration) node false
  rw [hres]
  by_cases hlast : s.joinPingsArrived + 1 = s.joinPingsEmitted
  · rw [if_pos hlast, hgot]
    refine ⟨?_, ?_, fun h => absurd hlast h, fun _ => ⟨?_, ?_, ?_⟩⟩
    · show (LinkLayer.sendRegisterRequest H _ node false).emitted = _
      rw [emitted_of_core hc]
      rfl
    · show (LinkLayer.sendRegisterRequest H _ node false).freed = _
      rw [freed_of_core hc]
      rfl
    · show (LinkLayer.sendRegisterRequest H _ node false).joinStep = _
      rw [joinStep_of_core hc]
      rfl
    · intro hk
      exact queue_sendEncryptedPacket H
        ((((s.setJoinPingsArrived (s.joinPingsArrived + 1)).revertJoin.emit
          Signal.joinFailed).setPingTimer false).setJoinStep join_step_t.JoinRegistration)
        packet_type_t.RegisterRequest [0] node hvalid hk
    · intro hk
      show (LinkLayer.sendEncryptedPacket H _ packet_type_t.RegisterRequest _ node).sent = _
      rw [sendEncryptedPacket_of_negotiated H
        ((((s.setJoinPingsArrived (s.joinPingsArrived + 1)).revertJoin.emit
          Signal.joinFailed).setPingTimer false).setJoinStep join_step_t.JoinRegistration)
        _ _ node hk]
      unfold LinkLayer.encryptAndSend
      rw [sendPacket_of_ne_self _ _ _ _ _ (by
        show (none : Option Nat) ≠ some node
        simp)]
      rfl
  · rw [if_neg hlast]
    exact ⟨rfl, rfl, fun _ => ⟨hstep, rfl, rfl⟩, fun h => absurd h hlast⟩

/-- Witness of `pingMismatch_goes_on`: in a state reached from the initial one
the fourth ping carries 10.0.0.3 where the first three carried 10.0.0.2. -/
theorem pingMismatch_goes_on_witness :
    Reachable (exampleHost Endian.little) exampleAwaitingPings ∧
    ([3, 0, 0, 10, 160, 15] : QByteArray).length = sizeof_ping_t ∧
    exampleAwaitingPings.joinStep = join_step_t.JoinAwaitingPings ∧
    exampleAwaitingPings.joinMaster = some 0 ∧
    exampleAwaitingPings.joinPing.addr ≠ 0 ∧
    exampleAwaitingPings.joinPing.addr ≠
      fieldAt (exampleHost Endian.little) [3, 0, 0, 10, 160, 15] 0 4 ∧
    exampleAwaitingPings.joinPingsArrived + 1 = exampleAwaitingPings.joinPingsEmitted ∧
    (exampleAwaitingPings.handlePing (exampleHost Endian.little) [3, 0, 0, 10, 160, 15]
      0).emitted = exampleAwaitingPings.emitted ++ [Signal.joinFailed] ∧
    (exampleAwaitingPings.handlePing (exampleHost Endian.little) [3, 0, 0, 10, 160, 15]
      0).joinStep = join_step_t.JoinRegistration :=
  ⟨Reachable.handlePacket _ _ _ _ (Reachable.handlePacket _ _ _ _
      (Reachable.handlePacket _ _ _ _ (Reachable.handlePacket _ _ _ _
        (Reachable.handlePacket _ _ _ _ (Reachable.handlePacket _ _ _ _
          (Reachable.handlePacket _ _ _ _
            (Reachable.joinNetwork _ _ _ _ (Reachable.init exampleKey)))))))),
    by decide, by decide, by decide, by decide, by decide, by decide,
    (pingMismatch_goes_on (exampleHost Endian.little) exampleAwaitingPings
      [3, 0, 0, 10, 160, 15] 0 (by decide) (by decide) (by decide) (by decide)
      (Or.inl (by decide)) (by decide)).1,
    ((pingMismatch_goes_on (exampleHost Endian.little) exampleAwaitingPings
      [3, 0, 0, 10, 160, 15] 0 (by decide) (by decide) (by decide) (by decide)
      (Or.inl (by decide)) (by decide)).2.2.2 (by decide)).1⟩

/-! ## Registration at a master (C13) -/

theorem core_setRouter (s : LinkLayer) (r : Router) : (s.setRouter r).core = s.core.setRouter r :=
  rfl

theorem checkPacketSize_equal (payload : QByteArray) (n : Nat) (h : payload.length = n) :
    checkPacketSize payload n packet_size_class_t.PacketSizeEqual = true := by
  unfold checkPacketSize
  rw [if_neg]
  simp [h]

/-- Up to queues, timers and the bookkeeping of the handshake gate,
`handleRegisterRequest` at a master writes the record of the registering peer
and puts it in the router. -/
theorem core_handleRegisterRequest (H : Host) (s : LinkLayer) (payload : QByteArray)
    (node self : Nat)
    (hsize : payload.length = sizeof_register_request_t)
    (hself : s.router.selfNode = some self)
    (hmaster : (s.node self).master = true) :
    (s.handleRegisterRequest H payload node).core =
      ((s.enrolled H (decide (payload.getD 0 0 ≠ 0)) node).setRouter
        (s.router.updateNode node)).core := by
  unfold LinkLayer.handleRegisterRequest
  rw [if_neg (by rw [checkPacketSize_equal payload _ hsize]; decide), hself]
  dsimp only
  rw [if_neg (by rw [hmaster]; decide)]
  rw [core_sendRegisterReply, core_setRouter, core_setRouter]
  have h1 : ∀ (l : List Nat) (t : LinkLayer),
      (l.foldl (fun st update => (st.sendRoute H node update).sendRoute H update node) t).core =
        t.core :=
    core_foldl _ (fun st x => by rw [core_sendRoute, core_sendRoute])
  have h3 : ∀ t : LinkLayer, (t.sendRoute H node self).core = t.core :=
    fun t => core_sendRoute H t node self
  rw [router_of_core (h3 _), h3, router_of_core (h1 _ _), h1]
  rfl

theorem node_setRouter (s : LinkLayer) (r : Router) (n : Nat) : (s.setRouter r).node n = s.node n :=
  rfl

/-- The comparison of the role decision, in doubles, is the exact one for the
counts a router can hold and a divisor of eight bits. -/
theorem registerRole_eq (s : LinkLayer) (b : Bool) (hd : s.networkDivisor < 256)
    (hn : s.getNodes.length < 2 ^ 31) :
    s.registerRole b = (!b && (decide (s.getMasters.length = 1) ||
      ratioLess s.getMasters.length (s.getNodes.length + 1) s.networkDivisor)) := by
  have hm : s.getMasters.length ≤ s.getNodes.length := List.length_filter_le _ _
  unfold LinkLayer.registerRole
  cases b
  · simp only [if_true, Bool.not_false, Bool.true_and]
    split
    · rename_i h
      simp [h]
    · rename_i h
      rw [doubleLess_doubleDiv _ _ _ (by omega) (by omega) (by
        calc s.getMasters.length * s.networkDivisor ≤ 2 ^ 31 * 256 :=
              Nat.mul_le_mul (by omega) (by omega)
          _ < 2 ^ 52 := by norm_num)]
      simp [h]
  · simp

/-- C13: the role decision at registration. When a master with
`m = getMasters().count()`, `n = getNodes().count()` and a network divisor
`d ≥ 1` handles a well-sized RegisterRequest, the `is_master` flag of the
registering peer is afterwards true if and only if the request's
`isBehindNAT` is 0 and (`m = 1` or `m * d < n + 1`), the comparison
`m / (n + 1) < 1 / d` of the code being made in double precision; the NAT
flag of the peer is that of the request, and a peer with `isBehindNAT ≠ 0`
is a slave. -/
theorem registerRequest_role (H : Host) (s : LinkLayer) (payload : QByteArray) (node self : Nat)
    (hsize : payload.length = sizeof_register_request_t)
    (hself : s.router.selfNode = some self)
    (hmaster : (s.node self).master = true)
    (hvalid : node < s.heap.length)
    (hd1 : 1 ≤ s.networkDivisor) (hd : s.networkDivisor < 256)
    (hn : s.getNodes.length < 2 ^ 31) :
    (((s.handleRegisterRequest H payload node).node node).master = true ↔
      payload.getD 0 0 = 0 ∧
        (s.getMasters.length = 1 ∨
          s.getMasters.length * s.networkDivisor < s.getNodes.length + 1)) ∧
    (((s.handleRegisterRequest H payload node).node node).behindNAT = true ↔
      payload.getD 0 0 ≠ 0) ∧
    (payload.getD 0 0 ≠ 0 → ((s.handleRegisterRequest H payload node).node node).master = false) := by
  have hc := core_handleRegisterRequest H s payload node self hsize hself hmaster
  have hnode : ((s.enrolled H (decide (payload.getD 0 0 ≠ 0)) node).setRouter
      (s.router.updateNode node)).node node =
      { (s.node node).configureByKey H with
        behindNAT := decide (payload.getD 0 0 ≠ 0),
        master := s.registerRole (decide (payload.getD 0 0 ≠ 0)) } := by
    rw [node_setRouter]
    unfold LinkLayer.enrolled
    rw [node_modifyNode_same s node _ hvalid]
  have hm : ((s.handleRegisterRequest H payload node).node node).master =
      s.registerRole (decide (payload.getD 0 0 ≠ 0)) := by
    rw [master_of_core hc, hnode]
  have hb : ((s.handleRegisterRequest H payload node).node node).behindNAT =
      decide (payload.getD 0 0 ≠ 0) := by
    rw [behindNAT_of_core hc, hnode]
  have hd0 : s.networkDivisor ≠ 0 := by omega
  rw [hm, hb, registerRole_eq s _ hd hn]
  unfold ratioLess
  rw [if_neg (Nat.succ_ne_zero _), if_neg hd0]
  refine ⟨?_, ?_, ?_⟩
  · simp
  · simp
  · intro h
    rw [decide_eq_true h]
    rfl

/-- Witness of `registerRequest_role`: a peer that is not behind NAT registers
at a master of a network of two masters and two slaves with divisor 2. -/
theorem registerRequest_role_witness :
    ([0] : QByteArray).length = sizeof_register_request_t ∧
    (exampleNetwork 2 2 2).router.selfNode = some 0 ∧
    ((exampleNetwork 2 2 2).node 0).master = true ∧
    4 < (exampleNetwork 2 2 2).heap.length ∧
    1 ≤ (exampleNetwork 2 2 2).networkDivisor ∧
    (exampleNetwork 2 2 2).networkDivisor < 256 ∧
    (exampleNetwork 2 2 2).getNodes.length < 2 ^ 31 ∧
    ((((exampleNetwork 2 2 2).handleRegisterRequest (exampleHost Endian.little) [0] 4).node
        4).master = true ↔
      ([0] : QByteArray).getD 0 0 = 0 ∧
        ((exampleNetwork 2 2 2).getMasters.length = 1 ∨
          (exampleNetwork 2 2 2).getMasters.length * (exampleNetwork 2 2 2).networkDivisor <
            (exampleNetwork 2 2 2).getNodes.length + 1)) :=
  ⟨by decide, by decide, by decide, by decide, by decide, by decide, by decide,
    (registerRequest_role (exampleHost Endian.little) (exampleNetwork 2 2 2) [0] 4 0
      (by decide) (by decide) (by decide) (by decide) (by decide) (by decide) (by decide)).1⟩

/-! ## The role invariant (C14) -/

theorem heap_of_core {s t : LinkLayer} (h : t.core = s.core) :
    t.heap.map SparkleNode.core = s.heap.map SparkleNode.core := by
  have := congrArg LinkLayer.heap h
  exact this

theorem roleInvariant_iff_core (s : LinkLayer) :
    s.RoleInvariant ↔ ∀ r ∈ s.heap.map SparkleNode.core, r.behindNAT = true → r.master = false := by
  unfold LinkLayer.RoleInvariant
  constructor
  · intro h r hr
    obtain ⟨x, hx, rfl⟩ := List.mem_map.1 hr
    exact h x hx
  · intro h r hr
    exact h r.core (List.mem_map.2 ⟨r, hr, rfl⟩)

theorem roleInvariant_of_core {s t : LinkLayer} (h : t.core = s.core) (hs : s.RoleInvariant) :
    t.RoleInvariant := by
  rw [roleInvariant_iff_core, heap_of_core h, ← roleInvariant_iff_core]
  exact hs

theorem roleInvariant_setNode (s : LinkLayer) (n : Nat) (v : SparkleNode) (hs : s.RoleInvariant)
    (hv : v.behindNAT = true → v.master = false) : (s.setNode n v).RoleInvariant := by
  intro r hr
  rcases List.mem_or_eq_of_mem_set hr with h | h
  · exact hs r h
  · rw [h]; exact hv

theorem roleInvariant_wrapNode (H : Host) (s : LinkLayer) (host : QHostAddress) (port : Nat)
    (hs : s.RoleInvariant) : (s.wrapNode H host port).2.RoleInvariant := by
  unfold LinkLayer.wrapNode
  split
  · exact hs
  · intro r hr
    have hr2 : r ∈ s.heap ++ [SparkleNode.new host port (H.generateKey s.heap.length)] := hr
    rcases List.mem_append.1 hr2 with h | h
    · exact hs r h
    · rw [List.mem_singleton.1 h]
      intro _
      rfl

theorem roleInvariant_setRouter (s : LinkLayer) (r : Router) (hs : s.RoleInvariant) :
    (s.setRouter r).RoleInvariant := hs

/-- C14, as the code has it: the role invariant `is_behind_nat ⇒ ¬ is_master`,
over every peer record, is preserved by `handleRegisterRequest`, by
`handleIntroducePacket`, by `reincarnateSomeone` when the router selects
one of the records that are neither master nor behind NAT, and by
`handleRoute` for a Route packet that does not carry both flags. -/
theorem roleInvariant_preserved (H : Host) (s : LinkLayer) (payload : QByteArray) (node : Nat)
    (hinv : s.RoleInvariant) :
    (s.handleRegisterRequest H payload node).RoleInvariant ∧
    (s.handleIntroducePacket H payload node).RoleInvariant ∧
    ((∀ l self r, H.selectWhiteSlave l self = some r → r ∈ l) →
      (s.reincarnateSomeone H).RoleInvariant) ∧
    ((payload.getD 16 0 = 0 ∨ payload.getD 17 0 = 0) →
      (s.handleRoute H payload node).RoleInvariant) := by
  refine ⟨?_, ?_, ?_, ?_⟩
  · by_cases hsize : payload.length = sizeof_register_request_t
    · cases hself : s.router.selfNode with
      | none =>
        unfold LinkLayer.handleRegisterRequest
        rw [if_neg (by rw [checkPacketSize_equal payload _ hsize]; decide), hself]
        exact hinv
      | some self =>
        by_cases hm : (s.node self).master = true
        · apply roleInvariant_of_core (core_handleRegisterRequest H s payload node self hsize hself hm)
          show (LinkLayer.enrolled H s _ node).RoleInvariant
          unfold LinkLayer.enrolled LinkLayer.modifyNode
          apply roleInvariant_setNode _ _ _ hinv
          intro hb
          have hb2 : decide (payload.getD 0 0 ≠ 0) = true := hb
          show s.registerRole (decide (payload.getD 0 0 ≠ 0)) = false
          rw [hb2]
          rfl
        · unfold LinkLayer.handleRegisterRequest
          rw [if_neg (by rw [checkPacketSize_equal payload _ hsize]; decide), hself]
          dsimp only
          rw [if_pos (by simpa using hm)]
          exact hinv
    · unfold LinkLayer.handleRegisterRequest
      rw [if_pos (by
        unfold checkPacketSize
        rw [if_pos (Or.inl ⟨hsize, rfl⟩)])]
      exact hinv
  · unfold LinkLayer.handleIntroducePacket
    split
    · exact hinv
    · split
      · exact hinv
      · dsimp only
        apply roleInvariant_setRouter
        unfold LinkLayer.modifyNode
        apply roleInvariant_setNode _ _ _ hinv
        intro _
        rfl
  · intro hpick
    unfold LinkLayer.reincarnateSomeone
    split
    · exact hinv
    · split
      · exact hinv
      · rename_i target htarget
        dsimp only
        apply roleInvariant_of_core (core_sendRoleUpdate H _ target true)
        apply roleInvariant_of_core (core_foldl _ (fun st x => by
          split
          · rw [core_sendRoute, core_sendRoute]
          · rfl) _ _)
        apply roleInvariant_setRouter
        unfold LinkLayer.modifyNode
        apply roleInvariant_setNode _ _ _ hinv
        intro hb
        have hmem := hpick _ _ _ htarget
        rw [List.mem_filter] at hmem
        have h2 := hmem.2
        have hb2 : (s.node target).behindNAT = true := hb
        rw [hb2] at h2
        simp at h2
  · intro hflags
    unfold LinkLayer.handleRoute
    split
    · exact hinv
    · split
      · exact hinv
      · dsimp only
        split
        · exact roleInvariant_wrapNode H s _ _ hinv
        · apply roleInvariant_setRouter
          unfold LinkLayer.modifyNode
          apply roleInvariant_setNode _ _ _ (roleInvariant_wrapNode H s _ _ hinv)
          intro hb
          have hb2 : decide (payload.getD 17 0 ≠ 0) = true := hb
          show decide (payload.getD 16 0 ≠ 0) = false
          rcases hflags with h | h
          · rw [h]
            rfl
          · rw [h] at hb2
            exact absurd hb2 (by decide)

/-- The claim C14 as it is stated fails: two datagrams from one peer, a
SessionKeyExchange and an encrypted Route that carries both flags, lead from
the initial state to a state with a record that is a master behind NAT. -/
theorem roleInvariant_broken_by_route :
    Reachable (exampleHost Endian.little) exampleRouted ∧
    (exampleRouted.node 1).behindNAT = true ∧ (exampleRouted.node 1).master = true ∧
    ¬ exampleRouted.RoleInvariant :=
  ⟨Reachable.handlePacket _ _ _ _ (Reachable.handlePacket _ _ _ _ (Reachable.init exampleKey)),
    by decide, by decide, by decide⟩

/-- Witness of `roleInvariant_preserved`: a master of the example network
handles a RegisterRequest of a peer behind NAT and a Route packet that names
a master not behind NAT. -/
theorem roleInvariant_preserved_witness :
    (exampleNetwork 2 2 2).RoleInvariant ∧
    ((exampleNetwork 2 2 2).handleRegisterRequest (exampleHost Endian.little) [1]
      4).RoleInvariant ∧
    (([9, 0, 0, 10, 9, 7, 14, 3, 2, 1, 2, 1, 2, 3, 4, 5, 1, 0] : QByteArray).getD 16 0 = 0 ∨
      ([9, 0, 0, 10, 9, 7, 14, 3, 2, 1, 2, 1, 2, 3, 4, 5, 1, 0] : QByteArray).getD 17 0 = 0) ∧
    ((exampleNetwork 2 2 2).handleRoute (exampleHost Endian.little)
      [9, 0, 0, 10, 9, 7, 14, 3, 2, 1, 2, 1, 2, 3, 4, 5, 1, 0] 1).RoleInvariant :=
  ⟨by decide,
    (roleInvariant_preserved (exampleHost Endian.little) (exampleNetwork 2 2 2) [1] 4
      (by decide)).1,
    Or.inr (by decide),
    (roleInvariant_preserved (exampleHost Endian.little) (exampleNetwork 2 2 2)
      [9, 0, 0, 10, 9, 7, 14, 3, 2, 1, 2, 1, 2, 3, 4, 5, 1, 0] 1 (by decide)).2.2.2
      (Or.inr (by decide))⟩

/-! ## The master ratio after a registration (C15) -/

theorem node_modifyNode_other (s : LinkLayer) (n m : Nat) (f : SparkleNode → SparkleNode)
    (h : n ≠ m) : (s.modifyNode n f).node m = s.node m :=
  node_setNode_other s n m _ h

/-- The router after `handleRegisterRequest` at a master, for a peer that is
new to it: the peer is added at the end, and it counts as a master exactly
when it was promoted. -/
theorem counts_handleRegisterRequest (H : Host) (s : LinkLayer) (payload : QByteArray)
    (node self : Nat)
    (hsize : payload.length = sizeof_register_request_t)
    (hself : s.router.selfNode = some self)
    (hmaster : (s.node self).master = true)
    (hvalid : node < s.heap.length)
    (hnew : node ∉ s.router.nodes) :
    (s.handleRegisterRequest H payload node).getNodes = s.getNodes ++ [node] ∧
    (s.handleRegisterRequest H payload node).getMasters =
      s.getMasters ++
        (if s.registerRole (decide (payload.getD 0 0 ≠ 0)) = true then [node] else []) := by
  have hc := core_handleRegisterRequest H s payload node self hsize hself hmaster
  have hr : ((s.enrolled H (decide (payload.getD 0 0 ≠ 0)) node).setRouter
      (s.router.updateNode node)).router.nodes = s.router.nodes ++ [node] := by
    show (s.router.updateNode node).nodes = _
    unfold Router.updateNode
    rw [if_neg hnew]
  constructor
  · rw [getNodes_of_core hc]
    exact hr
  · rw [getMasters_of_core hc]
    unfold LinkLayer.getMasters
    rw [hr, List.filter_append]
    congr 1
    · apply List.filter_congr
      intro n hn
      rw [node_setRouter]
      unfold LinkLayer.enrolled
      rw [node_modifyNode_other s node n _ (fun h => hnew (h ▸ hn))]
    · rw [List.filter_singleton, node_setRouter]
      unfold LinkLayer.enrolled
      rw [node_modifyNode_same s node _ hvalid]
      show (bif s.registerRole (decide (payload.getD 0 0 ≠ 0)) then [node] else []) = _
      cases s.registerRole (decide (payload.getD 0 0 ≠ 0)) <;> rfl

/-- The role flag `handleRegisterRequest` leaves in the record of the peer. -/
theorem master_handleRegisterRequest (H : Host) (s : LinkLayer) (payload : QByteArray)
    (node self : Nat)
    (hsize : payload.length = sizeof_register_request_t)
    (hself : s.router.selfNode = some self)
    (hmaster : (s.node self).master = true)
    (hvalid : node < s.heap.length) :
    ((s.handleRegisterRequest H payload node).node node).master =
      s.registerRole (decide (payload.getD 0 0 ≠ 0)) := by
  rw [master_of_core (core_handleRegisterRequest H s payload node self hsize hself hmaster),
    node_setRouter]
  unfold LinkLayer.enrolled
  rw [node_modifyNode_same s node _ hvalid]

/-- C15, as the code has it: when the master ratio is kept
(`masters / total ≥ 1 / networkDivisor` with `networkDivisor ≥ 1`) and a
master handles a well-sized RegisterRequest of a new peer that is not behind
NAT, the ratio is kept afterwards. The total grows by one, and the masters by
one exactly when the peer is promoted. -/
theorem registerRequest_keeps_ratio (H : Host) (s : LinkLayer) (payload : QByteArray)
    (node self : Nat)
    (hsize : payload.length = sizeof_register_request_t)
    (hself : s.router.selfNode = some self)
    (hmaster : (s.node self).master = true)
    (hvalid : node < s.heap.length)
    (hnew : node ∉ s.router.nodes)
    (hd1 : 1 ≤ s.networkDivisor) (hd : s.networkDivisor < 256)
    (hn : s.getNodes.length < 2 ^ 31)
    (hnat : payload.getD 0 0 = 0)
    (hratio : s.RatioKept) :
    (s.handleRegisterRequest H payload node).RatioKept ∧
    (s.handleRegisterRequest H payload node).getNodes.length = s.getNodes.length + 1 ∧
    (s.handleRegisterRequest H payload node).getMasters.length = s.getMasters.length +
      (if ((s.handleRegisterRequest H payload node).node node).master = true then 1 else 0) := by
  obtain ⟨h1, h2⟩ := counts_handleRegisterRequest H s payload node self hsize hself hmaster hvalid
    hnew
  have hrole := master_handleRegisterRequest H s payload node self hsize hself hmaster hvalid
  have hnd : (s.handleRegisterRequest H payload node).networkDivisor = s.networkDivisor :=
    (networkDivisor_of_core
      (core_handleRegisterRequest H s payload node self hsize hself hmaster)).trans rfl
  have hb : decide (payload.getD 0 0 ≠ 0) = false := by rw [hnat]; rfl
  have hd0 : s.networkDivisor ≠ 0 := by omega
  have hreq := registerRole_eq s (decide (payload.getD 0 0 ≠ 0)) hd hn
  rw [hb] at hreq h2
  unfold ratioLess at hreq
  rw [if_neg (Nat.succ_ne_zero _), if_neg hd0] at hreq
  unfold LinkLayer.RatioKept at hratio ⊢
  rw [hnd, h1, h2, hrole, hb]
  simp only [List.length_append, List.length_singleton]
  by_cases hr : s.registerRole false = true
  · rw [if_pos hr, if_pos hr]
    simp only [List.length_singleton, and_self, and_true]
    rw [Nat.add_mul]
    omega
  · rw [if_neg hr, if_neg hr]
    simp only [List.length_nil, Nat.add_zero, and_self, and_true]
    rw [hreq] at hr
    simp at hr
    omega

/-- The claim C15 as it is stated fails in two ways. A master of a network of
two masters and two slaves with divisor 2 registers a peer behind NAT: two
masters of five remain. A master that is the only one among five records
registers a peer that is not behind NAT: the peer is promoted, two masters of
six. Either way none of the three conditions holds afterwards. -/
theorem masterRatio_lost_at_registration :
    ((exampleNetwork 2 2 2).MasterRatio ∧ 4 ∉ (exampleNetwork 2 2 2).router.nodes ∧
      ¬ ((exampleNetwork 2 2 2).handleRegisterRequest (exampleHost Endian.little) [1]
        4).MasterRatio) ∧
    ((exampleNetwork 1 4 2).MasterRatio ∧ 5 ∉ (exampleNetwork 1 4 2).router.nodes ∧
      ¬ ((exampleNetwork 1 4 2).handleRegisterRequest (exampleHost Endian.little) [0]
        5).MasterRatio) := by
  decide

/-- Witness of `registerRequest_keeps_ratio`: a peer that is not behind NAT
registers at a master of a network of two masters and two slaves with
divisor 2. -/
theorem registerRequest_keeps_ratio_witness :
    ([0] : QByteArray).length = sizeof_register_request_t ∧
    (exampleNetwork 2 2 2).router.selfNode = some 0 ∧
    ((exampleNetwork 2 2 2).node 0).master = true ∧
    4 < (exampleNetwork 2 2 2).heap.length ∧
    4 ∉ (exampleNetwork 2 2 2).router.nodes ∧
    1 ≤ (exampleNetwork 2 2 2).networkDivisor ∧
    (exampleNetwork 2 2 2).networkDivisor < 256 ∧
    (exampleNetwork 2 2 2).getNodes.length < 2 ^ 31 ∧
    ([0] : QByteArray).getD 0 0 = 0 ∧
    (exampleNetwork 2 2 2).RatioKept ∧
    ((exampleNetwork 2 2 2).handleRegisterRequest (exampleHost Endian.little) [0] 4).RatioKept :=
  ⟨by decide, by decide, by decide, by decide, by decide, by decide, by decide, by decide,
    by decide, by decide,
    (registerRequest_keeps_ratio (exampleHost Endian.little) (exampleNetwork 2 2 2) [0] 4 0
      (by decide) (by decide) (by decide) (by decide) (by decide) (by decide) (by decide)
      (by decide) (by decide) (by decide)).1⟩

/-! ## The master ratio after an exit (C16) -/

theorem handleExitNotification_eq (H : Host) (s : LinkLayer) (payload : QByteArray)
    (node self : Nat)
    (hsize : payload.length = 0)
    (hself : s.router.selfNode = some self)
    (hmaster : (s.node self).master = true) :
    s.handleExitNotification H payload node =
      if doubleLess (doubleDiv (s.departed H node).getMasters.length
            (s.departed H node).getNodes.length)
          (doubleDiv 1 (s.departed H node).networkDivisor) = true ∨
          (s.departed H node).getMasters.length = 1 then
        (s.departed H node).reincarnateSomeone H
      else s.departed H node := by
  unfold LinkLayer.handleExitNotification
  rw [if_neg (by rw [checkPacketSize_equal payload _ hsize]; decide), hself]
  dsimp only
  rw [if_neg (by rw [hmaster]; decide)]
  rfl

theorem core_departed_fold (H : Host) (s : LinkLayer) (node : Nat) :
    ((s.setRouter (s.router.removeNode node)).getOtherNodes.foldl
      (fun st target => st.sendRouteInvalidate H target node)
      (s.setRouter (s.router.removeNode node))).core =
      (s.setRouter (s.router.removeNode node)).core :=
  core_foldl _ (fun st x => core_sendRouteInvalidate H st x node) _ _

theorem router_departed (H : Host) (s : LinkLayer) (node : Nat) :
    (s.departed H node).router = s.router.removeNode node :=
  (router_of_core (core_departed_fold H s node)).trans rfl

theorem master_departed (H : Host) (s : LinkLayer) (node n : Nat) :
    ((s.departed H node).node n).master = (s.node n).master :=
  (master_of_core (core_departed_fold H s node) n).trans rfl

theorem networkDivisor_departed (H : Host) (s : LinkLayer) (node : Nat) :
    (s.departed H node).networkDivisor = s.networkDivisor :=
  (networkDivisor_of_core (core_departed_fold H s node)).trans rfl

theorem heap_length_departed (H : Host) (s : LinkLayer) (node : Nat) :
    (s.departed H node).heap.length = s.heap.length :=
  (heap_length_of_core (core_departed_fold H s node)).trans rfl

theorem getNodes_departed (H : Host) (s : LinkLayer) (node : Nat) :
    (s.departed H node).getNodes = s.router.nodes.filter (fun m => m ≠ node) := by
  unfold LinkLayer.getNodes
  rw [router_departed]
  rfl

theorem getMasters_departed (H : Host) (s : LinkLayer) (node : Nat) :
    (s.departed H node).getMasters =
      (s.router.nodes.filter (fun m => m ≠ node)).filter (fun n => (s.node n).master) := by
  unfold LinkLayer.getMasters
  rw [router_departed]
  apply List.filter_congr
  intro n _
  rw [master_departed]

/-- Removing one entry of a list without repetitions takes away at most one
of the entries with a property. -/
theorem length_filter_remove (p : Nat → Bool) (a : Nat) :
    ∀ l : List Nat, l.Nodup →
      (l.filter p).length ≤ ((l.filter (fun m => m ≠ a)).filter p).length + 1 := by
  intro l
  induction l with
  | nil => intro _; simp
  | cons x l ih =>
    intro hnd
    rw [List.nodup_cons] at hnd
    by_cases hx : x = a
    · subst hx
      have hl : l.filter (fun m => decide (m ≠ x)) = l := by
        rw [List.filter_eq_self]
        intro y hy
        simp only [ne_eq, decide_not, Bool.not_eq_true', decide_eq_false_iff_not]
        intro h
        exact hnd.1 (h ▸ hy)
      have h1 : (x :: l).filter (fun m => decide (m ≠ x)) = l := by
        rw [List.filter_cons_of_neg (by simp), hl]
      rw [h1]
      by_cases hp : p x = true
      · rw [List.filter_cons_of_pos hp]
        simp
      · rw [List.filter_cons_of_neg hp]
        omega
    · have h1 : (x :: l).filter (fun m => decide (m ≠ a)) =
          x :: l.filter (fun m => decide (m ≠ a)) := by
        rw [List.filter_cons_of_pos (by simpa using hx)]
      rw [h1]
      have := ih hnd.2
      by_cases hp : p x = true
      · rw [List.filter_cons_of_pos hp, List.filter_cons_of_pos hp]
        simp only [List.length_cons]
        omega
      · rw [List.filter_cons_of_neg hp, List.filter_cons_of_neg hp]
        exact this

/-- Turning the property on for one entry of a list that lacked it adds at
least one to the entries with the property. -/
theorem length_filter_promote (p q : Nat → Bool) (t : Nat) (hq : ∀ x, p x = true → q x = true)
    (hpt : p t = false) (hqt : q t = true) :
    ∀ l : List Nat, t ∈ l → (l.filter p).length + 1 ≤ (l.filter q).length := by
  have hle : ∀ l : List Nat, (l.filter p).length ≤ (l.filter q).length := by
    intro l
    induction l with
    | nil => simp
    | cons x l ih =>
      by_cases hp : p x = true
      · rw [List.filter_cons_of_pos hp, List.filter_cons_of_pos (hq x hp)]
        simp only [List.length_cons]
        omega
      · rw [List.filter_cons_of_neg hp]
        by_cases hqx : q x = true
        · rw [List.filter_cons_of_pos hqx]
          simp only [List.length_cons]
          omega
        · rw [List.filter_cons_of_neg hqx]
          exact ih
  intro l
  induction l with
  | nil => intro h; cases h
  | cons x l ih =>
    intro hmem
    by_cases hx : x = t
    · subst hx
      rw [List.filter_cons_of_neg (by rw [hpt]; decide), List.filter_cons_of_pos hqt]
      simp only [List.length_cons]
      have := hle l
      omega
    · have hl : t ∈ l := by
        rcases List.mem_cons.1 hmem with h | h
        · exact absurd h.symm hx
        · exact h
      have := ih hl
      by_cases hp : p x = true
      · rw [List.filter_cons_of_pos hp, List.filter_cons_of_pos (hq x hp)]
        simp only [List.length_cons]
        omega
      · rw [List.filter_cons_of_neg hp]
        by_cases hqx : q x = true
        · rw [List.filter_cons_of_pos hqx]
          simp only [List.length_cons]
          omega
        · rw [List.filter_cons_of_neg hqx]
          exact this

theorem reincarnateSomeone_of_single (H : Host) (t : LinkLayer) (h : t.getNodes.length = 1) :
    t.reincarnateSomeone H = t := by
  unfold LinkLayer.reincarnateSomeone
  rw [if_pos h]

theorem reincarnateSomeone_of_none (H : Host) (t : LinkLayer) (h : t.getNodes.length ≠ 1)
    (hsel : t.selectWhiteSlave H = none) : (t.reincarnateSomeone H).fault = true := by
  unfold LinkLayer.reincarnateSomeone
  rw [if_neg h, hsel]
  rfl

theorem core_reincarnateSomeone (H : Host) (t : LinkLayer) (target : Nat)
    (h : t.getNodes.length ≠ 1) (hsel : t.selectWhiteSlave H = some target) :
    (t.reincarnateSomeone H).core = (t.promoted target).core := by
  unfold LinkLayer.reincarnateSomeone
  rw [if_neg h, hsel]
  dsimp only
  rw [core_sendRoleUpdate]
  exact core_foldl _ (fun st x => by
    split
    · rw [core_sendRoute, core_sendRoute]
    · rfl) _ _

theorem getNodes_promoted (t : LinkLayer) (target : Nat) (h : target ∈ t.router.nodes) :
    (t.promoted target).getNodes = t.getNodes := by
  show (t.router.updateNode target).nodes = t.router.nodes
  unfold Router.updateNode
  rw [if_pos h]

theorem getMasters_promoted (t : LinkLayer) (target : Nat) (h : target ∈ t.router.nodes)
    (hv : target < t.heap.length) (hm : (t.node target).master = false) :
    t.getMasters.length + 1 ≤ (t.promoted target).getMasters.length := by
  have hr : (t.promoted target).router.nodes = t.router.nodes := getNodes_promoted t target h
  unfold LinkLayer.getMasters
  rw [hr]
  apply length_filter_promote _ _ target _ hm _ _ h
  · intro x hx
    by_cases hxt : x = target
    · rw [hxt]
      unfold LinkLayer.promoted
      rw [node_setRouter, node_modifyNode_same t target _ hv]
    · unfold LinkLayer.promoted
      rw [node_setRouter, node_modifyNode_other t target x _ (fun h => hxt h.symm)]
      exact hx
  · unfold LinkLayer.promoted
    rw [node_setRouter, node_modifyNode_same t target _ hv]

/-- C16, as the code has it: when the master ratio is kept
(`masters / total ≥ 1 / networkDivisor` with `networkDivisor ≥ 1`) and a
master handles an ExitNotification, removing the departing node and running
`reincarnateSomeone` once when the ratio test fires, then afterwards the
ratio is kept again or the router holds a single record, provided the
router, a set of valid records, finds a slave to promote when it is asked for
one. -/
theorem exitNotification_keeps_ratio (H : Host) (s : LinkLayer) (payload : QByteArray)
    (node self : Nat)
    (hsize : payload.length = 0)
    (hself : s.router.selfNode = some self)
    (hmaster : (s.node self).master = true)
    (hd1 : 1 ≤ s.networkDivisor) (hd : s.networkDivisor < 256)
    (hn : s.getNodes.length < 2 ^ 31)
    (hnodup : s.router.nodes.Nodup)
    (hval : ∀ n ∈ s.router.nodes, n < s.heap.length)
    (hpick : ∀ l self r, H.selectWhiteSlave l self = some r → r ∈ l)
    (hratio : s.RatioKept)
    (hfault : (s.handleExitNotification H payload node).fault = false) :
    (s.handleExitNotification H payload node).RatioKept ∨
      (s.handleExitNotification H payload node).getNodes.length = 1 := by
  have hn1 : (s.departed H node).getNodes.length ≤ s.getNodes.length := by
    rw [getNodes_departed]
    exact List.length_filter_le _ _
  have hm1 : s.getMasters.length ≤ (s.departed H node).getMasters.length + 1 := by
    rw [getMasters_departed]
    exact length_filter_remove _ node _ hnodup
  have hmn : (s.departed H node).getMasters.length ≤ (s.departed H node).getNodes.length :=
    List.length_filter_le _ _
  have hdd := networkDivisor_departed H s node
  have hless : doubleLess (doubleDiv (s.departed H node).getMasters.length
        (s.departed H node).getNodes.length) (doubleDiv 1 (s.departed H node).networkDivisor) =
      ratioLess (s.departed H node).getMasters.length (s.departed H node).getNodes.length
        s.networkDivisor := by
    rw [hdd]
    apply doubleLess_doubleDiv _ _ _ (by omega) (by omega)
    calc (s.departed H node).getMasters.length * s.networkDivisor ≤ 2 ^ 31 * 256 :=
          Nat.mul_le_mul (by omega) (by omega)
      _ < 2 ^ 52 := by norm_num
  have hd0 : s.networkDivisor ≠ 0 := by omega
  unfold LinkLayer.RatioKept at hratio
  rw [handleExitNotification_eq H s payload node self hsize hself hmaster] at hfault ⊢
  rw [hless] at hfault ⊢
  by_cases hfire : ratioLess (s.departed H node).getMasters.length
      (s.departed H node).getNodes.length s.networkDivisor = true ∨
      (s.departed H node).getMasters.length = 1
  · rw [if_pos hfire] at hfault ⊢
    by_cases hone : (s.departed H node).getNodes.length = 1
    · rw [reincarnateSomeone_of_single H _ hone]
      exact Or.inr hone
    · cases hsel : (s.departed H node).selectWhiteSlave H with
      | none =>
        rw [reincarnateSomeone_of_none H _ hone hsel] at hfault
        cases hfault
      | some target =>
        have hc := core_reincarnateSomeone H _ target hone hsel
        have hmem := hpick _ _ _ hsel
        rw [List.mem_filter] at hmem
        have hin : target ∈ (s.departed H node).router.nodes :=
          (List.mem_filter.1 hmem.1).1
        have hins : target ∈ s.router.nodes := by
          rw [router_departed] at hin
          exact (List.mem_filter.1 hin).1
        have hnm : ((s.departed H node).node target).master = false := by
          have := hmem.2
          simp only [Bool.and_eq_true, Bool.not_eq_true'] at this
          exact this.1
        have hmp := getMasters_promoted (s.departed H node) target hin
          (by rw [heap_length_departed]; exact hval target hins) hnm
        left
        unfold LinkLayer.RatioKept
        rw [getNodes_of_core hc, getMasters_of_core hc, networkDivisor_of_core hc,
          getNodes_promoted _ target hin]
        have hdp : ((s.departed H node).promoted target).networkDivisor = s.networkDivisor := hdd
        rw [hdp]
        calc (s.departed H node).getNodes.length ≤ s.getNodes.length := hn1
          _ ≤ s.getMasters.length * s.networkDivisor := hratio
          _ ≤ ((s.departed H node).getMasters.length + 1) * s.networkDivisor :=
              Nat.mul_le_mul_right _ hm1
          _ ≤ ((s.departed H node).promoted target).getMasters.length * s.networkDivisor :=
              Nat.mul_le_mul_right _ hmp
  · rw [if_neg hfire]
    left
    unfold LinkLayer.RatioKept
    rw [hdd]
    have h1 : ¬ ratioLess (s.departed H node).getMasters.length
      (s.departed H node).getNodes.length s.networkDivisor = true := fun h => hfire (Or.inl h)
    unfold ratioLess at h1
    by_cases hz : (s.departed H node).getNodes.length = 0
    · rw [hz]
      exact Nat.zero_le _
    · rw [if_neg hz, if_neg hd0] at h1
      simp only [decide_eq_true_eq, not_lt] at h1
      exact h1

/-- The claim C16 as it is stated fails: a master that is the only one among
six records, with divisor 2, handles the ExitNotification of a slave. One
master of five remains, so `reincarnateSomeone` promotes one slave: two
masters of five, and none of the three conditions holds. -/
theorem masterRatio_lost_at_exit :
    (exampleNetwork 1 5 2).MasterRatio ∧
    ((exampleNetwork 1 5 2).handleExitNotification (exampleHost Endian.little) [] 5).fault =
      false ∧
    ((exampleNetwork 1 5 2).handleExitNotification (exampleHost Endian.little) []
      5).getMasters.length = 2 ∧
    ((exampleNetwork 1 5 2).handleExitNotification (exampleHost Endian.little) []
      5).getNodes.length = 5 ∧
    ¬ ((exampleNetwork 1 5 2).handleExitNotification (exampleHost Endian.little) []
      5).MasterRatio := by
  decide

/-- Witness of `exitNotification_keeps_ratio`: one of the two masters of a
network of four with divisor 2 leaves, and the master that handles its
ExitNotification promotes a slave. -/
theorem exitNotification_keeps_ratio_witness :
    ([] : QByteArray).length = 0 ∧
    (exampleNetwork 2 2 2).router.selfNode = some 0 ∧
    ((exampleNetwork 2 2 2).node 0).master = true ∧
    1 ≤ (exampleNetwork 2 2 2).networkDivisor ∧
    (exampleNetwork 2 2 2).networkDivisor < 256 ∧
    (exampleNetwork 2 2 2).getNodes.length < 2 ^ 31 ∧
    (exampleNetwork 2 2 2).router.nodes.Nodup ∧
    (∀ n ∈ (exampleNetwork 2 2 2).router.nodes, n < (exampleNetwork 2 2 2).heap.length) ∧
    (exampleNetwork 2 2 2).RatioKept ∧
    ((exampleNetwork 2 2 2).handleExitNotification (exampleHost Endian.little) [] 1).fault =
      false ∧
    (((exampleNetwork 2 2 2).handleExitNotification (exampleHost Endian.little) []
        1).RatioKept ∨
      ((exampleNetwork 2 2 2).handleExitNotification (exampleHost Endian.little) []
        1).getNodes.length = 1) :=
  ⟨by decide, by decide, by decide, by decide, by decide, by decide, by decide, by decide,
    by decide, by decide,
    exitNotification_keeps_ratio (exampleHost Endian.little) (exampleNetwork 2 2 2) [] 1 0
      (by decide) (by decide) (by decide) (by decide) (by decide) (by decide) (by decide)
      (by decide) (fun l _ r h => List.mem_of_mem_head? h) (by decide) (by decide)⟩

/-! ## Route packets (C17, C18) -/

/-- What `wrapNode` returns: a valid record of the spool with the endpoint
asked for; the records that existed are as they were, and nothing changes at
all when the record returned existed. -/
theorem wrapNode_spec (H : Host) (s : LinkLayer) (host : QHostAddress) (port : Nat)
    (hspool : ∀ n ∈ s.nodeSpool, n < s.heap.length) :
    (s.wrapNode H host port).1 < (s.wrapNode H host port).2.heap.length ∧
    (s.wrapNode H host port).1 ∈ (s.wrapNode H host port).2.nodeSpool ∧
    ((s.wrapNode H host port).2.node (s.wrapNode H host port).1).host = host ∧
    ((s.wrapNode H host port).2.node (s.wrapNode H host port).1).port = port ∧
    (∀ n, n < s.heap.length → (s.wrapNode H host port).2.node n = s.node n) ∧
    ((s.wrapNode H host port).1 < s.heap.length → (s.wrapNode H host port).2 = s) := by
  unfold LinkLayer.wrapNode
  split
  · rename_i n hsome
    have hmem := List.mem_of_find?_eq_some hsome
    have hp := List.find?_some hsome
    simp only [decide_eq_true_eq] at hp
    exact ⟨hspool n hmem, hmem, hp.1, hp.2, fun _ _ => rfl, fun _ => rfl⟩
  · have hnew : ((s.alloc (SparkleNode.new host port (H.generateKey s.heap.length))).setNodeSpool
        (s.nodeSpool ++ [s.heap.length])).node s.heap.length =
        SparkleNode.new host port (H.generateKey s.heap.length) := by
      simp [LinkLayer.node, LinkLayer.alloc, LinkLayer.setNodeSpool, List.getD_eq_getElem?_getD]
    refine ⟨?_, ?_, ?_, ?_, ?_, ?_⟩
    · simp [LinkLayer.alloc, LinkLayer.setNodeSpool]
    · simp [LinkLayer.alloc, LinkLayer.setNodeSpool]
    · show (LinkLayer.node _ s.heap.length).host = host
      rw [hnew]
      rfl
    · show (LinkLayer.node _ s.heap.length).port = port
      rw [hnew]
      rfl
    · intro n hn
      simp [LinkLayer.node, LinkLayer.alloc, LinkLayer.setNodeSpool, List.getD_eq_getElem?_getD,
        List.getElem?_append_left hn]
    · intro h
      exact absurd h (Nat.lt_irrefl _)

theorem heap_length_modifyNode (s : LinkLayer) (n : Nat) (f : SparkleNode → SparkleNode) :
    (s.modifyNode n f).heap.length = s.heap.length :=
  heap_length_setNode s n _

/-- C17, as the code has it: a well-sized Route packet from a sender that is
not a master, while the router's self node is set, changes nothing at all.
While the self node is unset or the sender is a master, the record the packet
names, unless it is the router's self node, has afterwards the real endpoint
of the packet and exactly its overlay address, MAC, `is_master` and
`is_behind_nat`, and is in the router, the records that existed before being
otherwise as they were; when the named record is the self node nothing
changes. -/
theorem route_authority (H : Host) (s : LinkLayer) (payload : QByteArray) (node : Nat)
    (hsize : payload.length = sizeof_route_t)
    (hspool : ∀ n ∈ s.nodeSpool, n < s.heap.length) :
    ((s.node node).master = false → s.router.selfNode ≠ none →
      s.handleRoute H payload node = s) ∧
    (((s.node node).master = true ∨ s.router.selfNode = none) →
      s.router.selfNode ≠ some (s.routeTarget H payload) →
        ((s.handleRoute H payload node).node (s.routeTarget H payload)).host =
          fieldAt H payload 0 4 ∧
        ((s.handleRoute H payload node).node (s.routeTarget H payload)).port =
          fieldAt H payload 4 2 ∧
        ((s.handleRoute H payload node).node (s.routeTarget H payload)).sparkleIP =
          fieldAt H payload 6 4 ∧
        ((s.handleRoute H payload node).node (s.routeTarget H payload)).mac =
          (payload.drop 10).take 6 ∧
        (((s.handleRoute H payload node).node (s.routeTarget H payload)).master = true ↔
          payload.getD 16 0 ≠ 0) ∧
        (((s.handleRoute H payload node).node (s.routeTarget H payload)).behindNAT = true ↔
          payload.getD 17 0 ≠ 0) ∧
        s.routeTarget H payload ∈ (s.handleRoute H payload node).router.nodes ∧
        (∀ n, n ≠ s.routeTarget H payload → n < s.heap.length →
          (s.handleRoute H payload node).node n = s.node n)) ∧
    (((s.node node).master = true ∨ s.router.selfNode = none) →
      s.router.selfNode = some (s.routeTarget H payload) →
      s.routeTarget H payload < s.heap.length →
        s.handleRoute H payload node = s) := by
  have hw := wrapNode_spec H s (fieldAt H payload 0 4) (fieldAt H payload 4 2) hspool
  have hwr := wrapNode_router H s (fieldAt H payload 0 4) (fieldAt H payload 4 2)
  have hcheck : ¬ checkPacketSize payload sizeof_route_t packet_size_class_t.PacketSizeEqual =
      false := by
    rw [checkPacketSize_equal payload _ hsize]
    decide
  refine ⟨?_, ?_, ?_⟩
  · intro hm hs
    unfold LinkLayer.handleRoute
    rw [if_neg hcheck, if_pos ⟨hm, hs⟩]
  · intro hauth hnself
    have hno : ¬ ((s.node node).master = false ∧ s.router.selfNode ≠ none) := by
      rintro ⟨h1, h2⟩
      rcases hauth with h | h
      · rw [h1] at h
        cases h
      · exact h2 h
    have hres : s.handleRoute H payload node =
        ((s.wrapNode H (fieldAt H payload 0 4) (fieldAt H payload 4 2)).2.modifyNode
          (s.routeTarget H payload) (fun n =>
            { n with sparkleIP := fieldAt H payload 6 4, mac := (payload.drop 10).take 6,
                     master := decide (payload.getD 16 0 ≠ 0),
                     behindNAT := decide (payload.getD 17 0 ≠ 0) })).setRouter
          (s.router.updateNode (s.routeTarget H payload)) := by
      have hnself2 : s.router.selfNode ≠
          some (s.wrapNode H (fieldAt H payload 0 4) (fieldAt H payload 4 2)).1 := hnself
      unfold LinkLayer.handleRoute
      rw [if_neg hcheck, if_neg hno]
      dsimp only
      rw [hwr, if_neg hnself2]
      congr 1
      show Router.updateNode (s.wrapNode H (fieldAt H payload 0 4) (fieldAt H payload 4 2)).2.router
        _ = _
      rw [hwr]
      rfl
    rw [hres]
    simp only [node_setRouter]
    have hsame := node_modifyNode_same (s.wrapNode H (fieldAt H payload 0 4)
      (fieldAt H payload 4 2)).2 (s.routeTarget H payload) (fun n =>
            { n with sparkleIP := fieldAt H payload 6 4, mac := (payload.drop 10).take 6,
                     master := decide (payload.getD 16 0 ≠ 0),
                     behindNAT := decide (payload.getD 17 0 ≠ 0) }) hw.1
    rw [hsame]
    refine ⟨hw.2.2.1, hw.2.2.2.1, rfl, rfl, ?_, ?_, ?_, ?_⟩
    · exact decide_eq_true_iff
    · exact decide_eq_true_iff
    · show s.routeTarget H payload ∈ (s.router.updateNode (s.routeTarget H payload)).nodes
      unfold Router.updateNode
      split
      · assumption
      · simp
    · intro n hn hlt
      rw [node_modifyNode_other _ _ n _ (fun h => hn h.symm)]
      exact hw.2.2.2.2.1 n hlt
  · intro hauth hself hlt
    have hno : ¬ ((s.node node).master = false ∧ s.router.selfNode ≠ none) := by
      rintro ⟨h1, h2⟩
      rcases hauth with h | h
      · rw [h1] at h
        cases h
      · exact h2 h
    have hself2 : s.router.selfNode =
        some (s.wrapNode H (fieldAt H payload 0 4) (fieldAt H payload 4 2)).1 := hself
    unfold LinkLayer.handleRoute
    rw [if_neg hcheck, if_neg hno]
    dsimp only
    rw [hwr, if_pos hself2]
    exact hw.2.2.2.2.2 hlt

/-- The claim C17 as it is stated fails for a packet that names the self node:
a master of the example network sends a Route naming the endpoint of the self
node with the overlay address 1.2.3.14; the record named, the self node,
keeps its overlay address. -/
theorem route_naming_self_changes_nothing :
    exampleSelfRoutePayload.length = sizeof_route_t ∧
    ((exampleNetwork 2 2 2).node 1).master = true ∧
    (exampleNetwork 2 2 2).routeTarget (exampleHost Endian.little) exampleSelfRoutePayload = 0 ∧
    (exampleNetwork 2 2 2).router.selfNode = some 0 ∧
    (((exampleNetwork 2 2 2).handleRoute (exampleHost Endian.little) exampleSelfRoutePayload
      1).node 0).sparkleIP ≠ fieldAt (exampleHost Endian.little) exampleSelfRoutePayload 6 4 := by
  decide

/-- Witness of `route_authority`: a master of the example network sends a
Route that names the unknown endpoint 10.0.0.9, port 1801. -/
theorem route_authority_witness :
    exampleRoutePayload.length = sizeof_route_t ∧
    (∀ n ∈ (exampleNetwork 2 2 2).nodeSpool, n < (exampleNetwork 2 2 2).heap.length) ∧
    ((exampleNetwork 2 2 2).node 1).master = true ∧
    (exampleNetwork 2 2 2).router.selfNode ≠
      some ((exampleNetwork 2 2 2).routeTarget (exampleHost Endian.little) exampleRoutePayload) ∧
    (((exampleNetwork 2 2 2).handleRoute (exampleHost Endian.little) exampleRoutePayload 1).node
      ((exampleNetwork 2 2 2).routeTarget (exampleHost Endian.little)
        exampleRoutePayload)).sparkleIP =
      fieldAt (exampleHost Endian.little) exampleRoutePayload 6 4 ∧
    (exampleNetwork 2 2 2).routeTarget (exampleHost Endian.little) exampleRoutePayload ∈
      ((exampleNetwork 2 2 2).handleRoute (exampleHost Endian.little) exampleRoutePayload
        1).router.nodes :=
  ⟨by decide, by decide, by decide, by decide,
    ((route_authority (exampleHost Endian.little) (exampleNetwork 2 2 2) exampleRoutePayload 1
      (by decide) (by decide)).2.1 (Or.inl (by decide)) (by decide)).2.2.1,
    ((route_authority (exampleHost Endian.little) (exampleNetwork 2 2 2) exampleRoutePayload 1
      (by decide) (by decide)).2.1 (Or.inl (by decide)) (by decide)).2.2.2.2.2.2.1⟩

/-- C18, what the code does on the node that created the network: the self
record made by `createNetwork` is not in the node spool, so for a Route
packet of a master that names the real endpoint of the self node `wrapNode`
finds no record and makes a new one. The new record is not the self node, the
guard of `handleRoute` does not fire, and a second record with the endpoint
of the self node gets the overlay address and the flags of the packet and
is put in the router. -/
theorem route_adds_self_on_creator (H : Host) (s : LinkLayer) (payload : QByteArray)
    (node self : Nat)
    (hsize : payload.length = sizeof_route_t)
    (hself : s.router.selfNode = some self)
    (hvalid : self < s.heap.length)
    (hauth : (s.node node).master = true)
    (hhost : fieldAt H payload 0 4 = (s.node self).host)
    (hport : fieldAt H payload 4 2 = (s.node self).port)
    (hnot : s.knows (s.node self).host (s.node self).port = false) :
    (s.handleRoute H payload node).nodeSpool = s.nodeSpool ++ [s.heap.length] ∧
    s.heap.length ≠ self ∧
    ((s.handleRoute H payload node).node s.heap.length).host = (s.node self).host ∧
    ((s.handleRoute H payload node).node s.heap.length).port = (s.node self).port ∧
    ((s.handleRoute H payload node).node s.heap.length).sparkleIP = fieldAt H payload 6 4 ∧
    (s.handleRoute H payload node).router.nodes =
      (s.router.updateNode s.heap.length).nodes ∧
    s.heap.length ∈ (s.handleRoute H payload node).router.nodes := by
  have hw := wrapNode_of_not_knows H s (fieldAt H payload 0 4) (fieldAt H payload 4 2)
    (by rw [hhost, hport]; exact hnot)
  have hcheck : ¬ checkPacketSize payload sizeof_route_t packet_size_class_t.PacketSizeEqual =
      false := by
    rw [checkPacketSize_equal payload _ hsize]
    decide
  have hno : ¬ ((s.node node).master = false ∧ s.router.selfNode ≠ none) := by
    rintro ⟨h1, _⟩
    rw [h1] at hauth
    cases hauth
  have hne : s.heap.length ≠ self := fun h => absurd hvalid (by rw [h]; exact Nat.lt_irrefl _)
  have hres : s.handleRoute H payload node =
      (LinkLayer.modifyNode
        { s with
          heap := s.heap ++ [SparkleNode.new (fieldAt H payload 0 4) (fieldAt H payload 4 2)
            (H.generateKey s.heap.length)]
          nodeSpool := s.nodeSpool ++ [s.heap.length] }
        s.heap.length (fun n =>
          { n with sparkleIP := fieldAt H payload 6 4, mac := (payload.drop 10).take 6,
                   master := decide (payload.getD 16 0 ≠ 0),
                   behindNAT := decide (payload.getD 17 0 ≠ 0) })).setRouter
        (s.router.updateNode s.heap.length) := by
    unfold LinkLayer.handleRoute
    rw [if_neg hcheck, if_neg hno]
    dsimp only
    rw [hw]
    dsimp only
    rw [if_neg (by rw [hself]; intro h; exact hne (Option.some.inj h).symm)]
    rfl
  have hnode : (LinkLayer.modifyNode
        { s with
          heap := s.heap ++ [SparkleNode.new (fieldAt H payload 0 4) (fieldAt H payload 4 2)
            (H.generateKey s.heap.length)]
          nodeSpool := s.nodeSpool ++ [s.heap.length] }
        s.heap.length (fun n =>
          { n with sparkleIP := fieldAt H payload 6 4, mac := (payload.drop 10).take 6,
                   master := decide (payload.getD 16 0 ≠ 0),
                   behindNAT := decide (payload.getD 17 0 ≠ 0) })).node s.heap.length =
      { SparkleNode.new (fieldAt H payload 0 4) (fieldAt H payload 4 2)
          (H.generateKey s.heap.length) with
        sparkleIP := fieldAt H payload 6 4, mac := (payload.drop 10).take 6,
        master := decide (payload.getD 16 0 ≠ 0),
        behindNAT := decide (payload.getD 17 0 ≠ 0) } := by
    rw [node_modifyNode_same _ _ _ (by simp)]
    simp [LinkLayer.node, List.getD_eq_getElem?_getD]
  rw [hres]
  refine ⟨rfl, hne, ?_, ?_, ?_, rfl, ?_⟩
  · rw [node_setRouter, hnode]
    exact hhost
  · rw [node_setRouter, hnode]
    exact hport
  · rw [node_setRouter, hnode]
  show s.heap.length ∈ (s.router.updateNode s.heap.length).nodes
  unfold Router.updateNode
  split
  · assumption
  · simp

/-- Witness of `route_adds_self_on_creator`: the creator of a network at
10.0.0.1, port 1801, gets from the master at 10.0.0.2 a Route that names
10.0.0.1, port 1801. -/
theorem route_adds_self_on_creator_witness :
    Reachable (exampleHost Endian.little) exampleCreatedWithPeer ∧
    exampleSelfRoutePayload.length = sizeof_route_t ∧
    exampleCreatedWithPeer.router.selfNode = some 0 ∧
    0 < exampleCreatedWithPeer.heap.length ∧
    (exampleCreatedWithPeer.node 1).master = true ∧
    fieldAt (exampleHost Endian.little) exampleSelfRoutePayload 0 4 =
      (exampleCreatedWithPeer.node 0).host ∧
    fieldAt (exampleHost Endian.little) exampleSelfRoutePayload 4 2 =
      (exampleCreatedWithPeer.node 0).port ∧
    exampleCreatedWithPeer.knows (exampleCreatedWithPeer.node 0).host
      (exampleCreatedWithPeer.node 0).port = false ∧
    exampleCreatedWithPeer.heap.length ∈
      (exampleCreatedWithPeer.handleRoute (exampleHost Endian.little) exampleSelfRoutePayload
        1).router.nodes ∧
    ((exampleCreatedWithPeer.handleRoute (exampleHost Endian.little) exampleSelfRoutePayload
      1).node exampleCreatedWithPeer.heap.length).host = (exampleCreatedWithPeer.node 0).host :=
  ⟨Reachable.handlePacket _ _ _ _ (Reachable.handlePacket _ _ _ _
      (Reachable.createNetwork _ _ _ (Reachable.init exampleKey))),
    by decide, by decide, by decide, by decide, by decide, by decide, by decide,
    (route_adds_self_on_creator (exampleHost Endian.little) exampleCreatedWithPeer
      exampleSelfRoutePayload 1 0 (by decide) (by decide) (by decide) (by decide) (by decide)
      (by decide) (by decide)).2.2.2.2.2.2,
    (route_adds_self_on_creator (exampleHost Endian.little) exampleCreatedWithPeer
      exampleSelfRoutePayload 1 0 (by decide) (by decide) (by decide) (by decide) (by decide)
      (by decide) (by decide)).2.2.1⟩

/-! ## The cookie of a key exchange (C20) -/

theorem checkPacketSize_greater (payload : QByteArray) (n : Nat) (h : payload.length > n) :
    checkPacketSize payload n packet_size_class_t.PacketSizeGreater = true := by
  unfold checkPacketSize
  rw [if_neg]
  simp only [reduceCtorEq, and_false, and_true, false_or, not_le]
  exact h

theorem cookiesLookup_remove (c : List (Nat × Nat)) (k : Nat) :
    cookiesLookup (cookiesRemove c k) k = none := by
  unfold cookiesLookup cookiesRemove
  rw [Option.map_eq_none', List.find?_eq_none]
  intro e he
  have := (List.mem_filter.1 he).2
  simpa using this

theorem cookiesLookup_insert_remove (c : List (Nat × Nat)) (k k2 v : Nat) (h : k2 ≠ k) :
    cookiesLookup (cookiesInsert (cookiesRemove c k) k2 v) k = none := by
  unfold cookiesLookup cookiesInsert cookiesRemove
  rw [Option.map_eq_none', List.find?_eq_none]
  intro e he
  rcases List.mem_cons.1 he with h1 | h1
  · rw [h1]
    simpa using h
  · have := (List.mem_filter.1 (List.mem_filter.1 h1).1).2
    simpa using this

/-- The cookie table after `sendEncryptedPacket`: as it was, or with one
fresh cookie for the peer. -/
theorem cookies_sendEncryptedPacket (H : Host) (s : LinkLayer) (t : packet_type_t)
    (d : QByteArray) (n : Nat) :
    (s.sendEncryptedPacket H t d n).cookies = s.cookies ∨
    (s.sendEncryptedPacket H t d n).cookies =
      cookiesInsert s.cookies (H.qrand s.randCalls % 4294967296) n := by
  have hsp : ∀ (u : LinkLayer) (ty : packet_type_t) (b : QByteArray) (m : Nat),
      (u.sendPacket H ty b m).cookies = u.cookies := by
    intro u ty b m
    unfold LinkLayer.sendPacket
    split <;> rfl
  unfold LinkLayer.sendEncryptedPacket
  dsimp only
  split
  · split
    · left; rfl
    · right
      unfold LinkLayer.sendPublicKeyExchange
      simp only [if_true]
      rw [hsp]
      rfl
  · left
    exact hsp _ _ _ _

theorem keyPair_of_core {s t : LinkLayer} (h : t.core = s.core) (n : Nat) :
    (t.node n).keyPair = (s.node n).keyPair := by
  have := congrArg SparkleNode.keyPair (node_core_eq h n)
  exact this

theorem mySessionKey_of_core {s t : LinkLayer} (h : t.core = s.core) (n : Nat) :
    (t.node n).mySessionKey = (s.node n).mySessionKey := by
  have := congrArg SparkleNode.mySessionKey (node_core_eq h n)
  exact this

/-- What `handlePublicKeyExchange` does with a reply from another endpoint
than the one its cookie was stored for: the merge, an IntroducePacket through
the handshake gate when the self node is a slave, and the SessionKeyExchange
for the record stored under the cookie. -/
theorem handlePublicKeyExchange_of_merge (H : Host) (s : LinkLayer) (payload : QByteArray)
    (node orig : Nat)
    (hsize : payload.length > sizeof_key_exchange_t)
    (hneed : payload.getD 0 0 = 0)
    (hcookie : cookiesLookup s.cookies (fieldAt H payload 1 4) = some orig)
    (hkey : ((s.node node).setAuthKey (payload.drop sizeof_key_exchange_t)).1 = true)
    (hdiff : (s.node orig).host ≠ (s.node node).host ∨ (s.node orig).port ≠ (s.node node).port)
    (hnode : node < s.heap.length) :
    s.handlePublicKeyExchange H payload node =
      LinkLayer.sendSessionKeyExchange H
        (match (s.merged (payload.drop sizeof_key_exchange_t) (fieldAt H payload 1 4) node
            orig).router.selfNode with
          | none => s.merged (payload.drop sizeof_key_exchange_t) (fieldAt H payload 1 4) node orig
          | some self =>
            if ((s.merged (payload.drop sizeof_key_exchange_t) (fieldAt H payload 1 4) node
                orig).node self).master = false then
              (s.merged (payload.drop sizeof_key_exchange_t) (fieldAt H payload 1 4) node
                orig).sendIntroducePacket H orig
            else s.merged (payload.drop sizeof_key_exchange_t) (fieldAt H payload 1 4) node orig)
        orig true := by
  have hne : orig ≠ node := by
    intro h
    rw [h] at hdiff
    rcases hdiff with h1 | h1 <;> exact h1 rfl
  have hn2 : (((s.setNode node ((s.node node).setAuthKey (payload.drop sizeof_key_exchange_t)).2).setCookies
      (cookiesRemove s.cookies (fieldAt H payload 1 4))).node node) =
      ((s.node node).setAuthKey (payload.drop sizeof_key_exchange_t)).2 :=
    node_setNode_same s node _ hnode
  have ho2 : (((s.setNode node ((s.node node).setAuthKey (payload.drop sizeof_key_exchange_t)).2).setCookies
      (cookiesRemove s.cookies (fieldAt H payload 1 4))).node orig) = s.node orig :=
    node_setNode_other s node orig _ (fun h => hne h.symm)
  have hrw : ((((s.setNode node ((s.node node).setAuthKey (payload.drop sizeof_key_exchange_t)).2).setCookies
      (cookiesRemove s.cookies (fieldAt H payload 1 4))).node orig).differs
      (((s.setNode node ((s.node node).setAuthKey (payload.drop sizeof_key_exchange_t)).2).setCookies
      (cookiesRemove s.cookies (fieldAt H payload 1 4))).node node)) = true := by
    rw [hn2, ho2]
    unfold SparkleNode.differs
    exact decide_eq_true hdiff
  unfold LinkLayer.handlePublicKeyExchange
  rw [if_neg (by rw [checkPacketSize_greater payload _ hsize]; decide)]
  dsimp only
  have hneed2 : decide (payload.getD 0 0 ≠ 0) = false := by rw [hneed]; rfl
  rw [hneed2, if_neg (by rw [hcookie]; simp), if_neg (by rw [hkey]; decide)]
  simp only [Bool.false_eq_true, if_false]
  have hc2 : cookiesLookup (s.setNode node
      ((s.node node).setAuthKey (payload.drop sizeof_key_exchange_t)).2).cookies
      (fieldAt H payload 1 4) = some orig := hcookie
  rw [hc2]
  dsimp only
  have hck : ∀ v, (s.setNode node v).cookies = s.cookies := fun _ => rfl
  simp only [hck]
  rw [hrw]
  simp only [if_true]
  rfl

theorem setPublicKey_flag (k k2 : RSAKeyPair) (data : QByteArray) :
    (k.setPublicKey data).1 = (k2.setPublicKey data).1 := by
  unfold RSAKeyPair.setPublicKey
  dsimp only
  split <;> rfl

theorem node_merged (s : LinkLayer) (key : QByteArray) (cookie node orig : Nat)
    (hne : orig ≠ node) (hnode : node < s.heap.length) (hvalid : orig < s.heap.length) :
    (s.merged key cookie node orig).node orig =
      ({ s.node orig with host := (s.node node).host, port := (s.node node).port }.setAuthKey
        key).2 := by
  have hn2 : (((s.setNode node ((s.node node).setAuthKey key).2).setCookies
      (cookiesRemove s.cookies cookie)).node node) = ((s.node node).setAuthKey key).2 :=
    node_setNode_same s node _ hnode
  have ho2 : (((s.setNode node ((s.node node).setAuthKey key).2).setCookies
      (cookiesRemove s.cookies cookie)).node orig) = s.node orig :=
    node_setNode_other s node orig _ (fun h => hne h.symm)
  unfold LinkLayer.merged
  rw [node_modifyNode_same _ orig _ (by
    show orig < (s.setNode node _).heap.length
    rw [heap_length_setNode]
    exact hvalid)]
  rw [hn2, ho2]
  rfl

/-- C20: the cookie NAT-merge. When a PublicKeyExchange with
`needOthersKey = false`, a cookie of the cookie table and a key the replying
record accepts arrives from an endpoint other than that of the record stored
under the cookie, then afterwards the stored record has the endpoint of the
reply, the key has been installed in it and accepted, the cookie is not in
the table, and the last datagram handed to the transport is the
SessionKeyExchange with `needOthersKey = true` for the stored record at its
new endpoint. A reply whose cookie is not in the table changes no record and
sends nothing. -/
theorem cookie_nat_merge (H : Host) (s : LinkLayer) (payload : QByteArray) (node : Nat)
    (hsize : payload.length > sizeof_key_exchange_t)
    (hneed : payload.getD 0 0 = 0) :
    (∀ orig, cookiesLookup s.cookies (fieldAt H payload 1 4) = some orig →
      ((s.node node).setAuthKey (payload.drop sizeof_key_exchange_t)).1 = true →
      ((s.node orig).host ≠ (s.node node).host ∨ (s.node orig).port ≠ (s.node node).port) →
      node < s.heap.length → orig < s.heap.length →
      s.router.selfNode ≠ some orig →
      H.qrand s.randCalls % 4294967296 ≠ fieldAt H payload 1 4 →
        ((s.handlePublicKeyExchange H payload node).node orig).host = (s.node node).host ∧
        ((s.handlePublicKeyExchange H payload node).node orig).port = (s.node node).port ∧
        ((s.handlePublicKeyExchange H payload node).node orig).keyPair =
          ((s.node orig).keyPair.setPublicKey (payload.drop sizeof_key_exchange_t)).2 ∧
        ((s.node orig).keyPair.setPublicKey (payload.drop sizeof_key_exchange_t)).1 = true ∧
        cookiesLookup (s.handlePublicKeyExchange H payload node).cookies
          (fieldAt H payload 1 4) = none ∧
        (s.handlePublicKeyExchange H payload node).sent.getLast? =
          some ⟨frame H packet_type_t.SessionKeyExchange
              (keyExchangeBytes H true H.indeterminate ++ (s.node orig).mySessionKey),
            (s.node node).host, (s.node node).port, orig, s.router.selfNode⟩) ∧
    (cookiesLookup s.cookies (fieldAt H payload 1 4) = none →
      (s.handlePublicKeyExchange H payload node).heap = s.heap ∧
      (s.handlePublicKeyExchange H payload node).sent = s.sent) := by
  constructor
  · intro orig hcookie hkey hdiff hnode hvalid hself hfresh
    have hne : orig ≠ node := by
      intro h
      rw [h] at hdiff
      rcases hdiff with h1 | h1 <;> exact h1 rfl
    have hM := node_merged s (payload.drop sizeof_key_exchange_t) (fieldAt H payload 1 4) node
      orig hne hnode hvalid
    rw [handlePublicKeyExchange_of_merge H s payload node orig hsize hneed hcookie hkey hdiff hnode]
    generalize hX : (match (s.merged (payload.drop sizeof_key_exchange_t) (fieldAt H payload 1 4)
        node orig).router.selfNode with
      | none => s.merged (payload.drop sizeof_key_exchange_t) (fieldAt H payload 1 4) node orig
      | some self =>
        if ((s.merged (payload.drop sizeof_key_exchange_t) (fieldAt H payload 1 4) node
            orig).node self).master = false then
          (s.merged (payload.drop sizeof_key_exchange_t) (fieldAt H payload 1 4) node
            orig).sendIntroducePacket H orig
        else s.merged (payload.drop sizeof_key_exchange_t) (fieldAt H payload 1 4) node orig) = X
    have hcore : X.core = (s.merged (payload.drop sizeof_key_exchange_t) (fieldAt H payload 1 4)
        node orig).core := by
      rw [← hX]
      split
      · rfl
      · split
        · exact core_sendIntroducePacket H _ orig
        · rfl
    have hcook : X.cookies = cookiesRemove s.cookies (fieldAt H payload 1 4) ∨
        X.cookies = cookiesInsert (cookiesRemove s.cookies (fieldAt H payload 1 4))
          (H.qrand s.randCalls % 4294967296) orig := by
      rw [← hX]
      split
      · left; rfl
      · rename_i self hs
        split
        · unfold LinkLayer.sendIntroducePacket
          rw [hs]
          exact cookies_sendEncryptedPacket H _ _ _ orig
        · left; rfl
    have hrouter : X.router = s.router := (router_of_core hcore).trans rfl
    have hsend : X.sendSessionKeyExchange H orig true =
        X.transportSend ⟨frame H packet_type_t.SessionKeyExchange
          (keyExchangeBytes H true H.indeterminate ++ (X.node orig).mySessionKey),
          (X.node orig).host, (X.node orig).port, orig, X.router.selfNode⟩ := by
      unfold LinkLayer.sendSessionKeyExchange
      exact sendPacket_of_ne_self H X _ _ orig (by rw [hrouter]; exact hself)
    rw [hsend]
    have hnodeX : ∀ n, (X.transportSend ⟨frame H packet_type_t.SessionKeyExchange
          (keyExchangeBytes H true H.indeterminate ++ (X.node orig).mySessionKey),
          (X.node orig).host, (X.node orig).port, orig, X.router.selfNode⟩).node n = X.node n :=
      fun _ => rfl
    have hh : (X.node orig).host = (s.node node).host := by
      rw [host_of_core hcore, hM]
      rfl
    have hp : (X.node orig).port = (s.node node).port := by
      rw [port_of_core hcore, hM]
      rfl
    have hk : (X.node orig).keyPair =
        ((s.node orig).keyPair.setPublicKey (payload.drop sizeof_key_exchange_t)).2 := by
      rw [keyPair_of_core hcore, hM]
      rfl
    have hmy : (X.node orig).mySessionKey = (s.node orig).mySessionKey := by
      rw [mySessionKey_of_core hcore, hM]
      rfl
    refine ⟨?_, ?_, ?_, ?_, ?_, ?_⟩
    · rw [hnodeX]; exact hh
    · rw [hnodeX]; exact hp
    · rw [hnodeX]; exact hk
    · rw [setPublicKey_flag _ (s.node node).keyPair]
      exact hkey
    · show cookiesLookup X.cookies _ = none
      rcases hcook with h | h
      · rw [h]
        exact cookiesLookup_remove _ _
      · rw [h]
        exact cookiesLookup_insert_remove _ _ _ _ hfresh
    · rw [sent_transportSend, List.getLast?_append, hh, hp, hmy, hrouter]
      rfl
  · intro hnone
    unfold LinkLayer.handlePublicKeyExchange
    rw [if_neg (by rw [checkPacketSize_greater payload _ hsize]; decide)]
    dsimp only
    have hneed2 : decide (payload.getD 0 0 ≠ 0) = false := by rw [hneed]; rfl
    rw [hneed2, if_pos ⟨rfl, by rw [hnone]; rfl⟩]
    exact ⟨rfl, rfl⟩

/-- Witness of `cookie_nat_merge`: the reply to the PublicKeyExchange sent to
10.0.0.1 arrives from 10.0.0.5. -/
theorem cookie_nat_merge_witness :
    exampleKeyReply.length > sizeof_key_exchange_t ∧
    exampleKeyReply.getD 0 0 = 0 ∧
    cookiesLookup exampleNegotiatingNAT.cookies
      (fieldAt (exampleHost Endian.little) exampleKeyReply 1 4) = some 0 ∧
    ((exampleNegotiatingNAT.node 1).setAuthKey (exampleKeyReply.drop sizeof_key_exchange_t)).1 =
      true ∧
    (exampleNegotiatingNAT.node 0).host ≠ (exampleNegotiatingNAT.node 1).host ∧
    1 < exampleNegotiatingNAT.heap.length ∧
    exampleNegotiatingNAT.router.selfNode ≠ some 0 ∧
    (exampleHost Endian.little).qrand exampleNegotiatingNAT.randCalls % 4294967296 ≠
      fieldAt (exampleHost Endian.little) exampleKeyReply 1 4 ∧
    ((exampleNegotiatingNAT.handlePublicKeyExchange (exampleHost Endian.little) exampleKeyReply
      1).node 0).host = (exampleNegotiatingNAT.node 1).host ∧
    cookiesLookup (exampleNegotiatingNAT.handlePublicKeyExchange (exampleHost Endian.little)
      exampleKeyReply 1).cookies (fieldAt (exampleHost Endian.little) exampleKeyReply 1 4) =
      none :=
  ⟨by decide, by decide, by decide, by decide, by decide, by decide, by decide, by decide,
    ((cookie_nat_merge (exampleHost Endian.little) exampleNegotiatingNAT exampleKeyReply 1
      (by decide) (by decide)).1 0 (by decide) (by decide) (Or.inl (by decide)) (by decide)
      (by decide) (by decide) (by decide)).1,
    ((cookie_nat_merge (exampleHost Endian.little) exampleNegotiatingNAT exampleKeyReply 1
      (by decide) (by decide)).1 0 (by decide) (by decide) (Or.inl (by decide)) (by decide)
      (by decide) (by decide) (by decide)).2.2.2.2.1⟩

/-! ## Endpoint uniqueness in the node spool (C19) -/

theorem endpoint_of_core {s t : LinkLayer} (h : t.core = s.core) (n : Nat) :
    t.endpoint n = s.endpoint n := by
  unfold LinkLayer.endpoint
  rw [host_of_core h, port_of_core h]

theorem uq_of_core {s t : LinkLayer} (h : t.core = s.core) (hs : s.SpoolUnique) :
    t.SpoolUnique := by
  constructor
  · intro n hn
    rw [nodeSpool_of_core h] at hn
    rw [heap_length_of_core h]
    exact hs.valid n hn
  · unfold LinkLayer.EndpointsUnique
    rw [nodeSpool_of_core h]
    have : t.endpoint = s.endpoint := funext (endpoint_of_core h)
    rw [this]
    exact hs.unique

theorem endpoint_setNode (s : LinkLayer) (n : Nat) (v : SparkleNode)
    (hv : v.host = (s.node n).host ∧ v.port = (s.node n).port) (m : Nat) :
    (s.setNode n v).endpoint m = s.endpoint m := by
  unfold LinkLayer.endpoint
  by_cases hm : n = m
  · subst hm
    by_cases hlt : n < s.heap.length
    · rw [node_setNode_same s n v hlt, hv.1, hv.2]
    · have : s.setNode n v = s := by
        unfold LinkLayer.setNode
        rw [List.set_eq_of_length_le (Nat.le_of_not_lt hlt)]
      rw [this]
  · rw [node_setNode_other s n m v hm]

theorem uq_setNode (s : LinkLayer) (n : Nat) (v : SparkleNode)
    (hv : v.host = (s.node n).host ∧ v.port = (s.node n).port) (hs : s.SpoolUnique) :
    (s.setNode n v).SpoolUnique := by
  constructor
  · intro m hm
    rw [heap_length_setNode]
    exact hs.valid m hm
  · unfold LinkLayer.EndpointsUnique
    have : (s.setNode n v).endpoint = s.endpoint := funext (endpoint_setNode s n v hv)
    rw [this]
    exact hs.unique

theorem uq_modifyNode (s : LinkLayer) (n : Nat) (f : SparkleNode → SparkleNode)
    (hf : ∀ r, (f r).host = r.host ∧ (f r).port = r.port) (hs : s.SpoolUnique) :
    (s.modifyNode n f).SpoolUnique :=
  uq_setNode s n _ (hf _) hs

theorem uq_wrapNode (H : Host) (s : LinkLayer) (host : QHostAddress) (port : Nat)
    (hs : s.SpoolUnique) : (s.wrapNode H host port).2.SpoolUnique := by
  unfold LinkLayer.wrapNode
  split
  · exact hs
  · rename_i hnone
    have hold : ∀ n, n < s.heap.length →
        ((s.alloc (SparkleNode.new host port (H.generateKey s.heap.length))).setNodeSpool
          (s.nodeSpool ++ [s.heap.length])).endpoint n = s.endpoint n := by
      intro n hn
      simp [LinkLayer.endpoint, LinkLayer.node, LinkLayer.alloc, LinkLayer.setNodeSpool,
        List.getD_eq_getElem?_getD, List.getElem?_append_left hn]
    have hnew : ((s.alloc (SparkleNode.new host port (H.generateKey s.heap.length))).setNodeSpool
          (s.nodeSpool ++ [s.heap.length])).endpoint s.heap.length = (host, port) := by
      simp [LinkLayer.endpoint, LinkLayer.node, LinkLayer.alloc, LinkLayer.setNodeSpool,
        List.getD_eq_getElem?_getD, SparkleNode.new]
    constructor
    · intro n hn
      have hn2 : n ∈ s.nodeSpool ++ [s.heap.length] := hn
      have hl : (s.heap ++ [SparkleNode.new host port (H.generateKey s.heap.length)]).length =
          s.heap.length + 1 := by simp
      show n < (s.heap ++ [SparkleNode.new host port (H.generateKey s.heap.length)]).length
      rw [hl]
      rcases List.mem_append.1 hn2 with h | h
      · exact Nat.lt_succ_of_lt (hs.valid n h)
      · rw [List.mem_singleton.1 h]
        exact Nat.lt_succ_self _
    · unfold LinkLayer.EndpointsUnique
      show (List.map _ (s.nodeSpool ++ [s.heap.length])).Nodup
      rw [List.map_append, List.map_singleton, hnew]
      have hmap : s.nodeSpool.map ((s.alloc (SparkleNode.new host port
          (H.generateKey s.heap.length))).setNodeSpool
          (s.nodeSpool ++ [s.heap.length])).endpoint = s.nodeSpool.map s.endpoint :=
        List.map_congr_left (fun n hn => hold n (hs.valid n hn))
      rw [hmap]
      apply List.Nodup.append hs.unique (List.nodup_singleton _)
      intro x hx hx2
      rw [List.mem_singleton] at hx2
      obtain ⟨n, hn, hne⟩ := List.mem_map.1 hx
      have := List.find?_eq_none.1 hnone n hn
      apply this
      rw [hx2] at hne
      unfold LinkLayer.endpoint at hne
      simp only [Prod.mk.injEq] at hne
      simpa using hne

theorem uq_erase (s : LinkLayer) (n : Nat) (hs : s.SpoolUnique) :
    (s.setNodeSpool (s.nodeSpool.erase n)).SpoolUnique := by
  constructor
  · intro m hm
    exact hs.valid m (List.mem_of_mem_erase hm)
  · exact List.Nodup.sublist ((List.erase_sublist n s.nodeSpool).map s.endpoint) hs.unique

theorem uq_nil (s : LinkLayer) : (s.setNodeSpool []).SpoolUnique :=
  ⟨fun _ h => absurd h (List.not_mem_nil _), List.nodup_nil⟩


theorem uq_emit (s : LinkLayer) (x : Signal) (h : s.SpoolUnique) :
    (s.emit x).SpoolUnique := ⟨h.valid, h.unique⟩

theorem uq_crash (s : LinkLayer) (h : s.SpoolUnique) :
    s.crash.SpoolUnique := ⟨h.valid, h.unique⟩

theorem uq_setRouter (s : LinkLayer) (r : Router) (h : s.SpoolUnique) :
    (s.setRouter r).SpoolUnique := ⟨h.valid, h.unique⟩

theorem uq_delete (s : LinkLayer) (l : List Nat) (h : s.SpoolUnique) :
    (s.delete l).SpoolUnique := ⟨h.valid, h.unique⟩

theorem uq_setAwaitingNegotiation (s : LinkLayer) (l : List Nat) (h : s.SpoolUnique) :
    (s.setAwaitingNegotiation l).SpoolUnique := ⟨h.valid, h.unique⟩

theorem uq_setCookies (s : LinkLayer) (c : List (Nat × Nat)) (h : s.SpoolUnique) :
    (s.setCookies c).SpoolUnique := ⟨h.valid, h.unique⟩

theorem uq_setJoinStep (s : LinkLayer) (j : join_step_t) (h : s.SpoolUnique) :
    (s.setJoinStep j).SpoolUnique := ⟨h.valid, h.unique⟩

theorem uq_setJoinMaster (s : LinkLayer) (m : Nat) (h : s.SpoolUnique) :
    (s.setJoinMaster m).SpoolUnique := ⟨h.valid, h.unique⟩

theorem uq_setForceBehindNAT (s : LinkLayer) (b : Bool) (h : s.SpoolUnique) :
    (s.setForceBehindNAT b).SpoolUnique := ⟨h.valid, h.unique⟩

theorem uq_setJoinPing (s : LinkLayer) (p : ping_t) (h : s.SpoolUnique) :
    (s.setJoinPing p).SpoolUnique := ⟨h.valid, h.unique⟩

theorem uq_setJoinPingsEmitted (s : LinkLayer) (n : Nat) (h : s.SpoolUnique) :
    (s.setJoinPingsEmitted n).SpoolUnique := ⟨h.valid, h.unique⟩

theorem uq_setJoinPingsArrived (s : LinkLayer) (n : Nat) (h : s.SpoolUnique) :
    (s.setJoinPingsArrived n).SpoolUnique := ⟨h.valid, h.unique⟩

theorem uq_setPreparingForShutdown (s : LinkLayer) (b : Bool) (h : s.SpoolUnique) :
    (s.setPreparingForShutdown b).SpoolUnique := ⟨h.valid, h.unique⟩

theorem uq_setTransportInitiated (s : LinkLayer) (b : Bool) (h : s.SpoolUnique) :
    (s.setTransportInitiated b).SpoolUnique := ⟨h.valid, h.unique⟩

theorem uq_setPingTimer (s : LinkLayer) (b : Bool) (h : s.SpoolUnique) :
    (s.setPingTimer b).SpoolUnique := ⟨h.valid, h.unique⟩

theorem uq_setJoinTimer (s : LinkLayer) (b : Bool) (h : s.SpoolUnique) :
    (s.setJoinTimer b).SpoolUnique := ⟨h.valid, h.unique⟩

theorem uq_setNetworkDivisor (s : LinkLayer) (n : Nat) (h : s.SpoolUnique) :
    (s.setNetworkDivisor n).SpoolUnique := ⟨h.valid, h.unique⟩

theorem uq_stepRand (s : LinkLayer) (h : s.SpoolUnique) :
    s.stepRand.SpoolUnique := ⟨h.valid, h.unique⟩

theorem uq_deliver (s : LinkLayer) (p : QByteArray) (n : Nat) (h : s.SpoolUnique) :
    (s.deliver p n).SpoolUnique := ⟨h.valid, h.unique⟩

theorem uq_revertJoin (s : LinkLayer) : s.revertJoin.SpoolUnique :=
  uq_setCookies _ _ (uq_setAwaitingNegotiation _ _ (uq_nil _))

theorem uq_erase_setRouter (s : LinkLayer) (r : Router) (n : Nat) (h : s.SpoolUnique) :
    ((s.setRouter r).setNodeSpool (s.nodeSpool.erase n)).SpoolUnique :=
  uq_erase (s.setRouter r) n (uq_setRouter s r h)

theorem uq_initTransport (H : Host) (s : LinkLayer) (h : s.SpoolUnique) :
    (s.initTransport H).2.SpoolUnique := by
  unfold LinkLayer.initTransport
  split
  · exact h
  · split
    · exact h
    · exact uq_setTransportInitiated s true h

theorem uq_foldl {α : Type} (f : LinkLayer → α → LinkLayer)
    (hf : ∀ st x, st.SpoolUnique → (f st x).SpoolUnique) :
    ∀ (l : List α) (s : LinkLayer), s.SpoolUnique → (l.foldl f s).SpoolUnique := by
  intro l
  induction l with
  | nil => intro s h; exact h
  | cons a l ih => intro s h; exact ih _ (hf s a h)

theorem core_sendProtocolVersionRequest (H : Host) (s : LinkLayer) (n : Nat) :
    (s.sendProtocolVersionRequest H n).core = s.core := core_sendPacket H s _ _ n

theorem core_sendProtocolVersionReply (H : Host) (s : LinkLayer) (n : Nat) :
    (s.sendProtocolVersionReply H n).core = s.core := core_sendPacket H s _ _ n

theorem core_sendMasterNodeReply (H : Host) (s : LinkLayer) (n m : Nat) :
    (s.sendMasterNodeReply H n m).core = s.core := core_sendEncryptedPacket H s _ _ n

theorem core_sendPingRequest (H : Host) (s : LinkLayer) (n t c : Nat) :
    (s.sendPingRequest H n t c).core = s.core := core_sendEncryptedPacket H s _ _ n

theorem core_sendPingInitiate (H : Host) (s : LinkLayer) (n t c : Nat) :
    (s.sendPingInitiate H n t c).core = s.core := core_sendEncryptedPacket H s _ _ n

theorem core_sendPing (H : Host) (s : LinkLayer) (n : Nat) :
    (s.sendPing H n).core = s.core := core_sendPacket H s _ _ n

theorem core_sendRouteMissing (H : Host) (s : LinkLayer) (n : Nat) (a : QHostAddress) :
    (s.sendRouteMissing H n a).core = s.core := core_sendEncryptedPacket H s _ _ n

theorem core_sendExitNotification (H : Host) (s : LinkLayer) (n : Nat) :
    (s.sendExitNotification H n).core = s.core := core_sendEncryptedPacket H s _ _ n

theorem uq_sendPacket (H : Host) (s : LinkLayer) (t : packet_type_t) (d : QByteArray) (n : Nat) (h : s.SpoolUnique) :
    (s.sendPacket H t d n).SpoolUnique := uq_of_core (core_sendPacket H s t d n) h

theorem uq_sendPublicKeyExchange (H : Host) (s : LinkLayer) (n : Nat) (k : Option RSAKeyPair) (need : Bool) (c : Nat) (h : s.SpoolUnique) :
    (s.sendPublicKeyExchange H n k need c).SpoolUnique := uq_of_core (core_sendPublicKeyExchange H s n k need c) h

theorem uq_encryptAndSend (H : Host) (s : LinkLayer) (d : QByteArray) (n : Nat) (h : s.SpoolUnique) :
    (s.encryptAndSend H d n).SpoolUnique := uq_of_core (core_encryptAndSend H s d n) h

theorem uq_sendEncryptedPacket (H : Host) (s : LinkLayer) (t : packet_type_t) (d : QByteArray) (n : Nat) (h : s.SpoolUnique) :
    (s.sendEncryptedPacket H t d n).SpoolUnique := uq_of_core (core_sendEncryptedPacket H s t d n) h

theorem uq_sendProtocolVersionRequest (H : Host) (s : LinkLayer) (n : Nat) (h : s.SpoolUnique) :
    (s.sendProtocolVersionRequest H n).SpoolUnique := uq_of_core (core_sendProtocolVersionRequest H s n) h

theorem uq_sendProtocolVersionReply (H : Host) (s : LinkLayer) (n : Nat) (h : s.SpoolUnique) :
    (s.sendProtocolVersionReply H n).SpoolUnique := uq_of_core (core_sendProtocolVersionReply H s n) h

theorem uq_sendMasterNodeRequest (H : Host) (s : LinkLayer) (n : Nat) (h : s.SpoolUnique) :
    (s.sendMasterNodeRequest H n).SpoolUnique := uq_of_core (core_sendMasterNodeRequest H s n) h

theorem uq_sendSessionKeyExchange (H : Host) (s : LinkLayer) (n : Nat) (b : Bool) (h : s.SpoolUnique) :
    (s.sendSessionKeyExchange H n b).SpoolUnique := uq_of_core (core_sendSessionKeyExchange H s n b) h

theorem uq_sendIntroducePacket (H : Host) (s : LinkLayer) (n : Nat) (h : s.SpoolUnique) :
    (s.sendIntroducePacket H n).SpoolUnique := uq_of_core (core_sendIntroducePacket H s n) h

theorem uq_sendMasterNodeReply (H : Host) (s : LinkLayer) (n m : Nat) (h : s.SpoolUnique) :
    (s.sendMasterNodeReply H n m).SpoolUnique := uq_of_core (core_sendMasterNodeReply H s n m) h

theorem uq_sendPingRequest (H : Host) (s : LinkLayer) (n t c : Nat) (h : s.SpoolUnique) :
    (s.sendPingRequest H n t c).SpoolUnique := uq_of_core (core_sendPingRequest H s n t c) h

theorem uq_sendPingInitiate (H : Host) (s : LinkLayer) (n t c : Nat) (h : s.SpoolUnique) :
    (s.sendPingInitiate H n t c).SpoolUnique := uq_of_core (core_sendPingInitiate H s n t c) h

theorem uq_sendRegisterRequest (H : Host) (s : LinkLayer) (n : Nat) (b : Bool) (h : s.SpoolUnique) :
    (s.sendRegisterRequest H n b).SpoolUnique := uq_of_core (core_sendRegisterRequest H s n b) h

theorem uq_sendPing (H : Host) (s : LinkLayer) (n : Nat) (h : s.SpoolUnique) :
    (s.sendPing H n).SpoolUnique := uq_of_core (core_sendPing H s n) h

theorem uq_sendRoute (H : Host) (s : LinkLayer) (n t : Nat) (h : s.SpoolUnique) :
    (s.sendRoute H n t).SpoolUnique := uq_of_core (core_sendRoute H s n t) h

theorem uq_sendRegisterReply (H : Host) (s : LinkLayer) (n : Nat) (h : s.SpoolUnique) :
    (s.sendRegisterReply H n).SpoolUnique := uq_of_core (core_sendRegisterReply H s n) h

theorem uq_sendRouteMissing (H : Host) (s : LinkLayer) (n : Nat) (a : QHostAddress) (h : s.SpoolUnique) :
    (s.sendRouteMissing H n a).SpoolUnique := uq_of_core (core_sendRouteMissing H s n a) h

theorem uq_sendRouteInvalidate (H : Host) (s : LinkLayer) (n t : Nat) (h : s.SpoolUnique) :
    (s.sendRouteInvalidate H n t).SpoolUnique := uq_of_core (core_sendRouteInvalidate H s n t) h

theorem uq_sendRoleUpdate (H : Host) (s : LinkLayer) (n : Nat) (b : Bool) (h : s.SpoolUnique) :
    (s.sendRoleUpdate H n b).SpoolUnique := uq_of_core (core_sendRoleUpdate H s n b) h

theorem uq_sendExitNotification (H : Host) (s : LinkLayer) (n : Nat) (h : s.SpoolUnique) :
    (s.sendExitNotification H n).SpoolUnique := uq_of_core (core_sendExitNotification H s n) h

section SpoolUnique

attribute [local irreducible] LinkLayer.emit LinkLayer.crash LinkLayer.setRouter LinkLayer.delete
  LinkLayer.setAwaitingNegotiation LinkLayer.setCookies LinkLayer.setJoinStep
  LinkLayer.setJoinMaster LinkLayer.setForceBehindNAT LinkLayer.setJoinPing
  LinkLayer.setJoinPingsEmitted LinkLayer.setJoinPingsArrived LinkLayer.setPreparingForShutdown
  LinkLayer.setTransportInitiated LinkLayer.setPingTimer LinkLayer.setJoinTimer
  LinkLayer.setNetworkDivisor LinkLayer.stepRand LinkLayer.deliver LinkLayer.sendPacket
  LinkLayer.sendPublicKeyExchange LinkLayer.encryptAndSend LinkLayer.sendEncryptedPacket
  LinkLayer.sendProtocolVersionRequest LinkLayer.sendProtocolVersionReply
  LinkLayer.sendMasterNodeRequest LinkLayer.sendSessionKeyExchange LinkLayer.sendIntroducePacket
  LinkLayer.sendMasterNodeReply LinkLayer.sendPingRequest LinkLayer.sendPingInitiate
  LinkLayer.sendRegisterRequest LinkLayer.sendPing LinkLayer.sendRoute LinkLayer.sendRegisterReply
  LinkLayer.sendRouteMissing LinkLayer.sendRouteInvalidate LinkLayer.sendRoleUpdate
  LinkLayer.sendExitNotification LinkLayer.revertJoin LinkLayer.wrapNode LinkLayer.initTransport
  LinkLayer.transportSend LinkLayer.setNode LinkLayer.modifyNode LinkLayer.setNodeSpool
  LinkLayer.alloc LinkLayer.node LinkLayer.handleProtocolVersionRequest
  LinkLayer.handleProtocolVersionReply LinkLayer.drainQueue LinkLayer.handleSessionKeyExchange
  LinkLayer.handleIntroducePacket LinkLayer.handleMasterNodeRequest
  LinkLayer.handleMasterNodeReply LinkLayer.doPing LinkLayer.handlePingRequest
  LinkLayer.handlePingInitiate LinkLayer.joinGotPinged LinkLayer.handlePing
  LinkLayer.handleRegisterRequest LinkLayer.handleRegisterReply LinkLayer.handleRoute
  LinkLayer.handleRouteRequest LinkLayer.handleRouteMissing LinkLayer.handleRouteInvalidate
  LinkLayer.handleRoleUpdate LinkLayer.reincarnateSomeone LinkLayer.handleExitNotification
  LinkLayer.handleInner LinkLayer.handleEncrypted LinkLayer.joinNetwork

theorem uq_handleProtocolVersionRequest (H : Host) (s : LinkLayer) (p : QByteArray) (n : Nat) (h : s.SpoolUnique) :
    (s.handleProtocolVersionRequest H p n).SpoolUnique := by
  unfold LinkLayer.handleProtocolVersionRequest
  repeat
    first
    | apply uq_sendProtocolVersionReply
    | split
    | exact h

theorem uq_handleProtocolVersionReply (H : Host) (s : LinkLayer) (p : QByteArray) (n : Nat) (h : s.SpoolUnique) :
    (s.handleProtocolVersionReply H p n).SpoolUnique := by
  unfold LinkLayer.handleProtocolVersionReply
  repeat
    first
    | apply uq_emit
    | apply uq_setJoinStep
    | apply uq_setJoinTimer
    | apply uq_sendMasterNodeRequest
    | apply uq_revertJoin
    | split
    | dsimp only
    | exact h

theorem uq_drainQueue (H : Host) (n : Nat) :
    ∀ (q : List QByteArray) (s : LinkLayer), s.SpoolUnique →
      (LinkLayer.drainQueue H n q s).SpoolUnique := by
  intro q
  induction q with
  | nil => intro s h; unfold LinkLayer.drainQueue; exact h
  | cons d rest ih =>
    intro s h
    unfold LinkLayer.drainQueue
    exact ih _ (uq_encryptAndSend H _ _ n (uq_setNode s n _ ⟨rfl, rfl⟩ h))

theorem uq_handleSessionKeyExchange (H : Host) (s : LinkLayer) (p : QByteArray) (n : Nat) (h : s.SpoolUnique) :
    (s.handleSessionKeyExchange H p n).SpoolUnique := by
  unfold LinkLayer.handleSessionKeyExchange
  repeat
    first
    | apply uq_emit
    | apply uq_setAwaitingNegotiation
    | apply uq_sendSessionKeyExchange
    | apply uq_drainQueue
    | refine uq_modifyNode _ _ _ (fun _ => ⟨rfl, rfl⟩) ?_
    | split
    | dsimp only
    | exact h

theorem uq_handleIntroducePacket (H : Host) (s : LinkLayer) (p : QByteArray) (n : Nat) (h : s.SpoolUnique) :
    (s.handleIntroducePacket H p n).SpoolUnique := by
  unfold LinkLayer.handleIntroducePacket
  repeat
    first
    | apply uq_setRouter
    | refine uq_modifyNode _ _ _ (fun _ => ⟨rfl, rfl⟩) ?_
    | split
    | dsimp only
    | exact h

theorem uq_handleMasterNodeRequest (H : Host) (s : LinkLayer) (p : QByteArray) (n : Nat) (h : s.SpoolUnique) :
    (s.handleMasterNodeRequest H p n).SpoolUnique := by
  unfold LinkLayer.handleMasterNodeRequest
  repeat
    first
    | apply uq_crash
    | apply uq_sendMasterNodeReply
    | split
    | exact h

theorem uq_handleMasterNodeReply (H : Host) (s : LinkLayer) (p : QByteArray) (n : Nat) (h : s.SpoolUnique) :
    (s.handleMasterNodeReply H p n).SpoolUnique := by
  unfold LinkLayer.handleMasterNodeReply
  repeat
    first
    | apply uq_setJoinStep
    | apply uq_setJoinMaster
    | apply uq_setJoinPing
    | apply uq_setJoinPingsEmitted
    | apply uq_setJoinPingsArrived
    | apply uq_setPingTimer
    | apply uq_setJoinTimer
    | apply uq_sendPingRequest
    | apply uq_sendRegisterRequest
    | apply uq_wrapNode
    | split
    | dsimp only
    | exact h

theorem uq_doPing (H : Host) (s : LinkLayer) (n c : Nat)
    (h : s.SpoolUnique) : (s.doPing H n c).SpoolUnique := by
  unfold LinkLayer.doPing
  split
  · exact h
  · exact uq_foldl _ (fun st _ hst => uq_sendPing H st n hst) _ _ h

theorem uq_handlePingRequest (H : Host) (s : LinkLayer) (p : QByteArray) (n : Nat) (h : s.SpoolUnique) :
    (s.handlePingRequest H p n).SpoolUnique := by
  unfold LinkLayer.handlePingRequest
  repeat
    first
    | apply uq_crash
    | apply uq_sendPingInitiate
    | apply uq_wrapNode
    | apply uq_doPing
    | split
    | dsimp only
    | exact h

theorem uq_handlePingInitiate (H : Host) (s : LinkLayer) (p : QByteArray) (n : Nat) (h : s.SpoolUnique) :
    (s.handlePingInitiate H p n).SpoolUnique := by
  unfold LinkLayer.handlePingInitiate
  repeat
    first
    | apply uq_wrapNode
    | apply uq_doPing
    | split
    | dsimp only
    | exact h

theorem uq_joinGotPinged (H : Host) (s : LinkLayer) (h : s.SpoolUnique) :
    (s.joinGotPinged H).SpoolUnique := by
  unfold LinkLayer.joinGotPinged
  repeat
    first
    | apply uq_crash
    | apply uq_setJoinStep
    | apply uq_setPingTimer
    | apply uq_setJoinTimer
    | apply uq_sendRegisterRequest
    | split
    | dsimp only
    | exact h

theorem uq_handlePing (H : Host) (s : LinkLayer) (p : QByteArray) (n : Nat) (h : s.SpoolUnique) :
    (s.handlePing H p n).SpoolUnique := by
  unfold LinkLayer.handlePing
  repeat
    first
    | apply uq_emit
    | apply uq_setJoinPing
    | apply uq_setJoinPingsArrived
    | apply uq_revertJoin
    | apply uq_joinGotPinged
    | split
    | dsimp only
    | exact h

theorem uq_handleRegisterRequest (H : Host) (s : LinkLayer) (p : QByteArray) (n : Nat) (h : s.SpoolUnique) :
    (s.handleRegisterRequest H p n).SpoolUnique := by
  unfold LinkLayer.handleRegisterRequest
  have hf : ∀ (l : List Nat) (st : LinkLayer), st.SpoolUnique →
      (l.foldl (fun st update => (st.sendRoute H n update).sendRoute H update n)
        st).SpoolUnique :=
    uq_foldl _ (fun st x hst => uq_sendRoute H _ x n (uq_sendRoute H st n x hst))
  repeat
    first
    | apply hf
    | apply uq_crash
    | apply uq_setRouter
    | apply uq_sendRoute
    | apply uq_sendRegisterReply
    | refine uq_modifyNode _ _ _ (fun _ => ⟨rfl, rfl⟩) ?_
    | split
    | dsimp only
    | exact h

theorem uq_handleRegisterReply (H : Host) (s : LinkLayer) (p : QByteArray) (n : Nat) (h : s.SpoolUnique) :
    (s.handleRegisterReply H p n).SpoolUnique := by
  unfold LinkLayer.handleRegisterReply
  repeat
    first
    | apply uq_emit
    | apply uq_setRouter
    | apply uq_setJoinStep
    | apply uq_setJoinTimer
    | apply uq_setNetworkDivisor
    | apply uq_wrapNode
    | refine uq_modifyNode _ _ _ (fun _ => ⟨rfl, rfl⟩) ?_
    | split
    | dsimp only
    | exact h

theorem uq_handleRoute (H : Host) (s : LinkLayer) (p : QByteArray) (n : Nat) (h : s.SpoolUnique) :
    (s.handleRoute H p n).SpoolUnique := by
  unfold LinkLayer.handleRoute
  repeat
    first
    | apply uq_setRouter
    | apply uq_wrapNode
    | refine uq_modifyNode _ _ _ (fun _ => ⟨rfl, rfl⟩) ?_
    | split
    | dsimp only
    | exact h

theorem uq_handleRouteRequest (H : Host) (s : LinkLayer) (p : QByteArray) (n : Nat) (h : s.SpoolUnique) :
    (s.handleRouteRequest H p n).SpoolUnique := by
  unfold LinkLayer.handleRouteRequest
  repeat
    first
    | apply uq_crash
    | apply uq_sendRoute
    | apply uq_sendRouteMissing
    | split
    | exact h

theorem uq_handleRouteMissing (s : LinkLayer) (p : QByteArray) (n : Nat) (h : s.SpoolUnique) :
    (s.handleRouteMissing p n).SpoolUnique := by
  unfold LinkLayer.handleRouteMissing
  repeat
    first
    | split
    | exact h

theorem uq_handleRouteInvalidate (H : Host) (s : LinkLayer) (p : QByteArray) (n : Nat) (h : s.SpoolUnique) :
    (s.handleRouteInvalidate H p n).SpoolUnique := by
  unfold LinkLayer.handleRouteInvalidate
  repeat
    first
    | apply uq_setRouter
    | apply uq_delete
    | apply uq_wrapNode
    | apply uq_erase_setRouter
    | apply uq_erase
    | split
    | dsimp only
    | exact h

theorem uq_handleRoleUpdate (s : LinkLayer) (p : QByteArray) (n : Nat) (h : s.SpoolUnique) :
    (s.handleRoleUpdate p n).SpoolUnique := by
  unfold LinkLayer.handleRoleUpdate
  repeat
    first
    | apply uq_crash
    | refine uq_modifyNode _ _ _ (fun _ => ⟨rfl, rfl⟩) ?_
    | split
    | exact h

theorem uq_reincarnateSomeone (H : Host) (s : LinkLayer) (h : s.SpoolUnique) :
    (s.reincarnateSomeone H).SpoolUnique := by
  unfold LinkLayer.reincarnateSomeone
  have hf : ∀ (t : Nat) (l : List Nat) (st : LinkLayer), st.SpoolUnique →
      (l.foldl (fun st node =>
          if (st.node node).master = false ∧ node ≠ t then
            (st.sendRoute H node t).sendRoute H t node
          else st) st).SpoolUnique :=
    fun t => uq_foldl _ (fun st x hst => by
      split
      · exact uq_sendRoute H _ t x (uq_sendRoute H st x t hst)
      · exact hst)
  repeat
    first
    | apply hf
    | apply uq_crash
    | apply uq_setRouter
    | apply uq_sendRoute
    | apply uq_sendRoleUpdate
    | refine uq_modifyNode _ _ _ (fun _ => ⟨rfl, rfl⟩) ?_
    | split
    | dsimp only
    | exact h

theorem uq_handleExitNotification (H : Host) (s : LinkLayer) (p : QByteArray) (n : Nat) (h : s.SpoolUnique) :
    (s.handleExitNotification H p n).SpoolUnique := by
  unfold LinkLayer.handleExitNotification
  have hf : ∀ (l : List Nat) (st : LinkLayer), st.SpoolUnique →
      (l.foldl (fun st target => st.sendRouteInvalidate H target n) st).SpoolUnique :=
    uq_foldl _ (fun st x hst => uq_sendRouteInvalidate H st x n hst)
  repeat
    first
    | apply hf
    | apply uq_crash
    | apply uq_setRouter
    | apply uq_delete
    | apply uq_sendRouteInvalidate
    | apply uq_reincarnateSomeone
    | apply uq_erase_setRouter
    | apply uq_erase
    | split
    | dsimp only
    | exact h

theorem uq_handleInner (H : Host) (s : LinkLayer) (t : Nat) (p : QByteArray) (n : Nat) (h : s.SpoolUnique) :
    (s.handleInner H t p n).SpoolUnique := by
  unfold LinkLayer.handleInner
  repeat
    first
    | apply uq_deliver
    | apply uq_handleIntroducePacket
    | apply uq_handleMasterNodeRequest
    | apply uq_handleMasterNodeReply
    | apply uq_handlePingRequest
    | apply uq_handlePingInitiate
    | apply uq_handleRegisterRequest
    | apply uq_handleRegisterReply
    | apply uq_handleRoute
    | apply uq_handleRouteRequest
    | apply uq_handleRouteMissing
    | apply uq_handleRouteInvalidate
    | apply uq_handleRoleUpdate
    | apply uq_handleExitNotification
    | split
    | exact h

theorem uq_handleEncrypted (H : Host) (s : LinkLayer) (p : QByteArray) (n : Nat) (h : s.SpoolUnique) :
    (s.handleEncrypted H p n).SpoolUnique := by
  unfold LinkLayer.handleEncrypted
  repeat
    first
    | apply uq_handleInner
    | split
    | exact h

theorem uq_joinNetwork (H : Host) (s : LinkLayer) (a : QHostAddress) (p : Nat) (b : Bool) (h : s.SpoolUnique) :
    ((s.joinNetwork H a p b).2).SpoolUnique := by
  unfold LinkLayer.joinNetwork
  repeat
    first
    | apply uq_setJoinStep
    | apply uq_setForceBehindNAT
    | apply uq_setJoinTimer
    | apply uq_sendProtocolVersionRequest
    | apply uq_wrapNode
    | apply uq_initTransport
    | split
    | dsimp only
    | exact h

end SpoolUnique


theorem uq_handlePublicKeyExchange (H : Host) (s : LinkLayer) (p : QByteArray) (n : Nat)
    (hnr : s.rewrites H p n = false) (h : s.SpoolUnique) :
    (s.handlePublicKeyExchange H p n).SpoolUnique := by
  unfold LinkLayer.handlePublicKeyExchange
  unfold LinkLayer.rewrites at hnr
  split
  · exact h
  · rename_i hsize
    rw [if_neg hsize] at hnr
    dsimp only
    split
    · exact uq_setCookies _ _ h
    · split
      · exact uq_setAwaitingNegotiation _ _ (uq_setNode s n _ ⟨rfl, rfl⟩ h)
      · rename_i hkey
        split
        · exact uq_sendPublicKeyExchange H _ _ _ _ _ (uq_setNode s n _ ⟨rfl, rfl⟩ h)
        · rename_i hneed
          have hneed2 : ¬ p.getD 0 0 ≠ 0 := by
            intro hc
            exact hneed (decide_eq_true hc)
          rw [if_neg hneed2] at hnr
          split
          · exact uq_crash _ (uq_setNode s n _ ⟨rfl, rfl⟩ h)
          · rename_i orig hlook
            have hlook2 : cookiesLookup s.cookies (fieldAt H p 1 4) = some orig := hlook
            rw [hlook2] at hnr
            dsimp only at hnr
            have hk : ((s.node n).setAuthKey (List.drop sizeof_key_exchange_t p)).1 = true := by
              simpa using hkey
            rw [hk, Bool.true_and] at hnr
            have hrw : ((((s.setNode n ((s.node n).setAuthKey
                (List.drop sizeof_key_exchange_t p)).2).setCookies
                (cookiesRemove (s.setNode n ((s.node n).setAuthKey
                  (List.drop sizeof_key_exchange_t p)).2).cookies (fieldAt H p 1 4))).node
                orig).differs
                (((s.setNode n ((s.node n).setAuthKey
                  (List.drop sizeof_key_exchange_t p)).2).setCookies
                (cookiesRemove (s.setNode n ((s.node n).setAuthKey
                  (List.drop sizeof_key_exchange_t p)).2).cookies (fieldAt H p 1 4))).node n)) =
                false := hnr
            have h2 : ((s.setNode n ((s.node n).setAuthKey
                (List.drop sizeof_key_exchange_t p)).2).setCookies
                (cookiesRemove (s.setNode n ((s.node n).setAuthKey
                  (List.drop sizeof_key_exchange_t p)).2).cookies (fieldAt H p 1 4))).SpoolUnique :=
              uq_setCookies _ _ (uq_setNode s n _ ⟨rfl, rfl⟩ h)
            apply uq_sendSessionKeyExchange
            simp only [hrw, Bool.false_eq_true, if_false]
            split
            · exact h2
            · split
              · exact uq_sendIntroducePacket H _ _ h2
              · exact h2

theorem uq_handleOuter (H : Host) (s : LinkLayer) (t : Nat) (p : QByteArray) (n : Nat)
    (hnr : packet_type_t.ofCode t = some packet_type_t.PublicKeyExchange →
      s.rewrites H p n = false)
    (h : s.SpoolUnique) : (s.handleOuter H t p n).SpoolUnique := by
  unfold LinkLayer.handleOuter
  split
  · exact uq_handleProtocolVersionRequest H s p n h
  · exact uq_handleProtocolVersionReply H s p n h
  · rename_i heq
    exact uq_handlePublicKeyExchange H s p n (hnr heq) h
  · exact uq_handleSessionKeyExchange H s p n h
  · exact uq_handlePing H s p n h
  · exact uq_handleEncrypted H s p n h
  · exact h

/-- C19, as the code has it: endpoint uniqueness in a node spool of
constructed records is preserved by `wrapNode`, by `joinNetwork` and by
`handlePacket` for every datagram that does not make
`handlePublicKeyExchange` rewrite an endpoint. -/
theorem endpoints_unique_preserved (H : Host) (s : LinkLayer) (h : s.SpoolUnique) :
    (∀ host port, (s.wrapNode H host port).2.SpoolUnique) ∧
    (∀ remoteIP remotePort nat, (s.joinNetwork H remoteIP remotePort nat).2.SpoolUnique) ∧
    (∀ data host port,
      (packet_type_t.ofCode (hdrType H data) = some packet_type_t.PublicKeyExchange →
        (s.wrapNode H host port).2.rewrites H (data.drop sizeof_packet_header_t)
          (s.wrapNode H host port).1 = false) →
      (s.handlePacket H data host port).SpoolUnique) := by
  refine ⟨fun host port => uq_wrapNode H s host port h,
    fun a p b => uq_joinNetwork H s a p b h, ?_⟩
  intro data host port hnr
  unfold LinkLayer.handlePacket
  split
  · exact h
  · exact uq_handleOuter H _ _ _ _ hnr (uq_wrapNode H s host port h)

/-- The claim C19 as it is stated fails: a join is started through 10.0.0.1,
the peer answers the version request, and the reply to the PublicKeyExchange
then comes from 10.0.0.5. The record of 10.0.0.1 is rewritten to 10.0.0.5
while the record `wrapNode` made for 10.0.0.5 stays in the node spool. -/
theorem endpoints_shared_after_rewrite :
    Reachable (exampleHost Endian.little) exampleMerged ∧
    exampleMerged.nodeSpool = [0, 1] ∧
    exampleMerged.endpoint 0 = (167772165, 1801) ∧
    exampleMerged.endpoint 1 = (167772165, 1801) ∧
    ¬ exampleMerged.EndpointsUnique :=
  ⟨Reachable.handlePacket _ _ _ _ (Reachable.handlePacket _ _ _ _
      (Reachable.joinNetwork _ _ _ _ (Reachable.init exampleKey))),
    by decide, by decide, by decide, by decide⟩

/-- Witness of `endpoints_unique_preserved`: the reply to the PublicKeyExchange
comes from 10.0.0.1, the endpoint it was sent to. -/
theorem endpoints_unique_preserved_witness :
    exampleNegotiating.SpoolUnique ∧
    (exampleNegotiating.wrapNode (exampleHost Endian.little) 167772161 1801).2.rewrites
      (exampleHost Endian.little)
      ((frame (exampleHost Endian.little) packet_type_t.PublicKeyExchange exampleKeyReply).drop
        sizeof_packet_header_t)
      (exampleNegotiating.wrapNode (exampleHost Endian.little) 167772161 1801).1 = false ∧
    (exampleNegotiating.handlePacket (exampleHost Endian.little)
      (frame (exampleHost Endian.little) packet_type_t.PublicKeyExchange exampleKeyReply)
      167772161 1801).SpoolUnique :=
  ⟨⟨by decide, by decide⟩, by decide,
    (endpoints_unique_preserved (exampleHost Endian.little) exampleNegotiating
      ⟨by decide, by decide⟩).2.2 _ _ _ (fun _ => by decide)⟩

/-! ## The cookie table after a negotiation timeout (C21) -/

theorem cookies_sendPacket (H : Host) (s : LinkLayer) (t : packet_type_t) (d : QByteArray)
    (n : Nat) : (s.sendPacket H t d n).cookies = s.cookies := by
  unfold LinkLayer.sendPacket
  split <;> rfl

theorem cookiesLookup_insert (c : List (Nat × Nat)) (k v : Nat) :
    cookiesLookup (cookiesInsert c k v) k = some v := by
  simp [cookiesLookup, cookiesInsert]

theorem cookies_sendPublicKeyExchange (H : Host) (s : LinkLayer) (node : Nat)
    (key : Option RSAKeyPair) (c : Nat) :
    (s.sendPublicKeyExchange H node key true c).cookies =
      cookiesInsert s.cookies (H.qrand s.randCalls % 4294967296) node := by
  unfold LinkLayer.sendPublicKeyExchange
  simp only [if_true]
  split
  · rw [cookies_sendPacket]
    rfl
  · split
    · rw [cookies_sendPacket]
      rfl
    · rfl

theorem cookies_negotiationTimeout (s : LinkLayer) (node : Nat) :
    (s.negotiationTimeout node).cookies = s.cookies := by
  unfold LinkLayer.negotiationTimeout
  dsimp only
  split <;> rfl

theorem awaiting_negotiationTimeout (s : LinkLayer) (node : Nat) :
    (s.negotiationTimeout node).awaitingNegotiation = s.awaitingNegotiation.erase node := by
  unfold LinkLayer.negotiationTimeout
  dsimp only
  split <;> rfl

/-- C21, a counterexample: the joining link layer of the example has started
a handshake with its bootstrap peer (record 0), `sendPublicKeyExchange` has
stored cookie 0 for that peer, and the peer awaits negotiation with one
payload queued. After `negotiationTimeout` for the peer its queue is empty and
it no longer awaits negotiation, but cookie 0 still maps to it. -/
theorem cookie_survives_negotiationTimeout :
    exampleNegotiating.awaitingNegotiation = [0] ∧
    exampleNegotiating.cookies = [(0, 0)] ∧
    ((exampleNegotiating.negotiationTimeout 0).node 0).queue = [] ∧
    (exampleNegotiating.negotiationTimeout 0).awaitingNegotiation = [] ∧
    cookiesLookup (exampleNegotiating.negotiationTimeout 0).cookies 0 = some 0 := by
  decide

theorem heap_length_sendPublicKeyExchange (H : Host) (s : LinkLayer) (n : Nat)
    (k : Option RSAKeyPair) (need : Bool) (c : Nat) :
    (s.sendPublicKeyExchange H n k need c).heap.length = s.heap.length :=
  heap_length_of_core (core_sendPublicKeyExchange H s n k need c)

/-- Claim C21 as the code has it, cookie table on negotiation timeout: the
handshake that `sendPublicKeyExchange` starts for a peer stores the cookie it
draws under that peer; `negotiationTimeout` for the peer empties the send
queue of the peer, takes one occurrence of the peer out of
`awaitingNegotiation` and leaves the cookie table as it was, so the cookie
still maps to the peer afterwards; and in whatever state the timeout finds the
link layer, every cookie that maps to the peer still does so afterwards. -/
theorem negotiationTimeout_keeps_cookies (H : Host) (s : LinkLayer) (peer : Nat)
    (key : Option RSAKeyPair) (c : Nat) (hv : peer < s.heap.length) :
    cookiesLookup (s.sendPublicKeyExchange H peer key true c).cookies
      (H.qrand s.randCalls % 4294967296) = some peer ∧
    cookiesLookup ((s.sendPublicKeyExchange H peer key true c).negotiationTimeout peer).cookies
      (H.qrand s.randCalls % 4294967296) = some peer ∧
    ((s.sendPublicKeyExchange H peer key true c).negotiationTimeout peer).cookies =
      (s.sendPublicKeyExchange H peer key true c).cookies ∧
    ((s.sendPublicKeyExchange H peer key true c).negotiationTimeout peer).awaitingNegotiation =
      (s.sendPublicKeyExchange H peer key true c).awaitingNegotiation.erase peer ∧
    (((s.sendPublicKeyExchange H peer key true c).negotiationTimeout peer).node peer).queue =
      [] ∧
    (∀ (t : LinkLayer) (k : Nat), cookiesLookup t.cookies k = some peer →
      (t.negotiationTimeout peer).cookies = t.cookies ∧
      cookiesLookup (t.negotiationTimeout peer).cookies k = some peer) := by
  refine ⟨?_, ?_, cookies_negotiationTimeout _ _, awaiting_negotiationTimeout _ _, ?_,
    fun t k hk => ⟨cookies_negotiationTimeout t peer, by
      rw [cookies_negotiationTimeout]
      exact hk⟩⟩
  · rw [cookies_sendPublicKeyExchange]
    exact cookiesLookup_insert _ _ _
  · rw [cookies_negotiationTimeout, cookies_sendPublicKeyExchange]
    exact cookiesLookup_insert _ _ _
  · have hv2 : peer < (s.sendPublicKeyExchange H peer key true c).heap.length := by
      rw [heap_length_sendPublicKeyExchange]
      exact hv
    have hq : (((s.sendPublicKeyExchange H peer key true c).modifyNode peer
        SparkleNode.flushQueue).node peer).queue = [] := by
      rw [node_modifyNode_same _ peer _ hv2]
      rfl
    unfold LinkLayer.negotiationTimeout
    dsimp only
    split
    · exact hq
    · exact hq

/-- Witness of `negotiationTimeout_keeps_cookies`: the example link layer
that has just started to join sends a PublicKeyExchange with a fresh cookie
(cookie 0) to its bootstrap peer (record 0); after
`negotiationTimeout` for that peer cookie 0 still maps to it. -/
theorem negotiationTimeout_keeps_cookies_witness :
    0 < exampleJoining.heap.length ∧
    (exampleHost Endian.little).qrand exampleJoining.randCalls % 4294967296 = 0 ∧
    cookiesLookup ((exampleJoining.sendPublicKeyExchange (exampleHost Endian.little) 0
      (some exampleKey) true 0).negotiationTimeout 0).cookies
      ((exampleHost Endian.little).qrand exampleJoining.randCalls % 4294967296) = some 0 :=
  ⟨by decide, by decide,
    (negotiationTimeout_keeps_cookies (exampleHost Endian.little) exampleJoining 0
      (some exampleKey) 0 (by decide)).2.1⟩

/-! ## The reset of a join that timed out (C23) -/

/-- Claim C23, join timeout reset: whatever peers, queued payloads and cookies
a link layer holds, after `joinTimeout` the node spool, `awaitingNegotiation`
and the cookie table are empty, the router is cleared (no self node, no
records), every record the node spool held has been deleted, and the signals
emitted are those emitted before followed by one `joinFailed`. -/
theorem joinTimeout_resets (s : LinkLayer) :
    s.joinTimeout.nodeSpool = [] ∧
    s.joinTimeout.awaitingNegotiation = [] ∧
    s.joinTimeout.cookies = [] ∧
    s.joinTimeout.router = Router.clear ∧
    s.joinTimeout.router.selfNode = none ∧
    s.joinTimeout.router.nodes = [] ∧
    s.joinTimeout.freed = s.freed ++ s.nodeSpool ∧
    s.joinTimeout.emitted = s.emitted ++ [Signal.joinFailed] :=
  ⟨rfl, rfl, rfl, rfl, rfl, rfl, rfl, rfl⟩

/-! ## The cap on pings (C22) -/

theorem sendPing_of_ne_self (H : Host) (s : LinkLayer) (node : Nat)
    (hself : s.router.selfNode ≠ some node) :
    s.sendPing H node =
      { s with sent := s.sent ++ [⟨frame H packet_type_t.Ping
        (endpointBytes H (s.node node).host (s.node node).port), (s.node node).host,
        (s.node node).port, node, s.router.selfNode⟩] } := by
  unfold LinkLayer.sendPing
  rw [sendPacket_of_ne_self H s _ _ node hself]
  rfl

theorem pings_of_ne_self (H : Host) (s : LinkLayer) (node : Nat)
    (hself : s.router.selfNode ≠ some node) (c : Nat) :
    (List.range c).foldl (fun st _ => st.sendPing H node) s =
      { s with sent := s.sent ++ List.replicate c ⟨frame H packet_type_t.Ping
        (endpointBytes H (s.node node).host (s.node node).port), (s.node node).host,
        (s.node node).port, node, s.router.selfNode⟩ } := by
  induction c with
  | zero => simp
  | succ c ih =>
    rw [List.range_succ, List.foldl_append, ih]
    show LinkLayer.sendPing H _ node = _
    refine Eq.trans (sendPing_of_ne_self H _ node ?_) ?_
    · exact hself
    rw [List.replicate_succ', ← List.append_assoc]
    rfl

theorem pings_of_self (H : Host) (s : LinkLayer) (node : Nat)
    (hself : s.router.selfNode = some node) (l : List Nat) :
    l.foldl (fun st _ => st.sendPing H node) s = s := by
  induction l with
  | nil => rfl
  | cons x l ih =>
    rw [List.foldl_cons]
    have h : s.sendPing H node = s := sendPacket_of_self H s _ _ node hself
    rw [h, ih]

theorem sent_length_doPing (H : Host) (s : LinkLayer) (node c : Nat) :
    (s.doPing H node c).sent.length ≤ s.sent.length + 16 := by
  unfold LinkLayer.doPing
  split
  · exact Nat.le_add_right _ _
  · rename_i hc
    by_cases hself : s.router.selfNode = some node
    · rw [pings_of_self H s node hself]
      exact Nat.le_add_right _ _
    · rw [pings_of_ne_self H s node hself]
      simp only [List.length_append, List.length_replicate]
      omega

theorem sent_length_sendPacket (H : Host) (s : LinkLayer) (t : packet_type_t) (d : QByteArray)
    (n : Nat) : (s.sendPacket H t d n).sent.length ≤ s.sent.length + 1 := by
  unfold LinkLayer.sendPacket
  split
  · exact Nat.le_add_right _ _
  · simp [LinkLayer.transportSend]

theorem sent_length_sendEncryptedPacket (H : Host) (s : LinkLayer) (t : packet_type_t)
    (d : QByteArray) (n : Nat) :
    (s.sendEncryptedPacket H t d n).sent.length ≤ s.sent.length + 1 := by
  unfold LinkLayer.sendEncryptedPacket
  dsimp only
  split
  · split
    · exact Nat.le_add_right _ _
    · unfold LinkLayer.sendPublicKeyExchange
      simp only [if_true]
      exact sent_length_sendPacket H _ _ _ _
  · exact sent_length_sendPacket H _ _ _ _

theorem sent_wrapNode (H : Host) (s : LinkLayer) (host : QHostAddress) (port : Nat) :
    (s.wrapNode H host port).2.sent = s.sent := by
  unfold LinkLayer.wrapNode
  split <;> rfl

theorem fieldAt_byte_lt (H : Host) (payload : QByteArray) (off : Nat) :
    fieldAt H payload off 1 < 256 := by
  unfold fieldAt
  have hl : ((payload.drop off).take 1).length ≤ 1 := by
    rw [List.length_take]
    exact Nat.min_le_left _ _
  generalize (payload.drop off).take 1 = l at hl
  cases l with
  | nil => cases H.endian <;> decide
  | cons x t =>
    cases t with
    | nil =>
      cases H.endian <;> simp [hostValue, beValue]
    | cons y t => exact absurd hl (by simp)

/-- The claim C22 as it is stated fails for the self node: the self node of
the example network (record 0, at 10.0.0.1, port 1801) is asked for three
pings of its own record, and, by a PingInitiate of the master at 10.0.0.2 that
names the endpoint of the self node with count 3, for three pings of its own
endpoint. In both cases no Ping is sent, though 3 is not above 16. -/
theorem doPing_to_self_sends_nothing :
    (exampleNetwork 2 2 2).router.selfNode = some 0 ∧
    ((exampleNetwork 2 2 2).doPing (exampleHost Endian.little) 0 3).sentSince
      (exampleNetwork 2 2 2) = [] ∧
    (exampleNetwork 2 2 2).wrapNode (exampleHost Endian.little) 167772161 1801 =
      (0, exampleNetwork 2 2 2) ∧
    ((exampleNetwork 2 2 2).node 1).areKeysNegotiated = true ∧
    ((exampleNetwork 2 2 2).handlePacket (exampleHost Endian.little)
      (frame (exampleHost Endian.little) packet_type_t.EncryptedPacket
        (frame (exampleHost Endian.little) packet_type_t.PingInitiate [1, 0, 0, 10, 9, 7, 3]))
      167772162 1801).sentSince (exampleNetwork 2 2 2) = [] := by
  decide

/-- Claim C22, as the code has it: for a node that is not the router's self
node and a requested count `c`, `doPing` with `c ≤ 16` hands the transport
exactly `c` Ping datagrams addressed to the real endpoint of the node, each
with that endpoint as payload, and changes nothing else; for the self node
`doPing` leaves the state as it is whatever `c` is, so nothing is sent; with
`c > 16` it leaves the state as it is for every node. A well-sized
PingInitiate is answered by `doPing` for the endpoint and the count it names;
a well-sized PingRequest whose target has the endpoint of the self node is
answered by `doPing` for the sender with the count it names; the count is
one byte, and neither handler hands the transport more than 16 datagrams. A
PingRequest for another target is passed on as one PingInitiate, and on a
node without a self record it runs into the null self node and sends
nothing. -/
theorem doPing_cap (H : Host) (s : LinkLayer) (node c : Nat) (payload : QByteArray)
    (peer : Nat) :
    (s.router.selfNode ≠ some node → c ≤ 16 → s.doPing H node c =
      { s with sent := s.sent ++ List.replicate c ⟨frame H packet_type_t.Ping
        (endpointBytes H (s.node node).host (s.node node).port), (s.node node).host,
        (s.node node).port, node, s.router.selfNode⟩ }) ∧
    (s.router.selfNode ≠ some node → c ≤ 16 →
      (s.doPing H node c).sentSince s = List.replicate c ⟨frame H packet_type_t.Ping
        (endpointBytes H (s.node node).host (s.node node).port), (s.node node).host,
        (s.node node).port, node, s.router.selfNode⟩) ∧
    (s.router.selfNode = some node → s.doPing H node c = s) ∧
    (16 < c → s.doPing H node c = s) ∧
    (payload.length = sizeof_ping_request_t →
      s.handlePingInitiate H payload peer =
        (s.wrapNode H (fieldAt H payload 0 4) (fieldAt H payload 4 2)).2.doPing H
          (s.wrapNode H (fieldAt H payload 0 4) (fieldAt H payload 4 2)).1
          (fieldAt H payload 6 1)) ∧
    (payload.length = sizeof_ping_request_t → ∀ self, s.router.selfNode = some self →
      ((s.wrapNode H (fieldAt H payload 0 4) (fieldAt H payload 4 2)).2.node self).differs
        ((s.wrapNode H (fieldAt H payload 0 4) (fieldAt H payload 4 2)).2.node
          (s.wrapNode H (fieldAt H payload 0 4) (fieldAt H payload 4 2)).1) = false →
      s.handlePingRequest H payload peer =
        (s.wrapNode H (fieldAt H payload 0 4) (fieldAt H payload 4 2)).2.doPing H peer
          (fieldAt H payload 6 1)) ∧
    fieldAt H payload 6 1 < 256 ∧
    (s.handlePingInitiate H payload peer).sent.length ≤ s.sent.length + 16 ∧
    (s.handlePingRequest H payload peer).sent.length ≤ s.sent.length + 16 ∧
    (payload.length = sizeof_ping_request_t → ∀ self, s.router.selfNode = some self →
      ((s.wrapNode H (fieldAt H payload 0 4) (fieldAt H payload 4 2)).2.node self).differs
        ((s.wrapNode H (fieldAt H payload 0 4) (fieldAt H payload 4 2)).2.node
          (s.wrapNode H (fieldAt H payload 0 4) (fieldAt H payload 4 2)).1) = true →
      s.handlePingRequest H payload peer =
        (s.wrapNode H (fieldAt H payload 0 4) (fieldAt H payload 4 2)).2.sendPingInitiate H
          (s.wrapNode H (fieldAt H payload 0 4) (fieldAt H payload 4 2)).1 peer
          (fieldAt H payload 6 1)) ∧
    (payload.length = sizeof_ping_request_t → s.router.selfNode = none →
      s.handlePingRequest H payload peer =
        (s.wrapNode H (fieldAt H payload 0 4) (fieldAt H payload 4 2)).2.crash ∧
      (s.handlePingRequest H payload peer).sent = s.sent) := by
  refine ⟨?_, ?_, ?_, ?_, ?_, ?_, fieldAt_byte_lt H payload 6, ?_, ?_, ?_, ?_⟩
  · intro hself hc
    unfold LinkLayer.doPing
    rw [if_neg (by omega)]
    exact pings_of_ne_self H s node hself c
  · intro hself hc
    unfold LinkLayer.doPing LinkLayer.sentSince
    rw [if_neg (by omega), pings_of_ne_self H s node hself c]
    simp
  · intro hself
    unfold LinkLayer.doPing
    split
    · rfl
    · exact pings_of_self H s node hself _
  · intro hc
    unfold LinkLayer.doPing
    rw [if_pos hc]
  · intro hlen
    unfold LinkLayer.handlePingInitiate
    rw [if_neg (by simp [checkPacketSize, hlen])]
  · intro hlen self hself hsame
    have hr := wrapNode_router H s (fieldAt H payload 0 4) (fieldAt H payload 4 2)
    unfold LinkLayer.handlePingRequest
    rw [if_neg (by simp [checkPacketSize, hlen])]
    dsimp only
    rw [hr, hself]
    dsimp only
    rw [if_pos hsame]
  · unfold LinkLayer.handlePingInitiate
    split
    · exact Nat.le_add_right _ _
    · exact (sent_length_doPing H _ _ _).trans (by rw [sent_wrapNode])
  · unfold LinkLayer.handlePingRequest
    split
    · exact Nat.le_add_right _ _
    · dsimp only
      split
      · have h2 := sent_wrapNode H s (fieldAt H payload 0 4) (fieldAt H payload 4 2)
        show (LinkLayer.wrapNode H s _ _).2.sent.length ≤ _
        rw [h2]
        exact Nat.le_add_right _ _
      · split
        · exact (sent_length_doPing H _ _ _).trans (by rw [sent_wrapNode])
        · unfold LinkLayer.sendPingInitiate
          exact (sent_length_sendEncryptedPacket H _ _ _ _).trans (by
            rw [sent_wrapNode]
            omega)
  · intro hlen self hself hdiff
    have hr := wrapNode_router H s (fieldAt H payload 0 4) (fieldAt H payload 4 2)
    unfold LinkLayer.handlePingRequest
    rw [if_neg (by simp [checkPacketSize, hlen])]
    dsimp only
    rw [hr, hself]
    dsimp only
    rw [if_neg (by rw [hdiff]; decide)]
  · intro hlen hnone
    have hr := wrapNode_router H s (fieldAt H payload 0 4) (fieldAt H payload 4 2)
    have hc : s.handlePingRequest H payload peer =
        (s.wrapNode H (fieldAt H payload 0 4) (fieldAt H payload 4 2)).2.crash := by
      unfold LinkLayer.handlePingRequest
      rw [if_neg (by simp [checkPacketSize, hlen])]
      dsimp only
      rw [hr, hnone]
    rw [hc]
    exact ⟨rfl, sent_wrapNode H s _ _⟩

set_option maxRecDepth 100000 in
/-- Witness of `doPing_cap`: the self node of the example network (record 0)
pings the master at 10.0.0.2 (record 1) three times on request, not at all
when seventeen pings are requested, and its own record not at all; a
PingRequest of the master that names the endpoint of the self node with count
3 is answered with three pings for the master. -/
theorem doPing_cap_witness :
    (exampleNetwork 2 2 2).router.selfNode ≠ some 1 ∧
    (exampleNetwork 2 2 2).router.selfNode = some 0 ∧
    ((exampleNetwork 2 2 2).doPing (exampleHost Endian.little) 1 3).sentSince
        (exampleNetwork 2 2 2) =
      List.replicate 3 ⟨frame (exampleHost Endian.little) packet_type_t.Ping
        (endpointBytes (exampleHost Endian.little) ((exampleNetwork 2 2 2).node 1).host
          ((exampleNetwork 2 2 2).node 1).port), ((exampleNetwork 2 2 2).node 1).host,
        ((exampleNetwork 2 2 2).node 1).port, 1, (exampleNetwork 2 2 2).router.selfNode⟩ ∧
    (exampleNetwork 2 2 2).doPing (exampleHost Endian.little) 1 17 = exampleNetwork 2 2 2 ∧
    (exampleNetwork 2 2 2).doPing (exampleHost Endian.little) 0 3 = exampleNetwork 2 2 2 ∧
    (exampleNetwork 2 2 2).handlePingRequest (exampleHost Endian.little)
        [1, 0, 0, 10, 9, 7, 3] 1 =
      ((exampleNetwork 2 2 2).wrapNode (exampleHost Endian.little)
        (fieldAt (exampleHost Endian.little) [1, 0, 0, 10, 9, 7, 3] 0 4)
        (fieldAt (exampleHost Endian.little) [1, 0, 0, 10, 9, 7, 3] 4 2)).2.doPing
        (exampleHost Endian.little) 1
        (fieldAt (exampleHost Endian.little) [1, 0, 0, 10, 9, 7, 3] 6 1) ∧
    ((exampleNetwork 2 2 2).handlePingRequest (exampleHost Endian.little)
        [1, 0, 0, 10, 9, 7, 3] 1).sentSince (exampleNetwork 2 2 2) =
      List.replicate 3 ⟨frame (exampleHost Endian.little) packet_type_t.Ping
        (endpointBytes (exampleHost Endian.little) ((exampleNetwork 2 2 2).node 1).host
          ((exampleNetwork 2 2 2).node 1).port), ((exampleNetwork 2 2 2).node 1).host,
        ((exampleNetwork 2 2 2).node 1).port, 1, (exampleNetwork 2 2 2).router.selfNode⟩ :=
  ⟨by decide, by decide,
    (doPing_cap (exampleHost Endian.little) (exampleNetwork 2 2 2) 1 3 [2, 0, 0, 10, 9, 7, 3]
      1).2.1 (by decide) (by decide),
    (doPing_cap (exampleHost Endian.little) (exampleNetwork 2 2 2) 1 17 [2, 0, 0, 10, 9, 7, 17]
      1).2.2.2.1 (by decide),
    (doPing_cap (exampleHost Endian.little) (exampleNetwork 2 2 2) 0 3 [2, 0, 0, 10, 9, 7, 3]
      1).2.2.1 (by decide),
    (doPing_cap (exampleHost Endian.little) (exampleNetwork 2 2 2) 1 3 [1, 0, 0, 10, 9, 7, 3]
      1).2.2.2.2.2.1 (by decide) 0 (by decide) (by decide),
    by decide⟩

/-! ## The authority of a RoleUpdate (C25) -/

/-- Claim C25, RoleUpdate authority: for a well-sized RoleUpdate packet, a
sender whose record is not flagged master leaves the whole state as it was;
for a sender flagged master, on a node whose self record is set, the self
record afterwards is as before except that its master flag is
`isMasterNow ≠ 0`, every other record is as before, and nothing outside the
records changes. -/
theorem roleUpdate_authority (s : LinkLayer) (payload : QByteArray) (node self : Nat)
    (hlen : payload.length = sizeof_role_update_t) (hself : s.router.selfNode = some self)
    (hvalid : self < s.heap.length) :
    ((s.node node).master = false → s.handleRoleUpdate payload node = s) ∧
    ((s.node node).master = true →
      ((s.handleRoleUpdate payload node).node self).master = decide (payload.getD 0 0 ≠ 0) ∧
      (s.handleRoleUpdate payload node).node self =
        { s.node self with master := decide (payload.getD 0 0 ≠ 0) } ∧
      (∀ m, m ≠ self → (s.handleRoleUpdate payload node).node m = s.node m) ∧
      s.handleRoleUpdate payload node =
        { s with heap := (s.handleRoleUpdate payload node).heap }) := by
  have hsize : checkPacketSize payload sizeof_role_update_t
      packet_size_class_t.PacketSizeEqual = true := by
    simp [checkPacketSize, hlen]
  constructor
  · intro hm
    unfold LinkLayer.handleRoleUpdate
    rw [if_neg (by simp [hsize]), if_pos hm]
  · intro hm
    have heq : s.handleRoleUpdate payload node =
        s.modifyNode self (fun n => { n with master := decide (payload.getD 0 0 ≠ 0) }) := by
      unfold LinkLayer.handleRoleUpdate
      rw [if_neg (by simp [hsize]), if_neg (by simp [hm]), hself]
    rw [heq]
    refine ⟨?_, ?_, ?_, rfl⟩
    · rw [node_modifyNode_same s self _ hvalid]
    · rw [node_modifyNode_same s self _ hvalid]
    · intro m hne
      exact node_modifyNode_other s self m _ hne.symm

/-- Witness of `roleUpdate_authority`: a master of the example network
(record 1) tells the self node (record 0, a master) that it is a slave
now. -/
theorem roleUpdate_authority_witness :
    ([0] : QByteArray).length = sizeof_role_update_t ∧
    (exampleNetwork 2 2 2).router.selfNode = some 0 ∧
    ((exampleNetwork 2 2 2).node 1).master = true ∧
    ((exampleNetwork 2 2 2).node 0).master = true ∧
    (((exampleNetwork 2 2 2).handleRoleUpdate [0] 1).node 0).master = false :=
  ⟨by decide, by decide, by decide, by decide,
    ((roleUpdate_authority (exampleNetwork 2 2 2) [0] 1 0 (by decide) (by decide)
      (by decide)).2 (by decide)).1⟩

/-! ## RouteInvalidate (C24) -/

theorem wrapNode_spool_subset (H : Host) (s : LinkLayer) (host : QHostAddress) (port : Nat) :
    ∀ n ∈ s.nodeSpool, n ∈ (s.wrapNode H host port).2.nodeSpool := by
  intro n hn
  unfold LinkLayer.wrapNode
  split
  · exact hn
  · exact List.mem_append_left _ hn

theorem freed_wrapNode (H : Host) (s : LinkLayer) (host : QHostAddress) (port : Nat) :
    (s.wrapNode H host port).2.freed = s.freed := by
  unfold LinkLayer.wrapNode
  split <;> rfl

theorem wrapNode_fst (H : Host) (s : LinkLayer) (host : QHostAddress) (port : Nat) :
    (s.wrapNode H host port).1 ∈ s.nodeSpool ∨ (s.wrapNode H host port).1 = s.heap.length := by
  unfold LinkLayer.wrapNode
  split
  · rename_i n hsome
    exact Or.inl (List.mem_of_find?_eq_some hsome)
  · exact Or.inr rfl

theorem endpoint_ne_of_unique (s : LinkLayer) (hu : s.EndpointsUnique) (n t : Nat)
    (hn : n ∈ s.nodeSpool) (ht : t ∈ s.nodeSpool) (hne : n ≠ t) :
    s.endpoint n ≠ s.endpoint t :=
  fun h => hne (List.inj_on_of_nodup_map hu hn ht h)

/-- C24, what `handleRouteInvalidate` does: given an endpoint-unique
node spool of constructed records, after `handleRouteInvalidate` has processed
a well-sized packet that names a real endpoint, whoever sent it, no record of
the node spool has that endpoint, no record of the router that the node spool
held has it, the record that `wrapNode` returned for it is out of the router
and deleted, and every record is as it was. When no record of the node spool
had the endpoint, the node spool is the same as before, and so is a router of
constructed records. A record of the router that is not in the node spool
stays in the router, whatever its endpoint. -/
theorem routeInvalidate_removes (H : Host) (s : LinkLayer) (payload : QByteArray) (node : Nat)
    (hlen : payload.length = sizeof_route_invalidate_t) (hu : s.SpoolUnique) :
    (∀ n ∈ (s.handleRouteInvalidate H payload node).nodeSpool,
      (s.handleRouteInvalidate H payload node).endpoint n ≠
        (fieldAt H payload 0 4, fieldAt H payload 4 2)) ∧
    (∀ n ∈ (s.handleRouteInvalidate H payload node).router.nodes, n ∈ s.nodeSpool →
      (s.handleRouteInvalidate H payload node).endpoint n ≠
        (fieldAt H payload 0 4, fieldAt H payload 4 2)) ∧
    (s.handleRouteInvalidate H payload node).router =
      s.router.removeNode (s.wrapNode H (fieldAt H payload 0 4) (fieldAt H payload 4 2)).1 ∧
    (s.handleRouteInvalidate H payload node).freed =
      s.freed ++ [(s.wrapNode H (fieldAt H payload 0 4) (fieldAt H payload 4 2)).1] ∧
    (∀ n, n < s.heap.length → (s.handleRouteInvalidate H payload node).node n = s.node n) ∧
    (∀ n ∈ s.nodeSpool, s.endpoint n ≠ (fieldAt H payload 0 4, fieldAt H payload 4 2) →
      n ∈ (s.handleRouteInvalidate H payload node).nodeSpool) ∧
    (∀ n ∈ s.router.nodes, n ∉ s.nodeSpool → n < s.heap.length →
      n ∈ (s.handleRouteInvalidate H payload node).router.nodes) ∧
    (s.knows (fieldAt H payload 0 4) (fieldAt H payload 4 2) = false →
      (s.handleRouteInvalidate H payload node).nodeSpool = s.nodeSpool ∧
      ((∀ n ∈ s.router.nodes, n < s.heap.length) →
        (s.handleRouteInvalidate H payload node).router = s.router)) := by
  have hsize : checkPacketSize payload sizeof_route_invalidate_t
      packet_size_class_t.PacketSizeEqual = true := by
    simp [checkPacketSize, hlen]
  obtain ⟨ht, htmem, hhost, hport, hold, _⟩ :=
    wrapNode_spec H s (fieldAt H payload 0 4) (fieldAt H payload 4 2) hu.valid
  have hu1 := uq_wrapNode H s (fieldAt H payload 0 4) (fieldAt H payload 4 2) hu
  have hsub := wrapNode_spool_subset H s (fieldAt H payload 0 4) (fieldAt H payload 4 2)
  have hrt := wrapNode_router H s (fieldAt H payload 0 4) (fieldAt H payload 4 2)
  have hfr := freed_wrapNode H s (fieldAt H payload 0 4) (fieldAt H payload 4 2)
  have hfst := wrapNode_fst H s (fieldAt H payload 0 4) (fieldAt H payload 4 2)
  have hnew := wrapNode_of_not_knows H s (fieldAt H payload 0 4) (fieldAt H payload 4 2)
  have heq : s.handleRouteInvalidate H payload node =
      (((s.wrapNode H (fieldAt H payload 0 4) (fieldAt H payload 4 2)).2.setRouter
        ((s.wrapNode H (fieldAt H payload 0 4) (fieldAt H payload 4 2)).2.router.removeNode
          (s.wrapNode H (fieldAt H payload 0 4) (fieldAt H payload 4 2)).1)).setNodeSpool
        ((s.wrapNode H (fieldAt H payload 0 4) (fieldAt H payload 4 2)).2.nodeSpool.erase
          (s.wrapNode H (fieldAt H payload 0 4) (fieldAt H payload 4 2)).1)).delete
        [(s.wrapNode H (fieldAt H payload 0 4) (fieldAt H payload 4 2)).1] := by
    unfold LinkLayer.handleRouteInvalidate
    rw [if_neg (by simp [hsize])]
  rw [heq]
  generalize s.wrapNode H (fieldAt H payload 0 4) (fieldAt H payload 4 2) = w at *
  obtain ⟨t, s1⟩ := w
  dsimp only at ht htmem hhost hport hold hu1 hsub hrt hfr hfst ⊢
  have hnd : s1.nodeSpool.Nodup := List.Nodup.of_map _ hu1.unique
  have hept : s1.endpoint t = (fieldAt H payload 0 4, fieldAt H payload 4 2) := by
    unfold LinkLayer.endpoint
    rw [hhost, hport]
  have hother : ∀ n ∈ s1.nodeSpool, n ≠ t →
      s1.endpoint n ≠ (fieldAt H payload 0 4, fieldAt H payload 4 2) := by
    intro n hn hne
    rw [← hept]
    exact endpoint_ne_of_unique s1 hu1.unique n t hn htmem hne
  refine ⟨?_, ?_, ?_, ?_, ?_, ?_, ?_, ?_⟩
  · intro n hn
    have hn2 : n ∈ s1.nodeSpool.erase t := hn
    rw [hnd.mem_erase_iff] at hn2
    exact hother n hn2.2 hn2.1
  · intro n hn hspool
    have hn2 : n ∈ (s1.router.removeNode t).nodes := hn
    simp only [Router.removeNode, List.mem_filter, decide_eq_true_eq] at hn2
    exact hother n (hsub n hspool) hn2.2
  · show s1.router.removeNode t = s.router.removeNode t
    rw [hrt]
  · show s1.freed ++ [t] = s.freed ++ [t]
    rw [hfr]
  · intro n hn
    exact hold n hn
  · intro n hn hne
    show n ∈ s1.nodeSpool.erase t
    rw [hnd.mem_erase_iff]
    refine ⟨?_, hsub n hn⟩
    intro hnt
    apply hne
    have h1 : s.endpoint n = s1.endpoint n := by
      unfold LinkLayer.endpoint
      rw [hold n (hu.valid n hn)]
    rw [h1, hnt, hept]
  · intro n hn hnot hvalid
    show n ∈ (s1.router.removeNode t).nodes
    simp only [Router.removeNode, List.mem_filter, decide_eq_true_eq]
    rw [hrt]
    refine ⟨hn, ?_⟩
    intro hnt
    rcases hfst with h | h
    · exact hnot (hnt ▸ h)
    · omega
  · intro hk
    have h2 := hnew hk
    injection h2 with h3 h4
    subst h3
    subst h4
    constructor
    · show (s.nodeSpool ++ [s.heap.length]).erase s.heap.length = s.nodeSpool
      have hnot : s.heap.length ∉ s.nodeSpool := fun hm => Nat.lt_irrefl _ (hu.valid _ hm)
      rw [List.erase_append_right _ hnot]
      simp
    · intro hr
      show s.router.removeNode s.heap.length = s.router
      unfold Router.removeNode
      have : s.router.nodes.filter (fun m => decide (m ≠ s.heap.length)) = s.router.nodes := by
        rw [List.filter_eq_self]
        intro a ha
        simpa using Nat.ne_of_lt (hr a ha)
      rw [this]

/-- Witness of `routeInvalidate_removes`. In the example network a
RouteInvalidate that names 10.0.0.3, port 1801, leaves no record with that
endpoint in the node spool. On the node that created the network, whose self
record (record 0, at 10.0.0.1, port 1801) is in the router and not in the node
spool, a RouteInvalidate that names 10.0.0.1, port 1801, leaves the router as
it was, with the self record in it. -/
theorem routeInvalidate_removes_witness :
    (exampleNetwork 2 2 2).SpoolUnique ∧
    (∀ n ∈ ((exampleNetwork 2 2 2).handleRouteInvalidate (exampleHost Endian.little)
        [3, 0, 0, 10, 9, 7] 1).nodeSpool,
      ((exampleNetwork 2 2 2).handleRouteInvalidate (exampleHost Endian.little)
        [3, 0, 0, 10, 9, 7] 1).endpoint n ≠
        (fieldAt (exampleHost Endian.little) [3, 0, 0, 10, 9, 7] 0 4,
          fieldAt (exampleHost Endian.little) [3, 0, 0, 10, 9, 7] 4 2)) ∧
    exampleCreatedWithPeer.SpoolUnique ∧
    exampleCreatedWithPeer.endpoint 0 = (167772161, 1801) ∧
    fieldAt (exampleHost Endian.little) [1, 0, 0, 10, 9, 7] 0 4 = 167772161 ∧
    fieldAt (exampleHost Endian.little) [1, 0, 0, 10, 9, 7] 4 2 = 1801 ∧
    0 ∈ exampleCreatedWithPeer.router.nodes ∧
    0 ∉ exampleCreatedWithPeer.nodeSpool ∧
    (exampleCreatedWithPeer.handleRouteInvalidate (exampleHost Endian.little)
      [1, 0, 0, 10, 9, 7] 1).router = exampleCreatedWithPeer.router :=
  ⟨⟨by decide, by decide⟩,
    (routeInvalidate_removes (exampleHost Endian.little) (exampleNetwork 2 2 2)
      [3, 0, 0, 10, 9, 7] 1 (by decide) ⟨by decide, by decide⟩).1,
    ⟨by decide, by decide⟩, by decide, by decide, by decide, by decide, by decide,
    ((routeInvalidate_removes (exampleHost Endian.little) exampleCreatedWithPeer
      [1, 0, 0, 10, 9, 7] 1 (by decide) ⟨by decide, by decide⟩).2.2.2.2.2.2.2
        (by decide)).2 (by decide)⟩

/-! ## The outcome of NAT detection (C28) -/

/-- What the encrypted-send gate does with one packet for a constructed record
that is not the self node: without negotiated keys the framed bytes go to the
end of the record's queue, with negotiated keys one EncryptedPacket datagram
with the framed bytes goes to the transport. -/
theorem gate_outcome (H : Host) (s : LinkLayer) (t : packet_type_t) (d : QByteArray) (n : Nat)
    (hv : n < s.heap.length) (hself : s.router.selfNode ≠ some n) :
    ((s.node n).areKeysNegotiated = false →
      ((s.sendEncryptedPacket H t d n).node n).queue = (s.node n).queue ++ [frame H t d]) ∧
    ((s.node n).areKeysNegotiated = true →
      (s.sendEncryptedPacket H t d n).sent = s.sent ++
        [⟨frame H packet_type_t.EncryptedPacket (H.encrypt (s.node n).mySessionKey (frame H t d)),
          (s.node n).host, (s.node n).port, n, s.router.selfNode⟩] ∧
      ((s.sendEncryptedPacket H t d n).node n).queue = (s.node n).queue) := by
  constructor
  · exact queue_sendEncryptedPacket H s t d n hv
  · intro hk
    rw [sendEncryptedPacket_of_negotiated H s t d n hk]
    unfold LinkLayer.encryptAndSend
    rw [sendPacket_of_ne_self H s _ _ n hself]
    exact ⟨rfl, rfl⟩

theorem joinGotPinged_of_master (H : Host) (s : LinkLayer) (m : Nat) (hm : s.joinMaster = some m) :
    s.joinGotPinged H =
      (((s.setPingTimer false).setJoinStep join_step_t.JoinRegistration).sendEncryptedPacket H
        packet_type_t.RegisterRequest [0] m).setJoinTimer true := by
  unfold LinkLayer.joinGotPinged
  dsimp only
  have h : ((s.setPingTimer false).setJoinStep join_step_t.JoinRegistration).joinMaster =
      some m := hm
  rw [h]
  rfl

theorem pingTimeout_of_none (H : Host) (s : LinkLayer) (m : Nat) (hm : s.joinMaster = some m)
    (h0 : s.joinPingsArrived = 0) :
    s.pingTimeout H =
      (s.setJoinStep join_step_t.JoinRegistration).sendEncryptedPacket H
        packet_type_t.RegisterRequest [1] m := by
  unfold LinkLayer.pingTimeout
  rw [if_pos h0]
  dsimp only
  have h : (s.setJoinStep join_step_t.JoinRegistration).joinMaster = some m := hm
  rw [h]
  rfl

theorem joinStep_sendEncryptedPacket (H : Host) (s : LinkLayer) (t : packet_type_t)
    (d : QByteArray) (n : Nat) : (s.sendEncryptedPacket H t d n).joinStep = s.joinStep :=
  joinStep_of_core (core_sendEncryptedPacket H s t d n)

theorem gate_outcome_of_eq (H : Host) (s sx : LinkLayer) (t : packet_type_t) (d : QByteArray)
    (n : Nat) (hheap : sx.heap = s.heap) (hsent : sx.sent = s.sent)
    (hrouter : sx.router = s.router) (hv : n < s.heap.length)
    (hself : s.router.selfNode ≠ some n) :
    ((s.node n).areKeysNegotiated = false →
      ((sx.sendEncryptedPacket H t d n).node n).queue = (s.node n).queue ++ [frame H t d]) ∧
    ((s.node n).areKeysNegotiated = true →
      (sx.sendEncryptedPacket H t d n).sent = s.sent ++
        [⟨frame H packet_type_t.EncryptedPacket (H.encrypt (s.node n).mySessionKey (frame H t d)),
          (s.node n).host, (s.node n).port, n, s.router.selfNode⟩] ∧
      ((sx.sendEncryptedPacket H t d n).node n).queue = (s.node n).queue) := by
  have hnode : sx.node n = s.node n := by
    unfold LinkLayer.node
    rw [hheap]
  have h := gate_outcome H sx t d n (by rw [hheap]; exact hv) (by rw [hrouter]; exact hself)
  rw [hnode, hsent, hrouter] at h
  exact h

/-- Claim C28, NAT detection outcome: on a link layer in AwaitingPings whose
join master is a constructed record and not the self node, (a) the Ping from
the join master that makes `joinPingsArrived` equal to `joinPingsEmitted` and
is identical to the recorded one (or the first to be recorded) hands one
RegisterRequest with `isBehindNAT = 0` to the encrypted-send gate for the join
master at once; (b) the expiry of the ping timer hands one RegisterRequest to
the gate for the join master, with `isBehindNAT = 1` when no ping has arrived
and with `isBehindNAT = 0` when one has. In every case the join step becomes
Registration, and the gate puts the one RegisterRequest at the end of the
queue of the join master when the keys are not negotiated and sends it as the
one EncryptedPacket datagram when they are. -/
theorem natDetection_outcome (H : Host) (s : LinkLayer) (payload : QByteArray) (m : Nat)
    (hstep : s.joinStep = join_step_t.JoinAwaitingPings) (hm : s.joinMaster = some m)
    (hv : m < s.heap.length) (hself : s.router.selfNode ≠ some m) :
    (payload.length = sizeof_ping_t → s.joinPingsArrived + 1 = s.joinPingsEmitted →
      (s.joinPing.addr = 0 ∨ (s.joinPing.addr = fieldAt H payload 0 4 ∧
        s.joinPing.port = fieldAt H payload 4 2)) →
      (s.handlePing H payload m).joinStep = join_step_t.JoinRegistration ∧
      ((s.node m).areKeysNegotiated = false →
        ((s.handlePing H payload m).node m).queue =
          (s.node m).queue ++ [frame H packet_type_t.RegisterRequest [0]]) ∧
      ((s.node m).areKeysNegotiated = true →
        (s.handlePing H payload m).sent = s.sent ++ [⟨frame H packet_type_t.EncryptedPacket
            (H.encrypt (s.node m).mySessionKey (frame H packet_type_t.RegisterRequest [0])),
          (s.node m).host, (s.node m).port, m, s.router.selfNode⟩] ∧
        ((s.handlePing H payload m).node m).queue = (s.node m).queue)) ∧
    (s.joinPingsArrived = 0 →
      (s.pingTimeout H).joinStep = join_step_t.JoinRegistration ∧
      ((s.node m).areKeysNegotiated = false →
        ((s.pingTimeout H).node m).queue =
          (s.node m).queue ++ [frame H packet_type_t.RegisterRequest [1]]) ∧
      ((s.node m).areKeysNegotiated = true →
        (s.pingTimeout H).sent = s.sent ++ [⟨frame H packet_type_t.EncryptedPacket
            (H.encrypt (s.node m).mySessionKey (frame H packet_type_t.RegisterRequest [1])),
          (s.node m).host, (s.node m).port, m, s.router.selfNode⟩] ∧
        ((s.pingTimeout H).node m).queue = (s.node m).queue)) ∧
    (s.joinPingsArrived ≠ 0 →
      (s.pingTimeout H).joinStep = join_step_t.JoinRegistration ∧
      ((s.node m).areKeysNegotiated = false →
        ((s.pingTimeout H).node m).queue =
          (s.node m).queue ++ [frame H packet_type_t.RegisterRequest [0]]) ∧
      ((s.node m).areKeysNegotiated = true →
        (s.pingTimeout H).sent = s.sent ++ [⟨frame H packet_type_t.EncryptedPacket
            (H.encrypt (s.node m).mySessionKey (frame H packet_type_t.RegisterRequest [0])),
          (s.node m).host, (s.node m).port, m, s.router.selfNode⟩] ∧
        ((s.pingTimeout H).node m).queue = (s.node m).queue)) := by
  have hgot : ∀ sx : LinkLayer, sx.heap = s.heap → sx.sent = s.sent → sx.router = s.router →
      sx.joinMaster = some m →
      (sx.joinGotPinged H).joinStep = join_step_t.JoinRegistration ∧
      ((s.node m).areKeysNegotiated = false →
        ((sx.joinGotPinged H).node m).queue =
          (s.node m).queue ++ [frame H packet_type_t.RegisterRequest [0]]) ∧
      ((s.node m).areKeysNegotiated = true →
        (sx.joinGotPinged H).sent = s.sent ++ [⟨frame H packet_type_t.EncryptedPacket
            (H.encrypt (s.node m).mySessionKey (frame H packet_type_t.RegisterRequest [0])),
          (s.node m).host, (s.node m).port, m, s.router.selfNode⟩] ∧
        ((sx.joinGotPinged H).node m).queue = (s.node m).queue) := by
    intro sx hheap hsent hrouter hmx
    rw [joinGotPinged_of_master H sx m hmx]
    refine ⟨?_, ?_⟩
    · exact joinStep_sendEncryptedPacket H _ _ _ _
    · exact gate_outcome_of_eq H s ((sx.setPingTimer false).setJoinStep
        join_step_t.JoinRegistration) packet_type_t.RegisterRequest [0] m hheap hsent hrouter
        hv hself
  refine ⟨?_, ?_, ?_⟩
  · intro hlen hlast hsame
    have hsize : checkPacketSize payload sizeof_ping_t
        packet_size_class_t.PacketSizeEqual = true := by
      simp [checkPacketSize, hlen]
    have hexp : s.checkPacketExpection join_step_t.JoinAwaitingPings = true := by
      unfold LinkLayer.checkPacketExpection
      rw [if_neg (by rw [hstep]; simp)]
    unfold LinkLayer.handlePing
    rw [if_neg (by simp [hsize]), if_neg (by simp [hexp]), if_neg (by simp [hm])]
    dsimp only
    by_cases h0 : s.joinPing.addr = 0
    · have h0x : (s.setJoinPingsArrived (s.joinPingsArrived + 1)).joinPing.addr = 0 := h0
      rw [if_pos h0x, if_pos (by exact hlast)]
      exact hgot _ rfl rfl rfl hm
    · have h0x : ¬ (s.setJoinPingsArrived (s.joinPingsArrived + 1)).joinPing.addr = 0 := h0
      rcases hsame with h | h
      · exact absurd h h0
      · have hx : ¬ ((s.setJoinPingsArrived (s.joinPingsArrived + 1)).joinPing.addr ≠
            fieldAt H payload 0 4 ∨
            (s.setJoinPingsArrived (s.joinPingsArrived + 1)).joinPing.port ≠
              fieldAt H payload 4 2) := by
          intro hc
          rcases hc with hc | hc
          · exact hc h.1
          · exact hc h.2
        rw [if_neg h0x, if_neg hx, if_pos (by exact hlast)]
        exact hgot _ rfl rfl rfl hm
  · intro h0
    rw [pingTimeout_of_none H s m hm h0]
    refine ⟨?_, ?_⟩
    · exact joinStep_sendEncryptedPacket H _ _ _ _
    · exact gate_outcome_of_eq H s (s.setJoinStep join_step_t.JoinRegistration)
        packet_type_t.RegisterRequest [1] m rfl rfl rfl hv hself
  · intro h0
    unfold LinkLayer.pingTimeout
    rw [if_neg h0]
    exact hgot s rfl rfl rfl hm

/-- Witness of `natDetection_outcome`: the joining link layer of the example,
whose join master (record 0) has negotiated keys, registers as not behind NAT
when the fourth identical ping arrives and when the ping timer expires after
three pings, and as behind NAT when the ping timer expires before any ping. -/
theorem natDetection_outcome_witness :
    exampleAwaitingPings.joinStep = join_step_t.JoinAwaitingPings ∧
    exampleAwaitingPings.joinMaster = some 0 ∧
    exampleAwaitingPings.joinPingsArrived = 3 ∧
    exampleAwaitingFirstPing.joinStep = join_step_t.JoinAwaitingPings ∧
    exampleAwaitingFirstPing.joinPingsArrived = 0 ∧
    (exampleAwaitingPings.handlePing (exampleHost Endian.little) [2, 0, 0, 10, 160, 15]
      0).joinStep = join_step_t.JoinRegistration ∧
    (exampleAwaitingPings.handlePing (exampleHost Endian.little) [2, 0, 0, 10, 160, 15] 0).sent =
      exampleAwaitingPings.sent ++ [⟨frame (exampleHost Endian.little)
          packet_type_t.EncryptedPacket ((exampleHost Endian.little).encrypt
            (exampleAwaitingPings.node 0).mySessionKey
            (frame (exampleHost Endian.little) packet_type_t.RegisterRequest [0])),
        (exampleAwaitingPings.node 0).host, (exampleAwaitingPings.node 0).port, 0,
        exampleAwaitingPings.router.selfNode⟩] ∧
    (exampleAwaitingPings.pingTimeout (exampleHost Endian.little)).sent =
      exampleAwaitingPings.sent ++ [⟨frame (exampleHost Endian.little)
          packet_type_t.EncryptedPacket ((exampleHost Endian.little).encrypt
            (exampleAwaitingPings.node 0).mySessionKey
            (frame (exampleHost Endian.little) packet_type_t.RegisterRequest [0])),
        (exampleAwaitingPings.node 0).host, (exampleAwaitingPings.node 0).port, 0,
        exampleAwaitingPings.router.selfNode⟩] ∧
    (exampleAwaitingFirstPing.pingTimeout (exampleHost Endian.little)).sent =
      exampleAwaitingFirstPing.sent ++ [⟨frame (exampleHost Endian.little)
          packet_type_t.EncryptedPacket ((exampleHost Endian.little).encrypt
            (exampleAwaitingFirstPing.node 0).mySessionKey
            (frame (exampleHost Endian.little) packet_type_t.RegisterRequest [1])),
        (exampleAwaitingFirstPing.node 0).host, (exampleAwaitingFirstPing.node 0).port, 0,
        exampleAwaitingFirstPing.router.selfNode⟩] :=
  ⟨by decide, by decide, by decide, by decide, by decide,
    ((natDetection_outcome (exampleHost Endian.little) exampleAwaitingPings
      [2, 0, 0, 10, 160, 15] 0 (by decide) (by decide) (by decide) (by decide)).1
      (by decide) (by decide) (by decide)).1,
    (((natDetection_outcome (exampleHost Endian.little) exampleAwaitingPings
      [2, 0, 0, 10, 160, 15] 0 (by decide) (by decide) (by decide) (by decide)).1
      (by decide) (by decide) (by decide)).2.2 (by decide)).1,
    (((natDetection_outcome (exampleHost Endian.little) exampleAwaitingPings
      [2, 0, 0, 10, 160, 15] 0 (by decide) (by decide) (by decide) (by decide)).2.2
      (by decide)).2.2 (by decide)).1,
    (((natDetection_outcome (exampleHost Endian.little) exampleAwaitingFirstPing
      [2, 0, 0, 10, 160, 15] 0 (by decide) (by decide) (by decide) (by decide)).2.1
      (by decide)).2.2 (by decide)).1⟩

/-! ## A public key that is rejected (C29) -/

/-- C29, what the code does: when a well-sized PublicKeyExchange is not an
unexpected reply and `setAuthKey` rejects its key bytes, the handler sends
nothing (no reply, no SessionKeyExchange), takes one occurrence of the peer
out of `awaitingNegotiation` and returns. It does not call `flushQueue`: the
send queue of the peer is as it was, the negotiation timer of the peer is as
it was, and the cookie table is as it was. -/
theorem rejectedKey_keeps_queue (H : Host) (s : LinkLayer) (payload : QByteArray) (node : Nat)
    (hlen : sizeof_key_exchange_t < payload.length)
    (hexp : payload.getD 0 0 ≠ 0 ∨ (cookiesLookup s.cookies (fieldAt H payload 1 4)).isSome)
    (hbad : ((s.node node).setAuthKey (payload.drop sizeof_key_exchange_t)).1 = false)
    (hv : node < s.heap.length) :
    (s.handlePublicKeyExchange H payload node).sent = s.sent ∧
    (s.handlePublicKeyExchange H payload node).awaitingNegotiation =
      s.awaitingNegotiation.erase node ∧
    ((s.handlePublicKeyExchange H payload node).node node).queue = (s.node node).queue ∧
    ((s.handlePublicKeyExchange H payload node).node node).negotiationTimer =
      (s.node node).negotiationTimer ∧
    (s.handlePublicKeyExchange H payload node).cookies = s.cookies := by
  have hsize : checkPacketSize payload sizeof_key_exchange_t
      packet_size_class_t.PacketSizeGreater = true := checkPacketSize_greater payload _ hlen
  have hnot : ¬ (decide (payload.getD 0 0 ≠ 0) = false ∧
      (cookiesLookup s.cookies (fieldAt H payload 1 4)).isNone) := by
    rintro ⟨h1, h2⟩
    rcases hexp with h | h
    · rw [decide_eq_true h] at h1
      exact absurd h1 (by decide)
    · rw [Option.isNone_iff_eq_none] at h2
      rw [h2] at h
      exact absurd h (by decide)
  have heq : s.handlePublicKeyExchange H payload node =
      (s.setNode node ((s.node node).setAuthKey (payload.drop sizeof_key_exchange_t)).2
        ).setAwaitingNegotiation (s.awaitingNegotiation.erase node) := by
    unfold LinkLayer.handlePublicKeyExchange
    rw [if_neg (by simp [hsize])]
    dsimp only
    rw [if_neg hnot, if_pos hbad]
  rw [heq]
  refine ⟨rfl, rfl, ?_, ?_, rfl⟩
  · show ((s.setNode node _).node node).queue = _
    rw [node_setNode_same s node _ hv]
    rfl
  · show ((s.setNode node _).node node).negotiationTimer = _
    rw [node_setNode_same s node _ hv]
    rfl

/-- Witness of `rejectedKey_keeps_queue`: the joining link layer of the
first example has a MasterNodeRequest queued for its bootstrap peer (record 0) and
awaits the reply to its PublicKeyExchange with cookie 0. The reply carries the
key bytes 1, 2, 3, which `setAuthKey` rejects: the peer no longer awaits
negotiation and the MasterNodeRequest is still in its queue. -/
theorem rejectedKey_keeps_queue_witness :
    exampleNegotiating.awaitingNegotiation = [0] ∧
    (exampleNegotiating.node 0).queue =
      [frame (exampleHost Endian.little) packet_type_t.MasterNodeRequest []] ∧
    ((exampleNegotiating.node 0).setAuthKey [1, 2, 3]).1 = false ∧
    (exampleNegotiating.handlePublicKeyExchange (exampleHost Endian.little)
      [0, 0, 0, 0, 0, 1, 2, 3] 0).awaitingNegotiation = [] ∧
    ((exampleNegotiating.handlePublicKeyExchange (exampleHost Endian.little)
      [0, 0, 0, 0, 0, 1, 2, 3] 0).node 0).queue =
      [frame (exampleHost Endian.little) packet_type_t.MasterNodeRequest []] ∧
    (exampleNegotiating.handlePublicKeyExchange (exampleHost Endian.little)
      [0, 0, 0, 0, 0, 1, 2, 3] 0).sent = exampleNegotiating.sent :=
  ⟨by decide, by decide, by decide,
    (rejectedKey_keeps_queue (exampleHost Endian.little) exampleNegotiating
      [0, 0, 0, 0, 0, 1, 2, 3] 0 (by decide) (Or.inr (by decide)) (by decide) (by decide)).2.1,
    (rejectedKey_keeps_queue (exampleHost Endian.little) exampleNegotiating
      [0, 0, 0, 0, 0, 1, 2, 3] 0 (by decide) (Or.inr (by decide)) (by decide)
      (by decide)).2.2.1.trans (by decide),
    (rejectedKey_keeps_queue (exampleHost Endian.little) exampleNegotiating
      [0, 0, 0, 0, 0, 1, 2, 3] 0 (by decide) (Or.inr (by decide)) (by decide) (by decide)).1⟩

/-! ## The round trip of a RegisterReply (C27) -/

theorem slice_mid (a b c : QByteArray) (off n : Nat) (ha : a.length = off) (hb : b.length = n) :
    ((a ++ (b ++ c)).drop off).take n = b := by
  subst ha
  subst hb
  rw [List.drop_left, List.take_left]

theorem fieldAt_mid (H : Host) (a b c : QByteArray) (off n : Nat) (ha : a.length = off)
    (hb : b.length = n) : fieldAt H (a ++ (b ++ c)) off n = hostValue H.endian b := by
  unfold fieldAt
  rw [slice_mid a b c off n ha hb]

theorem getD_mid (a c : QByteArray) (x d : Byte) (off : Nat) (ha : a.length = off) :
    (a ++ x :: c).getD off d = x := by
  subst ha
  rw [List.getD_eq_getElem?_getD, List.getElem?_append_right (Nat.le_refl _)]
  simp

theorem hostValue_singleton (e : Endian) (x : Byte) : hostValue e [x] = x.val := by
  cases e <;> simp [hostValue, beValue]

theorem mac6_length (mac : QByteArray) : ((mac ++ List.replicate 6 0).take 6).length = 6 := by
  simp

theorem registerReplyBytes_length (H : Host) (n : SparkleNode) (d : Nat) :
    (registerReplyBytes H n d).length = sizeof_register_reply_t := by
  unfold registerReplyBytes
  simp only [List.length_append, hostBytes_length, mac6_length, List.length_singleton]
  rfl

/-- The fields of the `register_reply_t` that `sendRegisterReply` builds, as
the receiving host reads them. -/
theorem registerReplyBytes_fields (H : Host) (n : SparkleNode) (d : Nat) :
    fieldAt H (registerReplyBytes H n d) 0 4 = n.sparkleIP % 4294967296 ∧
    ((registerReplyBytes H n d).drop 4).take 6 = (n.mac ++ List.replicate 6 0).take 6 ∧
    fieldAt H (registerReplyBytes H n d) 10 4 =
      (if n.behindNAT then n.host else 0) % 4294967296 ∧
    fieldAt H (registerReplyBytes H n d) 14 2 = (if n.behindNAT then n.port else 0) % 65536 ∧
    (registerReplyBytes H n d).getD 16 0 = (if n.master then 1 else 0) ∧
    fieldAt H (registerReplyBytes H n d) 17 1 = d % 256 := by
  unfold registerReplyBytes
  refine ⟨?_, ?_, ?_, ?_, ?_, ?_⟩
  · have h := fieldAt_mid H [] (hostBytes H.endian n.sparkleIP 4)
      ((n.mac ++ List.replicate 6 0).take 6 ++
        hostBytes H.endian (if n.behindNAT then n.host else 0) 4 ++
        hostBytes H.endian (if n.behindNAT then n.port else 0) 2 ++
        [if n.master then 1 else 0] ++ [byte d]) 0 4 rfl (hostBytes_length _ _ _)
    simp only [List.nil_append, List.append_assoc] at h ⊢
    rw [h, hostValue_hostBytes]
    norm_num
  · have h := slice_mid (hostBytes H.endian n.sparkleIP 4) ((n.mac ++ List.replicate 6 0).take 6)
      (hostBytes H.endian (if n.behindNAT then n.host else 0) 4 ++
        hostBytes H.endian (if n.behindNAT then n.port else 0) 2 ++
        [if n.master then 1 else 0] ++ [byte d]) 4 6 (hostBytes_length _ _ _) (mac6_length _)
    simp only [List.append_assoc] at h ⊢
    exact h
  · have h := fieldAt_mid H (hostBytes H.endian n.sparkleIP 4 ++
        (n.mac ++ List.replicate 6 0).take 6)
      (hostBytes H.endian (if n.behindNAT then n.host else 0) 4)
      (hostBytes H.endian (if n.behindNAT then n.port else 0) 2 ++
        [if n.master then 1 else 0] ++ [byte d]) 10 4
      (by rw [List.length_append, hostBytes_length, mac6_length]) (hostBytes_length _ _ _)
    simp only [List.append_assoc] at h ⊢
    rw [h, hostValue_hostBytes]
    norm_num
  · have h := fieldAt_mid H (hostBytes H.endian n.sparkleIP 4 ++
        (n.mac ++ List.replicate 6 0).take 6 ++
        hostBytes H.endian (if n.behindNAT then n.host else 0) 4)
      (hostBytes H.endian (if n.behindNAT then n.port else 0) 2)
      ([if n.master then 1 else 0] ++ [byte d]) 14 2
      (by simp only [List.length_append, hostBytes_length, mac6_length])
      (hostBytes_length _ _ _)
    simp only [List.append_assoc] at h ⊢
    rw [h, hostValue_hostBytes]
    norm_num
  · have h := getD_mid (hostBytes H.endian n.sparkleIP 4 ++
        (n.mac ++ List.replicate 6 0).take 6 ++
        hostBytes H.endian (if n.behindNAT then n.host else 0) 4 ++
        hostBytes H.endian (if n.behindNAT then n.port else 0) 2) [byte d]
      (if n.master then 1 else 0) 0 16
      (by simp only [List.length_append, hostBytes_length, mac6_length])
    simp only [List.append_assoc, List.singleton_append] at h ⊢
    exact h
  · have h := fieldAt_mid H (hostBytes H.endian n.sparkleIP 4 ++
        (n.mac ++ List.replicate 6 0).take 6 ++
        hostBytes H.endian (if n.behindNAT then n.host else 0) 4 ++
        hostBytes H.endian (if n.behindNAT then n.port else 0) 2 ++
        [if n.master then 1 else 0]) [byte d] [] 17 1
      (by simp only [List.length_append, hostBytes_length, mac6_length, List.length_singleton])
      rfl
    simp only [List.append_assoc, List.append_nil] at h ⊢
    rw [h, hostValue_singleton]
    rfl

theorem node_installed (x : LinkLayer) (r : Router) (d : Nat) (sig : Signal) (n : Nat) :
    (((((x.setRouter r).setNetworkDivisor d).setJoinTimer false).setJoinStep
      join_step_t.JoinFinished).emit sig).node n = x.node n := rfl

theorem heap_installed (x : LinkLayer) (r : Router) (d : Nat) (sig : Signal) :
    (((((x.setRouter r).setNetworkDivisor d).setJoinTimer false).setJoinStep
      join_step_t.JoinFinished).emit sig).heap = x.heap := rfl

theorem router_installed (x : LinkLayer) (r : Router) (d : Nat) (sig : Signal) :
    (((((x.setRouter r).setNetworkDivisor d).setJoinTimer false).setJoinStep
      join_step_t.JoinFinished).emit sig).router = r := rfl

theorem emitted_installed (x : LinkLayer) (r : Router) (d : Nat) (sig : Signal) :
    (((((x.setRouter r).setNetworkDivisor d).setJoinTimer false).setJoinStep
      join_step_t.JoinFinished).emit sig).emitted = x.emitted ++ [sig] := rfl

theorem emitted_modifyNode (x : LinkLayer) (n : Nat) (f : SparkleNode → SparkleNode) :
    (x.modifyNode n f).emitted = x.emitted := rfl

theorem selfNode_setSelfNode (r : Router) (n : Nat) : (r.setSelfNode n).selfNode = some n := by
  unfold Router.setSelfNode Router.updateNode
  split <;> rfl

/-- What `handleRegisterReply` installs on a link layer in Registration whose
node spool holds constructed records: the self node is the record `wrapNode`
returns for the real endpoint of the packet when its `realIP` is not zero, and
for the endpoint recorded from the pings when it is zero. -/
theorem handleRegisterReply_spec (H : Host) (t : LinkLayer) (payload : QByteArray) (node : Nat)
    (hlen : payload.length = sizeof_register_reply_t)
    (hstep : t.joinStep = join_step_t.JoinRegistration)
    (hspool : ∀ n ∈ t.nodeSpool, n < t.heap.length) :
    ∃ self, self < (t.handleRegisterReply H payload node).heap.length ∧
      (t.handleRegisterReply H payload node).router.selfNode = some self ∧
      (fieldAt H payload 10 4 ≠ 0 →
        ((t.handleRegisterReply H payload node).node self).host = fieldAt H payload 10 4 ∧
        ((t.handleRegisterReply H payload node).node self).port = fieldAt H payload 14 2 ∧
        ((t.handleRegisterReply H payload node).node self).behindNAT = true) ∧
      (fieldAt H payload 10 4 = 0 →
        ((t.handleRegisterReply H payload node).node self).host = t.joinPing.addr ∧
        ((t.handleRegisterReply H payload node).node self).port = t.joinPing.port ∧
        ((t.handleRegisterReply H payload node).node self).behindNAT = false) ∧
      ((t.handleRegisterReply H payload node).node self).sparkleIP = fieldAt H payload 0 4 ∧
      ((t.handleRegisterReply H payload node).node self).mac = (payload.drop 4).take 6 ∧
      ((t.handleRegisterReply H payload node).node self).master =
        decide (payload.getD 16 0 ≠ 0) ∧
      ((t.handleRegisterReply H payload node).node self).keyPair = t.hostKeyPair ∧
      (t.handleRegisterReply H payload node).networkDivisor = fieldAt H payload 17 1 ∧
      (t.handleRegisterReply H payload node).joinStep = join_step_t.JoinFinished ∧
      (t.handleRegisterReply H payload node).emitted = t.emitted ++ [Signal.joined self] := by
  have hsize : checkPacketSize payload sizeof_register_reply_t
      packet_size_class_t.PacketSizeEqual = true := by
    simp [checkPacketSize, hlen]
  have hexp : t.checkPacketExpection join_step_t.JoinRegistration = true := by
    unfold LinkLayer.checkPacketExpection
    rw [if_neg (by rw [hstep]; simp)]
  have hem : ∀ (h : QHostAddress) (p : Nat), (t.wrapNode H h p).2.emitted = t.emitted := by
    intro h p
    unfold LinkLayer.wrapNode
    split <;> rfl
  unfold LinkLayer.handleRegisterReply
  rw [if_neg (by simp [hsize]), if_neg (by simp [hexp])]
  dsimp only
  by_cases hr : fieldAt H payload 10 4 ≠ 0
  · rw [if_pos hr]
    obtain ⟨hv, _, hhost, hport, _, _⟩ :=
      wrapNode_spec H t (fieldAt H payload 10 4) (fieldAt H payload 14 2) hspool
    have he := hem (fieldAt H payload 10 4) (fieldAt H payload 14 2)
    generalize t.wrapNode H (fieldAt H payload 10 4) (fieldAt H payload 14 2) = w at hv hhost hport he ⊢
    have hn := node_modifyNode_same w.2 w.1 (fun n =>
      { n with behindNAT := decide (fieldAt H payload 10 4 ≠ 0),
               sparkleIP := fieldAt H payload 0 4, mac := (payload.drop 4).take 6,
               keyPair := t.hostKeyPair, master := decide (payload.getD 16 0 ≠ 0) }) hv
    refine ⟨w.1, ?_, ?_, ?_, ?_, ?_, ?_, ?_, ?_, rfl, rfl, ?_⟩
    · rw [heap_installed, heap_length_modifyNode]
      exact hv
    · rw [router_installed]
      exact selfNode_setSelfNode _ _
    · intro _
      refine ⟨?_, ?_, ?_⟩
      · rw [node_installed, hn]
        exact hhost
      · rw [node_installed, hn]
        exact hport
      · rw [node_installed, hn]
        exact decide_eq_true hr
    · intro h0
      exact absurd h0 hr
    · rw [node_installed, hn]
    · rw [node_installed, hn]
    · rw [node_installed, hn]
    · rw [node_installed, hn]
    · rw [emitted_installed, emitted_modifyNode, he]
  · rw [if_neg hr]
    obtain ⟨hv, _, hhost, hport, _, _⟩ :=
      wrapNode_spec H t t.joinPing.addr t.joinPing.port hspool
    have he := hem t.joinPing.addr t.joinPing.port
    generalize t.wrapNode H t.joinPing.addr t.joinPing.port = w at hv hhost hport he ⊢
    have hn := node_modifyNode_same w.2 w.1 (fun n =>
      { n with behindNAT := decide (fieldAt H payload 10 4 ≠ 0),
               sparkleIP := fieldAt H payload 0 4, mac := (payload.drop 4).take 6,
               keyPair := t.hostKeyPair, master := decide (payload.getD 16 0 ≠ 0) }) hv
    refine ⟨w.1, ?_, ?_, ?_, ?_, ?_, ?_, ?_, ?_, rfl, rfl, ?_⟩
    · rw [heap_installed, heap_length_modifyNode]
      exact hv
    · rw [router_installed]
      exact selfNode_setSelfNode _ _
    · intro h0
      exact absurd h0 hr
    · intro _
      refine ⟨?_, ?_, ?_⟩
      · rw [node_installed, hn]
        exact hhost
      · rw [node_installed, hn]
        exact hport
      · rw [node_installed, hn]
        exact decide_eq_false hr
    · rw [node_installed, hn]
    · rw [node_installed, hn]
    · rw [node_installed, hn]
    · rw [node_installed, hn]
    · rw [emitted_installed, emitted_modifyNode, he]

/-- Claim C27, registration reply round trip: `sendRegisterReply` for a peer
hands the encrypted-send gate a `register_reply_t` that carries the
master-observed real address and port of the peer (as 32-bit and 16-bit
values) when the master has flagged it behind NAT, and zeros when it has not.
On a link layer in Registration whose node spool holds constructed records,
`handleRegisterReply` for that payload installs a self node: for the peer
behind NAT (with an address that is not zero) its real endpoint is that pair
and `is_behind_nat` is true; for the peer not behind NAT its real endpoint is
the one recorded from the pings and `is_behind_nat` is false. In both cases
the overlay IP, the overlay MAC and `is_master` of the self node and the
`networkDivisor` of the link layer are the values of the reply, the join step
is Finished and `joined` is emitted for the self node. -/
theorem registerReply_roundtrip (H : Host) (m t : LinkLayer) (P node : Nat)
    (hstep : t.joinStep = join_step_t.JoinRegistration)
    (hspool : ∀ n ∈ t.nodeSpool, n < t.heap.length) :
    m.sendRegisterReply H P = m.sendEncryptedPacket H packet_type_t.RegisterReply
      (registerReplyBytes H (m.node P) m.networkDivisor) P ∧
    ((m.node P).behindNAT = true →
      fieldAt H (registerReplyBytes H (m.node P) m.networkDivisor) 10 4 =
        (m.node P).host % 4294967296 ∧
      fieldAt H (registerReplyBytes H (m.node P) m.networkDivisor) 14 2 =
        (m.node P).port % 65536) ∧
    ((m.node P).behindNAT = false →
      fieldAt H (registerReplyBytes H (m.node P) m.networkDivisor) 10 4 = 0 ∧
      fieldAt H (registerReplyBytes H (m.node P) m.networkDivisor) 14 2 = 0) ∧
    ∃ self,
      self < (t.handleRegisterReply H (registerReplyBytes H (m.node P) m.networkDivisor)
        node).heap.length ∧
      (t.handleRegisterReply H (registerReplyBytes H (m.node P) m.networkDivisor)
        node).router.selfNode = some self ∧
      ((m.node P).behindNAT = true → (m.node P).host % 4294967296 ≠ 0 →
        ((t.handleRegisterReply H (registerReplyBytes H (m.node P) m.networkDivisor)
          node).node self).host = (m.node P).host % 4294967296 ∧
        ((t.handleRegisterReply H (registerReplyBytes H (m.node P) m.networkDivisor)
          node).node self).port = (m.node P).port % 65536 ∧
        ((t.handleRegisterReply H (registerReplyBytes H (m.node P) m.networkDivisor)
          node).node self).behindNAT = true) ∧
      ((m.node P).behindNAT = false →
        ((t.handleRegisterReply H (registerReplyBytes H (m.node P) m.networkDivisor)
          node).node self).host = t.joinPing.addr ∧
        ((t.handleRegisterReply H (registerReplyBytes H (m.node P) m.networkDivisor)
          node).node self).port = t.joinPing.port ∧
        ((t.handleRegisterReply H (registerReplyBytes H (m.node P) m.networkDivisor)
          node).node self).behindNAT = false) ∧
      ((t.handleRegisterReply H (registerReplyBytes H (m.node P) m.networkDivisor)
        node).node self).sparkleIP = (m.node P).sparkleIP % 4294967296 ∧
      ((t.handleRegisterReply H (registerReplyBytes H (m.node P) m.networkDivisor)
        node).node self).mac = ((m.node P).mac ++ List.replicate 6 0).take 6 ∧
      ((t.handleRegisterReply H (registerReplyBytes H (m.node P) m.networkDivisor)
        node).node self).master = (m.node P).master ∧
      (t.handleRegisterReply H (registerReplyBytes H (m.node P) m.networkDivisor)
        node).networkDivisor = m.networkDivisor % 256 ∧
      (t.handleRegisterReply H (registerReplyBytes H (m.node P) m.networkDivisor)
        node).joinStep = join_step_t.JoinFinished ∧
      (t.handleRegisterReply H (registerReplyBytes H (m.node P) m.networkDivisor)
        node).emitted = t.emitted ++ [Signal.joined self] := by
  obtain ⟨fIP, fMAC, fRealIP, fRealPort, fMaster, fDiv⟩ :=
    registerReplyBytes_fields H (m.node P) m.networkDivisor
  obtain ⟨self, hv, hself, hnat, hnot, hip, hmac, hmaster, _, hdiv, hjs, hem⟩ :=
    handleRegisterReply_spec H t (registerReplyBytes H (m.node P) m.networkDivisor) node
      (registerReplyBytes_length H _ _) hstep hspool
  refine ⟨rfl, ?_, ?_, self, hv, hself, ?_, ?_, ?_, ?_, ?_, ?_, hjs, hem⟩
  · intro hb
    rw [fRealIP, fRealPort, hb]
    exact ⟨rfl, rfl⟩
  · intro hb
    rw [fRealIP, fRealPort, hb]
    exact ⟨rfl, rfl⟩
  · intro hb hne
    rw [fRealIP, fRealPort, hb] at hnat
    exact hnat hne
  · intro hb
    rw [fRealIP, hb] at hnot
    exact hnot rfl
  · rw [hip, fIP]
  · rw [hmac, fMAC]
  · rw [hmaster, fMaster]
    cases (m.node P).master <;> rfl
  · rw [hdiv, fDiv]

/-- Witness of `registerReply_roundtrip`: the creator of the example network
has flagged the peer at 10.0.0.2, port 1801 (record 1) behind NAT; the joining
link layer of the example, in Registration after its ping timer expired
without a ping, installs from that reply a self node at 10.0.0.2, port 1801,
behind NAT, and finishes the join. -/
theorem registerReply_roundtrip_witness :
    (exampleAwaitingFirstPing.pingTimeout (exampleHost Endian.little)).joinStep =
      join_step_t.JoinRegistration ∧
    (exampleCreatedWithNatPeer.node 1).behindNAT = true ∧
    (exampleCreatedWithNatPeer.node 1).host % 4294967296 = 167772162 ∧
    (exampleCreatedWithNatPeer.node 1).port % 65536 = 1801 ∧
    ∃ self,
      ((exampleAwaitingFirstPing.pingTimeout (exampleHost Endian.little)).handleRegisterReply
        (exampleHost Endian.little) (registerReplyBytes (exampleHost Endian.little)
          (exampleCreatedWithNatPeer.node 1) exampleCreatedWithNatPeer.networkDivisor)
        0).router.selfNode = some self ∧
      (((exampleAwaitingFirstPing.pingTimeout (exampleHost Endian.little)).handleRegisterReply
        (exampleHost Endian.little) (registerReplyBytes (exampleHost Endian.little)
          (exampleCreatedWithNatPeer.node 1) exampleCreatedWithNatPeer.networkDivisor)
        0).node self).host = (exampleCreatedWithNatPeer.node 1).host % 4294967296 ∧
      (((exampleAwaitingFirstPing.pingTimeout (exampleHost Endian.little)).handleRegisterReply
        (exampleHost Endian.little) (registerReplyBytes (exampleHost Endian.little)
          (exampleCreatedWithNatPeer.node 1) exampleCreatedWithNatPeer.networkDivisor)
        0).node self).port = (exampleCreatedWithNatPeer.node 1).port % 65536 ∧
      (((exampleAwaitingFirstPing.pingTimeout (exampleHost Endian.little)).handleRegisterReply
        (exampleHost Endian.little) (registerReplyBytes (exampleHost Endian.little)
          (exampleCreatedWithNatPeer.node 1) exampleCreatedWithNatPeer.networkDivisor)
        0).node self).behindNAT = true ∧
      ((exampleAwaitingFirstPing.pingTimeout (exampleHost Endian.little)).handleRegisterReply
        (exampleHost Endian.little) (registerReplyBytes (exampleHost Endian.little)
          (exampleCreatedWithNatPeer.node 1) exampleCreatedWithNatPeer.networkDivisor)
        0).joinStep = join_step_t.JoinFinished :=
  ⟨by decide, by decide, by decide, by decide,
    match (registerReply_roundtrip (exampleHost Endian.little) exampleCreatedWithNatPeer
      (exampleAwaitingFirstPing.pingTimeout (exampleHost Endian.little)) 1 0 (by decide)
      (by decide)).2.2.2 with
    | ⟨self, _, hs, hnat, _, _, _, _, _, hjs, _⟩ =>
      ⟨self, hs, (hnat (by decide) (by decide)).1, (hnat (by decide) (by decide)).2.1,
        (hnat (by decide) (by decide)).2.2, hjs⟩⟩

/-! ## The gossip of a registration (C26) -/

theorem routeBytes_of_core {a b : SparkleNode} (h : a.core = b.core) (H : Host) :
    routeBytes H a = routeBytes H b := by
  have h1 : routeBytes H a = routeBytes H a.core := rfl
  have h2 : routeBytes H b = routeBytes H b.core := rfl
  rw [h1, h2, h]

theorem registerReplyBytes_of_core {a b : SparkleNode} (h : a.core = b.core) (H : Host)
    (d : Nat) : registerReplyBytes H a d = registerReplyBytes H b d := by
  have h1 : registerReplyBytes H a d = registerReplyBytes H a.core d := rfl
  have h2 : registerReplyBytes H b d = registerReplyBytes H b.core d := rfl
  rw [h1, h2, h]

theorem core_sendAll (H : Host) (calls : List GateCall) (s : LinkLayer) :
    (s.sendAll H calls).core = s.core := by
  unfold LinkLayer.sendAll
  exact core_foldl _ (fun st c => core_sendEncryptedPacket H st c.type c.data c.node) calls s

theorem sendAll_append (H : Host) (s : LinkLayer) (a b : List GateCall) :
    s.sendAll H (a ++ b) = (s.sendAll H a).sendAll H b := by
  unfold LinkLayer.sendAll
  rw [List.foldl_append]

/-- The loop over `updates` in `handleRegisterRequest` is the sequence of calls
of `sendEncryptedPacket` with the Route payloads of the records as they are
when the loop starts. -/
theorem gossip_loop (H : Host) (e : LinkLayer) (P : Nat) :
    ∀ (U : List Nat) (st : LinkLayer), st.core = e.core →
      U.foldl (fun st update => (st.sendRoute H P update).sendRoute H update P) st =
        st.sendAll H (U.flatMap fun u =>
          [⟨packet_type_t.Route, routeBytes H (e.node u), P⟩,
           ⟨packet_type_t.Route, routeBytes H (e.node P), u⟩]) := by
  intro U
  induction U with
  | nil => intro st _; rfl
  | cons u U ih =>
    intro st hst
    rw [List.foldl_cons, List.flatMap_cons, sendAll_append]
    have h1 : (st.sendRoute H P u).core = e.core := by rw [core_sendRoute, hst]
    have h2 : ((st.sendRoute H P u).sendRoute H u P).core = e.core := by rw [core_sendRoute, h1]
    rw [ih _ h2]
    congr 1
    unfold LinkLayer.sendAll LinkLayer.sendRoute
    simp only [List.foldl_cons, List.foldl_nil]
    rw [routeBytes_of_core (node_core_eq hst u) H]
    have h3 : (st.sendEncryptedPacket H packet_type_t.Route (routeBytes H (e.node u)) P).core =
        e.core := by rw [core_sendEncryptedPacket, hst]
    rw [routeBytes_of_core (node_core_eq h3 P) H]

theorem encryptedDatagram_of_core {s t : LinkLayer} (h : t.core = s.core) (H : Host)
    (c : GateCall) : t.encryptedDatagram H c = s.encryptedDatagram H c := by
  have hk := mySessionKey_of_core h c.node
  have hh := host_of_core h c.node
  have hp := port_of_core h c.node
  unfold LinkLayer.encryptedDatagram
  rw [hk, hh, hp, router_of_core h]

theorem negotiated_of_core {s t : LinkLayer} (h : t.core = s.core) (n : Nat) :
    (t.node n).areKeysNegotiated = (s.node n).areKeysNegotiated := by
  have := congrArg SparkleNode.keyNegotiationDone (node_core_eq h n)
  exact this

theorem sent_sendEncryptedPacket_of_negotiated (H : Host) (s : LinkLayer) (c : GateCall)
    (hk : (s.node c.node).areKeysNegotiated = true) (hself : s.router.selfNode ≠ some c.node) :
    (s.sendEncryptedPacket H c.type c.data c.node).sent = s.sent ++ [s.encryptedDatagram H c] := by
  rw [sendEncryptedPacket_of_negotiated H s _ _ _ hk]
  unfold LinkLayer.encryptAndSend
  rw [sendPacket_of_ne_self H s _ _ _ hself]
  rfl

/-- Calls of `sendEncryptedPacket` for records with negotiated keys, none of
them the self node, put one EncryptedPacket datagram each on the transport, in
the order of the calls. -/
theorem sent_sendAll (H : Host) (e : LinkLayer) :
    ∀ (calls : List GateCall) (st : LinkLayer), st.core = e.core →
      (∀ c ∈ calls, (e.node c.node).areKeysNegotiated = true ∧ e.router.selfNode ≠ some c.node) →
      (st.sendAll H calls).sent = st.sent ++ calls.map (e.encryptedDatagram H) := by
  intro calls
  induction calls with
  | nil =>
    intro st _ _
    simp [LinkLayer.sendAll]
  | cons c cs ih =>
    intro st hst hall
    have hc := hall c (List.mem_cons_self _ _)
    have h1 : (st.sendEncryptedPacket H c.type c.data c.node).core = e.core := by
      rw [core_sendEncryptedPacket, hst]
    have hsent := sent_sendEncryptedPacket_of_negotiated H st c
      (by rw [negotiated_of_core hst]; exact hc.1) (by rw [router_of_core hst]; exact hc.2)
    show ((st.sendEncryptedPacket H c.type c.data c.node).sendAll H cs).sent = _
    rw [ih _ h1 (fun x hx => hall x (List.mem_cons_of_mem _ hx)), hsent,
      encryptedDatagram_of_core hst, List.map_cons, List.append_assoc]
    rfl

theorem registrationGossip_length (H : Host) (s : LinkLayer) (U : List Nat) (P self : Nat) :
    (s.registrationGossip H U P self).length = 2 * U.length + 1 := by
  unfold LinkLayer.registrationGossip
  rw [List.length_append, List.length_singleton]
  congr 1
  induction U with
  | nil => rfl
  | cons u U ih =>
    rw [List.flatMap_cons, List.length_append, ih, List.length_cons]
    simp only [List.length_cons, List.length_nil]
    omega

theorem registrationGossip_route (H : Host) (s : LinkLayer) (U : List Nat) (P self : Nat) :
    ∀ c ∈ s.registrationGossip H U P self, c.type = packet_type_t.Route ∧
      ((c.node = P ∧ ∃ u ∈ self :: U, c.data = routeBytes H (s.node u)) ∨
       (c.node ∈ U ∧ c.data = routeBytes H (s.node P))) := by
  intro c hc
  unfold LinkLayer.registrationGossip at hc
  rw [List.mem_append, List.mem_flatMap, List.mem_singleton] at hc
  rcases hc with ⟨u, hu, hcu⟩ | hc
  · simp only [List.mem_cons, List.mem_singleton, List.not_mem_nil, or_false] at hcu
    rcases hcu with h | h
    · subst h
      exact ⟨rfl, Or.inl ⟨rfl, u, List.mem_cons_of_mem _ hu, rfl⟩⟩
    · subst h
      exact ⟨rfl, Or.inr ⟨hu, rfl⟩⟩
  · subst hc
    exact ⟨rfl, Or.inl ⟨rfl, self, List.mem_cons_self _ _, rfl⟩⟩

theorem selfNode_updateNode (r : Router) (n : Nat) : (r.updateNode n).selfNode = r.selfNode := by
  unfold Router.updateNode
  split <;> rfl

/-- The handler `handleRegisterRequest` of a master as a sequence of calls of
`sendEncryptedPacket`. -/
theorem handleRegisterRequest_eq (H : Host) (s : LinkLayer) (payload : QByteArray)
    (P self : Nat) (hlen : payload.length = sizeof_register_request_t)
    (hself : s.router.selfNode = some self) (hmaster : (s.node self).master = true) :
    s.handleRegisterRequest H payload P =
      (((s.enrolled H (decide (payload.getD 0 0 ≠ 0)) P).sendAll H
        ((s.enrolled H (decide (payload.getD 0 0 ≠ 0)) P).registrationGossip H
          (if ((s.enrolled H (decide (payload.getD 0 0 ≠ 0)) P).node P).master then
            (s.enrolled H (decide (payload.getD 0 0 ≠ 0)) P).getOtherNodes
          else (s.enrolled H (decide (payload.getD 0 0 ≠ 0)) P).getOtherMasters) P self)).setRouter
        (s.router.updateNode P)).sendEncryptedPacket H packet_type_t.RegisterReply
        (registerReplyBytes H ((s.enrolled H (decide (payload.getD 0 0 ≠ 0)) P).node P)
          s.networkDivisor) P := by
  unfold LinkLayer.handleRegisterRequest
  rw [if_neg (by rw [checkPacketSize_equal payload _ hlen]; decide), hself]
  dsimp only
  rw [if_neg (by rw [hmaster]; decide)]
  have he : s.modifyNode P (fun n =>
      { n.configureByKey H with behindNAT := decide (payload.getD 0 0 ≠ 0),
                                master := s.registerRole (decide (payload.getD 0 0 ≠ 0)) }) =
      s.enrolled H (decide (payload.getD 0 0 ≠ 0)) P := rfl
  rw [he]
  have hrt : (s.enrolled H (decide (payload.getD 0 0 ≠ 0)) P).router = s.router := rfl
  have hnd : (s.enrolled H (decide (payload.getD 0 0 ≠ 0)) P).networkDivisor =
      s.networkDivisor := rfl
  rw [← hrt, ← hnd]
  generalize s.enrolled H (decide (payload.getD 0 0 ≠ 0)) P = e
  generalize (if (e.node P).master then e.getOtherNodes else e.getOtherMasters) = U
  rw [gossip_loop H e P U e rfl]
  have hloop := core_sendAll H (U.flatMap fun u =>
    [⟨packet_type_t.Route, routeBytes H (e.node u), P⟩,
     ⟨packet_type_t.Route, routeBytes H (e.node P), u⟩]) e
  have hroute : (e.sendAll H (U.flatMap fun u =>
      [⟨packet_type_t.Route, routeBytes H (e.node u), P⟩,
       ⟨packet_type_t.Route, routeBytes H (e.node P), u⟩])).sendRoute H P self =
      e.sendAll H (e.registrationGossip H U P self) := by
    unfold LinkLayer.registrationGossip
    rw [sendAll_append]
    unfold LinkLayer.sendRoute
    rw [routeBytes_of_core (node_core_eq hloop self) H]
    rfl
  rw [hroute]
  have hall := core_sendAll H (e.registrationGossip H U P self) e
  rw [router_of_core hall]
  unfold LinkLayer.sendRegisterReply
  have hc4 : ((e.sendAll H (e.registrationGossip H U P self)).setRouter
      (e.router.updateNode P)).core = (e.setRouter (e.router.updateNode P)).core := by
    rw [core_setRouter, core_setRouter, hall]
  have hn4 : (((e.sendAll H (e.registrationGossip H U P self)).setRouter
      (e.router.updateNode P)).node P).core = (e.node P).core :=
    node_core_eq hc4 P
  rw [registerReplyBytes_of_core hn4 H]
  have hd4 : ((e.sendAll H (e.registrationGossip H U P self)).setRouter
      (e.router.updateNode P)).networkDivisor = e.networkDivisor :=
    (networkDivisor_of_core hc4).trans rfl
  rw [hd4]

theorem ne_self_of_mem_updates (e : LinkLayer) (P u : Nat)
    (hu : u ∈ (if (e.node P).master then e.getOtherNodes else e.getOtherMasters)) :
    e.router.selfNode ≠ some u := by
  have hmem : u ∈ e.getOtherNodes := by
    split at hu
    · exact hu
    · exact List.mem_of_mem_filter hu
  unfold LinkLayer.getOtherNodes at hmem
  simpa using (List.mem_filter.mp hmem).2

/-- The gossip of `handleRegisterRequest` on a node with a self record: let
`e` be the state in which the registering peer `P` has the role decided for
it, and `U` the other nodes of the router when `P` was made master and the
other masters when it was not. On a master the handler is this sequence of
calls of `sendEncryptedPacket`: for each `u` of `U` a Route that describes
`u`, for `P`, and a Route that describes `P`, for `u`; then a Route that
describes the self node, for `P`; then `P` is put in the router; then a
RegisterReply, for `P`. On a node whose self record is not a master the state
stays as it was. -/
theorem gossip_of_self (H : Host) (s : LinkLayer) (payload : QByteArray) (P self : Nat)
    (e : LinkLayer) (U : List Nat)
    (hlen : payload.length = sizeof_register_request_t)
    (hself : s.router.selfNode = some self)
    (he : e = s.enrolled H (decide (payload.getD 0 0 ≠ 0)) P)
    (hU : U = if (e.node P).master then e.getOtherNodes else e.getOtherMasters) :
    ((s.node self).master = false → s.handleRegisterRequest H payload P = s) ∧
    ((s.node self).master = true →
      s.handleRegisterRequest H payload P =
        ((e.sendAll H (e.registrationGossip H U P self)).setRouter
          (s.router.updateNode P)).sendEncryptedPacket H packet_type_t.RegisterReply
          (registerReplyBytes H (e.node P) s.networkDivisor) P ∧
      (e.registrationGossip H U P self).length = 2 * U.length + 1 ∧
      (∀ c ∈ e.registrationGossip H U P self, c.type = packet_type_t.Route ∧
        ((c.node = P ∧ ∃ u ∈ self :: U, c.data = routeBytes H (e.node u)) ∨
         (c.node ∈ U ∧ c.data = routeBytes H (e.node P)))) ∧
      (s.handleRegisterRequest H payload P).router = s.router.updateNode P ∧
      (P ≠ self → (∀ u ∈ P :: U, (e.node u).areKeysNegotiated = true) →
        (s.handleRegisterRequest H payload P).sent = s.sent ++
          (e.registrationGossip H U P self).map (e.encryptedDatagram H) ++
          [e.encryptedDatagram H ⟨packet_type_t.RegisterReply,
            registerReplyBytes H (e.node P) s.networkDivisor, P⟩])) := by
  constructor
  · intro hm
    unfold LinkLayer.handleRegisterRequest
    rw [if_neg (by rw [checkPacketSize_equal payload _ hlen]; decide), hself]
    dsimp only
    rw [if_pos hm]
  · intro hm
    have heq := handleRegisterRequest_eq H s payload P self hlen hself hm
    rw [← he, ← hU] at heq
    have hall := core_sendAll H (e.registrationGossip H U P self) e
    have hes : e.router = s.router := by rw [he]; rfl
    have hsent0 : e.sent = s.sent := by rw [he]; rfl
    refine ⟨heq, registrationGossip_length H e U P self, registrationGossip_route H e U P self,
      ?_, ?_⟩
    · rw [heq]
      exact (router_of_core (core_sendEncryptedPacket H _ _ _ _)).trans rfl
    · intro hP hneg
      have hselfP : e.router.selfNode ≠ some P := by
        rw [hes, hself]
        intro h
        injection h with h
        exact hP h.symm
      have hcalls : ∀ c ∈ e.registrationGossip H U P self,
          (e.node c.node).areKeysNegotiated = true ∧ e.router.selfNode ≠ some c.node := by
        intro c hc
        rcases (registrationGossip_route H e U P self c hc).2 with ⟨h, _⟩ | ⟨h, _⟩
        · rw [h]
          exact ⟨hneg P (List.mem_cons_self _ _), hselfP⟩
        · exact ⟨hneg _ (List.mem_cons_of_mem _ h),
            ne_self_of_mem_updates e P _ (by rw [← hU]; exact h)⟩
      have hc4 : ((e.sendAll H (e.registrationGossip H U P self)).setRouter
          (s.router.updateNode P)).core = (e.setRouter (s.router.updateNode P)).core := by
        rw [core_setRouter, core_setRouter, hall]
      have hk4 : (((e.sendAll H (e.registrationGossip H U P self)).setRouter
          (s.router.updateNode P)).node P).areKeysNegotiated = true := by
        rw [negotiated_of_core hc4]
        exact hneg P (List.mem_cons_self _ _)
      have hs4 : ((e.sendAll H (e.registrationGossip H U P self)).setRouter
          (s.router.updateNode P)).router.selfNode ≠ some P := by
        show (s.router.updateNode P).selfNode ≠ some P
        rw [selfNode_updateNode, ← hes]
        exact hselfP
      have hd4 : ((e.sendAll H (e.registrationGossip H U P self)).setRouter
          (s.router.updateNode P)).encryptedDatagram H ⟨packet_type_t.RegisterReply,
            registerReplyBytes H (e.node P) s.networkDivisor, P⟩ =
          e.encryptedDatagram H ⟨packet_type_t.RegisterReply,
            registerReplyBytes H (e.node P) s.networkDivisor, P⟩ := by
        rw [encryptedDatagram_of_core hc4]
        unfold LinkLayer.encryptedDatagram
        show Datagram.mk _ _ _ _ (s.router.updateNode P).selfNode = _
        rw [selfNode_updateNode, ← hes]
        rfl
      rw [heq, sent_sendEncryptedPacket_of_negotiated H _ ⟨packet_type_t.RegisterReply,
        registerReplyBytes H (e.node P) s.networkDivisor, P⟩ hk4 hs4, hd4]
      show (e.sendAll H (e.registrationGossip H U P self)).sent ++ _ = _
      rw [sent_sendAll H e _ e rfl hcalls, hsent0]

/-- C26, what the code does. On a node without a self record (one that has
not joined or created a network) a well-sized RegisterRequest goes through the
null pointer `router.getSelfNode()`: the run ends there. On a node with a
self record that is not a master the state stays as it was. On a master, let
`e` be the state in which the registering peer `P` has the role decided for
it, and `U` the other nodes of the router when `P` was made master and the
other masters when it was not: the handler is this sequence of calls of
`sendEncryptedPacket`: for each `u` of `U` a Route that describes `u`, for
`P`, and a Route that describes `P`, for `u`; then a Route that describes the
self node, for `P`; then `P` is put in the router; then a RegisterReply, for
`P`. The Route packets are `2 * |U| + 1`, and when `P`, which is not the self
node, and the records of `U` have negotiated keys the transport gets exactly
these packets as EncryptedPacket datagrams in this order, the RegisterReply
last. -/
theorem registration_gossip (H : Host) (s : LinkLayer) (payload : QByteArray) (P : Nat)
    (hlen : payload.length = sizeof_register_request_t) :
    (s.router.selfNode = none →
      s.handleRegisterRequest H payload P = s.crash ∧
      (s.handleRegisterRequest H payload P).fault = true ∧
      (s.handleRegisterRequest H payload P).sent = s.sent) ∧
    (∀ (self : Nat) (e : LinkLayer) (U : List Nat), s.router.selfNode = some self →
      e = s.enrolled H (decide (payload.getD 0 0 ≠ 0)) P →
      U = (if (e.node P).master then e.getOtherNodes else e.getOtherMasters) →
      ((s.node self).master = false → s.handleRegisterRequest H payload P = s) ∧
      ((s.node self).master = true →
        s.handleRegisterRequest H payload P =
          ((e.sendAll H (e.registrationGossip H U P self)).setRouter
            (s.router.updateNode P)).sendEncryptedPacket H packet_type_t.RegisterReply
            (registerReplyBytes H (e.node P) s.networkDivisor) P ∧
        (e.registrationGossip H U P self).length = 2 * U.length + 1 ∧
        (∀ c ∈ e.registrationGossip H U P self, c.type = packet_type_t.Route ∧
          ((c.node = P ∧ ∃ u ∈ self :: U, c.data = routeBytes H (e.node u)) ∨
           (c.node ∈ U ∧ c.data = routeBytes H (e.node P)))) ∧
        (s.handleRegisterRequest H payload P).router = s.router.updateNode P ∧
        (P ≠ self → (∀ u ∈ P :: U, (e.node u).areKeysNegotiated = true) →
          (s.handleRegisterRequest H payload P).sent = s.sent ++
            (e.registrationGossip H U P self).map (e.encryptedDatagram H) ++
            [e.encryptedDatagram H ⟨packet_type_t.RegisterReply,
              registerReplyBytes H (e.node P) s.networkDivisor, P⟩]))) := by
  constructor
  · intro hnone
    have hcrash : s.handleRegisterRequest H payload P = s.crash := by
      unfold LinkLayer.handleRegisterRequest
      rw [if_neg (by rw [checkPacketSize_equal payload _ hlen]; decide), hnone]
    rw [hcrash]
    exact ⟨rfl, rfl, rfl⟩
  · intro self e U hself he hU
    exact gossip_of_self H s payload P self e U hlen hself he hU

set_option maxRecDepth 100000 in
/-- Witness of `registration_gossip`. The self node of the example network
(record 0, a master; two masters among four nodes, divisor 2) registers the
peer of record 4, which is not behind NAT and is made a master. The other
nodes are the records 1, 2 and 3, all with negotiated keys: seven Route
packets and then the RegisterReply go to the transport. The joiner of the
example, in a state the link layer can reach and without a self record yet,
gets a RegisterRequest from its bootstrap peer, encrypted: the run ends at
the null pointer. -/
theorem registration_gossip_witness :
    (exampleNetwork 2 2 2).router.selfNode = some 0 ∧
    ((exampleNetwork 2 2 2).node 0).master = true ∧
    ((exampleNetwork 2 2 2).enrolled (exampleHost Endian.little) false 4).getOtherNodes =
      [1, 2, 3] ∧
    (((exampleNetwork 2 2 2).enrolled (exampleHost Endian.little) false 4).registrationGossip
      (exampleHost Endian.little) [1, 2, 3] 4 0).length = 2 * [1, 2, 3].length + 1 ∧
    ((exampleNetwork 2 2 2).handleRegisterRequest (exampleHost Endian.little) [0] 4).sent =
      (exampleNetwork 2 2 2).sent ++
        (((exampleNetwork 2 2 2).enrolled (exampleHost Endian.little) false 4).registrationGossip
          (exampleHost Endian.little) [1, 2, 3] 4 0).map
          (((exampleNetwork 2 2 2).enrolled (exampleHost Endian.little) false 4).encryptedDatagram
            (exampleHost Endian.little)) ++
        [((exampleNetwork 2 2 2).enrolled (exampleHost Endian.little) false 4).encryptedDatagram
          (exampleHost Endian.little) ⟨packet_type_t.RegisterReply,
            registerReplyBytes (exampleHost Endian.little)
              (((exampleNetwork 2 2 2).enrolled (exampleHost Endian.little) false 4).node 4)
              (exampleNetwork 2 2 2).networkDivisor, 4⟩] ∧
    Reachable (exampleHost Endian.little) exampleAwaitingFirstPing ∧
    exampleAwaitingFirstPing.router.selfNode = none ∧
    exampleAwaitingFirstPing.fault = false ∧
    (exampleAwaitingFirstPing.node 0).areKeysNegotiated = true ∧
    exampleAwaitingFirstPing.handleRegisterRequest (exampleHost Endian.little) [0] 0 =
      exampleAwaitingFirstPing.crash ∧
    (exampleAwaitingFirstPing.handlePacket (exampleHost Endian.little)
      (frame (exampleHost Endian.little) packet_type_t.EncryptedPacket
        (frame (exampleHost Endian.little) packet_type_t.RegisterRequest [0]))
      167772161 1801).fault = true :=
  ⟨by decide, by decide, by decide,
    ((((registration_gossip (exampleHost Endian.little) (exampleNetwork 2 2 2) [0] 4
      (by decide)).2 0
      ((exampleNetwork 2 2 2).enrolled (exampleHost Endian.little) false 4) [1, 2, 3]
      (by decide) rfl (by decide)).2 (by decide)).2.1),
    ((((registration_gossip (exampleHost Endian.little) (exampleNetwork 2 2 2) [0] 4
      (by decide)).2 0
      ((exampleNetwork 2 2 2).enrolled (exampleHost Endian.little) false 4) [1, 2, 3]
      (by decide) rfl (by decide)).2 (by decide)).2.2.2.2 (by decide) (by decide)),
    Reachable.handlePacket _ _ _ _ (Reachable.handlePacket _ _ _ _
      (Reachable.handlePacket _ _ _ _ (Reachable.handlePacket _ _ _ _
        (Reachable.joinNetwork _ _ _ _ (Reachable.init exampleKey))))),
    by decide, by decide, by decide,
    ((registration_gossip (exampleHost Endian.little) exampleAwaitingFirstPing [0] 0
      (by decide)).1 (by decide)).1,
    by decide⟩

/-! ## Who emits readyForShutdown (C30) -/

theorem sc_of_core {s t : LinkLayer} {k : Nat} (hc : t.core = s.core) (h : s.ShutdownCount k) :
    t.ShutdownCount k := by
  constructor
  unfold LinkLayer.shutdownSignals
  rw [emitted_of_core hc]
  exact h.count

theorem sc_setPreparingForShutdown (s : LinkLayer) (b : Bool) (k : Nat) (h : s.ShutdownCount k) :
    (s.setPreparingForShutdown b).ShutdownCount k := ⟨h.count⟩

theorem sc_setTransportInitiated (s : LinkLayer) (b : Bool) (k : Nat) (h : s.ShutdownCount k) :
    (s.setTransportInitiated b).ShutdownCount k := ⟨h.count⟩

theorem sc_stepRand (s : LinkLayer) (k : Nat) (h : s.ShutdownCount k) :
    s.stepRand.ShutdownCount k := ⟨h.count⟩

theorem sc_sendPacket (H : Host) (s : LinkLayer) (t : packet_type_t) (d : QByteArray) (n : Nat) (k : Nat) (h : s.ShutdownCount k) :
    (s.sendPacket H t d n).ShutdownCount k := sc_of_core (core_sendPacket H s t d n) h

theorem sc_encryptAndSend (H : Host) (s : LinkLayer) (d : QByteArray) (n : Nat) (k : Nat) (h : s.ShutdownCount k) :
    (s.encryptAndSend H d n).ShutdownCount k := sc_of_core (core_encryptAndSend H s d n) h

theorem sc_sendExitNotification (H : Host) (s : LinkLayer) (n : Nat) (k : Nat) (h : s.ShutdownCount k) :
    (s.sendExitNotification H n).ShutdownCount k := sc_of_core (core_sendExitNotification H s n) h

section ShutdownCount

attribute [local irreducible] LinkLayer.crash LinkLayer.setRouter LinkLayer.setNodeSpool
  LinkLayer.delete LinkLayer.alloc LinkLayer.setNode LinkLayer.modifyNode
  LinkLayer.setAwaitingNegotiation LinkLayer.setCookies LinkLayer.setJoinStep
  LinkLayer.setJoinMaster LinkLayer.setForceBehindNAT LinkLayer.setJoinPing
  LinkLayer.setJoinPingsEmitted LinkLayer.setJoinPingsArrived LinkLayer.setPreparingForShutdown
  LinkLayer.setTransportInitiated LinkLayer.setPingTimer LinkLayer.setJoinTimer
  LinkLayer.setNetworkDivisor LinkLayer.stepRand LinkLayer.deliver LinkLayer.sendPacket
  LinkLayer.sendPublicKeyExchange LinkLayer.encryptAndSend LinkLayer.sendEncryptedPacket
  LinkLayer.sendProtocolVersionRequest LinkLayer.sendProtocolVersionReply
  LinkLayer.sendMasterNodeRequest LinkLayer.sendSessionKeyExchange LinkLayer.sendIntroducePacket
  LinkLayer.sendMasterNodeReply LinkLayer.sendPingRequest LinkLayer.sendPingInitiate
  LinkLayer.sendRegisterRequest LinkLayer.sendPing LinkLayer.sendRoute LinkLayer.sendRegisterReply
  LinkLayer.sendRouteMissing LinkLayer.sendRouteInvalidate LinkLayer.sendRoleUpdate
  LinkLayer.sendExitNotification LinkLayer.revertJoin LinkLayer.wrapNode LinkLayer.initTransport
  LinkLayer.transportSend LinkLayer.node LinkLayer.emit LinkLayer.handleProtocolVersionRequest
  LinkLayer.handleProtocolVersionReply LinkLayer.handlePublicKeyExchange
  LinkLayer.handleIntroducePacket LinkLayer.handleMasterNodeRequest
  LinkLayer.handleMasterNodeReply LinkLayer.doPing LinkLayer.handlePingRequest
  LinkLayer.handlePingInitiate LinkLayer.joinGotPinged LinkLayer.handlePing LinkLayer.pingTimeout
  LinkLayer.handleRegisterRequest LinkLayer.handleRegisterReply LinkLayer.handleRoute
  LinkLayer.handleRouteRequest LinkLayer.handleRouteMissing LinkLayer.handleRouteInvalidate
  LinkLayer.handleRoleUpdate LinkLayer.reincarnateSomeone LinkLayer.handleExitNotification
  LinkLayer.handleInner LinkLayer.handleEncrypted LinkLayer.joinNetwork LinkLayer.createNetwork
  LinkLayer.joinTimeout LinkLayer.sendDataToNode LinkLayer.sendRouteRequest

end ShutdownCount

theorem awaiting_encryptAndSend (H : Host) (s : LinkLayer) (d : QByteArray) (n : Nat) :
    (s.encryptAndSend H d n).awaitingNegotiation = s.awaitingNegotiation :=
  awaiting_sendPacket H s _ _ n

theorem awaiting_drainQueue (H : Host) (n : Nat) :
    ∀ (q : List QByteArray) (s : LinkLayer),
      (LinkLayer.drainQueue H n q s).awaitingNegotiation = s.awaitingNegotiation := by
  intro q
  induction q with
  | nil => intro s; rfl
  | cons d rest ih =>
    intro s
    unfold LinkLayer.drainQueue
    dsimp only
    rw [ih, awaiting_encryptAndSend]
    rfl

/-- Claim C37, the exported public key reveals no private material: two key
contexts that agree on `ver`, `len`, `N`, `E` and `RN` have the same
`publicKey` bytes, however they differ in `D`, `P`, `Q`, `DP`, `DQ`, `QP`,
`RP` and `RQ`. -/
theorem publicKey_hides_private (k1 k2 : RSAKeyPair) (hver : k1.ver = k2.ver)
    (hlen : k1.len = k2.len) (hN : k1.N = k2.N) (hE : k1.E = k2.E) (hRN : k1.RN = k2.RN) :
    k1.publicKey = k2.publicKey := by
  unfold RSAKeyPair.publicKey
  rw [hver, hlen, hN, hE, hRN]

/-- Witness of `publicKey_hides_private`: the example key and a key context
with the same public fields and other private numbers. -/
theorem publicKey_hides_private_witness :
    exampleKey.D ≠ (⟨some 1⟩ : mpi) ∧
    exampleKey.publicKey =
      RSAKeyPair.publicKey
        { exampleKey with
          D := ⟨some 1⟩
          P := ⟨some 61⟩
          Q := ⟨some 53⟩
          DP := ⟨some 2⟩
          DQ := ⟨some 3⟩
          QP := ⟨some 4⟩
          RP := ⟨some 5⟩
          RQ := ⟨some 6⟩ } :=
  ⟨by decide, publicKey_hides_private exampleKey _ rfl rfl rfl rfl rfl⟩

/-! ## Acceptance of a public key (C38) -/

theorem readUInt32_of_short (s : QByteArray) (h : s.length < 4) : (readUInt32 s).1 = 0 := by
  unfold readUInt32 readRawData
  rw [if_neg (by omega)]

theorem readUInt32_of_long (s : QByteArray) (h : 4 ≤ s.length) :
    (readUInt32 s).1 = beValue (s.take 4) := by
  unfold readUInt32 readRawData
  rw [if_pos h]

theorem setPublicKey_of_magic (k : RSAKeyPair) (data : QByteArray) :
    (k.setPublicKey data).1 = decide ((readUInt32 data).1 = KeyMagic) := by
  unfold RSAKeyPair.setPublicKey
  dsimp only
  split
  · rename_i h
    exact (decide_eq_false h).symm
  · rename_i h
    have h2 : (readUInt32 data).1 = KeyMagic := by
      by_contra hc
      exact h hc
    exact (decide_eq_true h2).symm

theorem setPublicKey_of_rejected (k : RSAKeyPair) (data : QByteArray)
    (h : (k.setPublicKey data).1 = false) : (k.setPublicKey data).2 = k := by
  unfold RSAKeyPair.setPublicKey at h ⊢
  dsimp only at h ⊢
  split
  · rfl
  · rename_i hm
    rw [if_neg hm] at h
    exact Bool.noConfusion h

/-- Claim C38, key acceptance and atomic rejection: `RSAKeyPair::setPublicKey`
returns true exactly when the input has at least four bytes and the first
four, read most significant byte first, are the key magic; shorter inputs are
rejected, and the magic alone suffices, whatever follows it. When it returns
false the key context is as before, and `SparkleNode::setPublicKey` then
returns false and leaves the whole record as it was, in particular its
fingerprint, overlay IP and overlay MAC. -/
theorem setPublicKey_accepts_magic (H : Host) (k : RSAKeyPair) (n : SparkleNode)
    (data rest : QByteArray) :
    ((k.setPublicKey data).1 = true ↔ 4 ≤ data.length ∧ beValue (data.take 4) = KeyMagic) ∧
    (data.length < 4 → (k.setPublicKey data).1 = false) ∧
    (k.setPublicKey (writeUInt32 KeyMagic ++ rest)).1 = true ∧
    ((k.setPublicKey data).1 = false → (k.setPublicKey data).2 = k) ∧
    (n.setPublicKey H data).1 = (n.keyPair.setPublicKey data).1 ∧
    ((n.keyPair.setPublicKey data).1 = false →
      n.setPublicKey H data = (false, n) ∧
      (n.setPublicKey H data).2.fingerprint = n.fingerprint ∧
      (n.setPublicKey H data).2.sparkleIP = n.sparkleIP ∧
      (n.setPublicKey H data).2.mac = n.mac) := by
  have hiff : (k.setPublicKey data).1 = true ↔
      4 ≤ data.length ∧ beValue (data.take 4) = KeyMagic := by
    rw [setPublicKey_of_magic, decide_eq_true_iff]
    by_cases hl : 4 ≤ data.length
    · rw [readUInt32_of_long data hl]
      exact ⟨fun h => ⟨hl, h⟩, fun h => h.2⟩
    · rw [readUInt32_of_short data (by omega)]
      constructor
      · intro h
        exact absurd h (by decide)
      · intro h
        exact absurd h.1 hl
  have hnode : (n.keyPair.setPublicKey data).1 = false → n.setPublicKey H data = (false, n) := by
    intro h
    unfold SparkleNode.setPublicKey
    dsimp only
    rw [if_pos h, setPublicKey_of_rejected _ _ h]
  refine ⟨hiff, ?_, ?_, setPublicKey_of_rejected k data, ?_, ?_⟩
  · intro hs
    cases hb : (k.setPublicKey data).1
    · rfl
    · exact absurd (hiff.mp hb).1 (by omega)
  · rw [setPublicKey_of_magic, readUInt32_of_long _ (by simp [writeUInt32, beBytes_length])]
    rw [List.take_left' (by simp [writeUInt32, beBytes_length])]
    unfold writeUInt32
    rw [beValue_beBytes]
    decide
  · unfold SparkleNode.setPublicKey
    dsimp only
    split
    · rename_i h
      exact h.symm
    · rename_i h
      cases hb : (n.keyPair.setPublicKey data).1
      · exact absurd hb h
      · rfl
  · intro h
    rw [hnode h]
    exact ⟨rfl, rfl, rfl, rfl⟩

/-- Instance of claim C38: the three bytes 01 02 03 are rejected and leave the
key and the record as they were; the four bytes of the magic alone are
accepted. -/
theorem setPublicKey_accepts_magic_witness :
    (exampleKey.setPublicKey [1, 2, 3]).1 = false ∧
    (exampleKey.setPublicKey [1, 2, 3]).2 = exampleKey ∧
    (exampleNegotiatedPeer.setPublicKey (exampleHost Endian.little) [1, 2, 3]) =
      (false, exampleNegotiatedPeer) ∧
    (exampleKey.setPublicKey exampleKeyBytes).1 = true :=
  ⟨by decide,
   (setPublicKey_accepts_magic (exampleHost Endian.little) exampleKey exampleNegotiatedPeer
     [1, 2, 3] []).2.2.2.1 (by decide),
   ((setPublicKey_accepts_magic (exampleHost Endian.little) exampleKey exampleNegotiatedPeer
     [1, 2, 3] []).2.2.2.2.2 (by decide)).1,
   by decide⟩

/-! ## The length field of the header (C39) -/

theorem handlePacket_of_length_ne (H : Host) (r : LinkLayer) (data : QByteArray)
    (host : QHostAddress) (port : Nat) (h : hdrLength H data ≠ data.length) :
    r.handlePacket H data host port = r := by
  unfold LinkLayer.handlePacket
  rw [if_pos (Or.inr h)]

theorem hdrLength_frame_ne (H : Host) (t : packet_type_t) (p : QByteArray)
    (h : 65531 < p.length) : hdrLength H (frame H t p) ≠ (frame H t p).length := by
  rw [hdrLength_frame, frame_length]
  have := Nat.mod_lt (4 + p.length) (by decide : 0 < 65536)
  omega

/-- Claim C39, the header length wraps at 16 bits: the frame `sendPacket` hands
to the transport, and the frame `sendEncryptedPacket` queues or encrypts, has
`(4 + |payload|) mod 2 ^ 16` in its length field. For a payload of more than
65531 bytes the field differs from the real size of the frame and every
receiving `handlePacket` drops the datagram without a change of state; this
also holds for the EncryptedPacket datagram that carries such a frame when
the session cipher does not shorten its input. For a payload of at most 65531
bytes the field is the real size. -/
theorem header_length_wraps (H : Host) (s r : LinkLayer) (t : packet_type_t) (p : QByteArray)
    (node : Nat) (host : QHostAddress) (port : Nat) (h : s.router.selfNode ≠ some node) :
    (s.sendPacket H t p node).sent =
      s.sent ++ [⟨frame H t p, (s.node node).host, (s.node node).port, node,
        s.router.selfNode⟩] ∧
    ((s.node node).areKeysNegotiated = true →
      (s.sendEncryptedPacket H t p node).sent =
        s.sent ++ [⟨frame H packet_type_t.EncryptedPacket
          (H.encrypt (s.node node).mySessionKey (frame H t p)), (s.node node).host,
          (s.node node).port, node, s.router.selfNode⟩]) ∧
    ((s.node node).areKeysNegotiated = false → node < s.heap.length →
      ((s.sendEncryptedPacket H t p node).node node).queue =
        (s.node node).queue ++ [frame H t p]) ∧
    hdrLength H (frame H t p) = (4 + p.length) % 65536 ∧
    (65531 < p.length →
      hdrLength H (frame H t p) ≠ (frame H t p).length ∧
      r.handlePacket H (frame H t p) host port = r ∧
      ((frame H t p).length ≤ (H.encrypt (s.node node).mySessionKey (frame H t p)).length →
        r.handlePacket H (frame H packet_type_t.EncryptedPacket
          (H.encrypt (s.node node).mySessionKey (frame H t p))) host port = r)) ∧
    (p.length ≤ 65531 → hdrLength H (frame H t p) = (frame H t p).length) := by
  refine ⟨sent_sendPacket_of_ne_self H s t p node h, ?_, ?_, hdrLength_frame H t p, ?_, ?_⟩
  · intro hk
    rw [sendEncryptedPacket_of_negotiated H s t p node hk]
    unfold LinkLayer.encryptAndSend
    exact sent_sendPacket_of_ne_self H s _ _ node h
  · intro hk hv
    exact queue_sendEncryptedPacket H s t p node hv hk
  · intro hp
    refine ⟨hdrLength_frame_ne H t p hp, ?_, ?_⟩
    · exact handlePacket_of_length_ne H r _ host port (hdrLength_frame_ne H t p hp)
    · intro hc
      apply handlePacket_of_length_ne
      apply hdrLength_frame_ne
      rw [frame_length] at hc
      omega
  · intro hp
    rw [hdrLength_frame, frame_length]
    exact Nat.mod_eq_of_lt (by omega)

/-- Witness of `header_length_wraps`: a DataPacket of 65532 zero bytes for the
master at 10.0.0.2 (record 1) of the example network gets the length field 0,
and a link layer that receives it drops it; a DataPacket of three bytes gets
its real size. -/
theorem header_length_wraps_witness :
    (exampleNetwork 2 2 2).router.selfNode ≠ some 1 ∧
    (List.replicate 65532 (0 : Byte)).length = 65532 ∧
    hdrLength (exampleHost Endian.little)
      (frame (exampleHost Endian.little) packet_type_t.DataPacket (List.replicate 65532 0)) =
      (4 + (List.replicate 65532 (0 : Byte)).length) % 65536 ∧
    exampleLink.handlePacket (exampleHost Endian.little)
      (frame (exampleHost Endian.little) packet_type_t.DataPacket (List.replicate 65532 0))
      167772161 1801 = exampleLink ∧
    hdrLength (exampleHost Endian.little)
      (frame (exampleHost Endian.little) packet_type_t.DataPacket [1, 2, 3]) =
      (frame (exampleHost Endian.little) packet_type_t.DataPacket [1, 2, 3]).length :=
  ⟨by decide, List.length_replicate _ _,
    (header_length_wraps (exampleHost Endian.little) (exampleNetwork 2 2 2) exampleLink
      packet_type_t.DataPacket (List.replicate 65532 0) 1 167772161 1801 (by decide)).2.2.2.1,
    ((header_length_wraps (exampleHost Endian.little) (exampleNetwork 2 2 2) exampleLink
      packet_type_t.DataPacket (List.replicate 65532 0) 1 167772161 1801 (by decide)).2.2.2.2.1
      (by rw [List.length_replicate]; decide)).2.1,
    (header_length_wraps (exampleHost Endian.little) (exampleNetwork 2 2 2) exampleLink
      packet_type_t.DataPacket [1, 2, 3] 1 167772161 1801 (by decide)).2.2.2.2.2 (by decide)⟩

/-! ## An encrypted send to the self node (C34) -/

/-- C34, what the code does: the guard against sending to the self node is in
`sendPacket`, after the handshake gate of `sendEncryptedPacket` has run. For
the self node with negotiated keys the state is left as it was. For the self
node without negotiated keys nothing is transmitted, but the framed packet is
put at the end of its send queue, and when it is not yet awaiting negotiation
its negotiation timer is armed, it is appended to `awaitingNegotiation` and a
fresh cookie is stored for it. -/
theorem sendEncryptedPacket_self_effects (H : Host) (s : LinkLayer) (t : packet_type_t)
    (d : QByteArray) (self : Nat) (hself : s.router.selfNode = some self)
    (hv : self < s.heap.length) :
    (s.sendEncryptedPacket H t d self).sent = s.sent ∧
    ((s.node self).areKeysNegotiated = true → s.sendEncryptedPacket H t d self = s) ∧
    ((s.node self).areKeysNegotiated = false →
      ((s.sendEncryptedPacket H t d self).node self).queue =
        (s.node self).queue ++ [frame H t d] ∧
      (self ∈ s.awaitingNegotiation →
        (s.sendEncryptedPacket H t d self).awaitingNegotiation = s.awaitingNegotiation ∧
        (s.sendEncryptedPacket H t d self).cookies = s.cookies) ∧
      (self ∉ s.awaitingNegotiation →
        (s.sendEncryptedPacket H t d self).awaitingNegotiation =
          s.awaitingNegotiation ++ [self] ∧
        (s.sendEncryptedPacket H t d self).cookies =
          cookiesInsert s.cookies (H.qrand s.randCalls % 4294967296) self ∧
        ((s.sendEncryptedPacket H t d self).node self).negotiationTimer = true)) := by
  refine ⟨sent_sendEncryptedPacket_self H s t d self hself, ?_, ?_⟩
  · intro hk
    rw [sendEncryptedPacket_of_negotiated H s t d self hk]
    unfold LinkLayer.encryptAndSend
    exact sendPacket_of_self H s _ _ self hself
  · intro hk
    refine ⟨queue_sendEncryptedPacket H s t d self hv hk, ?_, ?_⟩
    · intro hmem
      unfold LinkLayer.sendEncryptedPacket
      rw [if_pos hk]
      dsimp only
      rw [if_pos (by exact hmem)]
      exact ⟨rfl, rfl⟩
    · intro hmem
      have hpk : ∀ (u : LinkLayer), u.router.selfNode = some self →
          u.sendPublicKeyExchange H self (some u.hostKeyPair) true 0 =
            u.stepRand.setCookies
              (cookiesInsert u.cookies (H.qrand u.randCalls % 4294967296) self) := by
        intro u hu
        unfold LinkLayer.sendPublicKeyExchange
        simp only [if_true]
        exact sendPacket_of_self H _ _ _ self hu
      unfold LinkLayer.sendEncryptedPacket
      rw [if_pos hk]
      dsimp only
      rw [if_neg (by exact hmem), hpk]
      · refine ⟨rfl, rfl, ?_⟩
        show (((s.modifyNode self (fun n => n.pushQueue (frame H t d))).modifyNode self
          SparkleNode.negotiationStart).node self).negotiationTimer = true
        rw [node_modifyNode_same _ self _ (by rw [heap_length_modifyNode]; exact hv)]
        rfl
      · exact hself

/-- Witness of `sendEncryptedPacket_self_effects`: the node that created the
example network is asked to send three bytes of data to its own record
(record 0): nothing is transmitted, the framed packet is in the queue of the
record, the record awaits negotiation and cookie 0 points to it. -/
theorem sendEncryptedPacket_self_effects_witness :
    exampleCreated.router.selfNode = some 0 ∧
    (exampleCreated.node 0).queue = [] ∧
    exampleCreated.awaitingNegotiation = [] ∧
    exampleCreated.cookies = [] ∧
    (exampleCreated.sendDataToNode (exampleHost Endian.little) [1, 2, 3] 0).sent =
      exampleCreated.sent ∧
    ((exampleCreated.sendDataToNode (exampleHost Endian.little) [1, 2, 3] 0).node 0).queue =
      (exampleCreated.node 0).queue ++
        [frame (exampleHost Endian.little) packet_type_t.DataPacket [1, 2, 3]] ∧
    (exampleCreated.sendDataToNode (exampleHost Endian.little) [1, 2, 3] 0).awaitingNegotiation =
      exampleCreated.awaitingNegotiation ++ [0] ∧
    (exampleCreated.sendDataToNode (exampleHost Endian.little) [1, 2, 3] 0).cookies =
      cookiesInsert exampleCreated.cookies
        ((exampleHost Endian.little).qrand exampleCreated.randCalls % 4294967296) 0 :=
  ⟨by decide, by decide, by decide, by decide,
    (sendEncryptedPacket_self_effects (exampleHost Endian.little) exampleCreated
      packet_type_t.DataPacket [1, 2, 3] 0 (by decide) (by decide)).1,
    ((sendEncryptedPacket_self_effects (exampleHost Endian.little) exampleCreated
      packet_type_t.DataPacket [1, 2, 3] 0 (by decide) (by decide)).2.2 (by decide)).1,
    (((sendEncryptedPacket_self_effects (exampleHost Endian.little) exampleCreated
      packet_type_t.DataPacket [1, 2, 3] 0 (by decide) (by decide)).2.2 (by decide)).2.2
      (by decide)).1,
    (((sendEncryptedPacket_self_effects (exampleHost Endian.little) exampleCreated
      packet_type_t.DataPacket [1, 2, 3] 0 (by decide) (by decide)).2.2 (by decide)).2.2
      (by decide)).2.1⟩

/-! ## Which opcode travels on which channel (C32) -/

theorem handleOuter_of_unknown (H : Host) (s : LinkLayer) (type : Nat) (payload : QByteArray)
    (node : Nat) (h : outerUnknown type = true) : s.handleOuter H type payload node = s := by
  apply handleOuter_malformed
  unfold outerUnknown at h
  split
  · rfl
  · rename_i t ht
    rw [ht] at h
    simp only [Bool.or_eq_true]
    exact Or.inl h

theorem handleInner_of_unknown (H : Host) (s : LinkLayer) (type : Nat) (payload : QByteArray)
    (node : Nat) (h : innerUnknown type = true) : s.handleInner H type payload node = s := by
  apply handleInner_malformed
  unfold innerUnknown at h
  split
  · rfl
  · rename_i t ht
    rw [ht] at h
    simp only [Bool.or_eq_true]
    exact Or.inl h

theorem handleOuter_of_encrypted (H : Host) (s : LinkLayer) (type : Nat) (payload : QByteArray)
    (node : Nat) (h : packet_type_t.ofCode type = some packet_type_t.EncryptedPacket) :
    s.handleOuter H type payload node = s.handleEncrypted H payload node := by
  unfold LinkLayer.handleOuter
  rw [h]

theorem handlePacket_of_framed (H : Host) (s : LinkLayer) (data : QByteArray)
    (host : QHostAddress) (port : Nat)
    (h : ¬ (data.length < sizeof_packet_header_t ∨ hdrLength H data ≠ data.length)) :
    s.handlePacket H data host port =
      (s.wrapNode H host port).2.handleOuter H (hdrType H data)
        (data.drop sizeof_packet_header_t) (s.wrapNode H host port).1 := by
  unfold LinkLayer.handlePacket
  rw [if_neg h]

/-- Claim C32, opcode channel discipline: fourteen opcodes travel encrypted
only and six unencrypted. For a well-framed datagram, once `wrapNode` has
looked up or made the record of the sender, nothing more happens (no handler
runs, nothing is sent, delivered or emitted) when (a) the outer type is one
of the fourteen or no opcode, (b) the outer type is EncryptedPacket and the
sender has no negotiated keys, or (c) the outer type is EncryptedPacket, the
decrypted bytes pass the inner header check, and the inner type is one of the
six (EncryptedPacket among them) or no opcode. -/
theorem opcode_channel_discipline (H : Host) (s : LinkLayer) (data : QByteArray)
    (host : QHostAddress) (port : Nat)
    (hframed : ¬ (data.length < sizeof_packet_header_t ∨ hdrLength H data ≠ data.length)) :
    (packet_type_t.all.filter (fun t => !t.isOuter)).length = 14 ∧
    (packet_type_t.all.filter (fun t => t.isOuter)).length = 6 ∧
    (outerUnknown (hdrType H data) = true →
      s.handlePacket H data host port = (s.wrapNode H host port).2 ∧
      (s.handlePacket H data host port).sent = s.sent) ∧
    (packet_type_t.ofCode (hdrType H data) = some packet_type_t.EncryptedPacket →
      ((s.wrapNode H host port).2.node (s.wrapNode H host port).1).areKeysNegotiated = false →
      s.handlePacket H data host port = (s.wrapNode H host port).2 ∧
      (s.handlePacket H data host port).sent = s.sent) ∧
    (packet_type_t.ofCode (hdrType H data) = some packet_type_t.EncryptedPacket →
      ∀ type decPayload,
        innerFrame H (H.decrypt
          ((s.wrapNode H host port).2.node (s.wrapNode H host port).1).hisSessionKey
          (data.drop sizeof_packet_header_t)) = some (type, decPayload) →
        innerUnknown type = true →
        s.handlePacket H data host port = (s.wrapNode H host port).2 ∧
        (s.handlePacket H data host port).sent = s.sent) := by
  have hp := handlePacket_of_framed H s data host port hframed
  have hsent := sent_wrapNode H s host port
  refine ⟨by decide, by decide, ?_, ?_, ?_⟩
  · intro hu
    rw [hp, handleOuter_of_unknown H _ _ _ _ hu]
    exact ⟨rfl, hsent⟩
  · intro he hk
    rw [hp, handleOuter_of_encrypted H _ _ _ _ he]
    unfold LinkLayer.handleEncrypted
    rw [if_pos hk]
    exact ⟨rfl, hsent⟩
  · intro he type decPayload hin hu
    rw [hp, handleOuter_of_encrypted H _ _ _ _ he]
    unfold LinkLayer.handleEncrypted
    split
    · exact ⟨rfl, hsent⟩
    · rw [hin]
      dsimp only
      rw [handleInner_of_unknown H _ _ _ _ hu]
      exact ⟨rfl, hsent⟩

/-- Witness of `opcode_channel_discipline`: the self node of the example
network gets, from the master at 10.0.0.2, a DataPacket that is not encrypted
and an EncryptedPacket with a Ping inside; a link layer that knows nobody gets
an EncryptedPacket. In each case only `wrapNode` has acted. -/
theorem opcode_channel_discipline_witness :
    outerUnknown (hdrType (exampleHost Endian.little)
      (frame (exampleHost Endian.little) packet_type_t.DataPacket [1, 2, 3])) = true ∧
    (exampleNetwork 2 2 2).handlePacket (exampleHost Endian.little)
      (frame (exampleHost Endian.little) packet_type_t.DataPacket [1, 2, 3]) 167772162 1801 =
      ((exampleNetwork 2 2 2).wrapNode (exampleHost Endian.little) 167772162 1801).2 ∧
    ((exampleLink.wrapNode (exampleHost Endian.little) 167772162 1801).2.node
      (exampleLink.wrapNode (exampleHost Endian.little) 167772162 1801).1).areKeysNegotiated =
      false ∧
    exampleLink.handlePacket (exampleHost Endian.little)
      (frame (exampleHost Endian.little) packet_type_t.EncryptedPacket
        (frame (exampleHost Endian.little) packet_type_t.DataPacket [1, 2, 3]))
      167772162 1801 =
      (exampleLink.wrapNode (exampleHost Endian.little) 167772162 1801).2 ∧
    innerUnknown packet_type_t.Ping.code = true ∧
    (exampleNetwork 2 2 2).handlePacket (exampleHost Endian.little)
      (frame (exampleHost Endian.little) packet_type_t.EncryptedPacket
        (frame (exampleHost Endian.little) packet_type_t.Ping [2, 0, 0, 10, 9, 7]))
      167772162 1801 =
      ((exampleNetwork 2 2 2).wrapNode (exampleHost Endian.little) 167772162 1801).2 :=
  ⟨by decide,
    ((opcode_channel_discipline (exampleHost Endian.little) (exampleNetwork 2 2 2)
      (frame (exampleHost Endian.little) packet_type_t.DataPacket [1, 2, 3]) 167772162 1801
      (by decide)).2.2.1 (by decide)).1,
    by decide,
    ((opcode_channel_discipline (exampleHost Endian.little) exampleLink
      (frame (exampleHost Endian.little) packet_type_t.EncryptedPacket
        (frame (exampleHost Endian.little) packet_type_t.DataPacket [1, 2, 3])) 167772162 1801
      (by decide)).2.2.2.1 (by decide) (by decide)).1,
    by decide,
    ((opcode_channel_discipline (exampleHost Endian.little) (exampleNetwork 2 2 2)
      (frame (exampleHost Endian.little) packet_type_t.EncryptedPacket
        (frame (exampleHost Endian.little) packet_type_t.Ping [2, 0, 0, 10, 9, 7]))
      167772162 1801 (by decide)).2.2.2.2 (by decide) packet_type_t.Ping.code
      [2, 0, 0, 10, 9, 7] (by decide) (by decide)).1⟩

/-! ## The order of the join steps (C33) -/

theorem sj_of_core {s t : LinkLayer} {j : join_step_t} (hc : t.core = s.core)
    (h : s.StepIs j) : t.StepIs j := by
  constructor
  rw [joinStep_of_core hc]
  exact h.eq

theorem sj_crash (s : LinkLayer) (j : join_step_t) (h : s.StepIs j) :
    s.crash.StepIs j := ⟨h.eq⟩

theorem sj_setRouter (s : LinkLayer) (r : Router) (j : join_step_t) (h : s.StepIs j) :
    (s.setRouter r).StepIs j := ⟨h.eq⟩

theorem sj_setNodeSpool (s : LinkLayer) (l : List Nat) (j : join_step_t) (h : s.StepIs j) :
    (s.setNodeSpool l).StepIs j := ⟨h.eq⟩

theorem sj_delete (s : LinkLayer) (l : List Nat) (j : join_step_t) (h : s.StepIs j) :
    (s.delete l).StepIs j := ⟨h.eq⟩

theorem sj_alloc (s : LinkLayer) (v : SparkleNode) (j : join_step_t) (h : s.StepIs j) :
    (s.alloc v).StepIs j := ⟨h.eq⟩

theorem sj_setNode (s : LinkLayer) (n : Nat) (v : SparkleNode) (j : join_step_t) (h : s.StepIs j) :
    (s.setNode n v).StepIs j := ⟨h.eq⟩

theorem sj_modifyNode (s : LinkLayer) (n : Nat) (f : SparkleNode → SparkleNode) (j : join_step_t) (h : s.StepIs j) :
    (s.modifyNode n f).StepIs j := ⟨h.eq⟩

theorem sj_setAwaitingNegotiation (s : LinkLayer) (l : List Nat) (j : join_step_t) (h : s.StepIs j) :
    (s.setAwaitingNegotiation l).StepIs j := ⟨h.eq⟩

theorem sj_setCookies (s : LinkLayer) (c : List (Nat × Nat)) (j : join_step_t) (h : s.StepIs j) :
    (s.setCookies c).StepIs j := ⟨h.eq⟩

theorem sj_setJoinMaster (s : LinkLayer) (m : Nat) (j : join_step_t) (h : s.StepIs j) :
    (s.setJoinMaster m).StepIs j := ⟨h.eq⟩

theorem sj_setForceBehindNAT (s : LinkLayer) (b : Bool) (j : join_step_t) (h : s.StepIs j) :
    (s.setForceBehindNAT b).StepIs j := ⟨h.eq⟩

theorem sj_setJoinPing (s : LinkLayer) (p : ping_t) (j : join_step_t) (h : s.StepIs j) :
    (s.setJoinPing p).StepIs j := ⟨h.eq⟩

theorem sj_setJoinPingsEmitted (s : LinkLayer) (n : Nat) (j : join_step_t) (h : s.StepIs j) :
    (s.setJoinPingsEmitted n).StepIs j := ⟨h.eq⟩

theorem sj_setJoinPingsArrived (s : LinkLayer) (n : Nat) (j : join_step_t) (h : s.StepIs j) :
    (s.setJoinPingsArrived n).StepIs j := ⟨h.eq⟩

theorem sj_setPreparingForShutdown (s : LinkLayer) (b : Bool) (j : join_step_t) (h : s.StepIs j) :
    (s.setPreparingForShutdown b).StepIs j := ⟨h.eq⟩

theorem sj_setTransportInitiated (s : LinkLayer) (b : Bool) (j : join_step_t) (h : s.StepIs j) :
    (s.setTransportInitiated b).StepIs j := ⟨h.eq⟩

theorem sj_setPingTimer (s : LinkLayer) (b : Bool) (j : join_step_t) (h : s.StepIs j) :
    (s.setPingTimer b).StepIs j := ⟨h.eq⟩

theorem sj_setJoinTimer (s : LinkLayer) (b : Bool) (j : join_step_t) (h : s.StepIs j) :
    (s.setJoinTimer b).StepIs j := ⟨h.eq⟩

theorem sj_setNetworkDivisor (s : LinkLayer) (n : Nat) (j : join_step_t) (h : s.StepIs j) :
    (s.setNetworkDivisor n).StepIs j := ⟨h.eq⟩

theorem sj_stepRand (s : LinkLayer) (j : join_step_t) (h : s.StepIs j) :
    s.stepRand.StepIs j := ⟨h.eq⟩

theorem sj_deliver (s : LinkLayer) (p : QByteArray) (n : Nat) (j : join_step_t) (h : s.StepIs j) :
    (s.deliver p n).StepIs j := ⟨h.eq⟩

theorem sj_emit (s : LinkLayer) (x : Signal) (j : join_step_t) (h : s.StepIs j) :
    (s.emit x).StepIs j := ⟨h.eq⟩

theorem sj_wrapNode (H : Host) (s : LinkLayer) (a : QHostAddress) (p : Nat) (j : join_step_t)
    (h : s.StepIs j) : (s.wrapNode H a p).2.StepIs j := by
  unfold LinkLayer.wrapNode
  split
  · exact h
  · exact ⟨h.eq⟩

theorem sj_revertJoin (s : LinkLayer) (j : join_step_t) (h : s.StepIs j) :
    s.revertJoin.StepIs j := ⟨h.eq⟩

theorem sj_foldl {α : Type} (j : join_step_t) (f : LinkLayer → α → LinkLayer)
    (hf : ∀ st x, st.StepIs j → (f st x).StepIs j) :
    ∀ (l : List α) (s : LinkLayer), s.StepIs j → (l.foldl f s).StepIs j := by
  intro l
  induction l with
  | nil => intro s h; exact h
  | cons a l ih => intro s h; exact ih _ (hf s a h)

theorem sj_sendPacket (H : Host) (s : LinkLayer) (t : packet_type_t) (d : QByteArray) (n : Nat) (j : join_step_t) (h : s.StepIs j) :
    (s.sendPacket H t d n).StepIs j := sj_of_core (core_sendPacket H s t d n) h

theorem sj_sendPublicKeyExchange (H : Host) (s : LinkLayer) (n : Nat) (c : Option RSAKeyPair) (need : Bool) (v : Nat) (j : join_step_t) (h : s.StepIs j) :
    (s.sendPublicKeyExchange H n c need v).StepIs j := sj_of_core (core_sendPublicKeyExchange H s n c need v) h

theorem sj_encryptAndSend (H : Host) (s : LinkLayer) (d : QByteArray) (n : Nat) (j : join_step_t) (h : s.StepIs j) :
    (s.encryptAndSend H d n).StepIs j := sj_of_core (core_encryptAndSend H s d n) h

theorem sj_sendEncryptedPacket (H : Host) (s : LinkLayer) (t : packet_type_t) (d : QByteArray) (n : Nat) (j : join_step_t) (h : s.StepIs j) :
    (s.sendEncryptedPacket H t d n).StepIs j := sj_of_core (core_sendEncryptedPacket H s t d n) h

theorem sj_sendProtocolVersionRequest (H : Host) (s : LinkLayer) (n : Nat) (j : join_step_t) (h : s.StepIs j) :
    (s.sendProtocolVersionRequest H n).StepIs j := sj_of_core (core_sendProtocolVersionRequest H s n) h

theorem sj_sendProtocolVersionReply (H : Host) (s : LinkLayer) (n : Nat) (j : join_step_t) (h : s.StepIs j) :
    (s.sendProtocolVersionReply H n).StepIs j := sj_of_core (core_sendProtocolVersionReply H s n) h

theorem sj_sendMasterNodeRequest (H : Host) (s : LinkLayer) (n : Nat) (j : join_step_t) (h : s.StepIs j) :
    (s.sendMasterNodeRequest H n).StepIs j := sj_of_core (core_sendMasterNodeRequest H s n) h

theorem sj_sendSessionKeyExchange (H : Host) (s : LinkLayer) (n : Nat) (b : Bool) (j : join_step_t) (h : s.StepIs j) :
    (s.sendSessionKeyExchange H n b).StepIs j := sj_of_core (core_sendSessionKeyExchange H s n b) h

theorem sj_sendIntroducePacket (H : Host) (s : LinkLayer) (n : Nat) (j : join_step_t) (h : s.StepIs j) :
    (s.sendIntroducePacket H n).StepIs j := sj_of_core (core_sendIntroducePacket H s n) h

theorem sj_sendMasterNodeReply (H : Host) (s : LinkLayer) (n m : Nat) (j : join_step_t) (h : s.StepIs j) :
    (s.sendMasterNodeReply H n m).StepIs j := sj_of_core (core_sendMasterNodeReply H s n m) h

theorem sj_sendPingRequest (H : Host) (s : LinkLayer) (n t c : Nat) (j : join_step_t) (h : s.StepIs j) :
    (s.sendPingRequest H n t c).StepIs j := sj_of_core (core_sendPingRequest H s n t c) h

theorem sj_sendPingInitiate (H : Host) (s : LinkLayer) (n t c : Nat) (j : join_step_t) (h : s.StepIs j) :
    (s.sendPingInitiate H n t c).StepIs j := sj_of_core (core_sendPingInitiate H s n t c) h

theorem sj_sendRegisterRequest (H : Host) (s : LinkLayer) (n : Nat) (b : Bool) (j : join_step_t) (h : s.StepIs j) :
    (s.sendRegisterRequest H n b).StepIs j := sj_of_core (core_sendRegisterRequest H s n b) h

theorem sj_sendPing (H : Host) (s : LinkLayer) (n : Nat) (j : join_step_t) (h : s.StepIs j) :
    (s.sendPing H n).StepIs j := sj_of_core (core_sendPing H s n) h

theorem sj_sendRoute (H : Host) (s : LinkLayer) (n t : Nat) (j : join_step_t) (h : s.StepIs j) :
    (s.sendRoute H n t).StepIs j := sj_of_core (core_sendRoute H s n t) h

theorem sj_sendRegisterReply (H : Host) (s : LinkLayer) (n : Nat) (j : join_step_t) (h : s.StepIs j) :
    (s.sendRegisterReply H n).StepIs j := sj_of_core (core_sendRegisterReply H s n) h

theorem sj_sendRouteMissing (H : Host) (s : LinkLayer) (n : Nat) (a : QHostAddress) (j : join_step_t) (h : s.StepIs j) :
    (s.sendRouteMissing H n a).StepIs j := sj_of_core (core_sendRouteMissing H s n a) h

theorem sj_sendRouteInvalidate (H : Host) (s : LinkLayer) (n t : Nat) (j : join_step_t) (h : s.StepIs j) :
    (s.sendRouteInvalidate H n t).StepIs j := sj_of_core (core_sendRouteInvalidate H s n t) h

theorem sj_sendRoleUpdate (H : Host) (s : LinkLayer) (n : Nat) (b : Bool) (j : join_step_t) (h : s.StepIs j) :
    (s.sendRoleUpdate H n b).StepIs j := sj_of_core (core_sendRoleUpdate H s n b) h

theorem sj_sendExitNotification (H : Host) (s : LinkLayer) (n : Nat) (j : join_step_t) (h : s.StepIs j) :
    (s.sendExitNotification H n).StepIs j := sj_of_core (core_sendExitNotification H s n) h

section StepIs

attribute [local irreducible] LinkLayer.crash LinkLayer.setRouter LinkLayer.setNodeSpool
  LinkLayer.delete LinkLayer.alloc LinkLayer.setNode LinkLayer.modifyNode
  LinkLayer.setAwaitingNegotiation LinkLayer.setCookies LinkLayer.setJoinMaster
  LinkLayer.setForceBehindNAT LinkLayer.setJoinPing LinkLayer.setJoinPingsEmitted
  LinkLayer.setJoinPingsArrived LinkLayer.setPreparingForShutdown LinkLayer.setTransportInitiated
  LinkLayer.setPingTimer LinkLayer.setJoinTimer LinkLayer.setNetworkDivisor LinkLayer.stepRand
  LinkLayer.deliver LinkLayer.emit LinkLayer.sendPacket LinkLayer.sendPublicKeyExchange
  LinkLayer.encryptAndSend LinkLayer.sendEncryptedPacket LinkLayer.sendProtocolVersionRequest
  LinkLayer.sendProtocolVersionReply LinkLayer.sendMasterNodeRequest
  LinkLayer.sendSessionKeyExchange LinkLayer.sendIntroducePacket LinkLayer.sendMasterNodeReply
  LinkLayer.sendPingRequest LinkLayer.sendPingInitiate LinkLayer.sendRegisterRequest
  LinkLayer.sendPing LinkLayer.sendRoute LinkLayer.sendRegisterReply LinkLayer.sendRouteMissing
  LinkLayer.sendRouteInvalidate LinkLayer.sendRoleUpdate LinkLayer.sendExitNotification
  LinkLayer.revertJoin LinkLayer.wrapNode LinkLayer.transportSend LinkLayer.node
  LinkLayer.handleProtocolVersionRequest LinkLayer.handlePublicKeyExchange LinkLayer.drainQueue
  LinkLayer.handleSessionKeyExchange LinkLayer.handleIntroducePacket
  LinkLayer.handleMasterNodeRequest LinkLayer.doPing LinkLayer.handlePingRequest
  LinkLayer.handlePingInitiate LinkLayer.handleRegisterRequest LinkLayer.handleRoute
  LinkLayer.handleRouteRequest LinkLayer.handleRouteMissing LinkLayer.handleRouteInvalidate
  LinkLayer.handleRoleUpdate LinkLayer.reincarnateSomeone LinkLayer.handleExitNotification

theorem sj_handleProtocolVersionRequest (H : Host) (s : LinkLayer) (p : QByteArray) (n : Nat) (j : join_step_t) (h : s.StepIs j) :
    (s.handleProtocolVersionRequest H p n).StepIs j := by
  unfold LinkLayer.handleProtocolVersionRequest
  repeat
    first
    | apply sj_sendProtocolVersionReply
    | split
    | exact h

theorem sj_handlePublicKeyExchange (H : Host) (s : LinkLayer) (p : QByteArray) (n : Nat) (j : join_step_t) (h : s.StepIs j) :
    (s.handlePublicKeyExchange H p n).StepIs j := by
  unfold LinkLayer.handlePublicKeyExchange
  repeat
    first
    | apply sj_crash
    | apply sj_setNode
    | apply sj_modifyNode
    | apply sj_setAwaitingNegotiation
    | apply sj_setCookies
    | apply sj_sendPublicKeyExchange
    | apply sj_sendSessionKeyExchange
    | apply sj_sendIntroducePacket
    | split
    | dsimp only
    | exact h

theorem sj_drainQueue (H : Host) (n : Nat) (j : join_step_t) :
    ∀ (q : List QByteArray) (s : LinkLayer), s.StepIs j →
      (LinkLayer.drainQueue H n q s).StepIs j := by
  intro q
  induction q with
  | nil => intro s h; unfold LinkLayer.drainQueue; exact h
  | cons d rest ih =>
    intro s h
    unfold LinkLayer.drainQueue
    exact ih _ (sj_encryptAndSend H _ _ n j (sj_setNode s n _ j h))

theorem sj_handleSessionKeyExchange (H : Host) (s : LinkLayer) (p : QByteArray) (n : Nat) (j : join_step_t) (h : s.StepIs j) :
    (s.handleSessionKeyExchange H p n).StepIs j := by
  unfold LinkLayer.handleSessionKeyExchange
  repeat
    first
    | apply sj_modifyNode
    | apply sj_setAwaitingNegotiation
    | apply sj_emit
    | apply sj_sendSessionKeyExchange
    | apply sj_drainQueue
    | split
    | dsimp only
    | exact h

theorem sj_handleIntroducePacket (H : Host) (s : LinkLayer) (p : QByteArray) (n : Nat) (j : join_step_t) (h : s.StepIs j) :
    (s.handleIntroducePacket H p n).StepIs j := by
  unfold LinkLayer.handleIntroducePacket
  repeat
    first
    | apply sj_setRouter
    | apply sj_modifyNode
    | split
    | dsimp only
    | exact h

theorem sj_handleMasterNodeRequest (H : Host) (s : LinkLayer) (p : QByteArray) (n : Nat) (j : join_step_t) (h : s.StepIs j) :
    (s.handleMasterNodeRequest H p n).StepIs j := by
  unfold LinkLayer.handleMasterNodeRequest
  repeat
    first
    | apply sj_crash
    | apply sj_sendMasterNodeReply
    | split
    | exact h

theorem sj_doPing (H : Host) (s : LinkLayer) (n c : Nat) (j : join_step_t)
    (h : s.StepIs j) : (s.doPing H n c).StepIs j := by
  unfold LinkLayer.doPing
  split
  · exact h
  · exact sj_foldl j _ (fun st _ hst => sj_sendPing H st n j hst) _ _ h

theorem sj_handlePingRequest (H : Host) (s : LinkLayer) (p : QByteArray) (n : Nat) (j : join_step_t) (h : s.StepIs j) :
    (s.handlePingRequest H p n).StepIs j := by
  unfold LinkLayer.handlePingRequest
  repeat
    first
    | apply sj_crash
    | apply sj_sendPingInitiate
    | apply sj_wrapNode
    | apply sj_doPing
    | split
    | dsimp only
    | exact h

theorem sj_handlePingInitiate (H : Host) (s : LinkLayer) (p : QByteArray) (n : Nat) (j : join_step_t) (h : s.StepIs j) :
    (s.handlePingInitiate H p n).StepIs j := by
  unfold LinkLayer.handlePingInitiate
  repeat
    first
    | apply sj_wrapNode
    | apply sj_doPing
    | split
    | dsimp only
    | exact h

theorem sj_handleRegisterRequest (H : Host) (s : LinkLayer) (p : QByteArray) (n : Nat) (j : join_step_t) (h : s.StepIs j) :
    (s.handleRegisterRequest H p n).StepIs j := by
  unfold LinkLayer.handleRegisterRequest
  have hf : ∀ (l : List Nat) (st : LinkLayer), st.StepIs j →
      (l.foldl (fun st update => (st.sendRoute H n update).sendRoute H update n)
        st).StepIs j :=
    sj_foldl j _ (fun st x hst =>
      sj_sendRoute H _ x n j (sj_sendRoute H st n x j hst))
  repeat
    first
    | apply hf
    | apply sj_crash
    | apply sj_setRouter
    | apply sj_modifyNode
    | apply sj_sendRoute
    | apply sj_sendRegisterReply
    | split
    | dsimp only
    | exact h

theorem sj_handleRoute (H : Host) (s : LinkLayer) (p : QByteArray) (n : Nat) (j : join_step_t) (h : s.StepIs j) :
    (s.handleRoute H p n).StepIs j := by
  unfold LinkLayer.handleRoute
  repeat
    first
    | apply sj_setRouter
    | apply sj_modifyNode
    | apply sj_wrapNode
    | split
    | dsimp only
    | exact h

theorem sj_handleRouteRequest (H : Host) (s : LinkLayer) (p : QByteArray) (n : Nat) (j : join_step_t) (h : s.StepIs j) :
    (s.handleRouteRequest H p n).StepIs j := by
  unfold LinkLayer.handleRouteRequest
  repeat
    first
    | apply sj_crash
    | apply sj_sendRoute
    | apply sj_sendRouteMissing
    | split
    | exact h

theorem sj_handleRouteMissing (s : LinkLayer) (p : QByteArray) (n : Nat) (j : join_step_t) (h : s.StepIs j) :
    (s.handleRouteMissing p n).StepIs j := by
  unfold LinkLayer.handleRouteMissing
  repeat
    first
    | split
    | exact h

theorem sj_handleRouteInvalidate (H : Host) (s : LinkLayer) (p : QByteArray) (n : Nat) (j : join_step_t) (h : s.StepIs j) :
    (s.handleRouteInvalidate H p n).StepIs j := by
  unfold LinkLayer.handleRouteInvalidate
  repeat
    first
    | apply sj_setRouter
    | apply sj_setNodeSpool
    | apply sj_delete
    | apply sj_wrapNode
    | split
    | dsimp only
    | exact h

theorem sj_handleRoleUpdate (s : LinkLayer) (p : QByteArray) (n : Nat) (j : join_step_t) (h : s.StepIs j) :
    (s.handleRoleUpdate p n).StepIs j := by
  unfold LinkLayer.handleRoleUpdate
  repeat
    first
    | apply sj_crash
    | apply sj_modifyNode
    | split
    | exact h

theorem sj_reincarnateSomeone (H : Host) (s : LinkLayer) (j : join_step_t) (h : s.StepIs j) :
    (s.reincarnateSomeone H).StepIs j := by
  unfold LinkLayer.reincarnateSomeone
  have hf : ∀ (t : Nat) (l : List Nat) (st : LinkLayer), st.StepIs j →
      (l.foldl (fun st node =>
          if (st.node node).master = false ∧ node ≠ t then
            (st.sendRoute H node t).sendRoute H t node
          else st) st).StepIs j :=
    fun t => sj_foldl j _ (fun st x hst => by
      split
      · exact sj_sendRoute H _ t x j (sj_sendRoute H st x t j hst)
      · exact hst)
  repeat
    first
    | apply hf
    | apply sj_crash
    | apply sj_setRouter
    | apply sj_modifyNode
    | apply sj_sendRoute
    | apply sj_sendRoleUpdate
    | split
    | dsimp only
    | exact h

theorem sj_handleExitNotification (H : Host) (s : LinkLayer) (p : QByteArray) (n : Nat) (j : join_step_t) (h : s.StepIs j) :
    (s.handleExitNotification H p n).StepIs j := by
  unfold LinkLayer.handleExitNotification
  have hf : ∀ (l : List Nat) (st : LinkLayer), st.StepIs j →
      (l.foldl (fun st target => st.sendRouteInvalidate H target n) st).StepIs j :=
    sj_foldl j _ (fun st x hst => sj_sendRouteInvalidate H st x n j hst)
  repeat
    first
    | apply hf
    | apply sj_crash
    | apply sj_setRouter
    | apply sj_setNodeSpool
    | apply sj_delete
    | apply sj_sendRouteInvalidate
    | apply sj_reincarnateSomeone
    | split
    | dsimp only
    | exact h

end StepIs

theorem checkPacketExpection_of_ne (s : LinkLayer) (j : join_step_t) (h : s.joinStep ≠ j) :
    s.checkPacketExpection j = false := by
  unfold LinkLayer.checkPacketExpection
  rw [if_pos h]

theorem step_of_checkPacketExpection (s : LinkLayer) (j : join_step_t)
    (h : ¬ s.checkPacketExpection j = false) : s.joinStep = j := by
  by_cases hj : s.joinStep = j
  · exact hj
  · exact absurd (checkPacketExpection_of_ne s j hj) h

theorem drop_handleProtocolVersionReply (H : Host) (s : LinkLayer) (p : QByteArray) (n : Nat)
    (h : s.joinStep ≠ join_step_t.JoinVersionRequest) :
    s.handleProtocolVersionReply H p n = s := by
  unfold LinkLayer.handleProtocolVersionReply
  rw [checkPacketExpection_of_ne s _ h]
  simp

theorem drop_handleMasterNodeReply (H : Host) (s : LinkLayer) (p : QByteArray) (n : Nat)
    (h : s.joinStep ≠ join_step_t.JoinMasterNodeRequest) :
    s.handleMasterNodeReply H p n = s := by
  unfold LinkLayer.handleMasterNodeReply
  rw [checkPacketExpection_of_ne s _ h]
  simp

theorem drop_handlePing (H : Host) (s : LinkLayer) (p : QByteArray) (n : Nat)
    (h : s.joinStep ≠ join_step_t.JoinAwaitingPings) :
    s.handlePing H p n = s := by
  unfold LinkLayer.handlePing
  rw [checkPacketExpection_of_ne s _ h]
  simp

theorem drop_handleRegisterReply (H : Host) (s : LinkLayer) (p : QByteArray) (n : Nat)
    (h : s.joinStep ≠ join_step_t.JoinRegistration) :
    s.handleRegisterReply H p n = s := by
  unfold LinkLayer.handleRegisterReply
  rw [checkPacketExpection_of_ne s _ h]
  simp

/-- A processed ProtocolVersionReply moves the join from VersionRequest to
MasterNodeRequest. -/
theorem step_handleProtocolVersionReply (H : Host) (s : LinkLayer) (p : QByteArray) (n : Nat) :
    s.handleProtocolVersionReply H p n = s ∨
      (s.joinStep = join_step_t.JoinVersionRequest ∧
        (s.handleProtocolVersionReply H p n).joinStep = join_step_t.JoinMasterNodeRequest) := by
  unfold LinkLayer.handleProtocolVersionReply
  split
  · exact Or.inl rfl
  · split
    · exact Or.inl rfl
    · rename_i _ hstep
      refine Or.inr ⟨step_of_checkPacketExpection s _ hstep, ?_⟩
      exact (sj_setJoinTimer _ _ _ (sj_sendMasterNodeRequest H _ n _ ⟨rfl⟩)).eq

/-- A processed MasterNodeReply moves the join from MasterNodeRequest to
AwaitingPings or to Registration. -/
theorem step_handleMasterNodeReply (H : Host) (s : LinkLayer) (p : QByteArray) (n : Nat) :
    s.handleMasterNodeReply H p n = s ∨
      (s.joinStep = join_step_t.JoinMasterNodeRequest ∧
        ((s.handleMasterNodeReply H p n).joinStep = join_step_t.JoinAwaitingPings ∨
         (s.handleMasterNodeReply H p n).joinStep = join_step_t.JoinRegistration)) := by
  unfold LinkLayer.handleMasterNodeReply
  split
  · exact Or.inl rfl
  · split
    · exact Or.inl rfl
    · rename_i _ hstep
      refine Or.inr ⟨step_of_checkPacketExpection s _ hstep, ?_⟩
      dsimp only
      split
      · exact Or.inl (sj_setJoinTimer _ _ _ (sj_sendPingRequest H _ _ _ _ _ ⟨rfl⟩)).eq
      · exact Or.inr (sj_setJoinTimer _ _ _ (sj_sendRegisterRequest H _ _ _ _ ⟨rfl⟩)).eq

theorem step_joinGotPinged (H : Host) (s : LinkLayer) :
    (s.joinGotPinged H).joinStep = join_step_t.JoinRegistration := by
  unfold LinkLayer.joinGotPinged
  dsimp only
  split
  · rfl
  · exact (sj_setJoinTimer _ _ _ (sj_sendRegisterRequest H _ _ _ _ ⟨rfl⟩)).eq

/-- A processed Ping leaves the join at AwaitingPings or moves it to
Registration. -/
theorem step_handlePing (H : Host) (s : LinkLayer) (p : QByteArray) (n : Nat) :
    s.handlePing H p n = s ∨
      (s.joinStep = join_step_t.JoinAwaitingPings ∧
        ((s.handlePing H p n).joinStep = join_step_t.JoinAwaitingPings ∨
         (s.handlePing H p n).joinStep = join_step_t.JoinRegistration)) := by
  unfold LinkLayer.handlePing
  split
  · exact Or.inl rfl
  · split
    · exact Or.inl rfl
    · rename_i _ hstep
      have hs := step_of_checkPacketExpection s _ hstep
      split
      · exact Or.inl rfl
      · refine Or.inr ⟨hs, ?_⟩
        have key : ∀ s2 : LinkLayer, s2.joinStep = join_step_t.JoinAwaitingPings →
            ((if s2.joinPingsArrived = s2.joinPingsEmitted then s2.joinGotPinged H
                else s2).joinStep = join_step_t.JoinAwaitingPings ∨
             (if s2.joinPingsArrived = s2.joinPingsEmitted then s2.joinGotPinged H
                else s2).joinStep = join_step_t.JoinRegistration) := by
          intro s2 h2
          split
          · exact Or.inr (step_joinGotPinged H s2)
          · exact Or.inl h2
        apply key
        split
        · exact hs
        · split
          · exact hs
          · exact hs

/-- A processed RegisterReply moves the join from Registration to Finished. -/
theorem step_handleRegisterReply (H : Host) (s : LinkLayer) (p : QByteArray) (n : Nat) :
    s.handleRegisterReply H p n = s ∨
      (s.joinStep = join_step_t.JoinRegistration ∧
        (s.handleRegisterReply H p n).joinStep = join_step_t.JoinFinished) := by
  unfold LinkLayer.handleRegisterReply
  split
  · exact Or.inl rfl
  · split
    · exact Or.inl rfl
    · rename_i _ hstep
      exact Or.inr ⟨step_of_checkPacketExpection s _ hstep, rfl⟩

theorem rank_of_stepIs {s t : LinkLayer} (h : t.StepIs s.joinStep) :
    s.joinStep.rank ≤ t.joinStep.rank := by
  rw [h.eq]

theorem rank_of_eq {s t : LinkLayer} (h : t = s) : s.joinStep.rank ≤ t.joinStep.rank := by
  rw [h]

theorem finished_of_rank (j : join_step_t) (h : 4 ≤ j.rank) : j = join_step_t.JoinFinished := by
  cases j
  · exact absurd h (by decide)
  · exact absurd h (by decide)
  · exact absurd h (by decide)
  · exact absurd h (by decide)
  · rfl

theorem rank_handleProtocolVersionReply (H : Host) (s : LinkLayer) (p : QByteArray) (n : Nat) :
    s.joinStep.rank ≤ (s.handleProtocolVersionReply H p n).joinStep.rank := by
  rcases step_handleProtocolVersionReply H s p n with h | ⟨h1, h2⟩
  · exact rank_of_eq h
  · rw [h1, h2]
    decide

theorem rank_handleMasterNodeReply (H : Host) (s : LinkLayer) (p : QByteArray) (n : Nat) :
    s.joinStep.rank ≤ (s.handleMasterNodeReply H p n).joinStep.rank := by
  rcases step_handleMasterNodeReply H s p n with h | ⟨h1, h2 | h2⟩
  · exact rank_of_eq h
  · rw [h1, h2]
    decide
  · rw [h1, h2]
    decide

theorem rank_handlePing (H : Host) (s : LinkLayer) (p : QByteArray) (n : Nat) :
    s.joinStep.rank ≤ (s.handlePing H p n).joinStep.rank := by
  rcases step_handlePing H s p n with h | ⟨h1, h2 | h2⟩
  · exact rank_of_eq h
  · rw [h1, h2]
  · rw [h1, h2]
    decide

theorem rank_handleRegisterReply (H : Host) (s : LinkLayer) (p : QByteArray) (n : Nat) :
    s.joinStep.rank ≤ (s.handleRegisterReply H p n).joinStep.rank := by
  rcases step_handleRegisterReply H s p n with h | ⟨h1, h2⟩
  · exact rank_of_eq h
  · rw [h1, h2]
    decide

theorem rank_handleInner (H : Host) (s : LinkLayer) (type : Nat) (p : QByteArray) (n : Nat) :
    s.joinStep.rank ≤ (s.handleInner H type p n).joinStep.rank := by
  unfold LinkLayer.handleInner
  split
  · exact rank_of_stepIs (sj_handleIntroducePacket H s p n _ ⟨rfl⟩)
  · exact rank_of_stepIs (sj_handleMasterNodeRequest H s p n _ ⟨rfl⟩)
  · exact rank_handleMasterNodeReply H s p n
  · exact rank_of_stepIs (sj_handlePingRequest H s p n _ ⟨rfl⟩)
  · exact rank_of_stepIs (sj_handlePingInitiate H s p n _ ⟨rfl⟩)
  · exact rank_of_stepIs (sj_handleRegisterRequest H s p n _ ⟨rfl⟩)
  · exact rank_handleRegisterReply H s p n
  · exact rank_of_stepIs (sj_handleRoute H s p n _ ⟨rfl⟩)
  · exact rank_of_stepIs (sj_handleRouteRequest H s p n _ ⟨rfl⟩)
  · exact rank_of_stepIs (sj_handleRouteMissing s p n _ ⟨rfl⟩)
  · exact rank_of_stepIs (sj_handleRouteInvalidate H s p n _ ⟨rfl⟩)
  · exact rank_of_stepIs (sj_handleRoleUpdate s p n _ ⟨rfl⟩)
  · exact rank_of_stepIs (sj_handleExitNotification H s p n _ ⟨rfl⟩)
  · exact rank_of_stepIs (sj_deliver s p n _ ⟨rfl⟩)
  · exact Nat.le_refl _

theorem rank_handleEncrypted (H : Host) (s : LinkLayer) (p : QByteArray) (n : Nat) :
    s.joinStep.rank ≤ (s.handleEncrypted H p n).joinStep.rank := by
  unfold LinkLayer.handleEncrypted
  split
  · exact Nat.le_refl _
  · split
    · exact Nat.le_refl _
    · exact rank_handleInner H s _ _ n

theorem rank_handleOuter (H : Host) (s : LinkLayer) (type : Nat) (p : QByteArray) (n : Nat) :
    s.joinStep.rank ≤ (s.handleOuter H type p n).joinStep.rank := by
  unfold LinkLayer.handleOuter
  split
  · exact rank_of_stepIs (sj_handleProtocolVersionRequest H s p n _ ⟨rfl⟩)
  · exact rank_handleProtocolVersionReply H s p n
  · exact rank_of_stepIs (sj_handlePublicKeyExchange H s p n _ ⟨rfl⟩)
  · exact rank_of_stepIs (sj_handleSessionKeyExchange H s p n _ ⟨rfl⟩)
  · exact rank_handlePing H s p n
  · exact rank_handleEncrypted H s p n
  · exact Nat.le_refl _

theorem rank_handlePacket (H : Host) (s : LinkLayer) (data : QByteArray) (host : QHostAddress)
    (port : Nat) : s.joinStep.rank ≤ (s.handlePacket H data host port).joinStep.rank := by
  unfold LinkLayer.handlePacket
  split
  · exact Nat.le_refl _
  · dsimp only
    have h1 := (sj_wrapNode H s host port _ ⟨rfl⟩).eq
    have h2 := rank_handleOuter H (s.wrapNode H host port).2 (hdrType H data)
      (data.drop sizeof_packet_header_t) (s.wrapNode H host port).1
    rw [h1] at h2
    exact h2

/-- Claim C33, join step ordering: ProtocolVersionReply, MasterNodeReply, Ping
and RegisterReply are processed only at the join steps VersionRequest,
MasterNodeRequest, AwaitingPings and Registration; at any other step the
handler returns the state it was given (join state unchanged, nothing sent),
and when it does change the state the step moves forward from the required
one. Handling any datagram never lowers the rank of the join step in the order
VersionRequest < MasterNodeRequest < AwaitingPings < Registration < Finished,
and a Finished join step stays Finished. -/
theorem join_step_ordering (H : Host) (s : LinkLayer) :
    (∀ p n, s.joinStep ≠ join_step_t.JoinVersionRequest →
      s.handleProtocolVersionReply H p n = s) ∧
    (∀ p n, s.joinStep ≠ join_step_t.JoinMasterNodeRequest →
      s.handleMasterNodeReply H p n = s) ∧
    (∀ p n, s.joinStep ≠ join_step_t.JoinAwaitingPings → s.handlePing H p n = s) ∧
    (∀ p n, s.joinStep ≠ join_step_t.JoinRegistration → s.handleRegisterReply H p n = s) ∧
    (∀ p n, s.handleProtocolVersionReply H p n = s ∨
      (s.joinStep = join_step_t.JoinVersionRequest ∧
        (s.handleProtocolVersionReply H p n).joinStep = join_step_t.JoinMasterNodeRequest)) ∧
    (∀ p n, s.handleMasterNodeReply H p n = s ∨
      (s.joinStep = join_step_t.JoinMasterNodeRequest ∧
        ((s.handleMasterNodeReply H p n).joinStep = join_step_t.JoinAwaitingPings ∨
         (s.handleMasterNodeReply H p n).joinStep = join_step_t.JoinRegistration))) ∧
    (∀ p n, s.handlePing H p n = s ∨
      (s.joinStep = join_step_t.JoinAwaitingPings ∧
        ((s.handlePing H p n).joinStep = join_step_t.JoinAwaitingPings ∨
         (s.handlePing H p n).joinStep = join_step_t.JoinRegistration))) ∧
    (∀ p n, s.handleRegisterReply H p n = s ∨
      (s.joinStep = join_step_t.JoinRegistration ∧
        (s.handleRegisterReply H p n).joinStep = join_step_t.JoinFinished)) ∧
    (join_step_t.JoinVersionRequest.rank < join_step_t.JoinMasterNodeRequest.rank ∧
      join_step_t.JoinMasterNodeRequest.rank < join_step_t.JoinAwaitingPings.rank ∧
      join_step_t.JoinAwaitingPings.rank < join_step_t.JoinRegistration.rank ∧
      join_step_t.JoinRegistration.rank < join_step_t.JoinFinished.rank) ∧
    (∀ data host port,
      s.joinStep.rank ≤ (s.handlePacket H data host port).joinStep.rank) ∧
    (s.joinStep = join_step_t.JoinFinished → ∀ data host port,
      (s.handlePacket H data host port).joinStep = join_step_t.JoinFinished) := by
  refine ⟨fun p n h => drop_handleProtocolVersionReply H s p n h,
    fun p n h => drop_handleMasterNodeReply H s p n h,
    fun p n h => drop_handlePing H s p n h,
    fun p n h => drop_handleRegisterReply H s p n h,
    step_handleProtocolVersionReply H s, step_handleMasterNodeReply H s,
    step_handlePing H s, step_handleRegisterReply H s,
    ⟨by decide, by decide, by decide, by decide⟩,
    rank_handlePacket H s, ?_⟩
  intro hfin data host port
  apply finished_of_rank
  have h := rank_handlePacket H s data host port
  rw [hfin] at h
  exact h

set_option maxRecDepth 100000 in
/-- Instance of claim C33: a joiner that awaits its fourth ping drops a
RegisterReply, moves on to Registration at the fourth ping, and a member of a
running network keeps the step Finished when a ProtocolVersionReply arrives. -/
theorem join_step_ordering_witness :
    exampleAwaitingPings.joinStep = join_step_t.JoinAwaitingPings ∧
    exampleAwaitingPings.handleRegisterReply (exampleHost Endian.little)
      (List.replicate 18 0) 0 = exampleAwaitingPings ∧
    (exampleAwaitingPings.handlePacket (exampleHost Endian.little)
      (frame (exampleHost Endian.little) packet_type_t.Ping [2, 0, 0, 10, 160, 15])
      167772161 1801).joinStep = join_step_t.JoinRegistration ∧
    (exampleNetwork 2 2 2).joinStep = join_step_t.JoinFinished ∧
    ((exampleNetwork 2 2 2).handlePacket (exampleHost Endian.little)
      (frame (exampleHost Endian.little) packet_type_t.ProtocolVersionReply [1, 0, 0, 0])
      167772161 1801).joinStep = join_step_t.JoinFinished :=
  ⟨by decide,
   (join_step_ordering (exampleHost Endian.little) exampleAwaitingPings).2.2.2.1
     (List.replicate 18 0) 0 (by decide),
   by decide,
   by decide,
   (join_step_ordering (exampleHost Endian.little) (exampleNetwork 2 2 2)).2.2.2.2.2.2.2.2.2.2
     (by decide) _ _ _⟩

/-! ## Where the overlay identity of a record comes from (C31) -/

theorem sparkleIP_of_core {s t : LinkLayer} (h : t.core = s.core) (n : Nat) :
    (t.node n).sparkleIP = (s.node n).sparkleIP := by
  have := congrArg SparkleNode.sparkleIP (node_core_eq h n)
  exact this

theorem mac_of_core {s t : LinkLayer} (h : t.core = s.core) (n : Nat) :
    (t.node n).mac = (s.node n).mac := by
  have := congrArg SparkleNode.mac (node_core_eq h n)
  exact this

/-- What `handleIntroducePacket` leaves in the record of the sender when that
record has no MAC yet and is not in the router: the overlay address and MAC of
the packet, beside the key the record had. -/
theorem handleIntroducePacket_installs (H : Host) (s : LinkLayer) (payload : QByteArray)
    (node : Nat) (hsize : payload.length = sizeof_introduce_packet_t)
    (hv : node < s.heap.length) (hmac : (s.node node).mac = []) (hnot : node ∉ s.getNodes) :
    ((s.handleIntroducePacket H payload node).node node).sparkleIP = fieldAt H payload 0 4 ∧
    ((s.handleIntroducePacket H payload node).node node).mac = (payload.drop 4).take 6 ∧
    ((s.handleIntroducePacket H payload node).node node).keyPair = (s.node node).keyPair := by
  have hcheck : ¬ checkPacketSize payload sizeof_introduce_packet_t
      packet_size_class_t.PacketSizeEqual = false := by
    rw [checkPacketSize_equal payload _ hsize]
    decide
  have hgo : ¬ ((s.node node).mac.length > 0 ∨ node ∈ s.getNodes) := by
    rintro (h | h)
    · rw [hmac] at h
      exact absurd h (by decide)
    · exact hnot h
  unfold LinkLayer.handleIntroducePacket
  rw [if_neg hcheck, if_neg hgo]
  dsimp only
  rw [node_setRouter, node_modifyNode_same s node _ hv]
  exact ⟨rfl, rfl, rfl⟩

theorem handleIntroducePacket_of_known (H : Host) (s : LinkLayer) (payload : QByteArray)
    (node : Nat) (h : (s.node node).mac.length > 0 ∨ node ∈ s.getNodes) :
    s.handleIntroducePacket H payload node = s := by
  unfold LinkLayer.handleIntroducePacket
  rw [if_pos h]
  split <;> rfl

/-- What `handleRoute` leaves in the record the packet names: the overlay
address and MAC of the packet, beside the key the record had. -/
theorem handleRoute_installs (H : Host) (s : LinkLayer) (payload : QByteArray) (node : Nat)
    (hsize : payload.length = sizeof_route_t)
    (hspool : ∀ n ∈ s.nodeSpool, n < s.heap.length)
    (hauth : (s.node node).master = true ∨ s.router.selfNode = none)
    (hnself : s.router.selfNode ≠ some (s.routeTarget H payload)) :
    ((s.handleRoute H payload node).node (s.routeTarget H payload)).sparkleIP =
      fieldAt H payload 6 4 ∧
    ((s.handleRoute H payload node).node (s.routeTarget H payload)).mac =
      (payload.drop 10).take 6 ∧
    ((s.handleRoute H payload node).node (s.routeTarget H payload)).keyPair =
      ((s.wrapNode H (fieldAt H payload 0 4) (fieldAt H payload 4 2)).2.node
        (s.routeTarget H payload)).keyPair := by
  have hw := wrapNode_spec H s (fieldAt H payload 0 4) (fieldAt H payload 4 2) hspool
  have hwr := wrapNode_router H s (fieldAt H payload 0 4) (fieldAt H payload 4 2)
  have hcheck : ¬ checkPacketSize payload sizeof_route_t packet_size_class_t.PacketSizeEqual =
      false := by
    rw [checkPacketSize_equal payload _ hsize]
    decide
  have hno : ¬ ((s.node node).master = false ∧ s.router.selfNode ≠ none) := by
    rintro ⟨h1, h2⟩
    rcases hauth with h | h
    · rw [h1] at h
      cases h
    · exact h2 h
  have hnself2 : s.router.selfNode ≠
      some (s.wrapNode H (fieldAt H payload 0 4) (fieldAt H payload 4 2)).1 := hnself
  have hres : (s.handleRoute H payload node).node (s.routeTarget H payload) =
      ((s.wrapNode H (fieldAt H payload 0 4) (fieldAt H payload 4 2)).2.modifyNode
        (s.routeTarget H payload) (fun n =>
          { n with sparkleIP := fieldAt H payload 6 4, mac := (payload.drop 10).take 6,
                   master := decide (payload.getD 16 0 ≠ 0),
                   behindNAT := decide (payload.getD 17 0 ≠ 0) })).node
        (s.routeTarget H payload) := by
    unfold LinkLayer.handleRoute
    rw [if_neg hcheck, if_neg hno]
    dsimp only
    rw [hwr, if_neg hnself2, node_setRouter]
    rfl
  have hsame := node_modifyNode_same (s.wrapNode H (fieldAt H payload 0 4)
    (fieldAt H payload 4 2)).2 (s.routeTarget H payload) (fun n =>
          { n with sparkleIP := fieldAt H payload 6 4, mac := (payload.drop 10).take 6,
                   master := decide (payload.getD 16 0 ≠ 0),
                   behindNAT := decide (payload.getD 17 0 ≠ 0) }) hw.1
  rw [hres, hsame]
  exact ⟨rfl, rfl, rfl⟩

/-- What `handleRegisterRequest` leaves in the record of the registering peer
on a master: the overlay address and MAC computed from the record's key. -/
theorem handleRegisterRequest_derives (H : Host) (s : LinkLayer) (payload : QByteArray)
    (node self : Nat) (hlen : payload.length = sizeof_register_request_t)
    (hself : s.router.selfNode = some self) (hmaster : (s.node self).master = true)
    (hv : node < s.heap.length) :
    ((s.handleRegisterRequest H payload node).node node).sparkleIP =
      ((s.node node).configureByKey H).sparkleIP ∧
    ((s.handleRegisterRequest H payload node).node node).mac =
      ((s.node node).configureByKey H).mac ∧
    ((s.handleRegisterRequest H payload node).node node).keyPair = (s.node node).keyPair := by
  rw [handleRegisterRequest_eq H s payload node self hlen hself hmaster]
  have h1 := core_sendEncryptedPacket H
    (((s.enrolled H (decide (payload.getD 0 0 ≠ 0)) node).sendAll H
        ((s.enrolled H (decide (payload.getD 0 0 ≠ 0)) node).registrationGossip H
          (if ((s.enrolled H (decide (payload.getD 0 0 ≠ 0)) node).node node).master then
            (s.enrolled H (decide (payload.getD 0 0 ≠ 0)) node).getOtherNodes
          else (s.enrolled H (decide (payload.getD 0 0 ≠ 0)) node).getOtherMasters)
          node self)).setRouter (s.router.updateNode node))
    packet_type_t.RegisterReply
    (registerReplyBytes H ((s.enrolled H (decide (payload.getD 0 0 ≠ 0)) node).node node)
      s.networkDivisor) node
  have h2 := core_sendAll H
    ((s.enrolled H (decide (payload.getD 0 0 ≠ 0)) node).registrationGossip H
      (if ((s.enrolled H (decide (payload.getD 0 0 ≠ 0)) node).node node).master then
        (s.enrolled H (decide (payload.getD 0 0 ≠ 0)) node).getOtherNodes
      else (s.enrolled H (decide (payload.getD 0 0 ≠ 0)) node).getOtherMasters) node self)
    (s.enrolled H (decide (payload.getD 0 0 ≠ 0)) node)
  have he : (s.enrolled H (decide (payload.getD 0 0 ≠ 0)) node).node node =
      { (s.node node).configureByKey H with
          behindNAT := decide (payload.getD 0 0 ≠ 0),
          master := s.registerRole (decide (payload.getD 0 0 ≠ 0)) } :=
    node_modifyNode_same s node _ hv
  refine ⟨?_, ?_, ?_⟩
  · rw [sparkleIP_of_core h1, node_setRouter, sparkleIP_of_core h2, he]
  · rw [mac_of_core h1, node_setRouter, mac_of_core h2, he]
  · rw [keyPair_of_core h1, node_setRouter, keyPair_of_core h2, he]
    rfl

/-- The claim C31 as it is stated fails: the bootstrap peer of a joining link
layer has completed the key exchange, so its record holds its public key, and
then sends an IntroducePacket with the overlay address 1.2.3.4 and the MAC
09:09:09:09:09:09. The record keeps its key and is left with that address and
MAC, not with the ones computed from the hash of the key. -/
theorem introduce_overrides_derived_identity :
    (exampleAwaitingFirstPing.node 0).areKeysNegotiated = true ∧
    ((exampleAwaitingFirstPing.handlePacket (exampleHost Endian.little)
      (frame (exampleHost Endian.little) packet_type_t.EncryptedPacket
        (frame (exampleHost Endian.little) packet_type_t.IntroducePacket
          [4, 3, 2, 1, 9, 9, 9, 9, 9, 9])) 167772161 1801).node 0).keyPair =
      (exampleAwaitingFirstPing.node 0).keyPair ∧
    ((exampleAwaitingFirstPing.handlePacket (exampleHost Endian.little)
      (frame (exampleHost Endian.little) packet_type_t.EncryptedPacket
        (frame (exampleHost Endian.little) packet_type_t.IntroducePacket
          [4, 3, 2, 1, 9, 9, 9, 9, 9, 9])) 167772161 1801).node 0).sparkleIP = 16909060 ∧
    ((exampleAwaitingFirstPing.handlePacket (exampleHost Endian.little)
      (frame (exampleHost Endian.little) packet_type_t.EncryptedPacket
        (frame (exampleHost Endian.little) packet_type_t.IntroducePacket
          [4, 3, 2, 1, 9, 9, 9, 9, 9, 9])) 167772161 1801).node 0).mac = [9, 9, 9, 9, 9, 9] ∧
    (((exampleAwaitingFirstPing.handlePacket (exampleHost Endian.little)
      (frame (exampleHost Endian.little) packet_type_t.EncryptedPacket
        (frame (exampleHost Endian.little) packet_type_t.IntroducePacket
          [4, 3, 2, 1, 9, 9, 9, 9, 9, 9])) 167772161 1801).node 0).configureByKey
      (exampleHost Endian.little)).sparkleIP = 235078145 ∧
    (((exampleAwaitingFirstPing.handlePacket (exampleHost Endian.little)
      (frame (exampleHost Endian.little) packet_type_t.EncryptedPacket
        (frame (exampleHost Endian.little) packet_type_t.IntroducePacket
          [4, 3, 2, 1, 9, 9, 9, 9, 9, 9])) 167772161 1801).node 0).configureByKey
      (exampleHost Endian.little)).mac = [2, 1, 2, 3, 4, 5] := by
  decide

/-- Claim C31, as the code has it: `handleIntroducePacket` (for a sender
without a MAC that is not in the router), `handleRoute` (for the record the
packet names, when it is not the self node and the sender is a master or the
self node is unset) and `handleRegisterReply` (at the step Registration, for
the self record) leave the record with the overlay address and MAC that the
packet carries, whatever its key, and do not change the key
(`handleRegisterReply` installs the key pair of the host); so the record is
left with the address and MAC computed from its key exactly when the packet
carries these. A record that has a MAC or is in the router is not touched by
`handleIntroducePacket`. The address computed from a key is the bytes
`fp[0], fp[1], fp[2], 14` read as a number in the byte order of the host, and
the MAC is `0x02 ∥ fp[0..5)`, for `fp` the SHA1 of the public key;
`handleRegisterRequest` on a master leaves the registering record with
these. -/
theorem identity_carried_by_packet (H : Host) (s : LinkLayer) (payload : QByteArray)
    (node : Nat) (hspool : ∀ n ∈ s.nodeSpool, n < s.heap.length) (hv : node < s.heap.length) :
    (∀ r : SparkleNode,
      (r.configureByKey H).sparkleIP = hostValue H.endian
        [(H.calculateSHA1 r.keyPair.publicKey).getD 0 0,
         (H.calculateSHA1 r.keyPair.publicKey).getD 1 0,
         (H.calculateSHA1 r.keyPair.publicKey).getD 2 0, 14] ∧
      (r.configureByKey H).mac = [2] ++ (H.calculateSHA1 r.keyPair.publicKey).take 5) ∧
    (payload.length = sizeof_introduce_packet_t → (s.node node).mac = [] →
      node ∉ s.getNodes →
        ((s.handleIntroducePacket H payload node).node node).sparkleIP =
          fieldAt H payload 0 4 ∧
        ((s.handleIntroducePacket H payload node).node node).mac = (payload.drop 4).take 6 ∧
        ((s.handleIntroducePacket H payload node).node node).keyPair =
          (s.node node).keyPair ∧
        ((((s.handleIntroducePacket H payload node).node node).sparkleIP =
            (((s.handleIntroducePacket H payload node).node node).configureByKey H).sparkleIP ∧
          ((s.handleIntroducePacket H payload node).node node).mac =
            (((s.handleIntroducePacket H payload node).node node).configureByKey H).mac) ↔
          (fieldAt H payload 0 4 =
            (((s.handleIntroducePacket H payload node).node node).configureByKey H).sparkleIP ∧
          (payload.drop 4).take 6 =
            (((s.handleIntroducePacket H payload node).node node).configureByKey H).mac))) ∧
    (((s.node node).mac.length > 0 ∨ node ∈ s.getNodes) →
      s.handleIntroducePacket H payload node = s) ∧
    (payload.length = sizeof_route_t →
      ((s.node node).master = true ∨ s.router.selfNode = none) →
      s.router.selfNode ≠ some (s.routeTarget H payload) →
        ((s.handleRoute H payload node).node (s.routeTarget H payload)).sparkleIP =
          fieldAt H payload 6 4 ∧
        ((s.handleRoute H payload node).node (s.routeTarget H payload)).mac =
          (payload.drop 10).take 6 ∧
        ((s.handleRoute H payload node).node (s.routeTarget H payload)).keyPair =
          ((s.wrapNode H (fieldAt H payload 0 4) (fieldAt H payload 4 2)).2.node
            (s.routeTarget H payload)).keyPair ∧
        ((((s.handleRoute H payload node).node (s.routeTarget H payload)).sparkleIP =
            (((s.handleRoute H payload node).node
              (s.routeTarget H payload)).configureByKey H).sparkleIP ∧
          ((s.handleRoute H payload node).node (s.routeTarget H payload)).mac =
            (((s.handleRoute H payload node).node
              (s.routeTarget H payload)).configureByKey H).mac) ↔
          (fieldAt H payload 6 4 =
            (((s.handleRoute H payload node).node
              (s.routeTarget H payload)).configureByKey H).sparkleIP ∧
          (payload.drop 10).take 6 =
            (((s.handleRoute H payload node).node
              (s.routeTarget H payload)).configureByKey H).mac))) ∧
    (payload.length = sizeof_register_reply_t → s.joinStep = join_step_t.JoinRegistration →
      ∃ self, (s.handleRegisterReply H payload node).router.selfNode = some self ∧
        ((s.handleRegisterReply H payload node).node self).sparkleIP = fieldAt H payload 0 4 ∧
        ((s.handleRegisterReply H payload node).node self).mac = (payload.drop 4).take 6 ∧
        ((s.handleRegisterReply H payload node).node self).keyPair = s.hostKeyPair ∧
        ((((s.handleRegisterReply H payload node).node self).sparkleIP =
            (((s.handleRegisterReply H payload node).node self).configureByKey H).sparkleIP ∧
          ((s.handleRegisterReply H payload node).node self).mac =
            (((s.handleRegisterReply H payload node).node self).configureByKey H).mac) ↔
          (fieldAt H payload 0 4 =
            (((s.handleRegisterReply H payload node).node self).configureByKey H).sparkleIP ∧
          (payload.drop 4).take 6 =
            (((s.handleRegisterReply H payload node).node self).configureByKey H).mac))) ∧
    (payload.length = sizeof_register_request_t →
      ∀ self, s.router.selfNode = some self → (s.node self).master = true →
        ((s.handleRegisterRequest H payload node).node node).sparkleIP =
          ((s.node node).configureByKey H).sparkleIP ∧
        ((s.handleRegisterRequest H payload node).node node).mac =
          ((s.node node).configureByKey H).mac ∧
        ((s.handleRegisterRequest H payload node).node node).keyPair =
          (s.node node).keyPair) := by
  refine ⟨fun r => ⟨rfl, rfl⟩, ?_, ?_, ?_, ?_, ?_⟩
  · intro hlen hmac hnot
    obtain ⟨h1, h2, h3⟩ := handleIntroducePacket_installs H s payload node hlen hv hmac hnot
    refine ⟨h1, h2, h3, ?_⟩
    rw [h1, h2]
  · intro h
    exact handleIntroducePacket_of_known H s payload node h
  · intro hlen hauth hnself
    obtain ⟨h1, h2, h3⟩ := handleRoute_installs H s payload node hlen hspool hauth hnself
    refine ⟨h1, h2, h3, ?_⟩
    rw [h1, h2]
  · intro hlen hstep
    obtain ⟨self, _, hself, _, _, hip, hmac, _, hkey, _⟩ :=
      handleRegisterReply_spec H s payload node hlen hstep hspool
    refine ⟨self, hself, hip, hmac, hkey, ?_⟩
    rw [hip, hmac]
  · intro hlen self hself hmaster
    exact handleRegisterRequest_derives H s payload node self hlen hself hmaster hv

set_option maxRecDepth 100000 in
/-- Instance of `identity_carried_by_packet`: the bootstrap peer of a joining
link layer, whose record has no MAC and is not in the router, introduces
itself with the overlay address 1.2.3.4 and the MAC 09:09:09:09:09:09; the
record is left with these, not with the values computed from its key. -/
theorem identity_carried_by_packet_witness :
    (∀ n ∈ exampleAwaitingFirstPing.nodeSpool, n < exampleAwaitingFirstPing.heap.length) ∧
    0 < exampleAwaitingFirstPing.heap.length ∧
    ((exampleAwaitingFirstPing.handleIntroducePacket (exampleHost Endian.little)
      [4, 3, 2, 1, 9, 9, 9, 9, 9, 9] 0).node 0).sparkleIP = 16909060 ∧
    ((exampleAwaitingFirstPing.handleIntroducePacket (exampleHost Endian.little)
      [4, 3, 2, 1, 9, 9, 9, 9, 9, 9] 0).node 0).mac = [9, 9, 9, 9, 9, 9] ∧
    ((exampleAwaitingFirstPing.handleIntroducePacket (exampleHost Endian.little)
      [4, 3, 2, 1, 9, 9, 9, 9, 9, 9] 0).node 0).keyPair =
      (exampleAwaitingFirstPing.node 0).keyPair ∧
    ¬ (((exampleAwaitingFirstPing.handleIntroducePacket (exampleHost Endian.little)
        [4, 3, 2, 1, 9, 9, 9, 9, 9, 9] 0).node 0).sparkleIP =
        (((exampleAwaitingFirstPing.handleIntroducePacket (exampleHost Endian.little)
          [4, 3, 2, 1, 9, 9, 9, 9, 9, 9] 0).node 0).configureByKey
          (exampleHost Endian.little)).sparkleIP ∧
      ((exampleAwaitingFirstPing.handleIntroducePacket (exampleHost Endian.little)
        [4, 3, 2, 1, 9, 9, 9, 9, 9, 9] 0).node 0).mac =
        (((exampleAwaitingFirstPing.handleIntroducePacket (exampleHost Endian.little)
          [4, 3, 2, 1, 9, 9, 9, 9, 9, 9] 0).node 0).configureByKey
          (exampleHost Endian.little)).mac) :=
  ⟨by decide, by decide,
   ((identity_carried_by_packet (exampleHost Endian.little) exampleAwaitingFirstPing
     [4, 3, 2, 1, 9, 9, 9, 9, 9, 9] 0 (by decide) (by decide)).2.1 (by decide) (by decide)
     (by decide)).1,
   ((identity_carried_by_packet (exampleHost Endian.little) exampleAwaitingFirstPing
     [4, 3, 2, 1, 9, 9, 9, 9, 9, 9] 0 (by decide) (by decide)).2.1 (by decide) (by decide)
     (by decide)).2.1,
   ((identity_carried_by_packet (exampleHost Endian.little) exampleAwaitingFirstPing
     [4, 3, 2, 1, 9, 9, 9, 9, 9, 9] 0 (by decide) (by decide)).2.1 (by decide) (by decide)
     (by decide)).2.2.1,
   fun h => absurd
     ((((identity_carried_by_packet (exampleHost Endian.little) exampleAwaitingFirstPing
       [4, 3, 2, 1, 9, 9, 9, 9, 9, 9] 0 (by decide) (by decide)).2.1 (by decide) (by decide)
       (by decide)).2.2.2).mp h).1 (by decide)⟩

/-! ## RSA encryption in blocks (C35, C36) -/

theorem overwrite_length (buf w : QByteArray) : (overwrite buf w).length = buf.length := by
  unfold overwrite
  simp only [List.length_take, List.length_append, List.length_drop]
  omega

theorem right_of_pos (a : QByteArray) (n : Nat) (hpos : 0 < n) (hn : n ≤ a.length) :
    a.right ((a.length : Int) - (n : Int)) = a.drop n := by
  unfold QByteArray.right
  rw [if_neg (by omega), if_neg (by omega)]
  congr 1
  omega

theorem right_of_nonpos (a : QByteArray) (n : Int) (hn : n ≤ 0) :
    a.right ((a.length : Int) - n) = a := by
  unfold QByteArray.right
  rw [if_pos (by omega)]

theorem right_all (a : QByteArray) (n : Int) (hn : (a.length : Int) ≤ n) :
    a.right ((a.length : Int) - n) = [] := by
  unfold QByteArray.right
  split
  · exact List.length_eq_zero.mp (by omega)
  · split
    · rfl
    · apply List.drop_of_length_le
      omega

/-- The body of the loop of `encrypt` for a modulus above eleven bytes: it
encrypts the first `rsize - 11` bytes of the plaintext, or all of it when it is
shorter, appends `rsize` bytes of the buffer, and drops what it encrypted. -/
theorem encryptStep_of_large (P : Pkcs1) (k : RSAKeyPair) (st : EncryptState)
    (hlen : 11 < k.rsize) :
    k.encryptStep P st =
      { plaintext := st.plaintext.drop (k.rsize - 11).toNat,
        output := st.output ++
          (overwrite st.chunk (P.rsa_pkcs1_encrypt k st.calls
            (st.plaintext.take (k.rsize - 11).toNat))).take k.rsize.toNat,
        chunk := overwrite st.chunk (P.rsa_pkcs1_encrypt k st.calls
            (st.plaintext.take (k.rsize - 11).toNat)),
        calls := st.calls + 1 } := by
  unfold RSAKeyPair.encryptStep
  dsimp only
  by_cases hc : (st.plaintext.length : Int) ≤ k.rsize - 11
  · rw [min_eq_right hc]
    have h1 : st.plaintext.take (st.plaintext.length : Int).toNat =
        st.plaintext.take (k.rsize - 11).toNat := by
      rw [List.take_of_length_le (by omega), List.take_of_length_le (by omega)]
    have h2 : st.plaintext.right ((st.plaintext.length : Int) - (st.plaintext.length : Int)) =
        st.plaintext.drop (k.rsize - 11).toNat := by
      rw [right_all _ _ (Int.le_refl _), List.drop_of_length_le (by omega)]
    rw [h1, h2]
  · have hc2 : k.rsize - 11 ≤ (st.plaintext.length : Int) := by omega
    rw [min_eq_left hc2]
    have h2 : st.plaintext.right ((st.plaintext.length : Int) - (k.rsize - 11)) =
        st.plaintext.drop (k.rsize - 11).toNat := by
      have := right_of_pos st.plaintext (k.rsize - 11).toNat (by omega) (by omega)
      rw [← this]
      congr 1
      omega
    rw [h2]

/-- The body of the loop of `encrypt` for a modulus of at most eleven bytes
leaves the plaintext as it is. -/
theorem encryptStep_of_small (P : Pkcs1) (k : RSAKeyPair) (st : EncryptState)
    (hlen : k.rsize ≤ 11) : (k.encryptStep P st).plaintext = st.plaintext := by
  unfold RSAKeyPair.encryptStep
  dsimp only
  apply right_of_nonpos
  have : k.rsize - 11 ≤ (st.plaintext.length : Int) := by omega
  rw [min_eq_left this]
  omega

theorem chunksAux_fuel (n : Nat) (hn : 0 < n) : ∀ (f g : Nat) (p : QByteArray),
    p.length ≤ f → p.length ≤ g → chunksAux n f p = chunksAux n g p := by
  intro f
  induction f with
  | zero =>
    intro g p hp _
    have : p = [] := List.length_eq_zero.mp (by omega)
    subst this
    cases g <;> rfl
  | succ f ih =>
    intro g p hp hg
    cases p with
    | nil => cases g <;> rfl
    | cons a t =>
      cases g with
      | zero => exact absurd hg (by simp)
      | succ g =>
        have h1 : ((a :: t).drop n).length ≤ f := by
          simp only [List.length_drop, List.length_cons] at *
          omega
        have h2 : ((a :: t).drop n).length ≤ g := by
          simp only [List.length_drop, List.length_cons] at *
          omega
        unfold chunksAux
        rw [if_neg (by simp), if_neg (by simp), ih g _ h1 h2]

theorem chunks_nil (n : Nat) : chunks n [] = [] := rfl

theorem chunks_cons (n : Nat) (hn : 0 < n) (p : QByteArray) (hp : p ≠ []) :
    chunks n p = p.take n :: chunks n (p.drop n) := by
  cases p with
  | nil => exact absurd rfl hp
  | cons a t =>
    have h2 : ((a :: t).drop n).length ≤ t.length := by
      simp only [List.length_drop, List.length_cons] at *
      omega
    show chunksAux n (t.length + 1) (a :: t) = _
    unfold chunksAux
    rw [if_neg (by simp), chunksAux_fuel n hn _ _ _ h2 (Nat.le_refl _)]
    rfl

/-- Facts about `chunks`, by induction on the length of the array: the
chunks put together are the array, each is non-empty and has at most `n`
bytes, and there are `ceil(length / n)` of them. -/
theorem chunks_spec (n : Nat) (hn : 0 < n) : ∀ (l : Nat) (p : QByteArray), p.length ≤ l →
    (chunks n p).flatten = p ∧ (∀ c ∈ chunks n p, c ≠ [] ∧ c.length ≤ n) ∧
    (chunks n p).length = ceilDiv p.length n := by
  intro l
  induction l with
  | zero =>
    intro p hp
    have : p = [] := List.length_eq_zero.mp (by omega)
    subst this
    refine ⟨rfl, fun c hc => absurd hc (List.not_mem_nil c), ?_⟩
    show 0 = (0 + n - 1) / n
    rw [Nat.div_eq_of_lt (by omega)]
  | succ l ih =>
    intro p hp
    by_cases hnil : p = []
    · subst hnil
      refine ⟨rfl, fun c hc => absurd hc (List.not_mem_nil c), ?_⟩
      show 0 = (0 + n - 1) / n
      rw [Nat.div_eq_of_lt (by omega)]
    · have hpos : 0 < p.length := List.length_pos.mpr hnil
      have hd : (p.drop n).length ≤ l := by
        rw [List.length_drop]
        omega
      obtain ⟨h1, h2, h3⟩ := ih (p.drop n) hd
      rw [chunks_cons n hn p hnil]
      refine ⟨?_, ?_, ?_⟩
      · rw [List.flatten_cons, h1, List.take_append_drop]
      · intro c hc
        rcases List.mem_cons.mp hc with h | h
        · subst h
          refine ⟨?_, ?_⟩
          · intro h0
            have := congrArg List.length h0
            rw [List.length_take] at this
            simp only [List.length_nil] at this
            omega
          · rw [List.length_take]
            omega
        · exact h2 c h
      · rw [List.length_cons, h3, List.length_drop]
        unfold ceilDiv
        by_cases hle : p.length ≤ n
        · have e1 : p.length - n + n - 1 = n - 1 := by omega
          rw [e1, Nat.div_eq_of_lt (by omega)]
          have e2 : p.length + n - 1 = (p.length - 1) + n := by omega
          rw [e2, Nat.add_div_right _ hn, Nat.div_eq_of_lt (by omega)]
        · have e1 : p.length + n - 1 = (p.length - n + n - 1) + n := by omega
          rw [e1, Nat.add_div_right _ hn]

theorem blocksOf_cons (P : Pkcs1) (k : RSAKeyPair) (c : QByteArray) (cs : List QByteArray)
    (buf : QByteArray) (rng : Nat) :
    blocksOf P k (c :: cs) buf rng =
      (overwrite buf (P.rsa_pkcs1_encrypt k rng c)).take k.rsize.toNat ::
        blocksOf P k cs (overwrite buf (P.rsa_pkcs1_encrypt k rng c)) (rng + 1) := rfl

theorem blocksOf_spec (P : Pkcs1) (k : RSAKeyPair) : ∀ (cs : List QByteArray)
    (buf : QByteArray) (rng : Nat), buf.length = k.rsize.toNat →
    (blocksOf P k cs buf rng).length = cs.length ∧
    (∀ b ∈ blocksOf P k cs buf rng, b.length = k.rsize.toNat) ∧
    (blocksOf P k cs buf rng).flatten.length = cs.length * k.rsize.toNat := by
  intro cs
  induction cs with
  | nil =>
    intro buf rng _
    refine ⟨rfl, fun b hb => absurd hb (List.not_mem_nil b), ?_⟩
    simp [blocksOf]
  | cons c cs ih =>
    intro buf rng hbuf
    have hb2 : (overwrite buf (P.rsa_pkcs1_encrypt k rng c)).length = k.rsize.toNat := by
      rw [overwrite_length, hbuf]
    have hb3 : ((overwrite buf (P.rsa_pkcs1_encrypt k rng c)).take k.rsize.toNat).length =
        k.rsize.toNat := by
      rw [List.length_take, hb2, Nat.min_self]
    obtain ⟨h1, h2, h3⟩ := ih (overwrite buf (P.rsa_pkcs1_encrypt k rng c)) (rng + 1) hb2
    rw [blocksOf_cons]
    refine ⟨?_, ?_, ?_⟩
    · rw [List.length_cons, h1, List.length_cons]
    · intro b hb
      rcases List.mem_cons.mp hb with h | h
      · rw [h]
        exact hb3
      · exact h2 b h
    · rw [List.flatten_cons, List.length_append, h3, hb3, List.length_cons, Nat.succ_mul]
      omega

/-- The loop of `encrypt` for a modulus above eleven bytes ends when it is
given more tests than there are chunks, with one block per chunk appended to
the output. -/
theorem encryptLoop_of_fuel (P : Pkcs1) (k : RSAKeyPair) (hlen : 11 < k.rsize) :
    ∀ (fuel : Nat) (st : EncryptState),
    (chunks (k.rsize - 11).toNat st.plaintext).length < fuel →
    RSAKeyPair.encryptLoop P k fuel st = some (st.output ++
      (blocksOf P k (chunks (k.rsize - 11).toNat st.plaintext) st.chunk st.calls).flatten) := by
  have hm : 0 < (k.rsize - 11).toNat := by omega
  intro fuel
  induction fuel with
  | zero => intro st h; exact absurd h (Nat.not_lt_zero _)
  | succ fuel ih =>
    intro st h
    unfold RSAKeyPair.encryptLoop
    by_cases hp : st.plaintext = []
    · rw [if_neg (by rw [hp]; decide), hp, chunks_nil]
      simp [blocksOf]
    · rw [if_pos (List.length_pos.mpr hp)]
      rw [chunks_cons _ hm _ hp] at h ⊢
      rw [List.length_cons] at h
      rw [encryptStep_of_large P k st hlen, ih _ (by exact Nat.lt_of_succ_lt_succ h),
        blocksOf_cons, List.flatten_cons, List.append_assoc]

/-- The loop of `encrypt` for a modulus above eleven bytes has not ended when
it is given no more tests than there are chunks. -/
theorem encryptLoop_of_short_fuel (P : Pkcs1) (k : RSAKeyPair) (hlen : 11 < k.rsize) :
    ∀ (fuel : Nat) (st : EncryptState),
    fuel ≤ (chunks (k.rsize - 11).toNat st.plaintext).length →
    RSAKeyPair.encryptLoop P k fuel st = none := by
  have hm : 0 < (k.rsize - 11).toNat := by omega
  intro fuel
  induction fuel with
  | zero => intro st _; rfl
  | succ fuel ih =>
    intro st h
    unfold RSAKeyPair.encryptLoop
    by_cases hp : st.plaintext = []
    · rw [hp, chunks_nil] at h
      exact absurd h (by simp)
    · rw [if_pos (List.length_pos.mpr hp)]
      rw [chunks_cons _ hm _ hp, List.length_cons] at h
      rw [encryptStep_of_large P k st hlen]
      exact ih _ (Nat.le_of_succ_le_succ h)

/-- The loop of `encrypt` for a modulus of at most eleven bytes never ends on
a plaintext that is not empty. -/
theorem encryptLoop_of_small (P : Pkcs1) (k : RSAKeyPair) (hlen : k.rsize ≤ 11) :
    ∀ (fuel : Nat) (st : EncryptState), st.plaintext ≠ [] →
    RSAKeyPair.encryptLoop P k fuel st = none := by
  intro fuel
  induction fuel with
  | zero => intro st _; rfl
  | succ fuel ih =>
    intro st hp
    unfold RSAKeyPair.encryptLoop
    rw [if_pos (List.length_pos.mpr hp)]
    apply ih
    rw [encryptStep_of_small P k st hlen]
    exact hp

theorem iterate_encryptStep (P : Pkcs1) (k : RSAKeyPair) (hlen : 11 < k.rsize) :
    ∀ (j : Nat) (st : EncryptState),
    (Nat.iterate (k.encryptStep P) j st).plaintext =
      st.plaintext.drop (j * (k.rsize - 11).toNat) := by
  intro j
  induction j with
  | zero => intro st; simp
  | succ j ih =>
    intro st
    rw [Function.iterate_succ_apply, ih, encryptStep_of_large P k st hlen, List.drop_drop,
      Nat.succ_mul]
    congr 1
    omega

theorem iterate_encryptStep_small (P : Pkcs1) (k : RSAKeyPair) (hlen : k.rsize ≤ 11) :
    ∀ (j : Nat) (st : EncryptState),
    (Nat.iterate (k.encryptStep P) j st).plaintext = st.plaintext := by
  intro j
  induction j with
  | zero => intro st; rfl
  | succ j ih =>
    intro st
    rw [Function.iterate_succ_apply, ih, encryptStep_of_small P k st hlen]

theorem lt_ceilDiv_iff (n m j : Nat) (hm : 0 < m) : j < ceilDiv n m ↔ j * m < n := by
  unfold ceilDiv
  rw [Nat.lt_iff_add_one_le, Nat.le_div_iff_mul_le hm, Nat.add_mul, Nat.one_mul]
  omega

/-- The chunk at position `i` is the bytes from `i * n` up to `(i + 1) * n`
of the array, and there is no chunk at a position at or past its end. -/
theorem chunks_getElem (n : Nat) (hn : 0 < n) : ∀ (i : Nat) (p : QByteArray),
    (chunks n p)[i]? = if i * n < p.length then some ((p.drop (i * n)).take n) else none := by
  intro i
  induction i with
  | zero =>
    intro p
    by_cases hp : p = []
    · subst hp
      rfl
    · rw [chunks_cons n hn p hp, if_pos (by rw [Nat.zero_mul]; exact List.length_pos.mpr hp)]
      simp
  | succ i ih =>
    intro p
    by_cases hp : p = []
    · subst hp
      rw [chunks_nil, if_neg (by simp)]
      rfl
    · rw [chunks_cons n hn p hp, List.getElem?_cons_succ, ih, List.length_drop, List.drop_drop]
      have e : n + i * n = (i + 1) * n := by rw [Nat.succ_mul, Nat.add_comm]
      rw [e]
      by_cases hc : i * n < p.length - n
      · rw [if_pos hc, if_pos (by rw [← e]; omega)]
      · rw [if_neg hc, if_neg (by rw [← e]; omega)]

theorem decryptStep_of_block (P : Pkcs1) (k : RSAKeyPair) (hlen : 0 < k.rsize)
    (b rest out : QByteArray) (hb : b.length = k.rsize.toNat) :
    k.decryptStep P { cryptotext := b ++ rest, output := out } =
      { cryptotext := rest, output := out ++ P.rsa_pkcs1_decrypt k b k.rsize } := by
  have hr : k.rsize = ((k.rsize.toNat : Nat) : Int) := (Int.toNat_of_nonneg (by omega)).symm
  unfold RSAKeyPair.decryptStep
  dsimp only
  have h1 : (b ++ rest).take k.rsize.toNat = b := by
    rw [← hb, List.take_left]
  have h2 : (b ++ rest).right (((b ++ rest).length : Int) - k.rsize) = rest := by
    have h3 := right_of_pos (b ++ rest) k.rsize.toNat (by omega)
      (by rw [List.length_append]; omega)
    rw [← hr] at h3
    rw [h3, ← hb, List.drop_left]
  have h4 : min k.rsize ((b ++ rest).length : Int) = k.rsize := by
    apply min_eq_left
    rw [List.length_append]
    omega
  rw [h1, h2, h4]

/-- The loop of `decrypt` on blocks of `rsize` bytes: it ends when it is
given more tests than there are blocks, with what the primitive makes of each
block appended to the output, in order. -/
theorem decryptLoop_of_blocks (P : Pkcs1) (k : RSAKeyPair) (hlen : 0 < k.rsize) :
    ∀ (bs : List QByteArray) (out : QByteArray) (fuel : Nat),
    (∀ b ∈ bs, b.length = k.rsize.toNat) → bs.length < fuel →
    RSAKeyPair.decryptLoop P k fuel { cryptotext := bs.flatten, output := out } =
      some (out ++ (bs.map (fun b => P.rsa_pkcs1_decrypt k b k.rsize)).flatten) := by
  intro bs
  induction bs with
  | nil =>
    intro out fuel _ hf
    cases fuel with
    | zero => exact absurd hf (Nat.lt_irrefl _)
    | succ fuel =>
      unfold RSAKeyPair.decryptLoop
      simp
  | cons b bs ih =>
    intro out fuel hall hf
    cases fuel with
    | zero => exact absurd hf (Nat.not_lt_zero _)
    | succ fuel =>
      have hb : b.length = k.rsize.toNat := hall b (List.mem_cons_self b bs)
      unfold RSAKeyPair.decryptLoop
      rw [List.flatten_cons, if_pos (by rw [List.length_append]; omega),
        decryptStep_of_block P k hlen b _ out hb,
        ih _ fuel (fun x hx => hall x (List.mem_cons_of_mem b hx))
          (Nat.lt_of_succ_lt_succ hf),
        List.map_cons, List.flatten_cons, List.append_assoc]

/-- When the primitive decrypts each block to the chunk that was encrypted,
decrypting the blocks of a list of chunks gives the chunks back. -/
theorem decrypt_blocksOf (P : Pkcs1) (k : RSAKeyPair)
    (hprim : ∀ (rng : Nat) (buf c : QByteArray), buf.length = k.rsize.toNat → c ≠ [] →
      c.length ≤ (k.rsize - 11).toNat →
      P.rsa_pkcs1_decrypt k ((overwrite buf (P.rsa_pkcs1_encrypt k rng c)).take k.rsize.toNat)
        k.rsize = c) :
    ∀ (cs : List QByteArray) (buf : QByteArray) (rng : Nat), buf.length = k.rsize.toNat →
    (∀ c ∈ cs, c ≠ [] ∧ c.length ≤ (k.rsize - 11).toNat) →
    (blocksOf P k cs buf rng).map (fun b => P.rsa_pkcs1_decrypt k b k.rsize) = cs := by
  intro cs
  induction cs with
  | nil => intro buf rng _ _; rfl
  | cons c cs ih =>
    intro buf rng hbuf hall
    have hc := hall c (List.mem_cons_self c cs)
    rw [blocksOf_cons, List.map_cons, hprim rng buf c hbuf hc.1 hc.2,
      ih _ (rng + 1) (by rw [overwrite_length, hbuf])
        (fun x hx => hall x (List.mem_cons_of_mem c hx))]

theorem encrypt_of_fuel (P : Pkcs1) (k : RSAKeyPair) (rng : Nat) (p : QByteArray)
    (hlen : 11 < k.rsize) (fuel : Nat) (hf : (chunks (k.rsize - 11).toNat p).length < fuel) :
    k.encrypt P fuel rng p = some (blocksOf P k (chunks (k.rsize - 11).toNat p)
      (List.replicate k.rsize.toNat P.indeterminate) rng).flatten := by
  unfold RSAKeyPair.encrypt
  rw [if_neg (by omega), encryptLoop_of_fuel P k hlen fuel _ hf]
  rfl

theorem decrypt_of_blocks (P : Pkcs1) (k : RSAKeyPair) (hlen : 0 < k.rsize)
    (bs : List QByteArray) (fuel : Nat) (hall : ∀ b ∈ bs, b.length = k.rsize.toNat)
    (hf : bs.length < fuel) :
    k.decrypt P fuel bs.flatten =
      some (bs.map (fun b => P.rsa_pkcs1_decrypt k b k.rsize)).flatten := by
  unfold RSAKeyPair.decrypt
  rw [if_neg (by omega), decryptLoop_of_blocks P k hlen bs [] fuel hall hf]
  rfl

/-- The stand-in primitives of the example decrypt each block to the chunk
that was encrypted, for the key with a modulus of sixteen bytes. -/
theorem examplePkcs1_round_trip (rng : Nat) (buf c : QByteArray)
    (hbuf : buf.length = exampleBlockKey.rsize.toNat) (_hc : c ≠ [])
    (hlen : c.length ≤ (exampleBlockKey.rsize - 11).toNat) :
    examplePkcs1.rsa_pkcs1_decrypt exampleBlockKey
      ((overwrite buf (examplePkcs1.rsa_pkcs1_encrypt exampleBlockKey rng c)).take
        exampleBlockKey.rsize.toNat) exampleBlockKey.rsize = c := by
  have hr : exampleBlockKey.rsize = 16 := by decide
  rw [hr] at hbuf hlen ⊢
  have hlen2 : c.length ≤ 5 := hlen
  have hbuf2 : buf.length = 16 := hbuf
  have hw : (examplePkcs1.rsa_pkcs1_encrypt exampleBlockKey rng c) =
      (byte c.length :: c) ++ List.replicate (15 - c.length) (byte rng) := by
    show (byte c.length :: c) ++ List.replicate (exampleBlockKey.rsize.toNat - 1 - c.length)
      (byte rng) = _
    rw [hr]
    rfl
  have hwl : ((byte c.length :: c) ++ List.replicate (15 - c.length) (byte rng)).length = 16 := by
    simp only [List.length_append, List.length_cons, List.length_replicate]
    omega
  rw [hw]
  have ho : overwrite buf ((byte c.length :: c) ++ List.replicate (15 - c.length) (byte rng)) =
      (byte c.length :: c) ++ List.replicate (15 - c.length) (byte rng) := by
    unfold overwrite
    rw [hbuf2, ← hwl, List.take_left]
  rw [ho]
  have ht : ((byte c.length :: c) ++ List.replicate (15 - c.length) (byte rng)).take
      (Int.toNat 16) = (byte c.length :: c) ++ List.replicate (15 - c.length) (byte rng) := by
    apply List.take_of_length_le
    rw [hwl]
    decide
  rw [ht]
  show ((((byte c.length :: c) ++ List.replicate (15 - c.length) (byte rng)).drop 1).take
    ((((byte c.length :: c) ++ List.replicate (15 - c.length) (byte rng)).getD 0 0).val)) = c
  have hb : (byte c.length).val = c.length := by
    show c.length % 256 = c.length
    omega
  simp only [List.cons_append, List.drop_succ_cons, List.drop_zero, List.getD_cons_zero]
  rw [hb, List.take_left]

/-- Claim C35, RSA block round trip: for a key whose modulus has more than
eleven bytes, `encrypt` (given more tests of its loop condition than there are
chunks) returns one block of `rsize` bytes per chunk of the plaintext, in
order, where chunk `i` is the bytes from `i (rsize - 11)` up to
`(i + 1) (rsize - 11)` of the plaintext, the last possibly shorter; `decrypt`
gives the primitive the blocks of `rsize` bytes of its input in the same order
and returns what it makes of them, put together. When the primitive decrypts
each block to the chunk that was encrypted, `decrypt` of `encrypt` of a
plaintext is that plaintext; `encrypt` of the empty plaintext is empty. -/
theorem rsa_block_round_trip (P : Pkcs1) (k : RSAKeyPair) (rng : Nat) (p : QByteArray)
    (hlen : 11 < k.rsize) :
    (∀ fuel, (chunks (k.rsize - 11).toNat p).length < fuel →
      k.encrypt P fuel rng p = some (blocksOf P k (chunks (k.rsize - 11).toNat p)
        (List.replicate k.rsize.toNat P.indeterminate) rng).flatten) ∧
    (∀ i, (chunks (k.rsize - 11).toNat p)[i]? =
      if i * (k.rsize - 11).toNat < p.length then
        some ((p.drop (i * (k.rsize - 11).toNat)).take (k.rsize - 11).toNat)
      else none) ∧
    (chunks (k.rsize - 11).toNat p).flatten = p ∧
    (∀ c ∈ chunks (k.rsize - 11).toNat p, c ≠ [] ∧ c.length ≤ (k.rsize - 11).toNat) ∧
    (blocksOf P k (chunks (k.rsize - 11).toNat p)
      (List.replicate k.rsize.toNat P.indeterminate) rng).length =
        (chunks (k.rsize - 11).toNat p).length ∧
    (∀ b ∈ blocksOf P k (chunks (k.rsize - 11).toNat p)
      (List.replicate k.rsize.toNat P.indeterminate) rng, b.length = k.rsize.toNat) ∧
    (∀ (bs : List QByteArray) (fuel : Nat), (∀ b ∈ bs, b.length = k.rsize.toNat) →
      bs.length < fuel →
      k.decrypt P fuel bs.flatten =
        some (bs.map (fun b => P.rsa_pkcs1_decrypt k b k.rsize)).flatten) ∧
    ((∀ (r : Nat) (buf c : QByteArray), buf.length = k.rsize.toNat → c ≠ [] →
        c.length ≤ (k.rsize - 11).toNat →
        P.rsa_pkcs1_decrypt k
          ((overwrite buf (P.rsa_pkcs1_encrypt k r c)).take k.rsize.toNat) k.rsize = c) →
      ∀ fuel, (chunks (k.rsize - 11).toNat p).length < fuel →
        ∃ out, k.encrypt P fuel rng p = some out ∧ k.decrypt P fuel out = some p) ∧
    (∀ fuel, 0 < fuel → k.encrypt P fuel rng [] = some []) := by
  have hm : 0 < (k.rsize - 11).toNat := by omega
  have hbuf : (List.replicate k.rsize.toNat P.indeterminate).length = k.rsize.toNat :=
    List.length_replicate _ _
  obtain ⟨hc1, hc2, _⟩ := chunks_spec _ hm p.length p (Nat.le_refl _)
  obtain ⟨hb1, hb2, _⟩ := blocksOf_spec P k (chunks (k.rsize - 11).toNat p) _ rng hbuf
  refine ⟨fun fuel hf => encrypt_of_fuel P k rng p hlen fuel hf,
    fun i => chunks_getElem _ hm i p, hc1, hc2, hb1, hb2,
    fun bs fuel hall hf => decrypt_of_blocks P k (by omega) bs fuel hall hf, ?_, ?_⟩
  · intro hprim fuel hf
    refine ⟨_, encrypt_of_fuel P k rng p hlen fuel hf, ?_⟩
    rw [decrypt_of_blocks P k (by omega) _ fuel hb2 (by rw [hb1]; exact hf),
      decrypt_blocksOf P k hprim _ _ rng hbuf hc2, hc1]
  · intro fuel hf
    have := encrypt_of_fuel P k rng [] hlen fuel (by rw [chunks_nil]; exact hf)
    rw [this, chunks_nil]
    rfl

/-- Instance of claim C35: twelve bytes under a key with a modulus of sixteen
bytes make the chunks of five, five and two bytes and three blocks, which
decrypt to the twelve bytes. -/
theorem rsa_block_round_trip_witness :
    (11 : Int) < exampleBlockKey.rsize ∧
    chunks (exampleBlockKey.rsize - 11).toNat [1, 2, 3, 4, 5, 6, 7, 8, 9, 10, 11, 12] =
      [[1, 2, 3, 4, 5], [6, 7, 8, 9, 10], [11, 12]] ∧
    (exampleBlockKey.encrypt examplePkcs1 4 7 [1, 2, 3, 4, 5, 6, 7, 8, 9, 10, 11, 12]).map
      List.length = some 48 ∧
    ∃ out, exampleBlockKey.encrypt examplePkcs1 4 7 [1, 2, 3, 4, 5, 6, 7, 8, 9, 10, 11, 12] =
        some out ∧
      exampleBlockKey.decrypt examplePkcs1 4 out = some [1, 2, 3, 4, 5, 6, 7, 8, 9, 10, 11, 12] :=
  ⟨by decide, by decide, by decide,
   (rsa_block_round_trip examplePkcs1 exampleBlockKey 7 [1, 2, 3, 4, 5, 6, 7, 8, 9, 10, 11, 12]
     (by decide)).2.2.2.2.2.2.2.1 examplePkcs1_round_trip 4 (by decide)⟩

/-- Claim C36, RSA encrypt terminates and has a fixed output size: for a key
whose modulus has more than eleven bytes, each run of the body of the loop of
`encrypt` shortens the plaintext that is left; on a plaintext of `n` bytes
the condition of the loop holds before each of the first
`ceil(n / (rsize - 11))` runs and fails after them, so `encrypt` returns when
it is given more tests than that and not with fewer, and its output has
`ceil(n / (rsize - 11)) * rsize` bytes. For a modulus of at most eleven bytes
the body leaves the plaintext as it is, and on a plaintext that is not empty
`encrypt` does not return, however many tests it is given. -/
theorem encrypt_fixed_output_size (P : Pkcs1) (k : RSAKeyPair) (rng : Nat) (p : QByteArray) :
    (11 < k.rsize →
      (∀ st : EncryptState, st.plaintext ≠ [] →
        (k.encryptStep P st).plaintext.length < st.plaintext.length) ∧
      (∀ (st : EncryptState) (j : Nat), st.plaintext = p →
        j < ceilDiv p.length (k.rsize - 11).toNat →
        (Nat.iterate (k.encryptStep P) j st).plaintext.length > 0) ∧
      (∀ st : EncryptState, st.plaintext = p →
        (Nat.iterate (k.encryptStep P) (ceilDiv p.length (k.rsize - 11).toNat)
          st).plaintext.length = 0) ∧
      (∀ fuel, ceilDiv p.length (k.rsize - 11).toNat < fuel →
        ∃ out, k.encrypt P fuel rng p = some out ∧
          out.length = ceilDiv p.length (k.rsize - 11).toNat * k.rsize.toNat) ∧
      (∀ fuel, fuel ≤ ceilDiv p.length (k.rsize - 11).toNat →
        k.encrypt P fuel rng p = none)) ∧
    (k.rsize ≤ 11 →
      (∀ st : EncryptState, (k.encryptStep P st).plaintext = st.plaintext) ∧
      (∀ (st : EncryptState) (j : Nat),
        (Nat.iterate (k.encryptStep P) j st).plaintext = st.plaintext) ∧
      (p ≠ [] → ∀ fuel, k.encrypt P fuel rng p = none)) := by
  refine ⟨?_, ?_⟩
  · intro hlen
    have hm : 0 < (k.rsize - 11).toNat := by omega
    have hbuf : (List.replicate k.rsize.toNat P.indeterminate).length = k.rsize.toNat :=
      List.length_replicate _ _
    obtain ⟨_, _, hc3⟩ := chunks_spec _ hm p.length p (Nat.le_refl _)
    obtain ⟨_, _, hb3⟩ := blocksOf_spec P k (chunks (k.rsize - 11).toNat p) _ rng hbuf
    refine ⟨?_, ?_, ?_, ?_, ?_⟩
    · intro st hp
      have := List.length_pos.mpr hp
      rw [encryptStep_of_large P k st hlen]
      show (st.plaintext.drop (k.rsize - 11).toNat).length < _
      rw [List.length_drop]
      omega
    · intro st j hst hj
      rw [iterate_encryptStep P k hlen j st, hst, List.length_drop]
      have := (lt_ceilDiv_iff p.length _ j hm).mp hj
      omega
    · intro st hst
      rw [iterate_encryptStep P k hlen _ st, hst, List.length_drop]
      have := (lt_ceilDiv_iff p.length _ (ceilDiv p.length (k.rsize - 11).toNat) hm).not.mp
        (Nat.lt_irrefl _)
      omega
    · intro fuel hf
      refine ⟨_, encrypt_of_fuel P k rng p hlen fuel (by rw [hc3]; exact hf), ?_⟩
      rw [hb3, hc3]
    · intro fuel hf
      unfold RSAKeyPair.encrypt
      rw [if_neg (by omega)]
      exact encryptLoop_of_short_fuel P k hlen fuel _ (by rw [hc3]; exact hf)
  · intro hlen
    refine ⟨fun st => encryptStep_of_small P k st hlen,
      fun st j => iterate_encryptStep_small P k hlen j st, ?_⟩
    intro hp fuel
    unfold RSAKeyPair.encrypt
    split
    · rfl
    · exact encryptLoop_of_small P k hlen fuel _ hp

/-- Instance of claim C36: twelve bytes under a key with a modulus of sixteen
bytes take three runs and make 48 bytes; under a key with a modulus of two
bytes one byte is never consumed. -/
theorem encrypt_fixed_output_size_witness :
    (11 : Int) < exampleBlockKey.rsize ∧
    ceilDiv 12 (exampleBlockKey.rsize - 11).toNat = 3 ∧
    (∃ out, exampleBlockKey.encrypt examplePkcs1 4 7 [1, 2, 3, 4, 5, 6, 7, 8, 9, 10, 11, 12] =
        some out ∧ out.length = 3 * 16) ∧
    exampleBlockKey.encrypt examplePkcs1 3 7 [1, 2, 3, 4, 5, 6, 7, 8, 9, 10, 11, 12] = none ∧
    exampleKey.rsize ≤ 11 ∧
    (∀ fuel, exampleKey.encrypt examplePkcs1 fuel 7 [1] = none) :=
  ⟨by decide, by decide,
   ((encrypt_fixed_output_size examplePkcs1 exampleBlockKey 7
     [1, 2, 3, 4, 5, 6, 7, 8, 9, 10, 11, 12]).1 (by decide)).2.2.2.1 4 (by decide),
   by decide, by decide,
   (encrypt_fixed_output_size examplePkcs1 exampleKey 7 [1]).2 (by decide) |>.2.2 (by decide)⟩

end Sparkle
